import Mathlib

/-!
# Water index: StateMap, coastlines, ground tiles and flood propagation

A shallow embedding of the tile-state bitmap (`WaterIndexProcessor::StateMap`), of the flood
propagation passes, of the cell-intersection indexer (`GetCells`, `GetCellIntersections`), of
the synthesizer of coastlines (`SynthesizeCoastlines`, `SynthesizeCoastlines2`), of the walk
around the cells (`HandleCoastlineCell`, `HandleAreaCoastlinesCompletelyInACell`), of the
filter of `CalculateCoastlineData`, of `FillWaterAroundIsland` and of the coordinates and
offsets that `WriteTiles` writes, all of `WaterIndexProcessor.cpp`.

Conventions of the embedding:

* `double` values are exact rationals (`ℚ`); the arithmetic of the source is planar.
* `uint32_t` values are natural numbers, every operation that can wrap is reduced
  modulo `2^32` explicitly; `size_t` is taken to be 64 bits wide.
* `std::vector<uint8_t> area` is a `List Nat`.  Indexing the vector outside of its bounds is
  undefined behaviour in the source; in the embedding such a read yields `0` and such a write
  is dropped.  `StateMap.InBounds` states that no access of an in-range cell leaves the
  vector, `StateMap.Valid` is the invariant of the data model, which implies it.
* The conversion of a `double` outside of the range of `uint32_t` is undefined in the source;
  the embedding reduces the value modulo `2^32`.
* Loops are structural recursions; where the source loops until a condition holds, the
  embedding takes a bound on the number of iterations and the lemmas show that the bound is
  not reached.
* Functions and types of headers that are not part of the sources are parameters of the
  definitions that call them, or definitions marked as modelled from the spec.
-/

namespace WaterIndexProcessor

/-! ## Machine integers -/

/-- Number of values of the C++ type `uint32_t`. -/
def U32 : Nat := 4294967296

/-- Number of values of the C++ type `size_t` (64 bit). -/
def U64 : Nat := 18446744073709551616

/-- Conversion `(uint32_t)` of an integral value, reduced modulo `2^32`. -/
def toU32 (z : Int) : Nat := (z % 4294967296).toNat

/-- The `uint32_t` expression `n-1`. -/
def subOne32 (n : Nat) : Nat := (n + U32 - 1) % U32

/-! ## Data model -/

/-- Geographic coordinate, planar latitude and longitude in degrees. -/
structure GeoCoord where
  lat : ℚ
  lon : ℚ
  deriving DecidableEq

/-- Geographic box given by its minimum and maximum corner. -/
structure GeoBox where
  minCoord : GeoCoord
  maxCoord : GeoCoord
  deriving DecidableEq

/-- State of a cell (`WaterIndexProcessor::State`). -/
inductive State where
  | unknown
  | land
  | water
  | coast
  deriving DecidableEq, Repr

/-- Modelled from the spec: the numeric values of the `State` enumeration, which is declared
in the header `WaterIndexProcessor.h` (`unknown=0`, `land=1`, `coast=2`, `water=3`). -/
def State.toNat : State → Nat
  | State.unknown => 0
  | State.land => 1
  | State.coast => 2
  | State.water => 3

/-- The cast `(State)v` of a two bit value. -/
def State.ofValue (v : Nat) : State :=
  if v = 0 then State.unknown
  else if v = 1 then State.land
  else if v = 2 then State.coast
  else State.water

/-- Bitmap of cell states (`WaterIndexProcessor::StateMap`): two bits per cell, four cells
per byte. -/
structure StateMap where
  cellWidth : ℚ
  cellHeight : ℚ
  cellXStart : Nat
  cellXEnd : Nat
  cellYStart : Nat
  cellYEnd : Nat
  cellXCount : Nat
  cellYCount : Nat
  area : List Nat
  deriving DecidableEq

/-- A freshly constructed `StateMap`: the vector `area` is empty. -/
def StateMap.empty : StateMap :=
  { cellWidth := 0, cellHeight := 0, cellXStart := 0, cellXEnd := 0, cellYStart := 0,
    cellYEnd := 0, cellXCount := 0, cellYCount := 0, area := [] }

/-- The call `area.resize(size,value)` of `std::vector`: elements that exist are kept, the
vector is cut to `size` elements or filled up with `value`. -/
def resize (area : List Nat) (size value : Nat) : List Nat :=
  area.take size ++ List.replicate (size - area.length) value

/-- Embedding of `StateMap::SetBox`. -/
def StateMap.SetBox (m : StateMap) (boundingBox : GeoBox) (cellWidth cellHeight : ℚ) :
    StateMap :=
  let minCoord := boundingBox.minCoord
  let maxCoord := boundingBox.maxCoord
  let cellXStart := toU32 ⌊(minCoord.lon + 180) / cellWidth⌋
  let cellXEnd := toU32 ⌊(maxCoord.lon + 180) / cellWidth⌋
  let cellYStart := toU32 ⌊(minCoord.lat + 90) / cellHeight⌋
  let cellYEnd := toU32 ⌊(maxCoord.lat + 90) / cellHeight⌋
  let cellXCount := (cellXEnd + U32 - cellXStart + 1) % U32
  let cellYCount := (cellYEnd + U32 - cellYStart + 1) % U32
  let size := (cellXCount * cellYCount % U32) / 4
  let size := if (cellXCount * cellYCount % U32) % 4 > 0 then (size + 1) % U32 else size
  { cellWidth := cellWidth, cellHeight := cellHeight,
    cellXStart := cellXStart, cellXEnd := cellXEnd,
    cellYStart := cellYStart, cellYEnd := cellYEnd,
    cellXCount := cellXCount, cellYCount := cellYCount,
    area := resize m.area size 0 }

/-- The `uint32_t` value `cellId=y*cellXCount+x` of `GetState` and `SetState`. -/
def StateMap.cellId (m : StateMap) (x y : Nat) : Nat := (y * m.cellXCount + x) % U32

/-- The expression `(b >> offset) & 3`: the two bits of the byte `b` at `offset`. -/
def slotGet (b offset : Nat) : Nat := (b >>> offset) &&& 3

/-- The byte `(b & ~(3 << offset)) | (s << offset)`. -/
def slotSet (b offset s : Nat) : Nat := (b &&& (255 ^^^ (3 <<< offset))) ||| (s <<< offset)

/-- Embedding of `StateMap::GetState`. -/
def StateMap.GetState (m : StateMap) (x y : Nat) : State :=
  let cellId := m.cellId x y
  let index := cellId / 4
  let offset := 2 * (cellId % 4)
  State.ofValue ((m.area.getD index 0 >>> offset) &&& 3)

/-- Embedding of `StateMap::SetState`.  The byte operand `~(3 << offset)` is written as
`255 ^^^ (3 <<< offset)`: the result of the `&` is stored into a `uint8_t`. -/
def StateMap.SetState (m : StateMap) (x y : Nat) (state : State) : StateMap :=
  let cellId := m.cellId x y
  let index := cellId / 4
  let offset := 2 * (cellId % 4)
  let area1 := m.area.set index (m.area.getD index 0 &&& (255 ^^^ (3 <<< offset)))
  let area2 := area1.set index (area1.getD index 0 ||| (state.toNat <<< offset))
  { m with area := area2 }

/-- The data-model invariant of a `StateMap`: the number of cells fits into a `uint32_t` and
the vector holds `⌈xCount·yCount/4⌉` bytes. -/
def StateMap.Valid (m : StateMap) : Prop :=
  m.cellXCount * m.cellYCount < U32 ∧ m.area.length = (m.cellXCount * m.cellYCount + 3) / 4

instance (m : StateMap) : Decidable m.Valid := by
  unfold StateMap.Valid; exact inferInstance

/-- Every access to an in-range cell stays inside of the byte vector: the condition under
which `GetState` and `SetState` have defined behaviour on the cells of the map. -/
def StateMap.InBounds (m : StateMap) : Prop :=
  ∀ x y, x < m.cellXCount → y < m.cellYCount → m.cellId x y / 4 < m.area.length

/-- Cell position (`Pixel`), relative to the start of a `StateMap` unless said otherwise. -/
structure Pixel where
  x : Nat
  y : Nat
  deriving DecidableEq

/-- Coordinate of a ground tile, local to its cell (`GroundTile::Coord`). -/
structure GroundTile.Coord where
  x : Nat
  y : Nat
  coast : Bool
  deriving DecidableEq

/-- Modelled from the spec: the constant `GroundTile::Coord::CELL_MAX`, declared in a header
that is not part of the sources (`CELL_MAX = 32767`). -/
def GroundTile.Coord.CELL_MAX : Nat := 32767

/-- Type of a ground tile (`GroundTile::Type`). -/
inductive GroundTile.TileType where
  | unknown
  | land
  | water
  | coast
  deriving DecidableEq, Repr

/-- Typed polygon within one cell (`GroundTile`). -/
structure GroundTile where
  type : GroundTile.TileType
  coords : List GroundTile.Coord
  deriving DecidableEq

/-- Point of a coastline (`Point`): a serial number and a coordinate. -/
structure Point where
  serial : Nat
  coord : GeoCoord
  deriving DecidableEq

/-- State of one side of a coastline (`CoastState`). -/
inductive CoastState where
  | undefined
  | unknown
  | land
  | water
  deriving DecidableEq, Repr

/-- Coastline or bounding polygon as delivered by the import (`Coast`). -/
structure Coast where
  id : Int
  isArea : Bool
  left : CoastState
  right : CoastState
  coast : List Point
  sortCriteria : Nat := 0
  deriving DecidableEq

/-- One resolution of the index (`WaterIndexProcessor::Level`). -/
structure Level where
  level : Nat
  hasCellData : Bool
  dataOffsetBytes : Nat
  defaultCellData : State
  indexEntryOffset : Nat
  indexDataOffset : Nat
  stateMap : StateMap
  deriving DecidableEq

/-- Modelled from the spec: the geometry of one cell (`CellBoundaries`), whose constructor is
declared in the absent header `WaterIndexProcessor.h`.  The cell `(x,y)` of a map starting at
`(xStart,yStart)` spans `cellWidth × cellHeight` degrees from
`((yStart+y)·cellHeight-90, (xStart+x)·cellWidth-180)`; corners are listed top-left,
top-right, bottom-right, bottom-left. -/
structure CellBoundaries where
  lonMin : ℚ
  lonMax : ℚ
  latMin : ℚ
  latMax : ℚ
  borderPoints : List GeoCoord
  borderCoords : List GroundTile.Coord
  deriving DecidableEq

/-- Modelled from the spec: the constructor `CellBoundaries(stateMap,cell)`, absent from the
sources (see `CellBoundaries`). -/
def CellBoundaries.make (stateMap : StateMap) (cell : Pixel) : CellBoundaries :=
  let lonMin := ((stateMap.cellXStart + cell.x : Nat) : ℚ) * stateMap.cellWidth - 180
  let lonMax := ((stateMap.cellXStart + cell.x + 1 : Nat) : ℚ) * stateMap.cellWidth - 180
  let latMin := ((stateMap.cellYStart + cell.y : Nat) : ℚ) * stateMap.cellHeight - 90
  let latMax := ((stateMap.cellYStart + cell.y + 1 : Nat) : ℚ) * stateMap.cellHeight - 90
  { lonMin := lonMin, lonMax := lonMax, latMin := latMin, latMax := latMax,
    borderPoints := [⟨latMax, lonMin⟩, ⟨latMax, lonMax⟩, ⟨latMin, lonMax⟩, ⟨latMin, lonMin⟩],
    borderCoords := [⟨0, GroundTile.Coord.CELL_MAX, false⟩,
                     ⟨GroundTile.Coord.CELL_MAX, GroundTile.Coord.CELL_MAX, false⟩,
                     ⟨GroundTile.Coord.CELL_MAX, 0, false⟩,
                     ⟨0, 0, false⟩] }

/-! ## CalculateCoastEnvironment -/

/-- The local arrays `state[4]` and `coordCount[4]` of `CalculateCoastEnvironment`
(top, right, bottom, left). -/
structure CoastEnv where
  state0 : State
  state1 : State
  state2 : State
  state3 : State
  coordCount0 : Nat
  coordCount1 : Nat
  coordCount2 : Nat
  coordCount3 : Nat
  deriving DecidableEq

/-- The `switch(tile.type)` of `CalculateCoastEnvironment`. -/
def tileStateOf : GroundTile.TileType → State
  | GroundTile.TileType.unknown => State.unknown
  | GroundTile.TileType.land => State.land
  | GroundTile.TileType.water => State.water
  | GroundTile.TileType.coast => State.unknown

/-- Body of the loop over the coordinates `c` of one tile in `CalculateCoastEnvironment`. -/
def CalculateCoastEnvironmentCoord (tile : GroundTile) (tileState : State) (env : CoastEnv)
    (c : Nat) : CoastEnv :=
  let cur := tile.coords.getD c ⟨0, 0, false⟩
  let next := tile.coords.getD (c + 1) ⟨0, 0, false⟩
  let cellMax := GroundTile.Coord.CELL_MAX
  let env :=
    if cur.y = cellMax then { env with coordCount0 := env.coordCount0 + 1 }
    else if cur.x = cellMax then { env with coordCount1 := env.coordCount1 + 1 }
    else if cur.y = 0 then { env with coordCount2 := env.coordCount2 + 1 }
    else if cur.x = 0 then { env with coordCount3 := env.coordCount3 + 1 }
    else env
  let env :=
    if cur.x = 0 ∧ cur.y = cellMax ∧ next.x = cellMax ∧ next.y = cellMax then
      (if env.state0 = State.unknown then { env with state0 := tileState } else env)
    else env
  let env :=
    if cur.x = cellMax ∧ cur.y = cellMax ∧ next.x = cellMax ∧ next.y = 0 then
      (if env.state1 = State.unknown then { env with state1 := tileState } else env)
    else env
  let env :=
    if cur.x = cellMax ∧ cur.y = 0 ∧ next.x = 0 ∧ next.y = 0 then
      (if env.state2 = State.unknown then { env with state2 := tileState } else env)
    else env
  let env :=
    if cur.x = 0 ∧ cur.y = 0 ∧ next.x = 0 ∧ next.y = cellMax then
      (if env.state3 = State.unknown then { env with state3 := tileState } else env)
    else env
  env

/-- Loop over the coordinates of one tile: `for (size_t c=0; c<tile.coords.size()-1; c++)`,
the bound being a `size_t` value. -/
def CalculateCoastEnvironmentTile (env : CoastEnv) (tile : GroundTile) : CoastEnv :=
  (List.range ((tile.coords.length + U64 - 1) % U64)).foldl
    (CalculateCoastEnvironmentCoord tile (tileStateOf tile.type)) env

/-- Body of the loop over the entries of the tile map in `CalculateCoastEnvironment`. -/
def CalculateCoastEnvironmentCell (stateMap : StateMap) (coord : Pixel)
    (tiles : List GroundTile) : StateMap :=
  let yTop := subOne32 stateMap.cellYCount
  let xRight := subOne32 stateMap.cellXCount
  let env : CoastEnv :=
    { state0 := if coord.y < yTop then stateMap.GetState coord.x (coord.y + 1)
                else State.unknown,
      state1 := if coord.x < xRight then stateMap.GetState (coord.x + 1) coord.y
                else State.unknown,
      state2 := if coord.y > 0 then stateMap.GetState coord.x (coord.y - 1)
                else State.unknown,
      state3 := if coord.x > 0 then stateMap.GetState (coord.x - 1) coord.y
                else State.unknown,
      coordCount0 := 0, coordCount1 := 0, coordCount2 := 0, coordCount3 := 0 }
  let env := tiles.foldl CalculateCoastEnvironmentTile env
  let stateMap :=
    if coord.y < yTop ∧ stateMap.GetState coord.x (coord.y + 1) = State.unknown then
      (if env.state0 ≠ State.unknown then stateMap.SetState coord.x (coord.y + 1) env.state0
       else stateMap)
    else stateMap
  let stateMap :=
    if coord.x < xRight ∧ stateMap.GetState (coord.x + 1) coord.y = State.unknown then
      (if env.state1 ≠ State.unknown then stateMap.SetState (coord.x + 1) coord.y env.state1
       else stateMap)
    else stateMap
  let stateMap :=
    if coord.y > 0 ∧ stateMap.GetState coord.x (coord.y - 1) = State.unknown then
      (if env.state2 ≠ State.unknown then stateMap.SetState coord.x (coord.y - 1) env.state2
       else stateMap)
    else stateMap
  let stateMap :=
    if coord.x > 0 ∧ stateMap.GetState (coord.x - 1) coord.y = State.unknown then
      (if env.state3 ≠ State.unknown then stateMap.SetState (coord.x - 1) coord.y env.state3
       else stateMap)
    else stateMap
  stateMap

/-- Embedding of `CalculateCoastEnvironment`; the `std::map` of tiles is the list of its
entries in iteration order. -/
def CalculateCoastEnvironment (stateMap : StateMap)
    (cellGroundTileMap : List (Pixel × List GroundTile)) : StateMap :=
  cellGroundTileMap.foldl
    (fun m tileEntry => CalculateCoastEnvironmentCell m tileEntry.1 tileEntry.2) stateMap

/-! ## FillWater -/

/-- Embedding of `IsCellInBoundingPolygon`.  The geometric test `IsAreaAtLeastPartlyInArea`
of the geometry library is a parameter. -/
def IsCellInBoundingPolygon (isAreaAtLeastPartlyInArea : List GeoCoord → List Point → Bool)
    (cellBoundary : CellBoundaries) (boundingPolygons : List Coast) : Bool :=
  if boundingPolygons.isEmpty then true
  else boundingPolygons.any
    (fun poly => isAreaAtLeastPartlyInArea (cellBoundary.borderPoints.take 4) poly.coast)

/-- Body of the loops over `y` and `x` in `FillWater`: reads the map of `level`, writes the
map `newMap` of the copy `newLevel`. -/
def FillWaterCell (isAreaAtLeastPartlyInArea : List GeoCoord → List Point → Bool)
    (boundingPolygons : List Coast) (level : Level) (x y : Nat) (newMap : StateMap) :
    StateMap :=
  if level.stateMap.GetState x y = State.water then
    if ¬ IsCellInBoundingPolygon isAreaAtLeastPartlyInArea
        (CellBoundaries.make level.stateMap ⟨x, y⟩) boundingPolygons then
      newMap
    else
      let newMap :=
        if y > 0 ∧ level.stateMap.GetState x (y - 1) = State.unknown then
          newMap.SetState x (y - 1) State.water
        else newMap
      let newMap :=
        if y < subOne32 level.stateMap.cellYCount ∧
            level.stateMap.GetState x (y + 1) = State.unknown then
          newMap.SetState x (y + 1) State.water
        else newMap
      let newMap :=
        if x > 0 ∧ level.stateMap.GetState (x - 1) y = State.unknown then
          newMap.SetState (x - 1) y State.water
        else newMap
      let newMap :=
        if x < subOne32 level.stateMap.cellXCount ∧
            level.stateMap.GetState (x + 1) y = State.unknown then
          newMap.SetState (x + 1) y State.water
        else newMap
      newMap
  else newMap

/-- One round of `FillWater`, the body of the loop over `i`: `newLevel` is a copy of `level`,
the loops over `y` and `x` write its map, and `level` is replaced by `newLevel`. -/
def FillWaterRound (isAreaAtLeastPartlyInArea : List GeoCoord → List Point → Bool)
    (boundingPolygons : List Coast) (level : Level) : Level :=
  let newMap :=
    (List.range level.stateMap.cellYCount).foldl
      (fun newMap y =>
        (List.range level.stateMap.cellXCount).foldl
          (fun newMap x =>
            FillWaterCell isAreaAtLeastPartlyInArea boundingPolygons level x y newMap)
          newMap)
      level.stateMap
  { level with stateMap := newMap }

/-- Embedding of `FillWater`: `tileCount` rounds. -/
def FillWater (isAreaAtLeastPartlyInArea : List GeoCoord → List Point → Bool)
    (level : Level) : Nat → List Coast → Level
  | 0, _ => level
  | tileCount + 1, boundingPolygons =>
    FillWater isAreaAtLeastPartlyInArea
      (FillWaterRound isAreaAtLeastPartlyInArea boundingPolygons level)
      tileCount boundingPolygons

/-! ## FillLand -/

/-- The loop `for (uint32_t i=start; i<=end; i++)` of `FillLand`. -/
def FillLandRun (set : StateMap → Nat → StateMap) (m : StateMap) (start endPos : Nat) :
    StateMap :=
  (List.range' start (endPos + 1 - start)).foldl set m

/-- The scan automaton of `FillLand` along one line of `count` cells.  The first argument
bounds the number of iterations of `while (x<count)`: every iteration either advances `x` or
returns to state `0`, so `2*count` iterations are enough (see `FillLandLine_fuel`).  The
source has two copies of this loop, one per row (`get m x` is `GetState(x,y)`) and one per
column (`get m y` is `GetState(x,y)`). -/
def FillLandLine (get : StateMap → Nat → State) (set : StateMap → Nat → StateMap)
    (count : Nat) : Nat → StateMap → Bool → Nat → Nat → Nat → Nat → StateMap × Bool
  | 0, m, cont, _, _, _, _ => (m, cont)
  | fuel + 1, m, cont, x, start, endPos, state =>
    if x < count then
      match state with
      | 0 =>
        if get m x = State.land then
          FillLandLine get set count fuel m cont (x + 1) start endPos 1
        else
          FillLandLine get set count fuel m cont (x + 1) start endPos 0
      | 1 =>
        if get m x = State.unknown then
          FillLandLine get set count fuel m cont (x + 1) x x 2
        else
          FillLandLine get set count fuel m cont x start endPos 0
      | _ =>
        if get m x = State.unknown then
          FillLandLine get set count fuel m cont (x + 1) start x 2
        else if get m x = State.coast ∨ get m x = State.land then
          if start < count ∧ endPos < count ∧ start ≤ endPos then
            FillLandLine get set count fuel (FillLandRun set m start endPos) true
              x start endPos 0
          else
            FillLandLine get set count fuel m cont x start endPos 0
        else
          FillLandLine get set count fuel m cont x start endPos 0
    else (m, cont)

/-- The scan of row `y` from left to right. -/
def FillLandRow (acc : StateMap × Bool) (y : Nat) : StateMap × Bool :=
  FillLandLine (fun m x => m.GetState x y) (fun m i => m.SetState i y State.land)
    acc.1.cellXCount (2 * acc.1.cellXCount) acc.1 acc.2 0 0 0 0

/-- The scan of column `x` from bottom to top. -/
def FillLandColumn (acc : StateMap × Bool) (x : Nat) : StateMap × Bool :=
  FillLandLine (fun m y => m.GetState x y) (fun m i => m.SetState x i State.land)
    acc.1.cellYCount (2 * acc.1.cellYCount) acc.1 acc.2 0 0 0 0

/-- One iteration of `while (cont)` in `FillLand`, with the value of `cont` at its end. -/
def FillLandPass (stateMap : StateMap) : StateMap × Bool :=
  let rows := (List.range stateMap.cellYCount).foldl FillLandRow (stateMap, false)
  (List.range rows.1.cellXCount).foldl FillLandColumn rows

/-- Embedding of `FillLand`: `passes` bounds the number of iterations of `while (cont)`,
`none` means that the bound was reached before the loop ended. -/
def FillLandLoop : Nat → StateMap → Option StateMap
  | 0, _ => none
  | passes + 1, stateMap =>
    let r := FillLandPass stateMap
    if r.2 then FillLandLoop passes r.1 else some r.1

/-- The in-range cells `(x,y)` of a map. -/
def allCells (m : StateMap) : List (Nat × Nat) :=
  List.product (List.range m.cellXCount) (List.range m.cellYCount)

/-- Number of in-range cells of the map that are `unknown`. -/
def unknownCount (m : StateMap) : Nat :=
  (allCells m).countP (fun c => decide (m.GetState c.1 c.2 = State.unknown))

/-- Embedding of `FillLand` with a bound that is always sufficient for a valid map. -/
def FillLand (stateMap : StateMap) : Option StateMap :=
  FillLandLoop (unknownCount stateMap + 1) stateMap

/-! ## CalculateHasCellData -/

/-- The loop over `x` in `CalculateHasCellData` with its `break`; yields `hasCellData`. -/
def hasCellDataRow (stateMap : StateMap) (defaultCellData : State) (y : Nat) :
    List Nat → Bool → Bool
  | [], hasCellData => hasCellData
  | x :: xs, _ =>
    let hasCellData := decide (stateMap.GetState x y ≠ defaultCellData)
    if hasCellData then true else hasCellDataRow stateMap defaultCellData y xs hasCellData

/-- The loop over `y` in `CalculateHasCellData` with its `break`. -/
def hasCellDataRows (stateMap : StateMap) (defaultCellData : State) :
    List Nat → Bool → Bool
  | [], hasCellData => hasCellData
  | y :: ys, hasCellData =>
    let hasCellData :=
      hasCellDataRow stateMap defaultCellData y (List.range stateMap.cellXCount) hasCellData
    if hasCellData then true else hasCellDataRows stateMap defaultCellData ys hasCellData

/-- Embedding of `CalculateHasCellData`. -/
def CalculateHasCellData (level : Level) (cellGroundTileMap : List (Pixel × List GroundTile)) :
    Level :=
  let level := { level with hasCellData := false, defaultCellData := State.unknown }
  if level.stateMap.cellXCount > 0 ∧ level.stateMap.cellYCount > 0 then
    let level := { level with defaultCellData := level.stateMap.GetState 0 0 }
    if cellGroundTileMap.length > 0 then
      { level with hasCellData := true }
    else
      let rows := List.range level.stateMap.cellYCount
      let hasCellData :=
        hasCellDataRows level.stateMap level.defaultCellData rows level.hasCellData
      { level with hasCellData := hasCellData }
  else level

/-! ## Relations used in the statements -/

/-- The maps `a` and `b` cover the same grid: they agree in every field but `area`. -/
def SameGrid (a b : StateMap) : Prop :=
  b.cellWidth = a.cellWidth ∧ b.cellHeight = a.cellHeight ∧
  b.cellXStart = a.cellXStart ∧ b.cellXEnd = a.cellXEnd ∧
  b.cellYStart = a.cellYStart ∧ b.cellYEnd = a.cellYEnd ∧
  b.cellXCount = a.cellXCount ∧ b.cellYCount = a.cellYCount

/-- The map `b` arises from `a` by turning `unknown` cells into states that satisfy `T`:
same grid, same vector length, and every cell either keeps its state or was `unknown` and
now satisfies `T`. -/
def Fills (T : State → Prop) (a b : StateMap) : Prop :=
  SameGrid a b ∧ b.area.length = a.area.length ∧
  ∀ x y, b.GetState x y = a.GetState x y ∨
    (a.GetState x y = State.unknown ∧ T (b.GetState x y))

/-- Some in-range cell is `unknown` in `a` and `land` in `b`. -/
def Changed (a b : StateMap) : Prop :=
  ∃ x y, x < a.cellXCount ∧ y < a.cellYCount ∧
    a.GetState x y = State.unknown ∧ b.GetState x y = State.land

/-- Invariant of a pass of `FillLand` that started on `m0`, for the current map and the
current value of `cont`: the map arises from `m0` by filling `unknown` cells with `land`, and
`cont` is set exactly when the map was changed. -/
def PassInv (m0 : StateMap) (r : StateMap × Bool) : Prop :=
  Fills (fun s => s = State.land) m0 r.1 ∧ (r.2 = true → Changed m0 r.1) ∧
  (r.2 = false → r.1 = m0)

/-- Two cells are 4-neighbours. -/
def Adjacent (x y u v : Nat) : Prop :=
  (x = u ∧ (y = v + 1 ∨ v = y + 1)) ∨ (y = v ∧ (x = u + 1 ∨ u = x + 1))

/-- Every side of `env2` is the side of `env1` or the state `ts`. -/
def KeepOrSet (ts : State) (env1 env2 : CoastEnv) : Prop :=
  (env2.state0 = env1.state0 ∨ env2.state0 = ts) ∧
  (env2.state1 = env1.state1 ∨ env2.state1 = ts) ∧
  (env2.state2 = env1.state2 ∨ env2.state2 = ts) ∧
  (env2.state3 = env1.state3 ∨ env2.state3 = ts)

/-- No side of the environment of a cell becomes `coast` while the tiles are scanned. -/
def NoNewCoast (env0 env : CoastEnv) : Prop :=
  (env0.state0 ≠ State.coast → env.state0 ≠ State.coast) ∧
  (env0.state1 ≠ State.coast → env.state1 ≠ State.coast) ∧
  (env0.state2 ≠ State.coast → env.state2 ≠ State.coast) ∧
  (env0.state3 ≠ State.coast → env.state3 ≠ State.coast)

/-! ## Concrete inputs -/

/-- The whole world as bounding box. -/
def worldBox : GeoBox := { minCoord := ⟨-90, -180⟩, maxCoord := ⟨90, 180⟩ }

/-- A box of `3 × 2` cells of one degree. -/
def smallBox : GeoBox := { minCoord := ⟨0, 0⟩, maxCoord := ⟨3 / 2, 5 / 2⟩ }

/-- The `3 × 2` map over `smallBox`. -/
def smallMap : StateMap := StateMap.empty.SetBox smallBox 1 1
/-- The map of zoom level 16 over the whole world: `65537 × 65537` cells. -/
def level16Map : StateMap := StateMap.empty.SetBox worldBox (360 / 65536) (180 / 65536)

/-- The `3 × 2` map after its cell `(0,0)` was set to `land`. -/
def usedMap : StateMap := smallMap.SetState 0 0 State.land

/-- A box of `3 × 1` cells of one degree. -/
def rowBox : GeoBox := { minCoord := ⟨0, 0⟩, maxCoord := ⟨1 / 2, 5 / 2⟩ }

/-- The row `land, unknown, coast`. -/
def landGapMap : StateMap :=
  ((StateMap.empty.SetBox rowBox 1 1).SetState 0 0 State.land).SetState 2 0 State.coast

/-- The row `water, unknown, coast`. -/
def waterGapMap : StateMap :=
  ((StateMap.empty.SetBox rowBox 1 1).SetState 0 0 State.water).SetState 2 0 State.coast

/-- A level holding the row `water, unknown, coast`. -/
def waterGapLevel : Level :=
  { level := 0, hasCellData := false, dataOffsetBytes := 0, defaultCellData := State.unknown,
    indexEntryOffset := 0, indexDataOffset := 0, stateMap := waterGapMap }

/-- A geometric test for the examples: some corner of the cell lies strictly inside of the
axis-parallel hull of the polygon.  For an axis-parallel rectangle that either wraps corners
of the cell or keeps clear of the cell this is the answer of `IsAreaAtLeastPartlyInArea`. -/
def cornerInHull (cell : List GeoCoord) (poly : List Point) : Bool :=
  cell.any (fun c =>
    poly.any (fun p => decide (p.coord.lon < c.lon)) &&
    poly.any (fun p => decide (c.lon < p.coord.lon)) &&
    poly.any (fun p => decide (p.coord.lat < c.lat)) &&
    poly.any (fun p => decide (c.lat < p.coord.lat)))

/-- A bounding polygon: the rectangle `-1/2 ≤ lat ≤ 3/2`, `-1/2 ≤ lon ≤ 1/2`.  It covers the
west half of cell `(0,0)` of `waterGapMap` and keeps clear of the cells `(1,0)` and `(2,0)`. -/
def westPolygon : Coast :=
  { id := 1, isArea := true, left := CoastState.land, right := CoastState.water,
    coast := [⟨1, ⟨-1 / 2, -1 / 2⟩⟩, ⟨2, ⟨3 / 2, -1 / 2⟩⟩, ⟨3, ⟨3 / 2, 1 / 2⟩⟩,
              ⟨4, ⟨-1 / 2, 1 / 2⟩⟩, ⟨1, ⟨-1 / 2, -1 / 2⟩⟩] }

/-- The `3 × 2` map with the coast cell `(1,0)`. -/
def coastCellMap : StateMap := smallMap.SetState 1 0 State.coast

/-- Tiles of the coast cell `(1,0)`: one land tile that runs along the top border, the right
border and the bottom border of the cell. -/
def coastCellTiles : List (Pixel × List GroundTile) :=
  [(⟨1, 0⟩, [⟨GroundTile.TileType.land,
    [⟨0, 32767, false⟩, ⟨32767, 32767, false⟩, ⟨32767, 0, false⟩, ⟨0, 0, false⟩]⟩])]

/-- The `3 × 2` map with all cells `water`. -/
def allWaterMap : StateMap :=
  (((((smallMap.SetState 0 0 State.water).SetState 1 0 State.water).SetState 2 0
    State.water).SetState 0 1 State.water).SetState 1 1 State.water).SetState 2 1 State.water

/-- A level holding `allWaterMap`. -/
def allWaterLevel : Level :=
  { level := 0, hasCellData := true, dataOffsetBytes := 0, defaultCellData := State.unknown,
    indexEntryOffset := 0, indexDataOffset := 0, stateMap := allWaterMap }

/-! ## Coastline data and ground tiles of a cell -/

/-- Conversion of an integral `double` to `uint16_t`, as for the arguments of the constructor
of `GroundTile::Coord`; reduced modulo `2^16` (outside of the range of `uint16_t` the
conversion is undefined in the source). -/
def toU16 (z : Int) : Nat := (z % 65536).toNat

/-- Embedding of `Transform`: geographic coordinate to coordinate of a ground tile. -/
def Transform (point : GeoCoord) (stateMap : StateMap) (cellMinLat cellMinLon : ℚ)
    (coast : Bool) : GroundTile.Coord :=
  { x := toU16 ⌊(point.lon - cellMinLon) / stateMap.cellWidth
          * (GroundTile.Coord.CELL_MAX : ℚ) + 1 / 2⌋,
    y := toU16 ⌊(point.lat - cellMinLat) / stateMap.cellHeight
          * (GroundTile.Coord.CELL_MAX : ℚ) + 1 / 2⌋,
    coast := coast }

/-- Modelled from the spec: `StateMap::IsInAbsolute`, declared in the absent header
`WaterIndexProcessor.h`: the global cell index `(x,y)` lies in the stored range
`[xStart..xEnd] × [yStart..yEnd]`. -/
def StateMap.IsInAbsolute (m : StateMap) (x y : Nat) : Bool :=
  decide (m.cellXStart ≤ x ∧ x ≤ m.cellXEnd ∧ m.cellYStart ≤ y ∧ m.cellYEnd ≥ y)

/-- Direction of a crossing of a cell border (`Direction`). -/
inductive Direction where
  | in_
  | out
  | touch
  deriving DecidableEq, Repr

/-- Crossing of a coastline with a cell border (`Intersection`). -/
structure Intersection where
  coastline : Nat
  prevWayPointIndex : Nat
  point : GeoCoord
  distanceSquare : ℚ
  direction : Direction
  borderIndex : Nat
  deriving DecidableEq

/-- Shared pointer to an `Intersection` (`IntersectionRef`): the address `addr` of the object
and the object.  The source compares such pointers by address. -/
structure IntersectionRef where
  addr : Nat
  obj : Intersection
  deriving DecidableEq

/-- Coastline of a level (`CoastlineData`). -/
structure CoastlineData where
  id : Int
  isArea : Bool
  isCompletelyInCell : Bool
  cell : Pixel
  points : List GeoCoord
  left : CoastState
  right : CoastState
  cellIntersections : List (Pixel × List IntersectionRef)
  deriving DecidableEq

/-- The coastlines of a level and their cells (`Data`). -/
structure Data where
  coastlines : List CoastlineData
  cellCoastlines : List (Pixel × List Nat)
  cellCoveredCoastlines : List (Pixel × List Nat)
  deriving DecidableEq

/-- A `CoastlineData` without points: the value of `data.coastlines[i]` in the embedding when
`i` is not an index of the vector (undefined in the source). -/
def CoastlineData.none : CoastlineData :=
  { id := 0, isArea := false, isCompletelyInCell := false, cell := ⟨0, 0⟩, points := [],
    left := CoastState.undefined, right := CoastState.undefined, cellIntersections := [] }

/-! ### Maps and sets keyed by `Pixel`

A `std::map<Pixel,T>` is the list of its entries in iteration order, a `std::set<Pixel>` the
list of its elements.  The order `Pixel::operator<` is declared in an absent header and is a
parameter `lt` of every operation that adds a key. -/

/-- Insertion of an entry in front of the first entry with a larger key. -/
def insertSorted {α : Type} (lt : Pixel → Pixel → Bool) (e : Pixel × α) :
    List (Pixel × α) → List (Pixel × α)
  | [] => [e]
  | e' :: rest => if lt e.1 e'.1 then e :: e' :: rest else e' :: insertSorted lt e rest

/-- The call `m.find(k)` of a map, with `[]` for a missing key. -/
def getList {α : Type} (m : List (Pixel × List α)) (k : Pixel) : List α :=
  match m.find? (fun e => decide (e.1 = k)) with
  | some e => e.2
  | none => []

/-- The statement `m[k].push_back(v)` of a `std::map<Pixel,std::list<T>>`. -/
def pushBackAt {α : Type} (lt : Pixel → Pixel → Bool) (m : List (Pixel × List α)) (k : Pixel)
    (v : α) : List (Pixel × List α) :=
  if m.any (fun e => decide (e.1 = k)) then
    m.map (fun e => if e.1 = k then (e.1, e.2 ++ [v]) else e)
  else
    insertSorted lt (k, [v]) m

/-- The call `s.insert(p)` of a `std::set<Pixel>`. -/
def setInsert (lt : Pixel → Pixel → Bool) (s : List Pixel) (p : Pixel) : List Pixel :=
  if p ∈ s then s
  else ((insertSorted lt (p, ()) (s.map (fun q => (q, ())))).map Prod.fst)

/-! ### HandleAreaCoastlinesCompletelyInACell -/

/-- The statement `coords.back().coast=value` of a vector of coordinates.  On an empty vector
`back()` is undefined in the source; the embedding leaves the empty vector as it is, and the
statements on the walks are made for tiles that hold a coordinate where this matters. -/
def setBackCoast (coords : List GroundTile.Coord) (value : Bool) : List GroundTile.Coord :=
  match coords.reverse with
  | [] => []
  | c :: rest => (({ c with coast := value } : GroundTile.Coord) :: rest).reverse

/-- The ground tile that `HandleAreaCoastlinesCompletelyInACell` builds for a coastline. -/
def areaCoastlineTile (stateMap : StateMap) (coastline : CoastlineData) : GroundTile :=
  let type :=
    if coastline.left = CoastState.unknown then GroundTile.TileType.unknown
    else if coastline.left = CoastState.water then GroundTile.TileType.water
    else GroundTile.TileType.land
  let cellMinLat := stateMap.cellHeight * (coastline.cell.y : ℚ) - 90
  let cellMinLon := stateMap.cellWidth * (coastline.cell.x : ℚ) - 180
  let coords := coastline.points.map
    (fun point => Transform point stateMap cellMinLat cellMinLon true)
  { type := type, coords := setBackCoast coords false }

/-- Body of the loop over the coastlines in `HandleAreaCoastlinesCompletelyInACell`.  The
subtractions of `Pixel coord(...)` do not wrap: `IsInAbsolute` holds. -/
def HandleAreaCoastline (lt : Pixel → Pixel → Bool) (stateMap : StateMap)
    (cellGroundTileMap : List (Pixel × List GroundTile)) (coastline : CoastlineData) :
    List (Pixel × List GroundTile) :=
  if ¬ (coastline.isArea = true ∧ coastline.isCompletelyInCell = true) then cellGroundTileMap
  else if ¬ (stateMap.IsInAbsolute coastline.cell.x coastline.cell.y = true) then
    cellGroundTileMap
  else
    let coord : Pixel := ⟨coastline.cell.x - stateMap.cellXStart,
                          coastline.cell.y - stateMap.cellYStart⟩
    let groundTile := areaCoastlineTile stateMap coastline
    if groundTile.coords ≠ [] then pushBackAt lt cellGroundTileMap coord groundTile
    else cellGroundTileMap

/-- Embedding of `HandleAreaCoastlinesCompletelyInACell`. -/
def HandleAreaCoastlinesCompletelyInACell (lt : Pixel → Pixel → Bool) (stateMap : StateMap)
    (data : Data) (cellGroundTileMap : List (Pixel × List GroundTile)) :
    List (Pixel × List GroundTile) :=
  data.coastlines.foldl (HandleAreaCoastline lt stateMap) cellGroundTileMap

/-- Condition under which `HandleAreaCoastlinesCompletelyInACell` adds a tile for the
coastline `c` to the cell with key `k`: `c` is an area completely in a cell of the map, it has
a point, and `k` is its cell relative to `(xStart,yStart)`. -/
def areaCoastlineAt (stateMap : StateMap) (k : Pixel) (c : CoastlineData) : Bool :=
  c.isArea && c.isCompletelyInCell && stateMap.IsInAbsolute c.cell.x c.cell.y &&
  decide (c.points ≠ []) &&
  decide ((⟨c.cell.x - stateMap.cellXStart, c.cell.y - stateMap.cellYStart⟩ : Pixel) = k)

/-! ### GetCells and GetCellIntersections

The predicates `LinesIntersect` and `GetLineIntersection` and the function `DistanceSquare`
are declared in an absent header; they are the parameters `linesIntersect`,
`getLineIntersection` and `distanceSquare`.  A counting loop `for (x=lo; x<=hi; x++)` over
`uint32_t` is the list `lo..hi`, which is what the source runs through when `hi < 2^32-1`; a
loop `for (p=0; p<points.size()-1; p++)` is the list `0..points.size()-2`, which is what the
source runs through when there is a point. -/

/-- Conversion `(uint32_t)` of a `double`: truncation towards zero, reduced modulo `2^32`. -/
def truncU32 (q : ℚ) : Nat := toU32 (if 0 ≤ q then ⌊q⌋ else ⌈q⌉)

/-- Global column of a longitude: `(uint32_t)((lon+180.0)/stateMap.GetCellWidth())`. -/
def cellXOf (stateMap : StateMap) (c : GeoCoord) : Nat :=
  truncU32 ((c.lon + 180) / stateMap.cellWidth)

/-- Global row of a latitude: `(uint32_t)((lat+90.0)/stateMap.GetCellHeight())`. -/
def cellYOf (stateMap : StateMap) (c : GeoCoord) : Nat :=
  truncU32 ((c.lat + 90) / stateMap.cellHeight)

/-- The values `lo, lo+1, .., hi` of a counting loop. -/
def loopRange (lo hi : Nat) : List Nat := List.range' lo (hi + 1 - lo)

/-- The array `borderPoints` of `GetCells` for the global cell `(x,y)`. -/
def GetCells.borderPoints (stateMap : StateMap) (x y : Nat) : List GeoCoord :=
  let lonMin := (x : ℚ) * stateMap.cellWidth - 180
  let lonMax := lonMin + stateMap.cellWidth
  let latMin := (y : ℚ) * stateMap.cellHeight - 90
  let latMax := latMin + stateMap.cellHeight
  [⟨latMax, lonMin⟩, ⟨latMax, lonMax⟩, ⟨latMin, lonMax⟩, ⟨latMin, lonMin⟩, ⟨latMax, lonMin⟩]

/-- The loop `while (corner<4)` of `GetCells`: some border of the cell meets the line. -/
def GetCells.hitsBorder (linesIntersect : GeoCoord → GeoCoord → GeoCoord → GeoCoord → Bool)
    (a b : GeoCoord) (borderPoints : List GeoCoord) : Bool :=
  (List.range 4).any (fun corner =>
    linesIntersect a b (borderPoints.getD corner ⟨0, 0⟩) (borderPoints.getD (corner + 1) ⟨0, 0⟩))

/-- Embedding of `GetCells` for the line from `a` to `b`. -/
def GetCells.segment (lt : Pixel → Pixel → Bool)
    (linesIntersect : GeoCoord → GeoCoord → GeoCoord → GeoCoord → Bool)
    (stateMap : StateMap) (a b : GeoCoord) (cellIntersections : List Pixel) : List Pixel :=
  let cx1 := cellXOf stateMap a
  let cy1 := cellYOf stateMap a
  let cx2 := cellXOf stateMap b
  let cy2 := cellYOf stateMap b
  let s := setInsert lt cellIntersections ⟨cx1, cy1⟩
  if cx1 ≠ cx2 ∨ cy1 ≠ cy2 then
    (loopRange (min cx1 cx2) (max cx1 cx2)).foldl (fun s x =>
      (loopRange (min cy1 cy2) (max cy1 cy2)).foldl (fun s y =>
        if GetCells.hitsBorder linesIntersect a b (GetCells.borderPoints stateMap x y) = true
        then setInsert lt s ⟨x, y⟩ else s) s) s
  else s

/-- Embedding of `GetCells` for a path. -/
def GetCells (lt : Pixel → Pixel → Bool)
    (linesIntersect : GeoCoord → GeoCoord → GeoCoord → GeoCoord → Bool)
    (stateMap : StateMap) (points : List GeoCoord) (cellIntersections : List Pixel) :
    List Pixel :=
  (List.range (points.length - 1)).foldl (fun s p =>
    GetCells.segment lt linesIntersect stateMap (points.getD p ⟨0, 0⟩)
      (points.getD (p + 1) ⟨0, 0⟩) s) cellIntersections

/-- One pass of the innermost loop body of `GetCellIntersections`: the segment that starts at
the point `p`, and the global cell `(x,y)`. -/
structure CellVisit where
  p : Nat
  x : Nat
  y : Nat
  deriving DecidableEq

/-- The passes of the innermost loop body of `GetCellIntersections` that get beyond the test
of `IsInAbsolute`, in the order of the source. -/
def cellVisits (stateMap : StateMap) (points : List GeoCoord) : List CellVisit :=
  (List.range (points.length - 1)).flatMap (fun p =>
    let cx1 := cellXOf stateMap (points.getD p ⟨0, 0⟩)
    let cy1 := cellYOf stateMap (points.getD p ⟨0, 0⟩)
    let cx2 := cellXOf stateMap (points.getD (p + 1) ⟨0, 0⟩)
    let cy2 := cellYOf stateMap (points.getD (p + 1) ⟨0, 0⟩)
    if cx1 ≠ cx2 ∨ cy1 ≠ cy2 then
      (loopRange (min cx1 cx2) (max cx1 cx2)).flatMap (fun x =>
        ((loopRange (min cy1 cy2) (max cy1 cy2)).filter
          (fun y => stateMap.IsInAbsolute x y)).map (fun y => (⟨p, x, y⟩ : CellVisit)))
    else [])

/-- The array `borderPoints` of `GetCellIntersections` for the global cell `(x,y)`. -/
def GetCellIntersections.borderPoints (stateMap : StateMap) (x y : Nat) : List GeoCoord :=
  let lonMin := (x : ℚ) * stateMap.cellWidth - 180
  let lonMax := ((x : ℚ) + 1) * stateMap.cellWidth - 180
  let latMin := (y : ℚ) * stateMap.cellHeight - 90
  let latMax := ((y : ℚ) + 1) * stateMap.cellHeight - 90
  [⟨latMax, lonMin⟩, ⟨latMax, lonMax⟩, ⟨latMin, lonMax⟩, ⟨latMin, lonMin⟩, ⟨latMax, lonMin⟩]

/-- A loop `while (corner<4)` of `GetCellIntersections` entered at `corner`: the first border
from `corner` on that the segment crosses, with the point of the crossing. -/
def GetCellIntersections.findHit
    (getLineIntersection : GeoCoord → GeoCoord → GeoCoord → GeoCoord → Option GeoCoord)
    (a b : GeoCoord) (borderPoints : List GeoCoord) (corner : Nat) : Option (GeoCoord × Nat) :=
  (List.range' corner (4 - corner)).findSome? (fun c =>
    (getLineIntersection a b (borderPoints.getD c ⟨0, 0⟩)
      (borderPoints.getD (c + 1) ⟨0, 0⟩)).map (fun point => (point, c)))

/-- The part of the innermost loop body of `GetCellIntersections` after the two loops over
the borders: the intersections that are appended to the list of the cell, in order; each with
`0` if the object is `firstIntersection` and `1` if it is `secondIntersection`.  `first` and
`second` are the crossings that the two loops found, `a` is the first point of the segment.
The assertions of the source are not part of the embedding. -/
def GetCellIntersections.record (distanceSquare : GeoCoord → GeoCoord → ℚ) (a : GeoCoord)
    (coastline p : Nat) (atStart atEnd : Bool) (first second : Option (GeoCoord × Nat)) :
    List (Nat × Intersection) :=
  let mk : GeoCoord × Nat → Direction → Intersection := fun h d =>
    { coastline := coastline, prevWayPointIndex := p, point := h.1,
      distanceSquare := distanceSquare a h.1, direction := d, borderIndex := h.2 }
  match first, second with
  | none, _ => []
  | some first, none =>
    if atStart then [(0, mk first Direction.out)]
    else if atEnd then [(0, mk first Direction.in_)]
    else [(0, mk first Direction.touch)]
  | some first, some second =>
    if distanceSquare first.1 a ≤ distanceSquare second.1 a then
      [(0, mk first Direction.in_), (1, mk second Direction.out)]
    else
      [(1, mk second Direction.in_), (0, mk first Direction.out)]

/-- The pass is in the cell of the first point of its segment (`x==cx1 && y==cy1`). -/
def CellVisit.isStart (stateMap : StateMap) (points : List GeoCoord) (v : CellVisit) : Bool :=
  decide (v.x = cellXOf stateMap (points.getD v.p ⟨0, 0⟩) ∧
          v.y = cellYOf stateMap (points.getD v.p ⟨0, 0⟩))

/-- The pass is in the cell of the second point of its segment (`x==cx2 && y==cy2`). -/
def CellVisit.isEnd (stateMap : StateMap) (points : List GeoCoord) (v : CellVisit) : Bool :=
  decide (v.x = cellXOf stateMap (points.getD (v.p + 1) ⟨0, 0⟩) ∧
          v.y = cellYOf stateMap (points.getD (v.p + 1) ⟨0, 0⟩))

/-- The intersections that one pass of the innermost loop body of `GetCellIntersections`
appends to the list of its cell.  The second loop over the borders goes on behind the border
of the first crossing. -/
def GetCellIntersections.visit
    (getLineIntersection : GeoCoord → GeoCoord → GeoCoord → GeoCoord → Option GeoCoord)
    (distanceSquare : GeoCoord → GeoCoord → ℚ)
    (stateMap : StateMap) (points : List GeoCoord) (coastline : Nat) (v : CellVisit) :
    List (Nat × Intersection) :=
  let a := points.getD v.p ⟨0, 0⟩
  let b := points.getD (v.p + 1) ⟨0, 0⟩
  let borderPoints := GetCellIntersections.borderPoints stateMap v.x v.y
  let first := GetCellIntersections.findHit getLineIntersection a b borderPoints 0
  let second :=
    match first with
    | none => none
    | some h => GetCellIntersections.findHit getLineIntersection a b borderPoints (h.2 + 1)
  GetCellIntersections.record distanceSquare a coastline v.p (v.isStart stateMap points)
    (v.isEnd stateMap points) first second

/-- Key of the cell of a pass: `Pixel coord(x-stateMap.GetXStart(),y-stateMap.GetYStart())`;
the subtractions do not wrap, `IsInAbsolute(x,y)` holds. -/
def CellVisit.coord (stateMap : StateMap) (v : CellVisit) : Pixel :=
  ⟨v.x - stateMap.cellXStart, v.y - stateMap.cellYStart⟩

/-- Embedding of `GetCellIntersections`.  `next` is the number of `Intersection` objects that
were allocated before the call; every pass allocates two, and an object that is kept has an
address of its own. -/
def GetCellIntersections (lt : Pixel → Pixel → Bool)
    (getLineIntersection : GeoCoord → GeoCoord → GeoCoord → GeoCoord → Option GeoCoord)
    (distanceSquare : GeoCoord → GeoCoord → ℚ)
    (stateMap : StateMap) (points : List GeoCoord) (coastline : Nat)
    (cellIntersections : List (Pixel × List IntersectionRef)) (next : Nat) :
    List (Pixel × List IntersectionRef) × Nat :=
  (cellVisits stateMap points).foldl (fun st v =>
    ((GetCellIntersections.visit getLineIntersection distanceSquare stateMap points
        coastline v).foldl
      (fun m h => pushBackAt lt m (v.coord stateMap) ⟨st.2 + h.1, h.2⟩) st.1,
     st.2 + 2)) (cellIntersections, next)

/-- Number of intersections with direction `d` in the list of the cell `k`. -/
def countDirection (d : Direction) (m : List (Pixel × List IntersectionRef)) (k : Pixel) :
    Nat :=
  ((getList m k).filter (fun r => decide (r.obj.direction = d))).length

/-- Modelled from the spec: `distanceSquare(a,b)`, declared in an absent header:
`(a.lon-b.lon)² + (a.lat-b.lat)²`. -/
def DistanceSquare (a b : GeoCoord) : ℚ :=
  (a.lon - b.lon) ^ 2 + (a.lat - b.lat) ^ 2

/-- Modelled from the spec: `getLineIntersection(a,b,c,d, out point)`, declared in an absent
header: the point in which the segments `a1 a2` and `b1 b2` cross; parallel segments do not
cross. -/
def GetLineIntersection (a1 a2 b1 b2 : GeoCoord) : Option GeoCoord :=
  let denr := (b2.lat - b1.lat) * (a2.lon - a1.lon) - (b2.lon - b1.lon) * (a2.lat - a1.lat)
  let ua := ((b2.lon - b1.lon) * (a1.lat - b1.lat) - (b2.lat - b1.lat) * (a1.lon - b1.lon)) / denr
  let ub := ((a2.lon - a1.lon) * (a1.lat - b1.lat) - (a2.lat - a1.lat) * (a1.lon - b1.lon)) / denr
  if denr ≠ 0 ∧ 0 ≤ ua ∧ ua ≤ 1 ∧ 0 ≤ ub ∧ ub ≤ 1 then
    some ⟨a1.lat + ua * (a2.lat - a1.lat), a1.lon + ua * (a2.lon - a1.lon)⟩
  else none

/-- Number of passes for the cell with key `k` in which the segment leaves the cell of its
first point through one crossing only. -/
def leaveOnlyCount
    (getLineIntersection : GeoCoord → GeoCoord → GeoCoord → GeoCoord → Option GeoCoord)
    (distanceSquare : GeoCoord → GeoCoord → ℚ)
    (stateMap : StateMap) (points : List GeoCoord) (coastline : Nat) (k : Pixel) : Nat :=
  ((cellVisits stateMap points).filter (fun v =>
    decide (v.coord stateMap = k) && v.isStart stateMap points &&
    decide ((GetCellIntersections.visit getLineIntersection distanceSquare stateMap points
      coastline v).length = 1))).length

/-- Number of passes for the cell with key `k` in which the segment enters the cell of its
second point through one crossing only. -/
def enterOnlyCount
    (getLineIntersection : GeoCoord → GeoCoord → GeoCoord → GeoCoord → Option GeoCoord)
    (distanceSquare : GeoCoord → GeoCoord → ℚ)
    (stateMap : StateMap) (points : List GeoCoord) (coastline : Nat) (k : Pixel) : Nat :=
  ((cellVisits stateMap points).filter (fun v =>
    decide (v.coord stateMap = k) && !(v.isStart stateMap points) && v.isEnd stateMap points &&
    decide ((GetCellIntersections.visit getLineIntersection distanceSquare stateMap points
      coastline v).length = 1))).length

/-- Modelled from the spec: `linesIntersect(a,b,c,d)`, declared in an absent header: the
segments cross. -/
def LinesIntersect (a1 a2 b1 b2 : GeoCoord) : Bool :=
  (GetLineIntersection a1 a2 b1 b2).isSome

/-! ### SynthesizeCoastlines2

`FindPathIntersections` and `IsAreaAtLeastPartlyInArea` are declared in absent headers and are
the parameters `findPathIntersections` and `isAreaInArea`.  The calls of `progress.Warning`
have no effect on the data and are left out. -/

/-- Crossing of two paths `a` and `b` (`PathIntersection`). -/
structure PathIntersection where
  point : GeoCoord
  aIndex : Nat
  bIndex : Nat
  orientation : ℚ
  aDistanceSquare : ℚ
  bDistanceSquare : ℚ
  deriving DecidableEq

/-- Value of `v[i]` in the embedding when `i` is not an index of the vector (undefined in the
source). -/
def PathIntersection.zero : PathIntersection :=
  { point := ⟨0, 0⟩, aIndex := 0, bIndex := 0, orientation := 0, aDistanceSquare := 0,
    bDistanceSquare := 0 }

/-- Embedding of `CutPath`: append to `dst` the points of `src` from the index `start`
(inclusive) to the index `end` (exclusive), both taken modulo the size of `src`, going around
the end of `src` if `start` lies behind `end`. -/
def CutPath (dst src : List Point) (start end_ : Nat) (startDistanceSquare
    endDistanceSquare : ℚ) : List Point :=
  let start := start % src.length
  let end_ := end_ % src.length
  if start > end_ ∨ (start = end_ ∧ startDistanceSquare > endDistanceSquare) then
    dst ++ src.drop start ++ src.take end_
  else
    dst ++ (src.take end_).drop start

/-- Embedding of `PathIntersectionSortA`. -/
def PathIntersectionSortA (i1 i2 : PathIntersection) : Bool :=
  if i1.aIndex = i2.aIndex then decide (i1.aDistanceSquare < i2.aDistanceSquare)
  else decide (i1.aIndex < i2.aIndex)

/-- Embedding of `PathIntersectionSortB`. -/
def PathIntersectionSortB (i1 i2 : PathIntersection) : Bool :=
  if i1.bIndex = i2.bIndex then decide (i1.bDistanceSquare < i2.bDistanceSquare)
  else decide (i1.bIndex < i2.bIndex)

/-- The call `std::sort(v.begin(),v.end(),lt)`.  The source leaves the order of elements open
that `lt` does not tell apart; the embedding keeps them in the order of `v`. -/
def stdSort {α : Type} (lt : α → α → Bool) (v : List α) : List α :=
  v.insertionSort (fun a b => lt b a = false)

/-- The candidate that `SynthesizeCoastlines2` makes of a bounding polygon.  The fields `id`
and `sortCriteria` are not assigned; they have the value `0` of a value-initialised
`Coast`. -/
def SynthesizeCoastlines2.candidate (polygon : Coast) : Coast :=
  { id := 0, sortCriteria := 0, isArea := true, coast := polygon.coast, left := polygon.left,
    right := polygon.right }

/-- The intersections of the candidate `c` and a coastline that pass the test
`intersection.orientation!=0.0`. -/
def SynthesizeCoastlines2.valid
    (findPathIntersections : List Point → List Point → Bool → Bool → List PathIntersection)
    (c coastline : Coast) : List PathIntersection :=
  (findPathIntersections c.coast coastline.coast c.isArea coastline.isArea).filter
    (fun intersection => decide (intersection.orientation ≠ 0))

/-- Body of the loop `for (size_t ii=0; ii<candidateIntersections.size(); ii++)`: the part of
the candidate `c` from the intersection `ii` to the next one. -/
def SynthesizeCoastlines2.candidatePart (c : Coast)
    (candidateIntersections : List PathIntersection) (ii : Nat) : Coast :=
  let int1 := candidateIntersections.getD ii PathIntersection.zero
  let int2 := candidateIntersections.getD ((ii + 1) % candidateIntersections.length)
    PathIntersection.zero
  let coast0 : List Point := [⟨0, int1.point⟩]
  let coast1 := CutPath coast0 c.coast ((int1.aIndex + 1) % U64) ((int2.aIndex + 1) % U64)
    int1.aDistanceSquare int2.aDistanceSquare
  { coast := coast1 ++ [⟨0, int2.point⟩],
    left := if int1.orientation > 0 then CoastState.water else CoastState.land,
    right := c.right, id := c.id, sortCriteria := c.sortCriteria, isArea := false }

/-- The coasts that the block `cut candidate` appends to `synthesized` for the candidate `c`
with the intersections `candidateIntersections`. -/
def SynthesizeCoastlines2.candidateParts (c : Coast)
    (candidateIntersections : List PathIntersection) : List Coast :=
  if candidateIntersections = [] then [c]
  else if candidateIntersections.length % 2 ≠ 0 then []
  else
    let sorted := stdSort PathIntersectionSortA candidateIntersections
    (List.range sorted.length).map (SynthesizeCoastlines2.candidatePart c sorted)

/-- Body of the loop over the candidates.  The state is `wayIntersections`, with one list for
every coastline, and `synthesized`; the inner loop over the coastlines, which counts `wi`
along, appends the valid intersections of every coastline to `candidateIntersections` and to
the list of the coastline. -/
def SynthesizeCoastlines2.cutCandidate
    (findPathIntersections : List Point → List Point → Bool → Bool → List PathIntersection)
    (coastlines : List Coast) (st : List (List PathIntersection) × List Coast) (c : Coast) :
    List (List PathIntersection) × List Coast :=
  let candidateIntersections :=
    coastlines.flatMap (fun coastline =>
      SynthesizeCoastlines2.valid findPathIntersections c coastline)
  let wayIntersections :=
    List.zipWith (fun w coastline =>
      w ++ SynthesizeCoastlines2.valid findPathIntersections c coastline) st.1 coastlines
  (wayIntersections, st.2 ++ SynthesizeCoastlines2.candidateParts c candidateIntersections)

/-- Body of the loop `for (size_t ii=0; ii<limit; ii++)`: the part of the coastline from the
intersection `ii` to the next one, or nothing where the source goes on with `continue`. -/
def SynthesizeCoastlines2.wayPart (coastline : Coast) (intersections : List PathIntersection)
    (ii : Nat) : Option Coast :=
  let int1 := intersections.getD ii PathIntersection.zero
  let int2 := intersections.getD ((ii + 1) % intersections.length) PathIntersection.zero
  if int1.orientation < 0 then none
  else
    let coast0 : List Point := [⟨0, int1.point⟩]
    let coast1 := CutPath coast0 coastline.coast ((int1.bIndex + 1) % U64)
      ((int2.bIndex + 1) % U64) int1.bDistanceSquare int2.bDistanceSquare
    some { coast := coast1 ++ [⟨0, int2.point⟩], left := coastline.left,
           right := coastline.right, id := coastline.id,
           sortCriteria := coastline.sortCriteria, isArea := false }

/-- The coasts that the loop `cut ways` appends to `synthesized` for a coastline with the
intersections `intersections`. -/
def SynthesizeCoastlines2.wayParts (isAreaInArea : List Point → List Point → Bool)
    (boundingPolygons : List Coast) (coastline : Coast)
    (intersections : List PathIntersection) : List Coast :=
  if intersections = [] then
    if coastline.isArea = true ∧
        boundingPolygons.any (fun poly => isAreaInArea coastline.coast poly.coast) = true then
      [coastline]
    else []
  else if intersections.length % 2 ≠ 0 then []
  else
    let sorted := stdSort PathIntersectionSortB intersections
    let limit := if coastline.isArea then sorted.length else sorted.length - 1
    (List.range limit).filterMap (SynthesizeCoastlines2.wayPart coastline sorted)

/-- Embedding of `SynthesizeCoastlines2`; the result is the list `synthesized`. -/
def SynthesizeCoastlines2
    (findPathIntersections : List Point → List Point → Bool → Bool → List PathIntersection)
    (isAreaInArea : List Point → List Point → Bool)
    (boundingPolygons coastlines synthesized : List Coast) : List Coast :=
  let candidates := boundingPolygons.map SynthesizeCoastlines2.candidate
  let st := candidates.foldl (SynthesizeCoastlines2.cutCandidate findPathIntersections
    coastlines) (coastlines.map (fun _ => []), synthesized)
  (List.zip coastlines st.1).foldl (fun synthesized cw =>
    synthesized ++ SynthesizeCoastlines2.wayParts isAreaInArea boundingPolygons cw.1 cw.2) st.2

/-- Modelled from the spec: `findPathIntersections(A, B, aIsArea, bIsArea)`, declared in an
absent header: for every segment of `a` that crosses a segment of `b` the indices of the
segments, the squares of the distances of the crossing from the starts of the segments, the
point and the sign of `(B_next - B_prev) × (A_next - A_prev)`.  Paths of areas are closed,
their first point is their last point. -/
def FindPathIntersections (a b : List Point) (_aIsArea _bIsArea : Bool) :
    List PathIntersection :=
  (List.range (a.length - 1)).flatMap (fun i =>
    (List.range (b.length - 1)).filterMap (fun j =>
      let a1 := (a.getD i ⟨0, ⟨0, 0⟩⟩).coord
      let a2 := (a.getD (i + 1) ⟨0, ⟨0, 0⟩⟩).coord
      let b1 := (b.getD j ⟨0, ⟨0, 0⟩⟩).coord
      let b2 := (b.getD (j + 1) ⟨0, ⟨0, 0⟩⟩).coord
      let cross := (b2.lon - b1.lon) * (a2.lat - a1.lat) - (b2.lat - b1.lat) * (a2.lon - a1.lon)
      (GetLineIntersection a1 a2 b1 b2).map (fun point =>
        { point := point, aIndex := i, bIndex := j,
          orientation := if cross > 0 then 1 else if cross < 0 then -1 else 0,
          aDistanceSquare := DistanceSquare a1 point,
          bDistanceSquare := DistanceSquare b1 point })))

/-- The valid intersections of a bounding polygon with all coastlines, in the order in which
`SynthesizeCoastlines2` collects them in `candidateIntersections`. -/
def polygonIntersections
    (findPathIntersections : List Point → List Point → Bool → Bool → List PathIntersection)
    (coastlines : List Coast) (polygon : Coast) : List PathIntersection :=
  coastlines.flatMap (fun coastline =>
    SynthesizeCoastlines2.valid findPathIntersections
      (SynthesizeCoastlines2.candidate polygon) coastline)

/-- The valid intersections of a coastline with all bounding polygons, in the order in which
`SynthesizeCoastlines2` collects them in the list of the coastline in `wayIntersections`. -/
def coastlineIntersections
    (findPathIntersections : List Point → List Point → Bool → Bool → List PathIntersection)
    (boundingPolygons : List Coast) (coastline : Coast) : List PathIntersection :=
  boundingPolygons.flatMap (fun polygon =>
    SynthesizeCoastlines2.valid findPathIntersections
      (SynthesizeCoastlines2.candidate polygon) coastline)

/-! ### The cell walker

The walks of a cell return `none` where the source does not come to an end or leaves its
data: a loop over the borders or over the points of a coastline that never meets its target.
An index into `points` outside of the vector reads the point `(0,0)`.  The walks get a ground
tile by reference and change its coordinates.  `GeoCoord::IsEqual` is the equality of the two
components.  An `Intersection` that is made with `std::make_shared` in a walk is only read
through its members, never compared as a pointer; such an intersection is the object itself,
an intersection of the list `intersectionsCW` is an `IntersectionRef`. -/

/-- The statement `groundTile.coords.push_back(c)`. -/
def GroundTile.push (groundTile : GroundTile) (c : GroundTile.Coord) : GroundTile :=
  { groundTile with coords := groundTile.coords ++ [c] }

/-- Embedding of `IsLeftOnSameBorder`. -/
def IsLeftOnSameBorder (border : Nat) (a b : GeoCoord) : Bool :=
  match border with
  | 0 => decide (b.lon ≥ a.lon)
  | 1 => decide (b.lat ≤ a.lat)
  | 2 => decide (b.lon ≤ a.lon)
  | 3 => decide (b.lat ≥ a.lat)
  | _ => false

/-- The loop `while (borderPoint!=endBorderPoint)` of `WalkBorderCW`.  `borderPoint` runs
through `0..3` in a circle; after four tests without a hit the loop does not end. -/
def WalkBorderCW.loop (borderCoords : List GroundTile.Coord) (endBorderPoint : Nat) :
    Nat → Nat → GroundTile → Option (GroundTile × Nat)
  | 0, _, _ => none
  | fuel + 1, borderPoint, groundTile =>
    if borderPoint ≠ endBorderPoint then
      WalkBorderCW.loop borderCoords endBorderPoint fuel
        (if borderPoint = 3 then 0 else borderPoint + 1)
        (groundTile.push (borderCoords.getD borderPoint ⟨0, 0, false⟩))
    else some (groundTile, borderPoint)

/-- Embedding of `WalkBorderCW`. -/
def WalkBorderCW (groundTile : GroundTile) (stateMap : StateMap) (cellMinLat cellMinLon : ℚ)
    (incoming outgoing : Intersection) (borderCoords : List GroundTile.Coord) :
    Option GroundTile :=
  let walked : Option GroundTile :=
    if outgoing.borderIndex ≠ incoming.borderIndex ∨
        IsLeftOnSameBorder incoming.borderIndex incoming.point outgoing.point = false then
      match WalkBorderCW.loop borderCoords outgoing.borderIndex 4
          ((incoming.borderIndex + 1) % 4) groundTile with
      | none => none
      | some r => some (r.1.push (borderCoords.getD r.2 ⟨0, 0, false⟩))
    else some groundTile
  match walked with
  | none => none
  | some g => some (g.push (Transform outgoing.point stateMap cellMinLat cellMinLon false))

/-- Embedding of `GetNextCW`: the element behind the first element with the address of
`current`, the first element of the list behind the last one.  `none` where the assertion of
the source fails. -/
def GetNextCW (intersectionsCW : List IntersectionRef) (current : IntersectionRef) :
    Option IntersectionRef :=
  match intersectionsCW.dropWhile (fun r => decide (r.addr ≠ current.addr)) with
  | [] => none
  | _ :: [] => intersectionsCW.head?
  | _ :: next :: _ => some next

/-- The statement `groundTile.coords.back().coast=value`, which is undefined in the source for
a tile without coordinates; see `setBackCoast`. -/
def GroundTile.setBackCoast (groundTile : GroundTile) (value : Bool) : GroundTile :=
  { groundTile with coords := WaterIndexProcessor.setBackCoast groundTile.coords value }

/-- The loop `while (idx!=targetIdx)` of `WalkPathBack`. -/
def WalkPathBack.loop (stateMap : StateMap) (cellMinLat cellMinLon : ℚ)
    (points : List GeoCoord) (targetIdx : Nat) :
    Nat → Nat → GroundTile → Option (GroundTile × Nat)
  | 0, _, _ => none
  | fuel + 1, idx, groundTile =>
    if idx ≠ targetIdx then
      WalkPathBack.loop stateMap cellMinLat cellMinLon points targetIdx fuel
        (if idx > 0 then idx - 1 else (points.length + U64 - 1) % U64)
        (groundTile.push
          (Transform (points.getD idx ⟨0, 0⟩) stateMap cellMinLat cellMinLon true))
    else some (groundTile, idx)

/-- Embedding of `WalkPathBack`.  The loop of an area goes down from `idx` to `0` and then
around `points.size()-1 .. 0`; after `idx + points.size() + 2` tests without a hit it does
not end inside of `points`.  The loop of a way does not end if `targetIdx` is `0`. -/
def WalkPathBack (groundTile : GroundTile) (stateMap : StateMap) (cellMinLat cellMinLon : ℚ)
    (pathStart pathEnd : Intersection) (points : List GeoCoord) (isArea : Bool) :
    Option GroundTile :=
  let groundTile := groundTile.setBackCoast true
  if isArea then
    if pathStart.prevWayPointIndex = pathEnd.prevWayPointIndex ∧
        pathStart.distanceSquare > pathEnd.distanceSquare then
      some (groundTile.push (Transform pathEnd.point stateMap cellMinLat cellMinLon false))
    else
      let idx := pathStart.prevWayPointIndex
      let targetIdx := (pathEnd.prevWayPointIndex + 1) % U64
      let targetIdx := if targetIdx = points.length then 0 else targetIdx
      match WalkPathBack.loop stateMap cellMinLat cellMinLon points targetIdx
          (idx + points.length + 2) idx groundTile with
      | none => none
      | some r =>
        some ((r.1.push
          (Transform (points.getD r.2 ⟨0, 0⟩) stateMap cellMinLat cellMinLon true)).push
          (Transform pathEnd.point stateMap cellMinLat cellMinLon false))
  else
    let targetIdx := (pathEnd.prevWayPointIndex + 1) % U64
    if targetIdx = 0 then none
    else
      let groundTile :=
        (List.range' targetIdx (pathStart.prevWayPointIndex + 1 - targetIdx)).reverse.foldl
          (fun g idx => g.push
            (Transform (points.getD idx ⟨0, 0⟩) stateMap cellMinLat cellMinLon true))
          groundTile
      some (groundTile.push (Transform pathEnd.point stateMap cellMinLat cellMinLon false))

/-- The loop `while (idx!=targetIdx)` of `WalkPathForward`. -/
def WalkPathForward.loop (stateMap : StateMap) (cellMinLat cellMinLon : ℚ)
    (points : List GeoCoord) (targetIdx : Nat) :
    Nat → Nat → GroundTile → Option (GroundTile × Nat)
  | 0, _, _ => none
  | fuel + 1, idx, groundTile =>
    if idx ≠ targetIdx then
      WalkPathForward.loop stateMap cellMinLat cellMinLon points targetIdx fuel
        (if idx ≥ (points.length + U64 - 1) % U64 then 0 else idx + 1)
        (groundTile.push
          (Transform (points.getD idx ⟨0, 0⟩) stateMap cellMinLat cellMinLon true))
    else some (groundTile, idx)

/-- Embedding of `WalkPathForward`.  The loop of an area goes from `idx` to `0` in one step
if `idx` is not below `points.size()-1`, and then around `0 .. points.size()-1`; after
`points.size() + 2` tests without a hit it does not end inside of `points`.  The loop of a
way does not end if `targetIdx` is the largest value of `size_t`. -/
def WalkPathForward (groundTile : GroundTile) (stateMap : StateMap)
    (cellMinLat cellMinLon : ℚ) (pathStart pathEnd : Intersection) (points : List GeoCoord)
    (isArea : Bool) : Option GroundTile :=
  let groundTile := groundTile.setBackCoast true
  if isArea then
    if pathStart.prevWayPointIndex = pathEnd.prevWayPointIndex ∧
        pathStart.distanceSquare < pathEnd.distanceSquare then
      some (groundTile.push (Transform pathEnd.point stateMap cellMinLat cellMinLon false))
    else
      let idx := (pathStart.prevWayPointIndex + 1) % U64
      let targetIdx := pathEnd.prevWayPointIndex
      let targetIdx := if targetIdx = points.length then 0 else targetIdx
      match WalkPathForward.loop stateMap cellMinLat cellMinLon points targetIdx
          (points.length + 2) idx groundTile with
      | none => none
      | some r =>
        some ((r.1.push
          (Transform (points.getD r.2 ⟨0, 0⟩) stateMap cellMinLat cellMinLon true)).push
          (Transform pathEnd.point stateMap cellMinLat cellMinLon false))
  else
    let targetIdx := pathEnd.prevWayPointIndex
    if targetIdx = U64 - 1 then none
    else
      let first := (pathStart.prevWayPointIndex + 1) % U64
      let groundTile :=
        (List.range' first (targetIdx + 1 - first)).foldl
          (fun g idx => g.push
            (Transform (points.getD idx ⟨0, 0⟩) stateMap cellMinLat cellMinLon true))
          groundTile
      some (groundTile.push (Transform pathEnd.point stateMap cellMinLat cellMinLon false))

/-- Embedding of `WalkPath`. -/
def WalkPath (groundTile : GroundTile) (stateMap : StateMap) (cellBoundaries : CellBoundaries)
    (pathStart pathEnd : Intersection) (coastline : CoastlineData) : Option GroundTile :=
  if pathStart.direction = Direction.out then
    WalkPathBack groundTile stateMap cellBoundaries.latMin cellBoundaries.lonMin pathStart
      pathEnd coastline.points coastline.isArea
  else
    WalkPathForward groundTile stateMap cellBoundaries.latMin cellBoundaries.lonMin pathStart
      pathEnd coastline.points coastline.isArea

/-- One of the two loops over `candidates` in `FindSiblingIntersection`: `first` is `true`
in the first loop, which looks at the candidates on the side of the search, and `false` in
the second loop, which looks at the candidates on the other side. -/
def FindSiblingIntersection.pass (intersection : Intersection) (first : Bool)
    (candidates : List IntersectionRef) (result : Option IntersectionRef) :
    Option IntersectionRef :=
  candidates.foldl (fun result i =>
    if intersection.direction = Direction.in_ then
      if (if first then i.obj.prevWayPointIndex ≥ intersection.prevWayPointIndex
          else i.obj.prevWayPointIndex ≤ intersection.prevWayPointIndex) then
        match result with
        | none => some i
        | some r => if i.obj.prevWayPointIndex < r.obj.prevWayPointIndex then some i else some r
      else result
    else
      if (if first then i.obj.prevWayPointIndex ≤ intersection.prevWayPointIndex
          else i.obj.prevWayPointIndex ≥ intersection.prevWayPointIndex) then
        match result with
        | none => some i
        | some r => if i.obj.prevWayPointIndex > r.obj.prevWayPointIndex then some i else some r
      else result) result

/-- Embedding of `FindSiblingIntersection`; `none` is the null pointer. -/
def FindSiblingIntersection (intersection : Intersection)
    (intersectionsCW : List IntersectionRef) (isArea : Bool) : Option IntersectionRef :=
  let searchDirection :=
    if intersection.direction = Direction.in_ then Direction.out else Direction.in_
  let candidates := intersectionsCW.filter (fun i =>
    decide (intersection.coastline = i.obj.coastline ∧ i.obj.direction = searchDirection))
  let result := FindSiblingIntersection.pass intersection true candidates none
  if result.isSome ∨ ¬ isArea then result
  else FindSiblingIntersection.pass intersection false candidates result

/-- Stand-in for the object of a null pointer; it is never read. -/
def Intersection.zero : Intersection :=
  { coastline := 0, prevWayPointIndex := 0, point := ⟨0, 0⟩, distanceSquare := 0,
    direction := Direction.touch, borderIndex := 0 }

/-- The local variables of `WalkFromTripoint` that the loop over `candidates` assigns.
`outgoingEnd` is the object that the pointer `outgoingEnd` points to, `pathCellIntersection`
the pointer itself if it is an element of `intersectionsCW`, else `none`. -/
structure WalkFromTripoint.Search where
  outgoing : Option Intersection
  outgoingEnd : Intersection
  pathCellIntersection : Option IntersectionRef
  outgoingAngle : ℚ
  outgoingCoastline : CoastlineData
  intersectCell : Bool

/-- The loop over `intersectionsCW` in `WalkFromTripoint` that looks for the intersection of
the path `pathIndex` with the cell that is next to the tripoint. -/
def WalkFromTripoint.pathCell (intersectionsCW : List IntersectionRef) (pathIndex : Nat)
    (direction : Direction) : Option IntersectionRef :=
  intersectionsCW.foldl (fun pathCellIntersection cellIntersection =>
    if cellIntersection.obj.coastline = pathIndex then
      match pathCellIntersection with
      | none => some cellIntersection
      | some p =>
        let p1 :=
          if direction = Direction.out ∧
              (p.obj.prevWayPointIndex > cellIntersection.obj.prevWayPointIndex ∨
                (p.obj.prevWayPointIndex = cellIntersection.obj.prevWayPointIndex ∧
                  p.obj.distanceSquare > cellIntersection.obj.distanceSquare)) then
            cellIntersection
          else p
        let p2 :=
          if direction = Direction.in_ ∧
              (p1.obj.prevWayPointIndex < cellIntersection.obj.prevWayPointIndex ∨
                (p1.obj.prevWayPointIndex = cellIntersection.obj.prevWayPointIndex ∧
                  p1.obj.distanceSquare < cellIntersection.obj.distanceSquare)) then
            cellIntersection
          else p1
        some p2
    else pathCellIntersection) none

/-- Body of the loop over `candidates` in `WalkFromTripoint`. -/
def WalkFromTripoint.candidate (pathStart : Intersection) (data : Data)
    (intersectionsCW : List IntersectionRef) (tripoint previousPoint : GeoCoord)
    (walkType : CoastState) (s : WalkFromTripoint.Search) (pathIndex : Nat) :
    WalkFromTripoint.Search :=
  if pathStart.coastline = pathIndex then s
  else
    let path := data.coastlines.getD pathIndex CoastlineData.none
    if path.points.length < 2 then s
    else if ¬ (tripoint = path.points.getD 0 ⟨0, 0⟩) ∧
        ¬ (tripoint = path.points.getD (path.points.length - 1) ⟨0, 0⟩) then s
    else
      let direction :=
        if tripoint = path.points.getD 0 ⟨0, 0⟩ then Direction.out else Direction.in_
      if (direction = Direction.out ∧ walkType ≠ path.right) ∨
          (direction = Direction.in_ ∧ walkType ≠ path.left) then s
      else
        let previousOutPoint :=
          if direction = Direction.out then path.points.getD 1 ⟨0, 0⟩
          else path.points.getD (path.points.length - 2) ⟨0, 0⟩
        let angle := (tripoint.lon - previousPoint.lon) * (previousOutPoint.lat - tripoint.lat) -
          (tripoint.lat - previousPoint.lat) * (previousOutPoint.lon - tripoint.lon)
        if s.outgoing.isNone ∨ angle < s.outgoingAngle then
          let outgoing : Intersection :=
            { coastline := pathIndex,
              prevWayPointIndex :=
                if direction = Direction.in_ then path.points.length - 1 else 0,
              point := tripoint, distanceSquare := 0,
              direction := if direction = Direction.in_ then Direction.out else Direction.in_,
              borderIndex := 0 }
          let pathCellIntersection :=
            WalkFromTripoint.pathCell intersectionsCW pathIndex direction
          let outgoingEnd : Intersection :=
            match pathCellIntersection with
            | some p => p.obj
            | none =>
              { coastline := pathIndex,
                prevWayPointIndex :=
                  if direction = Direction.in_ then 0 else path.points.length - 1,
                point :=
                  if direction = Direction.in_ then path.points.getD 0 ⟨0, 0⟩
                  else path.points.getD (path.points.length - 1) ⟨0, 0⟩,
                distanceSquare := 0, direction := direction, borderIndex := 0 }
          { outgoing := some outgoing, outgoingEnd := outgoingEnd,
            pathCellIntersection := pathCellIntersection, outgoingAngle := angle,
            outgoingCoastline := path, intersectCell := pathCellIntersection.isSome }
        else s

/-- The part of `WalkFromTripoint` behind the loop over `candidates`. -/
def WalkFromTripoint.finish (groundTile : GroundTile) (stateMap : StateMap)
    (cellBoundaries : CellBoundaries) (pathEnd : Option IntersectionRef)
    (s : WalkFromTripoint.Search) :
    Option (Option (GroundTile × Intersection × Option IntersectionRef)) :=
  match s.outgoing with
  | none => some none
  | some outgoing =>
    if outgoing.direction = s.outgoingEnd.direction then some none
    else
      let pathEnd := if s.intersectCell then s.pathCellIntersection else pathEnd
      match WalkPath groundTile stateMap cellBoundaries outgoing s.outgoingEnd
          s.outgoingCoastline with
      | none => none
      | some g => some (some (g, outgoing, pathEnd))

/-- Embedding of `WalkFromTripoint`.  The outer `none` is a walk that does not end, the inner
`none` the result `false`; with the result `true` come the ground tile and the new values of
the references `pathStart` and `pathEnd`. -/
def WalkFromTripoint (groundTile : GroundTile) (stateMap : StateMap)
    (cellBoundaries : CellBoundaries) (pathStart : Intersection)
    (pathEnd : Option IntersectionRef) (data : Data) (intersectionsCW : List IntersectionRef)
    (containingPaths : List Nat) :
    Option (Option (GroundTile × Intersection × Option IntersectionRef)) :=
  let coastline := data.coastlines.getD pathStart.coastline CoastlineData.none
  if coastline.points.length < 2 then some none
  else
    let isIn : Bool := decide (pathStart.direction = Direction.in_)
    let tripoint :=
      if isIn then coastline.points.getD (coastline.points.length - 1) ⟨0, 0⟩
      else coastline.points.getD 0 ⟨0, 0⟩
    let previousPoint :=
      if isIn then coastline.points.getD (coastline.points.length - 2) ⟨0, 0⟩
      else coastline.points.getD 1 ⟨0, 0⟩
    let walkType := if isIn then coastline.right else coastline.left
    let candidates := intersectionsCW.map (fun i => i.obj.coastline) ++ containingPaths
    let s := candidates.foldl
      (WalkFromTripoint.candidate pathStart data intersectionsCW tripoint previousPoint walkType)
      { outgoing := none, outgoingEnd := Intersection.zero,
        pathCellIntersection := none, outgoingAngle := 0,
        outgoingCoastline := CoastlineData.none, intersectCell := false }
    WalkFromTripoint.finish groundTile stateMap cellBoundaries pathEnd s

/-- The statement `visitedIntersections.insert(p)` of the set of pointers, as the list of
the addresses in the set. -/
def visitedInsert (visitedIntersections : List Nat) (addr : Nat) : List Nat :=
  if addr ∈ visitedIntersections then visitedIntersections else visitedIntersections ++ [addr]

/-- The loop `while (!pathEnd)` of `WalkBoundaryCW`, entered with `pathEnd` null.  The outer
`none` is a walk that does not end or no `fuel`, the inner `none` is `return false`; the loop
is left with the ground tile, the value of `pathEnd` and the value of `step`.  `coastline` is
the variable of the enclosing block, which the loop does not assign. -/
def WalkBoundaryCW.tripoints (stateMap : StateMap) (intersectionsCW : List IntersectionRef)
    (cellBoundaries : CellBoundaries) (data : Data) (containingPaths : List Nat)
    (coastline : CoastlineData) :
    Nat → Nat → Intersection → GroundTile → Option (Option (GroundTile × IntersectionRef × Nat))
  | 0, _, _, _ => none
  | fuel + 1, step, pathStart, groundTile =>
    if coastline.isArea then some none
    else
      match WalkFromTripoint groundTile stateMap cellBoundaries pathStart none data
          intersectionsCW containingPaths with
      | none => none
      | some none => some none
      | some (some (groundTile, pathStart, pathEnd)) =>
        let step := step + 1
        if step > 1000 then some none
        else
          match pathEnd with
          | some pathEnd => some (some (groundTile, pathEnd, step))
          | none =>
            WalkBoundaryCW.tripoints stateMap intersectionsCW cellBoundaries data
              containingPaths coastline fuel step pathStart groundTile

/-- The part of the loop body of `WalkBoundaryCW` up to the walk along the coastline: the
search for the sibling, the walk to it or, if there is none, to the end of the coastline and
on over tripoints.  Result as for `WalkBoundaryCW.tripoints`. -/
def WalkBoundaryCW.path (stateMap : StateMap) (intersectionsCW : List IntersectionRef)
    (cellBoundaries : CellBoundaries) (data : Data) (containingPaths : List Nat)
    (fuel step : Nat) (pathStart : IntersectionRef) (groundTile : GroundTile) :
    Option (Option (GroundTile × IntersectionRef × Nat)) :=
  let coastline := data.coastlines.getD pathStart.obj.coastline CoastlineData.none
  match FindSiblingIntersection pathStart.obj intersectionsCW coastline.isArea with
  | none =>
    let isIn : Bool := decide (pathStart.obj.direction = Direction.in_)
    let tripoint :=
      if isIn then coastline.points.getD ((coastline.points.length + U64 - 1) % U64) ⟨0, 0⟩
      else coastline.points.getD 0 ⟨0, 0⟩
    let end_ : Intersection :=
      { coastline := pathStart.obj.coastline,
        prevWayPointIndex := if isIn then (coastline.points.length + U64 - 1) % U64 else 0,
        point := tripoint, distanceSquare := 0,
        direction := if isIn then Direction.out else Direction.in_,
        borderIndex := 0 }
    match WalkPath groundTile stateMap cellBoundaries pathStart.obj end_ coastline with
    | none => none
    | some groundTile =>
      WalkBoundaryCW.tripoints stateMap intersectionsCW cellBoundaries data
        containingPaths coastline fuel step pathStart.obj groundTile
  | some pathEnd =>
    match WalkPath groundTile stateMap cellBoundaries pathStart.obj pathEnd.obj coastline with
    | none => none
    | some groundTile => some (some (groundTile, pathEnd, step))

/-- The loop `while ((step==0 || pathStart!=startIntersection) && !error)` of
`WalkBoundaryCW`; `error` is never assigned.  The result is the result of `WalkBoundaryCW`,
the ground tile and the set of the visited intersections; `none` is a walk that does not end
or no `fuel`. -/
def WalkBoundaryCW.loop (stateMap : StateMap) (startIntersection : IntersectionRef)
    (intersectionsCW : List IntersectionRef) (cellBoundaries : CellBoundaries) (data : Data)
    (containingPaths : List Nat) :
    Nat → Nat → IntersectionRef → GroundTile → List Nat →
      Option (Bool × GroundTile × List Nat)
  | 0, _, _, _, _ => none
  | fuel + 1, step, pathStart, groundTile, visitedIntersections =>
    if step = 0 ∨ pathStart.addr ≠ startIntersection.addr then
      let visitedIntersections := visitedInsert visitedIntersections pathStart.addr
      match WalkBoundaryCW.path stateMap intersectionsCW cellBoundaries data containingPaths
          fuel step pathStart groundTile with
      | none => none
      | some none => some (false, groundTile, visitedIntersections)
      | some (some (groundTile, pathEnd, step)) =>
        let step := step + 1
        if step > 1000 then some (false, groundTile, visitedIntersections)
        else
          match GetNextCW intersectionsCW pathEnd with
          | none => none
          | some pathStart =>
            match WalkBorderCW groundTile stateMap cellBoundaries.latMin cellBoundaries.lonMin
                pathEnd.obj pathStart.obj cellBoundaries.borderCoords with
            | none => none
            | some groundTile =>
              WalkBoundaryCW.loop stateMap startIntersection intersectionsCW cellBoundaries
                data containingPaths fuel step pathStart groundTile visitedIntersections
    else some (true, groundTile, visitedIntersections)

/-- Embedding of `WalkBoundaryCW`.  Every pass of one of the two loops adds one to `step`
and returns when `step` is above `1000`: `1002` passes are not reached. -/
def WalkBoundaryCW (groundTile : GroundTile) (stateMap : StateMap)
    (startIntersection : IntersectionRef) (intersectionsCW : List IntersectionRef)
    (visitedIntersections : List Nat) (cellBoundaries : CellBoundaries) (data : Data)
    (containingPaths : List Nat) : Option (Bool × GroundTile × List Nat) :=
  WalkBoundaryCW.loop stateMap startIntersection intersectionsCW cellBoundaries data
    containingPaths 1002 0 startIntersection
    (groundTile.push (Transform startIntersection.obj.point stateMap cellBoundaries.latMin
      cellBoundaries.lonMin false))
    visitedIntersections

/-- Record of one call of `WalkBoundaryCW` from `HandleCoastlineCell`: the intersection at
which the walk starts, the ground tile after the call and the result of the call. -/
structure WalkRecord where
  start : IntersectionRef
  groundTile : GroundTile
  result : Bool
  deriving DecidableEq

/-- The type that `HandleCoastlineCell` gives to the ground tile of a walk. -/
def HandleCoastlineCell.tileType (coastState : CoastState) : GroundTile.TileType :=
  if coastState = CoastState.land then GroundTile.TileType.land
  else if coastState = CoastState.water then GroundTile.TileType.water
  else GroundTile.TileType.unknown

/-- The list `intersectionsCW` of `HandleCoastlineCell`: the intersections of the coastlines
`intersectCoastlines` with the cell, sorted with the order `cwLess`, which stands for
`IntersectionCWComparator` of an absent header; `std::list::sort` keeps the order of
elements that `cwLess` does not tell apart. -/
def HandleCoastlineCell.intersectionsCW (cwLess : IntersectionRef → IntersectionRef → Bool)
    (cell : Pixel) (intersectCoastlines : List Nat) (data : Data) : List IntersectionRef :=
  stdSort cwLess (intersectCoastlines.flatMap (fun currentCoastline =>
    getList (data.coastlines.getD currentCoastline CoastlineData.none).cellIntersections cell))

/-- The vector `containingPaths` of `HandleCoastlineCell`. -/
def HandleCoastlineCell.containingPaths (cell : Pixel) (data : Data) : List Nat :=
  (getList data.cellCoveredCoastlines cell).filter (fun i =>
    !(data.coastlines.getD i CoastlineData.none).isArea &&
      (data.coastlines.getD i CoastlineData.none).isCompletelyInCell)

/-- Body of the loop over `intersectionsCW` in `HandleCoastlineCell`.  The state is the set
`visitedIntersections`, the map `cellGroundTileMap`, and the record of the calls of
`WalkBoundaryCW` so far, which is not a variable of the source. -/
def HandleCoastlineCell.step (lt : Pixel → Pixel → Bool) (cell : Pixel) (stateMap : StateMap)
    (data : Data) (intersectionsCW : List IntersectionRef) (cellBoundaries : CellBoundaries)
    (containingPaths : List Nat)
    (st : Option (List Nat × List (Pixel × List GroundTile) × List WalkRecord))
    (intersection : IntersectionRef) :
    Option (List Nat × List (Pixel × List GroundTile) × List WalkRecord) :=
  match st with
  | none => none
  | some (visitedIntersections, cellGroundTileMap, walks) =>
    if intersection.obj.direction = Direction.touch then st
    else if intersection.addr ∈ visitedIntersections then st
    else
      let coastline := data.coastlines.getD intersection.obj.coastline CoastlineData.none
      let coastState :=
        if intersection.obj.direction = Direction.in_ then coastline.right else coastline.left
      let groundTile : GroundTile :=
        { type := HandleCoastlineCell.tileType coastState, coords := [] }
      match WalkBoundaryCW groundTile stateMap intersection intersectionsCW
          visitedIntersections cellBoundaries data containingPaths with
      | none => none
      | some (result, groundTile, visitedIntersections) =>
        if result = false then
          some (visitedIntersections, cellGroundTileMap,
            walks ++ [⟨intersection, groundTile, false⟩])
        else
          some (visitedIntersections, pushBackAt lt cellGroundTileMap cell groundTile,
            walks ++ [⟨intersection, groundTile, true⟩])

/-- Embedding of `HandleCoastlineCell`: the new `cellGroundTileMap` and the record of the
calls of `WalkBoundaryCW`; `none` if a walk does not end. -/
def HandleCoastlineCell (lt : Pixel → Pixel → Bool)
    (cwLess : IntersectionRef → IntersectionRef → Bool) (cell : Pixel)
    (intersectCoastlines : List Nat) (stateMap : StateMap)
    (cellGroundTileMap : List (Pixel × List GroundTile)) (data : Data) :
    Option (List (Pixel × List GroundTile) × List WalkRecord) :=
  let intersectionsCW :=
    HandleCoastlineCell.intersectionsCW cwLess cell intersectCoastlines data
  let cellBoundaries := CellBoundaries.make stateMap cell
  let containingPaths := HandleCoastlineCell.containingPaths cell data
  match intersectionsCW.foldl
      (HandleCoastlineCell.step lt cell stateMap data intersectionsCW cellBoundaries
        containingPaths) (some ([], cellGroundTileMap, [])) with
  | none => none
  | some (_, cellGroundTileMap, walks) => some (cellGroundTileMap, walks)

/-- Modelled from the spec: `IntersectionCWComparator`, declared in an absent header: first
by `borderIndex`, then along the border clockwise: top by `lon` ascending, right by `lat`
descending, bottom by `lon` descending, left by `lat` ascending. -/
def IntersectionCWComparator (a b : IntersectionRef) : Bool :=
  if a.obj.borderIndex ≠ b.obj.borderIndex then decide (a.obj.borderIndex < b.obj.borderIndex)
  else
    match a.obj.borderIndex with
    | 0 => decide (a.obj.point.lon < b.obj.point.lon)
    | 1 => decide (a.obj.point.lat > b.obj.point.lat)
    | 2 => decide (a.obj.point.lon > b.obj.point.lon)
    | _ => decide (a.obj.point.lat < b.obj.point.lat)

/-- The ground tile `g'` has the type of `g` and at least `n` coordinates more. -/
def GroundTile.Grows (n : Nat) (g g' : GroundTile) : Prop :=
  g'.type = g.type ∧ g.coords.length + n ≤ g'.coords.length

/-- The state of the loop of `HandleCoastlineCell` fits the calls of `WalkBoundaryCW` so far:
every walk started at an intersection of `intersectionsCW` that is no touch and is visited
now, its ground tile has the type for the side of the walk and, if the walk returned `true`,
three coordinates or more; no two walks started at the same intersection; nothing is visited
before the first walk; and the ground tiles of the walks that returned `true` are the ones
appended to the list of the cell, the other lists are as they were in `map0`. -/
def HandleCoastlineCell.Inv (cell : Pixel) (data : Data)
    (intersectionsCW : List IntersectionRef) (map0 : List (Pixel × List GroundTile))
    (st : List Nat × List (Pixel × List GroundTile) × List WalkRecord) : Prop :=
  (∀ w ∈ st.2.2,
    w.start ∈ intersectionsCW ∧ w.start.obj.direction ≠ Direction.touch ∧
    w.start.addr ∈ st.1 ∧
    w.groundTile.type = HandleCoastlineCell.tileType
      (if w.start.obj.direction = Direction.in_ then
        (data.coastlines.getD w.start.obj.coastline CoastlineData.none).right
       else (data.coastlines.getD w.start.obj.coastline CoastlineData.none).left) ∧
    (w.result = true → 3 ≤ w.groundTile.coords.length)) ∧
  (st.2.2.map (fun w => w.start.addr)).Nodup ∧
  (st.2.2 = [] → st.1 = []) ∧
  getList st.2.1 cell =
    getList map0 cell ++ (st.2.2.filter (fun w => w.result)).map (fun w => w.groundTile) ∧
  ∀ k, k ≠ cell → getList st.2.1 k = getList map0 k

/-- The data of a cell are well formed: every coastline has fewer than `2^64-1` points, and
every intersection of `intersectionsCW` lies on one of the four borders and behind a point of
its coastline. -/
def HandleCoastlineCell.WellFormed (intersectionsCW : List IntersectionRef) (data : Data) :
    Prop :=
  (∀ c ∈ data.coastlines, c.points.length + 1 < U64) ∧
  ∀ r ∈ intersectionsCW, r.obj.borderIndex < 4 ∧
    r.obj.prevWayPointIndex <
      (data.coastlines.getD r.obj.coastline CoastlineData.none).points.length

/-- The local variables of `WalkFromTripoint` fit the data of the cell: the end of the
outgoing path lies behind a point of the outgoing coastline, and `pathCellIntersection` is an
intersection of `intersectionsCW` if `intersectCell` is set. -/
def WalkFromTripoint.Search.Inv (intersectionsCW : List IntersectionRef)
    (s : WalkFromTripoint.Search) : Prop :=
  (s.outgoing.isSome = true →
    s.outgoingEnd.prevWayPointIndex < s.outgoingCoastline.points.length ∧
    s.outgoingCoastline.points.length + 1 < U64) ∧
  (s.intersectCell = true → ∃ p ∈ intersectionsCW, s.pathCellIntersection = some p)

/-- The cell is crossed by the way coastline `k` once: the way, with land on its left and
water on its right, comes in at the intersection `entry` and goes out at the intersection
`exit`, which lies on the same segment or on a later one. -/
def CrossedByWay (data : Data) (k : Nat) (entry exit : IntersectionRef) : Prop :=
  entry.obj.direction = Direction.in_ ∧ exit.obj.direction = Direction.out ∧
  entry.obj.coastline = k ∧ exit.obj.coastline = k ∧ entry.addr ≠ exit.addr ∧
  entry.obj.prevWayPointIndex ≤ exit.obj.prevWayPointIndex ∧
  (data.coastlines.getD k CoastlineData.none).isArea = false ∧
  (data.coastlines.getD k CoastlineData.none).left = CoastState.land ∧
  (data.coastlines.getD k CoastlineData.none).right = CoastState.water

/-- The order of `Pixel` used in the examples: by row, then by column. -/
def pixelLt (a b : Pixel) : Bool := decide (a.y < b.y ∨ (a.y = b.y ∧ a.x < b.x))

/-- An island inside of the global cell `(181,90)`, which is cell `(1,0)` of `smallMap`. -/
def islandCoastline : CoastlineData :=
  { id := 7, isArea := true, isCompletelyInCell := true, cell := ⟨181, 90⟩,
    points := [⟨1 / 4, 5 / 4⟩, ⟨3 / 4, 5 / 4⟩, ⟨3 / 4, 7 / 4⟩, ⟨1 / 4, 5 / 4⟩],
    left := CoastState.land, right := CoastState.water, cellIntersections := [] }

/-- The data of a level with the single coastline `islandCoastline`. -/
def islandData : Data :=
  { coastlines := [islandCoastline], cellCoastlines := [],
    cellCoveredCoastlines := [(⟨1, 0⟩, [0])] }

/-- A way of two points from the cell `(180,90)` to its right neighbour `(181,90)`. -/
def crossingWay : List GeoCoord := [⟨1/2, 1/2⟩, ⟨1/2, 3/2⟩]

/-- A path of two points that stays in the cell `(180,90)`. -/
def innerPath : List GeoCoord := [⟨1/4, 1/4⟩, ⟨3/4, 3/4⟩]

/-- A bounding polygon: the square `0 ≤ lat ≤ 2`, `0 ≤ lon ≤ 2`, from `(0,0)` to the north
first. -/
def squarePolygon : Coast :=
  { id := 1, isArea := true, left := CoastState.land, right := CoastState.water,
    coast := [⟨1, ⟨0, 0⟩⟩, ⟨2, ⟨2, 0⟩⟩, ⟨3, ⟨2, 2⟩⟩, ⟨4, ⟨0, 2⟩⟩, ⟨1, ⟨0, 0⟩⟩] }

/-- A way coastline that crosses `squarePolygon` from west to east at `lat = 1`. -/
def throughWay : Coast :=
  { id := 10, isArea := false, left := CoastState.land, right := CoastState.water,
    coast := [⟨11, ⟨1, -1⟩⟩, ⟨12, ⟨1, 3⟩⟩] }

/-- A way coastline that enters `squarePolygon` from the west and ends in it. -/
def enteringWay : Coast :=
  { id := 20, isArea := false, left := CoastState.land, right := CoastState.water,
    coast := [⟨21, ⟨1, -1⟩⟩, ⟨22, ⟨1, 1⟩⟩] }

/-- A way coastline that starts in `squarePolygon` and leaves it to the east. -/
def leavingWay : Coast :=
  { id := 30, isArea := false, left := CoastState.land, right := CoastState.water,
    coast := [⟨31, ⟨1/2, 1⟩⟩, ⟨32, ⟨1/2, 3⟩⟩] }

/-- A straight way coastline of two points that crosses the cell `(180,90)` from west to east
at `lat = 1/2`, with land on its left and water on its right, and its intersections with the
cells of the `3 × 2` map. -/
def straightCoastline : CoastlineData :=
  { id := 5, isArea := false, isCompletelyInCell := false, cell := ⟨0, 0⟩,
    points := [⟨1/2, -1/2⟩, ⟨1/2, 3/2⟩], left := CoastState.land, right := CoastState.water,
    cellIntersections :=
      (GetCellIntersections pixelLt GetLineIntersection DistanceSquare smallMap
        [⟨1/2, -1/2⟩, ⟨1/2, 3/2⟩] 0 [] 0).1 }

/-- The data of a level with the one coastline `straightCoastline`. -/
def straightData : Data :=
  { coastlines := [straightCoastline],
    cellCoastlines := [(⟨0, 0⟩, [0]), (⟨1, 0⟩, [0])],
    cellCoveredCoastlines := [] }

/-- The two intersections of `straightCoastline` with the cell `(0,0)`: the way comes in
through the left border and goes out through the right border. -/
def straightIn : IntersectionRef :=
  ⟨1, { coastline := 0, prevWayPointIndex := 0, point := ⟨1/2, 0⟩, distanceSquare := 1/4,
        direction := Direction.in_, borderIndex := 3 }⟩

/-- See `straightIn`. -/
def straightOut : IntersectionRef :=
  ⟨0, { coastline := 0, prevWayPointIndex := 0, point := ⟨1/2, 1⟩, distanceSquare := 9/4,
        direction := Direction.out, borderIndex := 1 }⟩

/-- The ground tile north of `straightCoastline` in the cell `(0,0)`. -/
def straightLandTile : GroundTile :=
  ⟨GroundTile.TileType.land,
    [⟨32767, 16384, true⟩, ⟨0, 16384, false⟩, ⟨0, 32767, false⟩, ⟨32767, 32767, false⟩,
     ⟨32767, 16384, false⟩]⟩

/-- The ground tile south of `straightCoastline` in the cell `(0,0)`. -/
def straightWaterTile : GroundTile :=
  ⟨GroundTile.TileType.water,
    [⟨0, 16384, true⟩, ⟨32767, 16384, false⟩, ⟨32767, 0, false⟩, ⟨0, 0, false⟩,
     ⟨0, 16384, false⟩]⟩

/-! ### WriteTiles: the coordinates of a tile -/

/-- The two `uint16_t` values that `WriteTiles` writes for a coordinate of a tile: the value
of `x`, with `uint16_t(1 << 15)` or-ed in if the coordinate is on the coast, and the value of
`y`. -/
def WriteTiles.coordWords (c : GroundTile.Coord) : List Nat :=
  [if c.coast then (c.x ||| 32768) % 65536 else c.x, c.y]

/-- The `uint16_t` values that the loop over the coordinates of a tile in `WriteTiles`
writes. -/
def WriteTiles.tileWords (tile : GroundTile) : List Nat :=
  tile.coords.flatMap WriteTiles.coordWords

/-! ### SynthesizeCoastlines

The list `synthesized` holds pointers; the embedding is the list of the objects, on the
understanding that no two pointers of the list point to the same object.  The pass over the
list changes the objects in place. -/

/-- Body of the loop `for (const auto& coastline : synthesized)` of `SynthesizeCoastlines`
for the coastline at the place `i`; the inner loop over `testCoast` runs through the list as
it is at that moment. -/
def SynthesizeCoastlines.define (isAreaInArea : List Point → List Point → Bool)
    (synthesized : List Coast) (i : Nat) : List Coast :=
  match synthesized[i]? with
  | none => synthesized
  | some coastline =>
    let coastline : Coast :=
      if coastline.right = CoastState.undefined then
        { coastline with right := CoastState.unknown }
      else coastline
    let synthesized := synthesized.set i coastline
    let coastline : Coast :=
      if coastline.left = CoastState.undefined ∧ coastline.isArea = true then
        synthesized.foldl (fun (c : Coast) testCoast =>
          if testCoast.right = CoastState.water ∧
              isAreaInArea testCoast.coast c.coast = true then
            { c with left := CoastState.water }
          else c) coastline
      else coastline
    let coastline : Coast :=
      if coastline.left = CoastState.undefined then { coastline with left := CoastState.land }
      else coastline
    synthesized.set i coastline

/-- Embedding of `SynthesizeCoastlines`; the result is the new value of `coastlines`. -/
def SynthesizeCoastlines
    (findPathIntersections : List Point → List Point → Bool → Bool → List PathIntersection)
    (isAreaInArea : List Point → List Point → Bool)
    (coastlines boundingPolygons : List Coast) : List Coast :=
  let synthesized :=
    SynthesizeCoastlines2 findPathIntersections isAreaInArea boundingPolygons coastlines []
  (List.range synthesized.length).foldl (SynthesizeCoastlines.define isAreaInArea) synthesized

/-- Modelled from the spec: strict containment of a point in a polygon, by the number of
edges that a ray from the point to the east crosses. -/
def pointInPolygon (p : GeoCoord) (polygon : List GeoCoord) : Bool :=
  ((List.range (polygon.length - 1)).filter (fun i =>
    let a := polygon.getD i ⟨0, 0⟩
    let b := polygon.getD (i + 1) ⟨0, 0⟩
    decide ((a.lat > p.lat) ≠ (b.lat > p.lat) ∧
      p.lon < a.lon + (p.lat - a.lat) / (b.lat - a.lat) * (b.lon - a.lon)))).length % 2 = 1

/-- Modelled from the spec: `isAreaAtLeastPartlyInArea(inner, outer)`, declared in an absent
header: a vertex of `inner` lies strictly inside of the polygon `outer`, or their boundaries
intersect. -/
def IsAreaAtLeastPartlyInArea (inner outer : List Point) : Bool :=
  inner.any (fun p => pointInPolygon p.coord (outer.map (fun q => q.coord))) ||
  (List.range (inner.length - 1)).any (fun i =>
    (List.range (outer.length - 1)).any (fun j =>
      (GetLineIntersection (inner.getD i ⟨0, ⟨0, 0⟩⟩).coord (inner.getD (i + 1) ⟨0, ⟨0, 0⟩⟩).coord
        (outer.getD j ⟨0, ⟨0, 0⟩⟩).coord (outer.getD (j + 1) ⟨0, ⟨0, 0⟩⟩).coord).isSome))

/-- The coast `testCoast` has water on its right and `IsAreaAtLeastPartlyInArea` holds with
the points of `testCoast` as the first argument and the points of `coastline` as the second
one: the test of the inner loop of `SynthesizeCoastlines`. -/
def SynthesizeCoastlines.waterTest (isAreaInArea : List Point → List Point → Bool)
    (coastline testCoast : Coast) : Bool :=
  decide (testCoast.right = CoastState.water) && isAreaInArea testCoast.coast coastline.coast

/-- The coast that the pass of `SynthesizeCoastlines` over the list `synthesized` makes of the
coast `c` of the list: what is described in words. -/
def SynthesizeCoastlines.defined (isAreaInArea : List Point → List Point → Bool)
    (synthesized : List Coast) (c : Coast) : Coast :=
  { c with
    right := if c.right = CoastState.undefined then CoastState.unknown else c.right,
    left :=
      if c.left = CoastState.undefined then
        if c.isArea = true ∧
            synthesized.any (SynthesizeCoastlines.waterTest isAreaInArea c) = true then
          CoastState.water
        else CoastState.land
      else c.left }

/-! ### FillWaterAroundIsland

The comparison `operator==` of `GroundTile::Coord` is declared in an absent header; it is the
parameter `coordEq` of the definitions that compare coordinates. -/

/-- Embedding of `ContainsCoord(tiles,coord,type)`: the overload with a type looks at the
tiles of this type only. -/
def ContainsCoordOfType (coordEq : GroundTile.Coord → GroundTile.Coord → Bool)
    (tiles : List GroundTile) (coord : GroundTile.Coord) (type : GroundTile.TileType) : Bool :=
  tiles.any (fun tile => decide (tile.type = type) && tile.coords.any (fun c => coordEq c coord))

/-- Embedding of `ContainsCoord(tiles,coord)`: the overload without a type. -/
def ContainsCoord (coordEq : GroundTile.Coord → GroundTile.Coord → Bool)
    (tiles : List GroundTile) (coord : GroundTile.Coord) : Bool :=
  tiles.any (fun tile => tile.coords.any (fun c => coordEq c coord))

/-- Embedding of `ContainsWater`. -/
def ContainsWater (coordEq : GroundTile.Coord → GroundTile.Coord → Bool) (coord : Pixel)
    (stateMap : StateMap) (cellGroundTileMap : List (Pixel × List GroundTile))
    (testCoord1 testCoord2 : GroundTile.Coord) : Bool :=
  if coord.x ≥ stateMap.cellXCount ∨ coord.y ≥ stateMap.cellYCount then false
  else if stateMap.GetState coord.x coord.y = State.water then true
  else
    match cellGroundTileMap.find? (fun e => decide (e.1 = coord)) with
    | none => false
    | some tilesEntry =>
      ContainsCoordOfType coordEq tilesEntry.2 testCoord1 GroundTile.TileType.water ||
      ContainsCoordOfType coordEq tilesEntry.2 testCoord2 GroundTile.TileType.water

/-- The statement `m[k].push_front(v)` of a `std::map<Pixel,std::list<T>>`. -/
def pushFrontAt {α : Type} (lt : Pixel → Pixel → Bool) (m : List (Pixel × List α)) (k : Pixel)
    (v : α) : List (Pixel × List α) :=
  if m.any (fun e => decide (e.1 = k)) then
    m.map (fun e => if e.1 = k then (e.1, v :: e.2) else e)
  else
    insertSorted lt (k, [v]) m

/-- The ground tile that `FillWaterAroundIsland` builds: a water tile with the four
`borderCoords` of the cell. -/
def FillWaterAroundIsland.tile (cellBoundaries : CellBoundaries) : GroundTile :=
  { type := GroundTile.TileType.water,
    coords := [cellBoundaries.borderCoords.getD 0 ⟨0, 0, false⟩,
               cellBoundaries.borderCoords.getD 1 ⟨0, 0, false⟩,
               cellBoundaries.borderCoords.getD 2 ⟨0, 0, false⟩,
               cellBoundaries.borderCoords.getD 3 ⟨0, 0, false⟩] }

/-- The value of `fillWater` behind the four tests of the neighbours in
`FillWaterAroundIsland`.  The cell `Pixel(coord.x,coord.y+1)` and the cell
`Pixel(coord.x+1,coord.y)` are `uint32_t` sums. -/
def FillWaterAroundIsland.fillWater (coordEq : GroundTile.Coord → GroundTile.Coord → Bool)
    (stateMap : StateMap) (cellGroundTileMap : List (Pixel × List GroundTile)) (coord : Pixel)
    (cellBoundaries : CellBoundaries) : Bool :=
  let b0 := cellBoundaries.borderCoords.getD 0 ⟨0, 0, false⟩
  let b1 := cellBoundaries.borderCoords.getD 1 ⟨0, 0, false⟩
  let b2 := cellBoundaries.borderCoords.getD 2 ⟨0, 0, false⟩
  let b3 := cellBoundaries.borderCoords.getD 3 ⟨0, 0, false⟩
  let fillWater := false
  let fillWater :=
    if !fillWater && decide (coord.y > 0) &&
        ContainsWater coordEq ⟨coord.x, coord.y - 1⟩ stateMap cellGroundTileMap b0 b1 then true
    else fillWater
  let fillWater :=
    if !fillWater &&
        ContainsWater coordEq ⟨coord.x, (coord.y + 1) % U32⟩ stateMap cellGroundTileMap b2 b3
    then true
    else fillWater
  let fillWater :=
    if !fillWater && decide (coord.x > 0) &&
        ContainsWater coordEq ⟨coord.x - 1, coord.y⟩ stateMap cellGroundTileMap b0 b3 then true
    else fillWater
  let fillWater :=
    if !fillWater &&
        ContainsWater coordEq ⟨(coord.x + 1) % U32, coord.y⟩ stateMap cellGroundTileMap b1 b2
    then true
    else fillWater
  fillWater

/-- Body of the loop over the entries of `cellGroundTileMap` in `FillWaterAroundIsland`, for
the entry with the key `coord`; `entry.second` is the list of the key in the map. -/
def FillWaterAroundIsland.cell (coordEq : GroundTile.Coord → GroundTile.Coord → Bool)
    (isAreaAtLeastPartlyInArea : List GeoCoord → List Point → Bool)
    (lt : Pixel → Pixel → Bool) (stateMap : StateMap) (boundingPolygons : List Coast)
    (cellGroundTileMap : List (Pixel × List GroundTile)) (coord : Pixel) :
    List (Pixel × List GroundTile) :=
  let tiles := getList cellGroundTileMap coord
  let cellBoundaries := CellBoundaries.make stateMap coord
  if ContainsCoord coordEq tiles (cellBoundaries.borderCoords.getD 0 ⟨0, 0, false⟩) ||
      ContainsCoord coordEq tiles (cellBoundaries.borderCoords.getD 1 ⟨0, 0, false⟩) ||
      ContainsCoord coordEq tiles (cellBoundaries.borderCoords.getD 2 ⟨0, 0, false⟩) ||
      ContainsCoord coordEq tiles (cellBoundaries.borderCoords.getD 3 ⟨0, 0, false⟩) then
    cellGroundTileMap
  else if !IsCellInBoundingPolygon isAreaAtLeastPartlyInArea
      (CellBoundaries.make stateMap coord) boundingPolygons then
    cellGroundTileMap
  else if FillWaterAroundIsland.fillWater coordEq stateMap cellGroundTileMap coord
      cellBoundaries then
    pushFrontAt lt cellGroundTileMap coord (FillWaterAroundIsland.tile cellBoundaries)
  else cellGroundTileMap

/-- Embedding of `FillWaterAroundIsland`.  The loop runs over the keys of the map, which it
does not change, and every pass reads the lists that the passes before it left.  The
parameters `stateMap` and `cellGroundTileMap` are references; the result is the pair of their
values at the end. -/
def FillWaterAroundIsland (coordEq : GroundTile.Coord → GroundTile.Coord → Bool)
    (isAreaAtLeastPartlyInArea : List GeoCoord → List Point → Bool)
    (lt : Pixel → Pixel → Bool) (stateMap : StateMap)
    (cellGroundTileMap : List (Pixel × List GroundTile)) (boundingPolygons : List Coast) :
    StateMap × List (Pixel × List GroundTile) :=
  (stateMap,
    (cellGroundTileMap.map Prod.fst).foldl
      (FillWaterAroundIsland.cell coordEq isAreaAtLeastPartlyInArea lt stateMap
        boundingPolygons) cellGroundTileMap)

/-- Modelled from the spec: the comparison `operator==` of `GroundTile::Coord`, declared in an
absent header: two coordinates are equal if they are the same position of the cell. -/
def GroundTile.Coord.eq (a b : GroundTile.Coord) : Bool := decide (a.x = b.x ∧ a.y = b.y)

/-- The condition of `FillWaterAroundIsland` for the cell `coord`, read in the map
`cellGroundTileMap`: no tile of the cell has one of the four `borderCoords`, the cell lies in
a bounding polygon, and one of the four tests of the neighbours finds water. -/
def FillWaterAroundIsland.fills (coordEq : GroundTile.Coord → GroundTile.Coord → Bool)
    (isAreaAtLeastPartlyInArea : List GeoCoord → List Point → Bool)
    (stateMap : StateMap) (boundingPolygons : List Coast)
    (cellGroundTileMap : List (Pixel × List GroundTile)) (coord : Pixel) : Prop :=
  (∀ tile ∈ getList cellGroundTileMap coord, ∀ c ∈ tile.coords,
    ∀ corner ∈ (CellBoundaries.make stateMap coord).borderCoords, coordEq c corner = false) ∧
  IsCellInBoundingPolygon isAreaAtLeastPartlyInArea (CellBoundaries.make stateMap coord)
    boundingPolygons = true ∧
  ((coord.y > 0 ∧ ContainsWater coordEq ⟨coord.x, coord.y - 1⟩ stateMap cellGroundTileMap
      ⟨0, GroundTile.Coord.CELL_MAX, false⟩
      ⟨GroundTile.Coord.CELL_MAX, GroundTile.Coord.CELL_MAX, false⟩ = true) ∨
   ContainsWater coordEq ⟨coord.x, (coord.y + 1) % U32⟩ stateMap cellGroundTileMap
      ⟨GroundTile.Coord.CELL_MAX, 0, false⟩ ⟨0, 0, false⟩ = true ∨
   (coord.x > 0 ∧ ContainsWater coordEq ⟨coord.x - 1, coord.y⟩ stateMap cellGroundTileMap
      ⟨0, GroundTile.Coord.CELL_MAX, false⟩ ⟨0, 0, false⟩ = true) ∨
   ContainsWater coordEq ⟨(coord.x + 1) % U32, coord.y⟩ stateMap cellGroundTileMap
      ⟨GroundTile.Coord.CELL_MAX, GroundTile.Coord.CELL_MAX, false⟩
      ⟨GroundTile.Coord.CELL_MAX, 0, false⟩ = true)

/-- The list `candidates` that the first loop of `FindSiblingIntersection` collects: the
intersections of `intersectionsCW` with the coastline of `intersection` and the direction of
the search, in the order of `intersectionsCW`. -/
def FindSiblingIntersection.candidates (intersection : Intersection)
    (intersectionsCW : List IntersectionRef) : List IntersectionRef :=
  intersectionsCW.filter (fun i =>
    decide (intersection.coastline = i.obj.coastline ∧ i.obj.direction =
      (if intersection.direction = Direction.in_ then Direction.out else Direction.in_)))

/-- The step of the two loops over `candidates` in `FindSiblingIntersection`, for the lemmas
about them: a candidate with `sat` replaces the result if there is none yet or if the
candidate is `better`. -/
def FindSiblingIntersection.step {α : Type} (sat : α → Prop) [DecidablePred sat]
    (better : α → α → Prop) [DecidableRel better] (result : Option α) (i : α) : Option α :=
  if sat i then
    match result with
    | none => some i
    | some r => if better i r then some i else some r
  else result

/-! ### The counters of WalkBoundaryCW

`WalkBoundaryCW.counted` is `WalkBoundaryCW` with two counters in its result: the value of the
variable `step` at the return, and the number `walks` of the walk steps that the call went:
the calls of `WalkPath` in `WalkBoundaryCW` and the calls of `WalkFromTripoint` that returned
`true`. -/

/-- The loop `while (!pathEnd)` of `WalkBoundaryCW` with the counters; see
`WalkBoundaryCW.tripoints`.  The result of the loop comes with the values of `step` and of
`walks` at the end of the loop, also where the loop ends with `return false`. -/
def WalkBoundaryCW.tripointsCounted (stateMap : StateMap)
    (intersectionsCW : List IntersectionRef) (cellBoundaries : CellBoundaries) (data : Data)
    (containingPaths : List Nat) (coastline : CoastlineData) :
    Nat → Nat → Nat → Intersection → GroundTile →
      Option (Option (GroundTile × IntersectionRef) × Nat × Nat)
  | 0, _, _, _, _ => none
  | fuel + 1, step, walks, pathStart, groundTile =>
    if coastline.isArea then some (none, step, walks)
    else
      match WalkFromTripoint groundTile stateMap cellBoundaries pathStart none data
          intersectionsCW containingPaths with
      | none => none
      | some none => some (none, step, walks)
      | some (some (groundTile, pathStart, pathEnd)) =>
        let step := step + 1
        let walks := walks + 1
        if step > 1000 then some (none, step, walks)
        else
          match pathEnd with
          | some pathEnd => some (some (groundTile, pathEnd), step, walks)
          | none =>
            WalkBoundaryCW.tripointsCounted stateMap intersectionsCW cellBoundaries data
              containingPaths coastline fuel step walks pathStart groundTile

/-- The part of the loop body of `WalkBoundaryCW` up to the walk along the coastline, with
the counters; see `WalkBoundaryCW.path`. -/
def WalkBoundaryCW.pathCounted (stateMap : StateMap) (intersectionsCW : List IntersectionRef)
    (cellBoundaries : CellBoundaries) (data : Data) (containingPaths : List Nat)
    (fuel step walks : Nat) (pathStart : IntersectionRef) (groundTile : GroundTile) :
    Option (Option (GroundTile × IntersectionRef) × Nat × Nat) :=
  let coastline := data.coastlines.getD pathStart.obj.coastline CoastlineData.none
  match FindSiblingIntersection pathStart.obj intersectionsCW coastline.isArea with
  | none =>
    let isIn : Bool := decide (pathStart.obj.direction = Direction.in_)
    let tripoint :=
      if isIn then coastline.points.getD ((coastline.points.length + U64 - 1) % U64) ⟨0, 0⟩
      else coastline.points.getD 0 ⟨0, 0⟩
    let end_ : Intersection :=
      { coastline := pathStart.obj.coastline,
        prevWayPointIndex := if isIn then (coastline.points.length + U64 - 1) % U64 else 0,
        point := tripoint, distanceSquare := 0,
        direction := if isIn then Direction.out else Direction.in_,
        borderIndex := 0 }
    match WalkPath groundTile stateMap cellBoundaries pathStart.obj end_ coastline with
    | none => none
    | some groundTile =>
      WalkBoundaryCW.tripointsCounted stateMap intersectionsCW cellBoundaries data
        containingPaths coastline fuel step (walks + 1) pathStart.obj groundTile
  | some pathEnd =>
    match WalkPath groundTile stateMap cellBoundaries pathStart.obj pathEnd.obj coastline with
    | none => none
    | some groundTile => some (some (groundTile, pathEnd), step, walks + 1)

/-- The loop of `WalkBoundaryCW` with the counters; see `WalkBoundaryCW.loop`.  The result is
the result of `WalkBoundaryCW`, the ground tile, the set of the visited intersections, the
value of `step` and the number of the walk steps. -/
def WalkBoundaryCW.loopCounted (stateMap : StateMap) (startIntersection : IntersectionRef)
    (intersectionsCW : List IntersectionRef) (cellBoundaries : CellBoundaries) (data : Data)
    (containingPaths : List Nat) :
    Nat → Nat → Nat → IntersectionRef → GroundTile → List Nat →
      Option (Bool × GroundTile × List Nat × Nat × Nat)
  | 0, _, _, _, _, _ => none
  | fuel + 1, step, walks, pathStart, groundTile, visitedIntersections =>
    if step = 0 ∨ pathStart.addr ≠ startIntersection.addr then
      let visitedIntersections := visitedInsert visitedIntersections pathStart.addr
      match WalkBoundaryCW.pathCounted stateMap intersectionsCW cellBoundaries data
          containingPaths fuel step walks pathStart groundTile with
      | none => none
      | some (none, step, walks) => some (false, groundTile, visitedIntersections, step, walks)
      | some (some (groundTile, pathEnd), step, walks) =>
        let step := step + 1
        if step > 1000 then some (false, groundTile, visitedIntersections, step, walks)
        else
          match GetNextCW intersectionsCW pathEnd with
          | none => none
          | some pathStart =>
            match WalkBorderCW groundTile stateMap cellBoundaries.latMin cellBoundaries.lonMin
                pathEnd.obj pathStart.obj cellBoundaries.borderCoords with
            | none => none
            | some groundTile =>
              WalkBoundaryCW.loopCounted stateMap startIntersection intersectionsCW
                cellBoundaries data containingPaths fuel step walks pathStart groundTile
                visitedIntersections
    else some (true, groundTile, visitedIntersections, step, walks)

/-- The function `WalkBoundaryCW` with the counters `step` and `walks` in its result. -/
def WalkBoundaryCW.counted (groundTile : GroundTile) (stateMap : StateMap)
    (startIntersection : IntersectionRef) (intersectionsCW : List IntersectionRef)
    (visitedIntersections : List Nat) (cellBoundaries : CellBoundaries) (data : Data)
    (containingPaths : List Nat) : Option (Bool × GroundTile × List Nat × Nat × Nat) :=
  WalkBoundaryCW.loopCounted stateMap startIntersection intersectionsCW cellBoundaries data
    containingPaths 1002 0 0 startIntersection
    (groundTile.push (Transform startIntersection.obj.point stateMap cellBoundaries.latMin
      cellBoundaries.lonMin false))
    visitedIntersections

/-! ### CalculateCoastlineData

The first loop of `CalculateCoastlineData` calls the class `TransPolygon`, which is not part
of the sources; it is not embedded.  Its result are the vectors `transformedCoastlines` and
`coasts`, which have their null pointers at the same places, where the first loop left a
coastline out; the embedding takes them as one list of optional pairs of a `CoastlineData`
and its `Coast`.  `FindPathIntersections` for vectors of `GeoCoord` and `GetBoundingBox` are
declared in absent headers; they are the parameters `findPathIntersections` and
`getBoundingBox`. -/

/-- The loop of `CalculateCoastlineData` that sets `haveAreas` and `haveWays`; it is left by
`break` when both are set. -/
def CalculateCoastlineData.kinds
    (transformedCoastlines : List (Option (CoastlineData × Coast))) : Bool × Bool :=
  transformedCoastlines.foldl (fun s e =>
    if s.1 && s.2 then s
    else
      match e with
      | none => s
      | some c => (s.1 || c.1.isArea, s.2 || !c.1.isArea)) (false, false)

/-- Body of the inner loop of the filter of `CalculateCoastlineData` for the indices
`i = ij.1` and `j = ij.2`. -/
def CalculateCoastlineData.filterPair
    (findPathIntersections : List GeoCoord → List GeoCoord → Bool → Bool →
      List PathIntersection)
    (transformedCoastlines : List (Option (CoastlineData × Coast))) (ij : Nat × Nat) :
    List (Option (CoastlineData × Coast)) :=
  match transformedCoastlines.getD ij.1 none with
  | none => transformedCoastlines
  | some a =>
    match transformedCoastlines.getD ij.2 none with
    | none => transformedCoastlines
    | some b =>
      if a.1.isArea = b.1.isArea then transformedCoastlines
      else if findPathIntersections a.1.points b.1.points a.1.isArea b.1.isArea ≠ [] then
        if a.1.isArea = true ∧ b.1.isArea = false then transformedCoastlines.set ij.1 none
        else if b.1.isArea = true ∧ a.1.isArea = false then
          transformedCoastlines.set ij.2 none
        else transformedCoastlines
      else transformedCoastlines

/-- The pairs `(i,j)` of the two loops `for (i=0; i<n; i++)`, `for (j=i+1; j<n; j++)`, in the
order of the passes. -/
def CalculateCoastlineData.pairs (n : Nat) : List (Nat × Nat) :=
  (List.range n).flatMap (fun i => (List.range' (i + 1) (n - (i + 1))).map (fun j => (i, j)))

/-- The filter of `CalculateCoastlineData`: the part from `bool haveAreas=false` to the end
of the block `if (haveAreas && haveWays)`. -/
def CalculateCoastlineData.filter
    (findPathIntersections : List GeoCoord → List GeoCoord → Bool → Bool →
      List PathIntersection)
    (transformedCoastlines : List (Option (CoastlineData × Coast))) :
    List (Option (CoastlineData × Coast)) :=
  let kinds := CalculateCoastlineData.kinds transformedCoastlines
  if kinds.1 && kinds.2 then
    (CalculateCoastlineData.pairs transformedCoastlines.length).foldl
      (CalculateCoastlineData.filterPair findPathIntersections) transformedCoastlines
  else transformedCoastlines

/-- Body of the last loop of `CalculateCoastlineData`.  The state is `data` and the number of
the `Intersection` objects allocated so far; `curCoast` is the number of the coastlines
assigned so far, which are the elements of `data.coastlines` in the embedding. -/
def CalculateCoastlineData.cover (lt : Pixel → Pixel → Bool)
    (getLineIntersection : GeoCoord → GeoCoord → GeoCoord → GeoCoord → Option GeoCoord)
    (distanceSquare : GeoCoord → GeoCoord → ℚ) (getBoundingBox : List Point → GeoBox)
    (stateMap : StateMap) (st : Data × Nat) (e : Option (CoastlineData × Coast)) :
    Data × Nat :=
  match e with
  | none => st
  | some (coastline, coast) =>
    let data := st.1
    let curCoast := data.coastlines.length
    let boundingBox := getBoundingBox coast.coast
    let cxMin := toU32 ⌊(boundingBox.minCoord.lon + 180) / stateMap.cellWidth⌋
    let cxMax := toU32 ⌊(boundingBox.maxCoord.lon + 180) / stateMap.cellWidth⌋
    let cyMin := toU32 ⌊(boundingBox.minCoord.lat + 90) / stateMap.cellHeight⌋
    let cyMax := toU32 ⌊(boundingBox.maxCoord.lat + 90) / stateMap.cellHeight⌋
    if cxMin = cxMax ∧ cyMin = cyMax then
      let coastline := { coastline with cell := ⟨cxMin, cyMin⟩, isCompletelyInCell := true }
      let covered :=
        if stateMap.IsInAbsolute cxMin cyMin then
          pushBackAt lt data.cellCoveredCoastlines
            ⟨cxMin - stateMap.cellXStart, cyMin - stateMap.cellYStart⟩ curCoast
        else data.cellCoveredCoastlines
      let coastlines := data.coastlines ++ [coastline]
      ({ data with coastlines := coastlines, cellCoveredCoastlines := covered }, st.2)
    else
      let r := GetCellIntersections lt getLineIntersection distanceSquare stateMap
        coastline.points curCoast coastline.cellIntersections st.2
      let coastline := { coastline with isCompletelyInCell := false, cellIntersections := r.1 }
      let cellCoastlines :=
        r.1.foldl (fun m entry => pushBackAt lt m entry.1 curCoast) data.cellCoastlines
      let coastlines := data.coastlines ++ [coastline]
      ({ data with coastlines := coastlines, cellCoastlines := cellCoastlines }, r.2)

/-- Embedding of `CalculateCoastlineData` behind its first loop: the filter and the loop that
fills `data`.  The source assigns the coastlines to the places `0`, `1`, ... of
`data.coastlines` and cuts the vector behind the last one: the coastlines that `data` held
before are gone.  `next` is the number of `Intersection` objects allocated before the call. -/
def CalculateCoastlineData
    (findPathIntersections : List GeoCoord → List GeoCoord → Bool → Bool →
      List PathIntersection)
    (lt : Pixel → Pixel → Bool)
    (getLineIntersection : GeoCoord → GeoCoord → GeoCoord → GeoCoord → Option GeoCoord)
    (distanceSquare : GeoCoord → GeoCoord → ℚ) (getBoundingBox : List Point → GeoBox)
    (stateMap : StateMap) (transformedCoastlines : List (Option (CoastlineData × Coast)))
    (data : Data) (next : Nat) : Data × Nat :=
  (CalculateCoastlineData.filter findPathIntersections transformedCoastlines).foldl
    (CalculateCoastlineData.cover lt getLineIntersection distanceSquare getBoundingBox
      stateMap)
    ({ data with coastlines := [] }, next)

/-- The fields of a coastline that the last loop of `CalculateCoastlineData` does not
assign. -/
def CoastlineData.core (c : CoastlineData) : Int × Bool × List GeoCoord × CoastState × CoastState :=
  (c.id, c.isArea, c.points, c.left, c.right)

/-- Modelled from the spec: `GetBoundingBox` of a list of points, declared in an absent
header: the smallest box that holds the points; the box of no points is `(0,0)..(0,0)`. -/
def GetBoundingBox (points : List Point) : GeoBox :=
  match points with
  | [] => { minCoord := ⟨0, 0⟩, maxCoord := ⟨0, 0⟩ }
  | p :: rest =>
    rest.foldl (fun box q =>
      { minCoord := ⟨min box.minCoord.lat q.coord.lat, min box.minCoord.lon q.coord.lon⟩,
        maxCoord := ⟨max box.maxCoord.lat q.coord.lat, max box.maxCoord.lon q.coord.lon⟩ })
      { minCoord := p.coord, maxCoord := p.coord }

/-- What the filter of `CalculateCoastlineData` did to the vector `tc0` to get the vector
`tc`: every place is as it was, or it held an area that has an intersection with a way of the
vector and is null now. -/
def CalculateCoastlineData.Filtered
    (findPathIntersections : List GeoCoord → List GeoCoord → Bool → Bool →
      List PathIntersection)
    (tc0 tc : List (Option (CoastlineData × Coast))) : Prop :=
  tc.length = tc0.length ∧
  ∀ k : Nat, tc[k]? = tc0[k]? ∨
    (tc[k]? = some none ∧ ∃ a : CoastlineData × Coast, tc0[k]? = some (some a) ∧
      a.1.isArea = true ∧
      ∃ (j : Nat) (w : CoastlineData × Coast), tc0[j]? = some (some w) ∧
        w.1.isArea = false ∧
        (findPathIntersections a.1.points w.1.points true false ≠ [] ∨
          findPathIntersections w.1.points a.1.points false true ≠ []))

/-- A bounding polygon: the square `0 ≤ lat ≤ 2`, `0 ≤ lon ≤ 2`, with the left side not
defined and water on its right. -/
def openPolygon : Coast :=
  { id := 2, isArea := true, left := CoastState.undefined, right := CoastState.undefined,
    coast := [⟨1, ⟨0, 0⟩⟩, ⟨2, ⟨2, 0⟩⟩, ⟨3, ⟨2, 2⟩⟩, ⟨4, ⟨0, 2⟩⟩, ⟨1, ⟨0, 0⟩⟩] }

/-- An island inside of `squarePolygon`: the square `1/2 ≤ lat ≤ 1`, `1/2 ≤ lon ≤ 1`, land
on its left and water on its right. -/
def innerIsland : Coast :=
  { id := 40, isArea := true, left := CoastState.land, right := CoastState.water,
    coast := [⟨41, ⟨1/2, 1/2⟩⟩, ⟨42, ⟨1, 1/2⟩⟩, ⟨43, ⟨1, 1⟩⟩, ⟨44, ⟨1/2, 1⟩⟩, ⟨41, ⟨1/2, 1/2⟩⟩] }

/-- An island outside of `squarePolygon`: the square `3 ≤ lat ≤ 4`, `3 ≤ lon ≤ 4`. -/
def outerIsland : Coast :=
  { id := 50, isArea := true, left := CoastState.land, right := CoastState.water,
    coast := [⟨51, ⟨3, 3⟩⟩, ⟨52, ⟨4, 3⟩⟩, ⟨53, ⟨4, 4⟩⟩, ⟨54, ⟨3, 4⟩⟩, ⟨51, ⟨3, 3⟩⟩] }

/-- A land tile of an island in the middle of a cell: no coordinate lies on a border. -/
def islandTile : GroundTile :=
  { type := GroundTile.TileType.land,
    coords := [⟨8192, 8192, true⟩, ⟨8192, 16384, true⟩, ⟨16384, 16384, true⟩,
               ⟨8192, 8192, false⟩] }

/-- The water tile over a whole cell. -/
def cellWaterTile : GroundTile :=
  { type := GroundTile.TileType.water,
    coords := [⟨0, 32767, false⟩, ⟨32767, 32767, false⟩, ⟨32767, 0, false⟩, ⟨0, 0, false⟩] }

/-- The `3 × 2` map with the cell `(1,0)` of an island: its left neighbour `(0,0)` is
`water`, its right neighbour `(2,0)` and the neighbour `(1,1)` are `land`. -/
def oneWaterMap : StateMap :=
  (((smallMap.SetState 0 0 State.water).SetState 1 0 State.coast).SetState 2 0
    State.land).SetState 1 1 State.land

/-- The `3 × 2` map with the cell `(1,0)` of an island and the coast cell `(0,0)` left of it;
the other two neighbours are `land`. -/
def coastRowMap : StateMap :=
  (((smallMap.SetState 0 0 State.coast).SetState 1 0 State.coast).SetState 2 0
    State.land).SetState 1 1 State.land

/-- A water tile of the cell `(0,0)` with two coordinates on its right border, the border
that it shares with the cell `(1,0)`: the two ends of this border. -/
def sharedBorderTile : GroundTile :=
  { type := GroundTile.TileType.water,
    coords := [⟨32767, 0, false⟩, ⟨16384, 16384, true⟩, ⟨32767, 32767, false⟩] }

/-- A water tile of the cell `(0,0)` with two coordinates on its left border, the border that
lies across from the cell `(1,0)`: the two ends of this border. -/
def farBorderTile : GroundTile :=
  { type := GroundTile.TileType.water,
    coords := [⟨0, 0, false⟩, ⟨0, 32767, false⟩, ⟨16384, 16384, true⟩] }

/-- The points of an area coastline that starts inside of the cell `(180,90)`, goes into the
cell `(181,90)` and comes back to its first point. -/
def ringPoints : List GeoCoord := [⟨1/2, 1/2⟩, ⟨1/4, 3/2⟩, ⟨3/4, 3/2⟩, ⟨1/2, 1/2⟩]

/-- The intersection of `ringPoints` with the right border of the cell `(180,90)` on the way
out, on the segment `0`. -/
def ringOut : IntersectionRef :=
  ⟨0, { coastline := 0, prevWayPointIndex := 0, point := ⟨3/8, 1⟩, distanceSquare := 17/64,
        direction := Direction.out, borderIndex := 1 }⟩

/-- The intersection of `ringPoints` with the right border of the cell `(180,90)` on the way
back, on the segment `2`. -/
def ringIn : IntersectionRef :=
  ⟨4, { coastline := 0, prevWayPointIndex := 2, point := ⟨5/8, 1⟩, distanceSquare := 17/64,
        direction := Direction.in_, borderIndex := 1 }⟩

/-- Two way coastlines for a walk that does not come back to its start: the first one with
three points, the second one with two. -/
def circlingData : Data :=
  { coastlines :=
      [{ id := 1, isArea := false, isCompletelyInCell := false, cell := ⟨0, 0⟩,
         points := [⟨1/4, 1/4⟩, ⟨1/2, 1/2⟩, ⟨3/4, 1/4⟩],
         left := CoastState.land, right := CoastState.water, cellIntersections := [] },
       { id := 2, isArea := false, isCompletelyInCell := false, cell := ⟨0, 0⟩,
         points := [⟨1/4, 3/4⟩, ⟨3/4, 3/4⟩],
         left := CoastState.land, right := CoastState.water, cellIntersections := [] }],
    cellCoastlines := [(⟨0, 0⟩, [0, 1])], cellCoveredCoastlines := [] }

/-- The intersections of a cell with `circlingData`, in the order of the list
`intersectionsCW`: the coastline `0` comes in at the addresses `0` and `4` and goes out at
the address `1` behind both, the coastline `1` comes in at the address `2` and goes out at the
address `3`. -/
def circlingCW : List IntersectionRef :=
  [⟨0, { coastline := 0, prevWayPointIndex := 0, point := ⟨0, 1/4⟩, distanceSquare := 0,
         direction := Direction.in_, borderIndex := 2 }⟩,
   ⟨1, { coastline := 0, prevWayPointIndex := 2, point := ⟨1, 1/4⟩, distanceSquare := 0,
         direction := Direction.out, borderIndex := 0 }⟩,
   ⟨2, { coastline := 1, prevWayPointIndex := 0, point := ⟨1, 3/4⟩, distanceSquare := 0,
         direction := Direction.in_, borderIndex := 0 }⟩,
   ⟨3, { coastline := 1, prevWayPointIndex := 1, point := ⟨0, 3/4⟩, distanceSquare := 0,
         direction := Direction.out, borderIndex := 2 }⟩,
   ⟨4, { coastline := 0, prevWayPointIndex := 1, point := ⟨0, 1/2⟩, distanceSquare := 0,
         direction := Direction.in_, borderIndex := 2 }⟩]

/-- A stand-in for `FindPathIntersections` on vectors of `GeoCoord`: the one for points, with
the serial number `0` for every point. -/
def FindPathIntersectionsCoord (a b : List GeoCoord) (aIsArea bIsArea : Bool) :
    List PathIntersection :=
  FindPathIntersections (a.map (fun c => ⟨0, c⟩)) (b.map (fun c => ⟨0, c⟩)) aIsArea bIsArea

/-- The points of an island, as an area coastline and as the `Coast` it was made of. -/
def crossedIsland : CoastlineData × Coast :=
  ({ id := 40, isArea := true, isCompletelyInCell := false, cell := ⟨0, 0⟩,
     points := [⟨1/4, 1/4⟩, ⟨3/4, 1/4⟩, ⟨3/4, 3/4⟩, ⟨1/4, 1/4⟩],
     left := CoastState.land, right := CoastState.water, cellIntersections := [] },
   { id := 40, isArea := true, left := CoastState.land, right := CoastState.water,
     coast := [⟨1, ⟨1/4, 1/4⟩⟩, ⟨2, ⟨3/4, 1/4⟩⟩, ⟨3, ⟨3/4, 3/4⟩⟩, ⟨1, ⟨1/4, 1/4⟩⟩] })

/-- An island in the cell next to `crossedIsland`. -/
def freeIsland : CoastlineData × Coast :=
  ({ id := 41, isArea := true, isCompletelyInCell := false, cell := ⟨0, 0⟩,
     points := [⟨1/4, 5/4⟩, ⟨3/4, 5/4⟩, ⟨3/4, 7/4⟩, ⟨1/4, 5/4⟩],
     left := CoastState.land, right := CoastState.water, cellIntersections := [] },
   { id := 41, isArea := true, left := CoastState.land, right := CoastState.water,
     coast := [⟨4, ⟨1/4, 5/4⟩⟩, ⟨5, ⟨3/4, 5/4⟩⟩, ⟨6, ⟨3/4, 7/4⟩⟩, ⟨4, ⟨1/4, 5/4⟩⟩] })

/-- A way coastline that runs through `crossedIsland`. -/
def crossingCoast : CoastlineData × Coast :=
  ({ id := 42, isArea := false, isCompletelyInCell := false, cell := ⟨0, 0⟩,
     points := [⟨1/2, 1/8⟩, ⟨1/2, 7/8⟩],
     left := CoastState.land, right := CoastState.water, cellIntersections := [] },
   { id := 42, isArea := false, left := CoastState.land, right := CoastState.water,
     coast := [⟨7, ⟨1/2, 1/8⟩⟩, ⟨8, ⟨1/2, 7/8⟩⟩] })

/-- Manhattan distance of the cells `(x,y)` and `(u,v)`. -/
def manhattan (x y u v : Nat) : Nat :=
  (x - u) + (u - x) + ((y - v) + (v - y))

/-- The pattern that a scan of `FillLand` fills, at the position `i` of a line of `count`
cells with the states `g`: the cell `i` is `land`, the cells after it up to a cell `k` of the
line are `unknown`, there is at least one of them, and the cell `k` is `coast` or `land`. -/
def GapAt (g : Nat → State) (count i : Nat) : Prop :=
  g i = State.land ∧ ∃ k, i + 1 < k ∧ k < count ∧
    (∀ j, i < j → j < k → g j = State.unknown) ∧ (g k = State.coast ∨ g k = State.land)

/-- The line of `count` cells with the states `g` holds the pattern
`land · unknown+ · (coast|land)`. -/
def LandGap (g : Nat → State) (count : Nat) : Prop :=
  ∃ i, GapAt g count i

/-- The entry `state[k]` of the local array `state[4]` of `CalculateCoastEnvironment`. -/
def CoastEnv.state (env : CoastEnv) : Nat → State
  | 0 => env.state0
  | 1 => env.state1
  | 2 => env.state2
  | _ => env.state3

/-- The test of `CalculateCoastEnvironment` for a fill over the complete border `k` (top,
right, bottom, left) on two consecutive coordinates of a tile. -/
def CalculateCoastEnvironment.borderLine (k : Nat) (cur next : GroundTile.Coord) : Prop :=
  match k with
  | 0 => cur.x = 0 ∧ cur.y = GroundTile.Coord.CELL_MAX ∧
      next.x = GroundTile.Coord.CELL_MAX ∧ next.y = GroundTile.Coord.CELL_MAX
  | 1 => cur.x = GroundTile.Coord.CELL_MAX ∧ cur.y = GroundTile.Coord.CELL_MAX ∧
      next.x = GroundTile.Coord.CELL_MAX ∧ next.y = 0
  | 2 => cur.x = GroundTile.Coord.CELL_MAX ∧ cur.y = 0 ∧ next.x = 0 ∧ next.y = 0
  | _ => cur.x = 0 ∧ cur.y = 0 ∧ next.x = 0 ∧ next.y = GroundTile.Coord.CELL_MAX

/-- The tile has two consecutive coordinates that run along the whole border `k`. -/
def CalculateCoastEnvironment.fullBorder (k : Nat) (tile : GroundTile) : Prop :=
  ∃ c, c + 1 < tile.coords.length ∧
    CalculateCoastEnvironment.borderLine k (tile.coords.getD c ⟨0, 0, false⟩)
      (tile.coords.getD (c + 1) ⟨0, 0, false⟩)

/-- The neighbour of the cell `coord` on the side `k` (top, right, bottom, left). -/
def CalculateCoastEnvironment.neighbour (k : Nat) (coord : Pixel) : Pixel :=
  match k with
  | 0 => ⟨coord.x, coord.y + 1⟩
  | 1 => ⟨coord.x + 1, coord.y⟩
  | 2 => ⟨coord.x, coord.y - 1⟩
  | _ => ⟨coord.x - 1, coord.y⟩

/-- The neighbour of the in-range cell `coord` on the side `k` is inside of the map. -/
def CalculateCoastEnvironment.inside (k : Nat) (m : StateMap) (coord : Pixel) : Prop :=
  match k with
  | 0 => coord.y + 1 < m.cellYCount
  | 1 => coord.x + 1 < m.cellXCount
  | 2 => 0 < coord.y
  | _ => 0 < coord.x

/-- The values of `state[4]` and `coordCount[4]` after the four blocks `Preset`. -/
def CalculateCoastEnvironment.preset (stateMap : StateMap) (coord : Pixel) : CoastEnv :=
  { state0 := if coord.y < subOne32 stateMap.cellYCount
              then stateMap.GetState coord.x (coord.y + 1) else State.unknown,
    state1 := if coord.x < subOne32 stateMap.cellXCount
              then stateMap.GetState (coord.x + 1) coord.y else State.unknown,
    state2 := if coord.y > 0 then stateMap.GetState coord.x (coord.y - 1)
              else State.unknown,
    state3 := if coord.x > 0 then stateMap.GetState (coord.x - 1) coord.y
              else State.unknown,
    coordCount0 := 0, coordCount1 := 0, coordCount2 := 0, coordCount3 := 0 }

/-- One of the four blocks at the end of the loop body of `CalculateCoastEnvironment`: under
the guard `g` an `unknown` cell `(x,y)` gets the state `s`, if `s` is not `unknown`. -/
def CalculateCoastEnvironment.assume (g : Prop) [Decidable g] (m : StateMap) (x y : Nat)
    (s : State) : StateMap :=
  if g ∧ m.GetState x y = State.unknown then
    (if s ≠ State.unknown then m.SetState x y s else m)
  else m

/-- The local variable `tripoint` of `WalkFromTripoint`. -/
def WalkFromTripoint.tripoint (pathStart : Intersection) (data : Data) : GeoCoord :=
  let coastline := data.coastlines.getD pathStart.coastline CoastlineData.none
  if decide (pathStart.direction = Direction.in_) then
    coastline.points.getD (coastline.points.length - 1) ⟨0, 0⟩
  else coastline.points.getD 0 ⟨0, 0⟩

/-- The local variable `previousPoint` of `WalkFromTripoint`. -/
def WalkFromTripoint.previousPoint (pathStart : Intersection) (data : Data) : GeoCoord :=
  let coastline := data.coastlines.getD pathStart.coastline CoastlineData.none
  if decide (pathStart.direction = Direction.in_) then
    coastline.points.getD (coastline.points.length - 2) ⟨0, 0⟩
  else coastline.points.getD 1 ⟨0, 0⟩

/-- The local variable `walkType` of `WalkFromTripoint`. -/
def WalkFromTripoint.walkType (pathStart : Intersection) (data : Data) : CoastState :=
  let coastline := data.coastlines.getD pathStart.coastline CoastlineData.none
  if decide (pathStart.direction = Direction.in_) then coastline.right else coastline.left

/-- The local vector `candidates` of `WalkFromTripoint`. -/
def WalkFromTripoint.candidates (intersectionsCW : List IntersectionRef)
    (containingPaths : List Nat) : List Nat :=
  intersectionsCW.map (fun i => i.obj.coastline) ++ containingPaths

/-- The coastline `pathIndex` passes the four tests of the loop over `candidates`: it is not
the incoming coastline, it has at least two points, it starts or ends at the tripoint, and
its right state, if it starts at the tripoint, or else its left state is the walk type. -/
def WalkFromTripoint.eligible (pathStart : Intersection) (data : Data) (tripoint : GeoCoord)
    (walkType : CoastState) (pathIndex : Nat) : Prop :=
  pathStart.coastline ≠ pathIndex ∧
  2 ≤ (data.coastlines.getD pathIndex CoastlineData.none).points.length ∧
  (tripoint = (data.coastlines.getD pathIndex CoastlineData.none).points.getD 0 ⟨0, 0⟩ ∨
    tripoint = (data.coastlines.getD pathIndex CoastlineData.none).points.getD
      ((data.coastlines.getD pathIndex CoastlineData.none).points.length - 1) ⟨0, 0⟩) ∧
  (tripoint = (data.coastlines.getD pathIndex CoastlineData.none).points.getD 0 ⟨0, 0⟩ →
    walkType = (data.coastlines.getD pathIndex CoastlineData.none).right) ∧
  (tripoint ≠ (data.coastlines.getD pathIndex CoastlineData.none).points.getD 0 ⟨0, 0⟩ →
    walkType = (data.coastlines.getD pathIndex CoastlineData.none).left)

instance (pathStart : Intersection) (data : Data) (tripoint : GeoCoord)
    (walkType : CoastState) (pathIndex : Nat) :
    Decidable (WalkFromTripoint.eligible pathStart data tripoint walkType pathIndex) := by
  unfold WalkFromTripoint.eligible; exact inferInstance

/-- The local variable `direction` of the loop over `candidates`. -/
def WalkFromTripoint.direction (data : Data) (tripoint : GeoCoord) (pathIndex : Nat) :
    Direction :=
  if tripoint = (data.coastlines.getD pathIndex CoastlineData.none).points.getD 0 ⟨0, 0⟩
  then Direction.out else Direction.in_

/-- The local variable `angle` of the loop over `candidates`: the cross product of
`tripoint - previousPoint` and `previousOutPoint - tripoint`, where `previousOutPoint` is the
point of the coastline `pathIndex` next to the tripoint. -/
def WalkFromTripoint.angle (data : Data) (tripoint previousPoint : GeoCoord)
    (pathIndex : Nat) : ℚ :=
  let path := data.coastlines.getD pathIndex CoastlineData.none
  let previousOutPoint :=
    if WalkFromTripoint.direction data tripoint pathIndex = Direction.out then
      path.points.getD 1 ⟨0, 0⟩
    else path.points.getD (path.points.length - 2) ⟨0, 0⟩
  (tripoint.lon - previousPoint.lon) * (previousOutPoint.lat - tripoint.lat) -
    (tripoint.lat - previousPoint.lat) * (previousOutPoint.lon - tripoint.lon)

/-- The intersection `outgoing` that the loop over `candidates` makes for the coastline
`pathIndex`. -/
def WalkFromTripoint.outgoingOf (data : Data) (tripoint : GeoCoord) (pathIndex : Nat) :
    Intersection :=
  { coastline := pathIndex,
    prevWayPointIndex :=
      if WalkFromTripoint.direction data tripoint pathIndex = Direction.in_ then
        (data.coastlines.getD pathIndex CoastlineData.none).points.length - 1 else 0,
    point := tripoint, distanceSquare := 0,
    direction :=
      if WalkFromTripoint.direction data tripoint pathIndex = Direction.in_ then Direction.out
      else Direction.in_,
    borderIndex := 0 }

/-- The intersection `outgoingEnd` that the loop over `candidates` sets for the coastline
`pathIndex`: the intersection of the coastline with the cell next to the tripoint, or else
the other end of the coastline. -/
def WalkFromTripoint.outgoingEndOf (data : Data) (intersectionsCW : List IntersectionRef)
    (tripoint : GeoCoord) (pathIndex : Nat) : Intersection :=
  match WalkFromTripoint.pathCell intersectionsCW pathIndex
      (WalkFromTripoint.direction data tripoint pathIndex) with
  | some p => p.obj
  | none =>
    { coastline := pathIndex,
      prevWayPointIndex :=
        if WalkFromTripoint.direction data tripoint pathIndex = Direction.in_ then 0
        else (data.coastlines.getD pathIndex CoastlineData.none).points.length - 1,
      point :=
        if WalkFromTripoint.direction data tripoint pathIndex = Direction.in_ then
          (data.coastlines.getD pathIndex CoastlineData.none).points.getD 0 ⟨0, 0⟩
        else (data.coastlines.getD pathIndex CoastlineData.none).points.getD
          ((data.coastlines.getD pathIndex CoastlineData.none).points.length - 1) ⟨0, 0⟩,
      distanceSquare := 0,
      direction := WalkFromTripoint.direction data tripoint pathIndex, borderIndex := 0 }

/-- The values of the local variables after the loop over `candidates` has taken the
coastline `pathIndex`. -/
def WalkFromTripoint.chosen (data : Data) (intersectionsCW : List IntersectionRef)
    (tripoint previousPoint : GeoCoord) (pathIndex : Nat) : WalkFromTripoint.Search :=
  { outgoing := some (WalkFromTripoint.outgoingOf data tripoint pathIndex),
    outgoingEnd := WalkFromTripoint.outgoingEndOf data intersectionsCW tripoint pathIndex,
    pathCellIntersection := WalkFromTripoint.pathCell intersectionsCW pathIndex
      (WalkFromTripoint.direction data tripoint pathIndex),
    outgoingAngle := WalkFromTripoint.angle data tripoint previousPoint pathIndex,
    outgoingCoastline := data.coastlines.getD pathIndex CoastlineData.none,
    intersectCell := (WalkFromTripoint.pathCell intersectionsCW pathIndex
      (WalkFromTripoint.direction data tripoint pathIndex)).isSome }

/-! ### WriteTiles: the offsets of the cells

`encodedBytes n` is the number of bytes that `EncodeNumber` and `WriteNumber` need for the
number `n`, `bytesNeeded n` the value of `BytesNeededToEncodeNumber(n)`; both functions are
declared in absent headers and are parameters.  The position of the writer is a natural
number; a write moves it on by the number of bytes written.  `Level::dataOffsetBytes` is a
byte. -/

/-- Body of the loop over the tiles of a cell in the block `Calculate size of data` of
`WriteTiles`; `dataSize` is a `size_t`. -/
def WriteTiles.tileSize (encodedBytes : Nat → Nat) (dataSize : Nat) (tile : GroundTile) :
    Nat :=
  let dataSize := (dataSize + 1) % U64
  let dataSize := (dataSize + encodedBytes tile.coords.length) % U64
  (dataSize + (tile.coords.length * 2 % U64) * 2 % U64) % U64

/-- Body of the loop over the entries of the tile map in the block `Calculate size of
data`. -/
def WriteTiles.entrySize (encodedBytes : Nat → Nat) (dataSize : Nat)
    (coord : Pixel × List GroundTile) : Nat :=
  coord.2.foldl (WriteTiles.tileSize encodedBytes)
    ((dataSize + encodedBytes coord.2.length) % U64)

/-- The value of `dataSize` after the block `Calculate size of data`. -/
def WriteTiles.dataSize (encodedBytes : Nat → Nat)
    (cellGroundTileMap : List (Pixel × List GroundTile)) : Nat :=
  cellGroundTileMap.foldl (WriteTiles.entrySize encodedBytes) 4

/-- Number of bytes that the block `Write data` writes for a tile: the type, the number
`(uint32_t) tile.coords.size()` and two bytes for every `uint16_t` value. -/
def WriteTiles.tileBytes (encodedBytes : Nat → Nat) (tile : GroundTile) : Nat :=
  1 + encodedBytes (tile.coords.length % U32) + 2 * (WriteTiles.tileWords tile).length

/-- Number of bytes that the block `Write data` writes for an entry of the tile map between
`startPos` and `endPos`. -/
def WriteTiles.entryBytes (encodedBytes : Nat → Nat) (coord : Pixel × List GroundTile) : Nat :=
  coord.2.foldl (fun n tile => n + WriteTiles.tileBytes encodedBytes tile)
    (encodedBytes (coord.2.length % U32))

/-- The position `level.indexDataOffset+index` at which `WriteTiles` stores the offset of an
entry: `cellId` is a `uint32_t`, and its product with the byte `dataOffsetBytes` is taken in
32 bits before it becomes the `size_t` value `index`. -/
def WriteTiles.slotPos (level : Level) (coord : Pixel × List GroundTile) : Nat :=
  let cellId := (coord.1.y * level.stateMap.cellXCount + coord.1.x) % U32
  let index := cellId * level.dataOffsetBytes % U32
  level.indexDataOffset + index

/-- Body of the loop over the entries of the tile map in the block `Write data`.  The state
is the position of the writer and the list of the calls
`WriteFileOffset(startPos-dataOffset,dataOffsetBytes)` at the position
`indexDataOffset+index`, as pairs of the position and the offset. -/
def WriteTiles.writeEntry (encodedBytes : Nat → Nat) (level : Level) (dataOffset : Nat)
    (st : Nat × List (Nat × Nat)) (coord : Pixel × List GroundTile) :
    Nat × List (Nat × Nat) :=
  let startPos := st.1
  let endPos := startPos + WriteTiles.entryBytes encodedBytes coord
  (endPos, st.2 ++ [(WriteTiles.slotPos level coord, startPos - dataOffset)])

/-- The level after the blocks `Calculate size of data` and `Write bitmap` of `WriteTiles`
for a writer at the position `pos`. -/
def WriteTiles.indexLevel (encodedBytes bytesNeeded : Nat → Nat)
    (cellGroundTileMap : List (Pixel × List GroundTile)) (level : Level) (pos : Nat) : Level :=
  { level with
    dataOffsetBytes := bytesNeeded (WriteTiles.dataSize encodedBytes cellGroundTileMap) % 256,
    indexDataOffset := pos }

/-- The branch `level.hasCellData` of `WriteTiles` for a writer at the position `pos`: the
offsets that the block `Write data` stores into the bitmap, with their positions, in the
order of the entries of the tile map.  The bitmap has `dataOffsetBytes` bytes for every cell,
and four bytes follow it. -/
def WriteTiles.offsets (encodedBytes bytesNeeded : Nat → Nat)
    (cellGroundTileMap : List (Pixel × List GroundTile)) (level : Level) (pos : Nat) :
    List (Nat × Nat) :=
  let level := WriteTiles.indexLevel encodedBytes bytesNeeded cellGroundTileMap level pos
  let dataOffset :=
    pos + level.stateMap.cellYCount * level.stateMap.cellXCount * level.dataOffsetBytes
  (cellGroundTileMap.foldl (WriteTiles.writeEntry encodedBytes level dataOffset)
    (dataOffset + 4, [])).2

/-- The sum that `dataSize` holds if no addition wraps around: four bytes, and for every
entry the bytes of the number of its tiles and for every tile one byte, the bytes of the
number of its coordinates and four bytes for every coordinate. -/
def WriteTiles.exactSize (encodedBytes : Nat → Nat)
    (cellGroundTileMap : List (Pixel × List GroundTile)) : Nat :=
  4 + (cellGroundTileMap.map (fun coord => encodedBytes coord.2.length +
    (coord.2.map (fun tile =>
      1 + encodedBytes tile.coords.length + 4 * tile.coords.length)).sum)).sum

/-- The list of the stored offsets for entries whose data starts at the offset `off`. -/
def WriteTiles.slotList (encodedBytes : Nat → Nat) (level : Level) :
    Nat → List (Pixel × List GroundTile) → List (Nat × Nat)
  | _, [] => []
  | off, coord :: rest =>
    (WriteTiles.slotPos level coord, off) ::
      WriteTiles.slotList encodedBytes level (off + WriteTiles.entryBytes encodedBytes coord)
        rest

/-- Modelled from the spec: the number of bytes of the varint encoding of `n`, seven bits
per byte, for numbers below `2^63`; the encoder is declared in an absent header. -/
def varintBytes (n : Nat) : Nat :=
  ((List.range 8).filter (fun k => decide (128 ^ (k + 1) ≤ n))).length + 1

/-- Modelled from the spec: the minimum number of bytes that hold the number `n`, for
`BytesNeededToEncodeNumber`, which is declared in an absent header. -/
def byteCount (n : Nat) : Nat :=
  ((List.range 7).filter (fun k => decide (256 ^ (k + 1) ≤ n))).length + 1

/-- A way coastline that lies inside of `squarePolygon` and does not touch its border. -/
def innerWay : Coast :=
  { id := 60, isArea := false, left := CoastState.land, right := CoastState.water,
    coast := [⟨61, ⟨1/2, 1/2⟩⟩, ⟨62, ⟨1, 1⟩⟩, ⟨63, ⟨3/2, 1/2⟩⟩] }

/-- Five points with the serial numbers `0..4`. -/
def fivePoints : List Point :=
  [⟨0, ⟨0, 0⟩⟩, ⟨1, ⟨0, 1⟩⟩, ⟨2, ⟨1, 1⟩⟩, ⟨3, ⟨1, 0⟩⟩, ⟨4, ⟨2, 0⟩⟩]

/-- Two way coastlines with water on their right: the first one ends at the point `(1,1)`,
the second one starts there. -/
def tripointData : Data :=
  { coastlines :=
      [{ id := 1, isArea := false, isCompletelyInCell := false, cell := ⟨0, 0⟩,
         points := [⟨0, 0⟩, ⟨1, 1⟩], left := CoastState.land, right := CoastState.water,
         cellIntersections := [] },
       { id := 2, isArea := false, isCompletelyInCell := false, cell := ⟨0, 0⟩,
         points := [⟨1, 1⟩, ⟨2, 0⟩], left := CoastState.land, right := CoastState.water,
         cellIntersections := [] }],
    cellCoastlines := [], cellCoveredCoastlines := [] }

/-- The intersection at which the first coastline of `tripointData` comes into the cell. -/
def tripointStart : Intersection :=
  { coastline := 0, prevWayPointIndex := 0, point := ⟨1 / 2, 1 / 2⟩, distanceSquare := 1 / 2,
    direction := Direction.in_, borderIndex := 3 }

/-- An intersection of the second coastline of `tripointData` with the direction `in`. -/
def tripointEntry : IntersectionRef :=
  ⟨1, { coastline := 1, prevWayPointIndex := 0, point := ⟨3 / 2, 1 / 2⟩,
        distanceSquare := 1 / 2, direction := Direction.in_, borderIndex := 1 }⟩

/-- A tile that holds the point at which a walk has come into the cell and the tripoint. -/
def forkTile : GroundTile :=
  { type := GroundTile.TileType.water,
    coords := [⟨10922, 0, false⟩, ⟨16384, 16384, true⟩] }

/-- Five way coastlines in the cell `0 ≤ lat ≤ 1`, `0 ≤ lon ≤ 1`.  The first one comes into
the cell over its bottom border and ends at the tripoint `(1/2,1/2)`, the other four start at
the tripoint and end inside of the cell.  The coastlines `1`, `2` and `3` have water on their
right as the first one has, the coastline `4` has land on its right. -/
def forkData : Data :=
  { coastlines :=
      [{ id := 1, isArea := false, isCompletelyInCell := false, cell := ⟨0, 0⟩,
         points := [⟨-1 / 4, 1 / 4⟩, ⟨1 / 2, 1 / 2⟩], left := CoastState.land,
         right := CoastState.water, cellIntersections := [] },
       { id := 2, isArea := false, isCompletelyInCell := true, cell := ⟨0, 0⟩,
         points := [⟨1 / 2, 1 / 2⟩, ⟨3 / 4, 1 / 4⟩], left := CoastState.land,
         right := CoastState.water, cellIntersections := [] },
       { id := 3, isArea := false, isCompletelyInCell := true, cell := ⟨0, 0⟩,
         points := [⟨1 / 2, 1 / 2⟩, ⟨1 / 4, 3 / 4⟩], left := CoastState.land,
         right := CoastState.water, cellIntersections := [] },
       { id := 4, isArea := false, isCompletelyInCell := true, cell := ⟨0, 0⟩,
         points := [⟨1 / 2, 1 / 2⟩, ⟨1 / 2, 5 / 6⟩], left := CoastState.land,
         right := CoastState.water, cellIntersections := [] },
       { id := 5, isArea := false, isCompletelyInCell := true, cell := ⟨0, 0⟩,
         points := [⟨1 / 2, 1 / 2⟩, ⟨1 / 4, 7 / 8⟩], left := CoastState.water,
         right := CoastState.land, cellIntersections := [] }],
    cellCoastlines := [], cellCoveredCoastlines := [] }

/-- The intersection at which the first coastline of `forkData` comes into the cell. -/
def forkEntry : IntersectionRef :=
  ⟨1, { coastline := 0, prevWayPointIndex := 0, point := ⟨0, 1 / 3⟩,
        distanceSquare := 5 / 72, direction := Direction.in_, borderIndex := 2 }⟩

/-- The box of the cells of zoom level 16 west of 180° and south of 45° north. -/
def southBox : GeoBox :=
  { minCoord := ⟨-90, -180⟩,
    maxCoord := ⟨-90 + 98303 / 2 * (180 / 65536), 180 - 360 / 131072⟩ }

/-- The map of zoom level 16 over `southBox`: `65536 × 49152` cells. -/
def southMap : StateMap := StateMap.empty.SetBox southBox (360 / 65536) (180 / 65536)

/-- A level with the map `southMap`. -/
def southLevel : Level :=
  { level := 16, hasCellData := true, dataOffsetBytes := 0, defaultCellData := State.unknown,
    indexEntryOffset := 0, indexDataOffset := 0, stateMap := southMap }

/-- A tile map with one land tile of 64 coordinates in the cell `(0,32768)`. -/
def southTiles : List (Pixel × List GroundTile) :=
  [(⟨0, 32768⟩, [⟨GroundTile.TileType.land, List.replicate 64 ⟨0, 0, false⟩⟩])]

/-- A tile map with two cells: one land tile of three coordinates in the cell `(1,0)` and two
tiles in the cell `(2,1)`. -/
def twoCellTiles : List (Pixel × List GroundTile) :=
  [(⟨1, 0⟩, [⟨GroundTile.TileType.land,
      [⟨0, 0, false⟩, ⟨32767, 0, true⟩, ⟨0, 32767, true⟩]⟩]),
   (⟨2, 1⟩, [⟨GroundTile.TileType.water, [⟨0, 0, false⟩, ⟨32767, 0, true⟩]⟩,
      ⟨GroundTile.TileType.land, []⟩])]

/-- A level with the map `smallMap`. -/
def smallLevel : Level :=
  { level := 0, hasCellData := true, dataOffsetBytes := 0, defaultCellData := State.unknown,
    indexEntryOffset := 0, indexDataOffset := 0, stateMap := smallMap }

/-! # Lemmas and theorems -/

/-! ## Two-bit fields of a byte -/

theorem three_testBit (i : Nat) : Nat.testBit 3 i = decide (i < 2) := by
  have h := Nat.testBit_two_pow_sub_one 2 i
  simpa using h

theorem slotGet_testBit (b off i : Nat) :
    (slotGet b off).testBit i = (b.testBit (off + i) && decide (i < 2)) := by
  simp [slotGet, Nat.testBit_and, Nat.testBit_shiftRight, three_testBit]

theorem lt4_testBit (s i : Nat) (hs : s < 4) (hi : 2 ≤ i) : s.testBit i = false := by
  apply Nat.testBit_lt_two_pow
  calc s < 2 ^ 2 := by simpa using hs
    _ ≤ 2 ^ i := Nat.pow_le_pow_right (by norm_num) hi

theorem slotSet_testBit (b off s j : Nat) :
    (slotSet b off s).testBit j =
      ((b.testBit j && (xor (decide (j < 8)) (decide (off ≤ j) && decide (j - off < 2))))
        || (decide (off ≤ j) && s.testBit (j - off))) := by
  have h255 : (255 : Nat) = 2 ^ 8 - 1 := by norm_num
  have h3 : (3 : Nat) = 2 ^ 2 - 1 := by norm_num
  simp only [slotSet, Nat.testBit_or, Nat.testBit_and, Nat.testBit_xor, Nat.testBit_shiftLeft]
  rw [h255, Nat.testBit_two_pow_sub_one, h3, Nat.testBit_two_pow_sub_one]

theorem slotGet_slotSet_same (b off s : Nat) (hoff : off ≤ 6) (hs : s < 4) :
    slotGet (slotSet b off s) off = s := by
  apply Nat.eq_of_testBit_eq
  intro i
  rw [slotGet_testBit, slotSet_testBit]
  by_cases hi : i < 2
  · have h1 : off + i < 8 := by omega
    simp [hi, h1]
  · rw [lt4_testBit s i hs (by omega)]; simp [hi]

theorem slotGet_slotSet_other (b off off2 s : Nat) (hoff : off2 ≤ 6) (hs : s < 4)
    (hd : off + 2 ≤ off2 ∨ off2 + 2 ≤ off) :
    slotGet (slotSet b off s) off2 = slotGet b off2 := by
  apply Nat.eq_of_testBit_eq
  intro i
  rw [slotGet_testBit, slotSet_testBit, slotGet_testBit]
  by_cases hi : i < 2
  · have h8 : off2 + i < 8 := by omega
    by_cases h2 : off ≤ off2 + i
    · have h3 : ¬ (off2 + i - off < 2) := by omega
      rw [lt4_testBit s _ hs (by omega)]
      simp [hi, h8, h2, h3]
    · simp [hi, h8, h2]
  · simp [hi]

theorem State.toNat_lt (s : State) : s.toNat < 4 := by
  cases s <;> simp [State.toNat]

theorem State.ofValue_toNat (s : State) : State.ofValue s.toNat = s := by
  cases s <;> rfl

/-! ## GetState and SetState -/

theorem getD_set (l : List Nat) (i j v : Nat) :
    (l.set i v).getD j 0 = if i = j ∧ i < l.length then v else l.getD j 0 := by
  simp only [List.getD_eq_getElem?_getD, List.getElem?_set]
  by_cases hij : i = j
  · subst hij
    by_cases hi : i < l.length
    · simp [hi]
    · simp [hi, List.getElem?_eq_none (Nat.le_of_not_lt hi)]
  · simp [hij]

theorem GetState_eq (m : StateMap) (x y : Nat) :
    m.GetState x y =
      State.ofValue (slotGet (m.area.getD (m.cellId x y / 4) 0) (2 * (m.cellId x y % 4))) := rfl

theorem SetState_area (m : StateMap) (x y : Nat) (s : State) :
    (m.SetState x y s).area =
      m.area.set (m.cellId x y / 4)
        (slotSet (m.area.getD (m.cellId x y / 4) 0) (2 * (m.cellId x y % 4)) s.toNat) := by
  simp only [StateMap.SetState, slotSet]
  rw [List.set_set, getD_set]
  by_cases h : m.cellId x y / 4 < m.area.length
  · simp [h]
  · rw [List.set_eq_of_length_le (Nat.le_of_not_lt h), List.set_eq_of_length_le (Nat.le_of_not_lt h)]

theorem SetState_cellXCount (m : StateMap) (x y : Nat) (s : State) :
    (m.SetState x y s).cellXCount = m.cellXCount := rfl

theorem SetState_cellId (m : StateMap) (x y : Nat) (s : State) (u v : Nat) :
    (m.SetState x y s).cellId u v = m.cellId u v := rfl

theorem SetState_length (m : StateMap) (x y : Nat) (s : State) :
    (m.SetState x y s).area.length = m.area.length := by
  rw [SetState_area, List.length_set]

/-- Reading a cell after a write: the written state when both cells share their two bits and
the byte exists, the old state otherwise. -/
theorem GetState_SetState (m : StateMap) (x y : Nat) (s : State) (u v : Nat) :
    (m.SetState x y s).GetState u v =
      if m.cellId x y = m.cellId u v ∧ m.cellId x y / 4 < m.area.length then s
      else m.GetState u v := by
  rw [GetState_eq, GetState_eq, SetState_cellId, SetState_area, getD_set]
  by_cases hidx : m.cellId x y / 4 = m.cellId u v / 4
  · by_cases hlen : m.cellId x y / 4 < m.area.length
    · by_cases hoff : m.cellId x y % 4 = m.cellId u v % 4
      · have hid : m.cellId x y = m.cellId u v := by omega
        rw [if_pos ⟨hidx, hlen⟩, if_pos ⟨hid, hlen⟩, ← hid,
          slotGet_slotSet_same _ _ _ (by omega) s.toNat_lt, State.ofValue_toNat]
      · have hid : m.cellId x y ≠ m.cellId u v := fun h => hoff (by rw [h])
        rw [if_pos ⟨hidx, hlen⟩, if_neg (fun h => hid h.1),
          slotGet_slotSet_other _ _ _ _ (by omega) s.toNat_lt (by omega), hidx]
    · have hid : ¬ (m.cellId x y = m.cellId u v ∧ m.cellId x y / 4 < m.area.length) :=
        fun h => hlen h.2
      rw [if_neg (fun h => hlen h.2), if_neg hid]
  · have hid : m.cellId x y ≠ m.cellId u v := fun h => hidx (by rw [h])
    rw [if_neg (fun h => hidx h.1), if_neg (fun h => hid h.1)]

/-! ## Cells of a map whose size fits into 32 bits -/

theorem cellId_eq (m : StateMap) (hfit : m.cellXCount * m.cellYCount < U32) (x y : Nat)
    (hx : x < m.cellXCount) (hy : y < m.cellYCount) :
    m.cellId x y = y * m.cellXCount + x ∧ y * m.cellXCount + x < m.cellXCount * m.cellYCount := by
  have h1 : y * m.cellXCount + x < m.cellXCount * m.cellYCount := by
    calc y * m.cellXCount + x < y * m.cellXCount + m.cellXCount := by omega
      _ = (y + 1) * m.cellXCount := by ring
      _ ≤ m.cellYCount * m.cellXCount := Nat.mul_le_mul_right _ hy
      _ = m.cellXCount * m.cellYCount := by ring
  exact ⟨Nat.mod_eq_of_lt (lt_trans h1 hfit), h1⟩

theorem cellId_inj (m : StateMap) (hfit : m.cellXCount * m.cellYCount < U32) (x y u v : Nat)
    (hx : x < m.cellXCount) (hy : y < m.cellYCount) (hu : u < m.cellXCount)
    (hv : v < m.cellYCount) (h : m.cellId x y = m.cellId u v) : x = u ∧ y = v := by
  rw [(cellId_eq m hfit x y hx hy).1, (cellId_eq m hfit u v hu hv).1] at h
  have hx' : x = u := by
    have h1 := congrArg (fun k => k % m.cellXCount) h
    simp only [Nat.mul_comm _ m.cellXCount, Nat.mul_add_mod, Nat.mod_eq_of_lt hx,
      Nat.mod_eq_of_lt hu] at h1
    exact h1
  subst hx'
  have hpos : 0 < m.cellXCount := by omega
  have h2 : y * m.cellXCount = v * m.cellXCount := by omega
  exact ⟨rfl, Nat.eq_of_mul_eq_mul_right hpos h2⟩

theorem Valid.index_lt (m : StateMap) (hv : m.Valid) (x y : Nat)
    (hx : x < m.cellXCount) (hy : y < m.cellYCount) : m.cellId x y / 4 < m.area.length := by
  obtain ⟨hfit, hlen⟩ := hv
  obtain ⟨h1, h2⟩ := cellId_eq m hfit x y hx hy
  rw [h1, hlen]
  omega

/-! ## SetBox -/

theorem resize_length (area : List Nat) (size value : Nat) :
    (resize area size value).length = size := by
  simp only [resize, List.length_append, List.length_take, List.length_replicate]
  omega

theorem SetBox_cellXCount (m : StateMap) (box : GeoBox) (cw ch : ℚ) :
    (m.SetBox box cw ch).cellXCount =
      ((m.SetBox box cw ch).cellXEnd + U32 - (m.SetBox box cw ch).cellXStart + 1) % U32 := rfl

theorem SetBox_cellYCount (m : StateMap) (box : GeoBox) (cw ch : ℚ) :
    (m.SetBox box cw ch).cellYCount =
      ((m.SetBox box cw ch).cellYEnd + U32 - (m.SetBox box cw ch).cellYStart + 1) % U32 := rfl

theorem SetBox_length (m : StateMap) (box : GeoBox) (cw ch : ℚ) :
    (m.SetBox box cw ch).area.length =
      if ((m.SetBox box cw ch).cellXCount * (m.SetBox box cw ch).cellYCount % U32) % 4 > 0
      then (((m.SetBox box cw ch).cellXCount * (m.SetBox box cw ch).cellYCount % U32) / 4 + 1)
        % U32
      else ((m.SetBox box cw ch).cellXCount * (m.SetBox box cw ch).cellYCount % U32) / 4 := by
  simp only [StateMap.SetBox, resize_length]

theorem SetBox_valid (m : StateMap) (box : GeoBox) (cw ch : ℚ)
    (hfit : (m.SetBox box cw ch).cellXCount * (m.SetBox box cw ch).cellYCount < U32) :
    (m.SetBox box cw ch).Valid := by
  refine ⟨hfit, ?_⟩
  rw [SetBox_length, Nat.mod_eq_of_lt hfit]
  unfold U32 at *
  split <;> omega

theorem SetBox_empty_getD (box : GeoBox) (cw ch : ℚ) (i : Nat) :
    (StateMap.empty.SetBox box cw ch).area.getD i 0 = 0 := by
  have h : ∀ n : Nat, (List.replicate n 0).getD i 0 = 0 := by
    intro n
    rw [List.getD_eq_getElem?_getD, List.getElem?_replicate]
    split <;> rfl
  simp only [StateMap.SetBox, resize, StateMap.empty, List.take_nil, List.nil_append]
  exact h _

theorem SetBox_empty_GetState (box : GeoBox) (cw ch : ℚ) (x y : Nat) :
    (StateMap.empty.SetBox box cw ch).GetState x y = State.unknown := by
  rw [GetState_eq, SetBox_empty_getD]
  simp [slotGet, State.ofValue]

/-! ## Filling unknown cells -/

theorem foldl_inv {α β : Type} (P : β → Prop) (f : β → α → β) (l : List α) (init : β)
    (h0 : P init) (hstep : ∀ acc a, a ∈ l → P acc → P (f acc a)) : P (l.foldl f init) := by
  induction l generalizing init with
  | nil => exact h0
  | cons a l ih =>
    rw [List.foldl_cons]
    apply ih
    · exact hstep init a (List.mem_cons_self a l) h0
    · intro acc b hb hacc
      exact hstep acc b (List.mem_cons_of_mem a hb) hacc

theorem GetState_congr (m : StateMap) (x y u v : Nat) (h : m.cellId x y = m.cellId u v) :
    m.GetState x y = m.GetState u v := by
  rw [GetState_eq, GetState_eq, h]

theorem SameGrid.grid_refl (a : StateMap) : SameGrid a a :=
  ⟨rfl, rfl, rfl, rfl, rfl, rfl, rfl, rfl⟩

theorem SameGrid.grid_trans {a b c : StateMap} (h1 : SameGrid a b) (h2 : SameGrid b c) :
    SameGrid a c := by
  obtain ⟨a1, a2, a3, a4, a5, a6, a7, a8⟩ := h1
  obtain ⟨b1, b2, b3, b4, b5, b6, b7, b8⟩ := h2
  exact ⟨b1.trans a1, b2.trans a2, b3.trans a3, b4.trans a4, b5.trans a5, b6.trans a6,
    b7.trans a7, b8.trans a8⟩

theorem SameGrid.grid_SetState {a b : StateMap} (h : SameGrid a b) (x y : Nat) (s : State) :
    SameGrid a (b.SetState x y s) := h

theorem Fills.fills_refl (T : State → Prop) (a : StateMap) : Fills T a a :=
  ⟨SameGrid.grid_refl a, rfl, fun _ _ => Or.inl rfl⟩

theorem Fills.cellXCount {T : State → Prop} {a b : StateMap} (h : Fills T a b) :
    b.cellXCount = a.cellXCount := h.1.2.2.2.2.2.2.1

theorem Fills.cellYCount {T : State → Prop} {a b : StateMap} (h : Fills T a b) :
    b.cellYCount = a.cellYCount := h.1.2.2.2.2.2.2.2

theorem Fills.cellId {T : State → Prop} {a b : StateMap} (h : Fills T a b) (x y : Nat) :
    b.cellId x y = a.cellId x y := by
  unfold StateMap.cellId
  rw [h.cellXCount]

theorem Fills.fills_trans {T : State → Prop} {a b c : StateMap} (h1 : Fills T a b)
    (h2 : Fills T b c) : Fills T a c := by
  refine ⟨h1.1.grid_trans h2.1, h2.2.1.trans h1.2.1, ?_⟩
  intro x y
  rcases h2.2.2 x y with h | ⟨hb, hc⟩
  · rcases h1.2.2 x y with h' | ⟨ha, hb'⟩
    · exact Or.inl (h.trans h')
    · exact Or.inr ⟨ha, by rw [h]; exact hb'⟩
  · rcases h1.2.2 x y with h' | ⟨ha, _⟩
    · exact Or.inr ⟨by rw [← h']; exact hb, hc⟩
    · exact Or.inr ⟨ha, hc⟩

theorem Fills.step {T : State → Prop} {a b : StateMap} (h : Fills T a b) (x y : Nat)
    (s : State) (hu : a.GetState x y = State.unknown) (hs : T s) :
    Fills T a (b.SetState x y s) := by
  refine ⟨h.1.grid_SetState x y s, ?_, ?_⟩
  · rw [SetState_length]; exact h.2.1
  · intro u v
    rw [GetState_SetState]
    split
    · rename_i hc
      refine Or.inr ⟨?_, hs⟩
      rw [← hu]
      apply GetState_congr
      rw [← h.cellId, ← h.cellId, hc.1]
    · exact h.2.2 u v

theorem Fills.inBounds_of {T : State → Prop} {a b : StateMap} (h : Fills T a b)
    (ha : a.InBounds) : b.InBounds := by
  intro x y hx hy
  rw [h.cellId, h.2.1]
  rw [h.cellXCount] at hx
  rw [h.cellYCount] at hy
  exact ha x y hx hy

theorem Valid.to_inBounds (m : StateMap) (hv : m.Valid) : m.InBounds :=
  fun x y hx hy => Valid.index_lt m hv x y hx hy

theorem Fills.unknown_of {T : State → Prop} {a b : StateMap} (h : Fills T a b)
    (x y : Nat) (hb : b.GetState x y = State.unknown) :
    a.GetState x y = State.unknown := by
  rcases h.2.2 x y with h' | ⟨ha, _⟩
  · rw [← h']; exact hb
  · exact ha

theorem Fills.keeps {T : State → Prop} {a b : StateMap} (h : Fills T a b) (x y : Nat)
    (ha : a.GetState x y ≠ State.unknown) : b.GetState x y = a.GetState x y := by
  rcases h.2.2 x y with h' | ⟨hu, _⟩
  · exact h'
  · exact absurd hu ha

/-! ## FillLand -/

/-- The scan of `FillLand` along a line whose `i`-th cell is `c i`. -/
theorem FillLandRun_fills (c : Nat → Nat × Nat) (a : StateMap) (l : List Nat) (b : StateMap)
    (hl : ∀ i ∈ l, a.GetState (c i).1 (c i).2 = State.unknown)
    (hb : Fills (fun s => s = State.land) a b) :
    Fills (fun s => s = State.land) a
      (l.foldl (fun m i => m.SetState (c i).1 (c i).2 State.land) b) := by
  apply foldl_inv (fun m => Fills (fun s => s = State.land) a m)
  · exact hb
  · intro acc i hi hacc
    exact hacc.step _ _ _ (hl i hi) rfl

theorem SetState_land_keeps (m : StateMap) (x y u v : Nat)
    (h : m.GetState u v = State.land) : (m.SetState x y State.land).GetState u v = State.land := by
  rw [GetState_SetState]
  split
  · rfl
  · exact h

theorem FillLandRun_keeps (c : Nat → Nat × Nat) (l : List Nat) (b : StateMap) (u v : Nat)
    (h : b.GetState u v = State.land) :
    (l.foldl (fun m i => m.SetState (c i).1 (c i).2 State.land) b).GetState u v
      = State.land := by
  apply foldl_inv (fun m : StateMap => m.GetState u v = State.land)
  · exact h
  · intro acc i _ hacc
    exact SetState_land_keeps acc _ _ u v hacc

theorem Changed.trans_fills {a b c : StateMap} (h : Changed a b)
    (hf : Fills (fun s => s = State.land) b c) : Changed a c := by
  obtain ⟨x, y, hx, hy, hu, hl⟩ := h
  refine ⟨x, y, hx, hy, hu, ?_⟩
  rw [hf.keeps x y (by rw [hl]; decide), hl]

theorem FillLandRun_inv (c : Nat → Nat × Nat) (count : Nat) (m0 : StateMap)
    (hb : m0.InBounds)
    (hc : ∀ i, i < count → (c i).1 < m0.cellXCount ∧ (c i).2 < m0.cellYCount)
    (m : StateMap) (cont : Bool) (start endPos : Nat) (hinv : PassInv m0 (m, cont))
    (hu : ∀ i, start ≤ i → i ≤ endPos → m.GetState (c i).1 (c i).2 = State.unknown)
    (hs : start < count) (hse : start ≤ endPos) :
    PassInv m0
      (FillLandRun (fun m i => m.SetState (c i).1 (c i).2 State.land) m start endPos, true) := by
  have hfm : Fills (fun s => s = State.land) m
      (FillLandRun (fun m i => m.SetState (c i).1 (c i).2 State.land) m start endPos) := by
    apply FillLandRun_fills c m _ m _ (Fills.fills_refl _ m)
    intro i hi
    rw [List.mem_range'_1] at hi
    exact hu i hi.1 (by omega)
  have hland : (FillLandRun (fun m i => m.SetState (c i).1 (c i).2 State.land) m start
      endPos).GetState (c start).1 (c start).2 = State.land := by
    unfold FillLandRun
    have hlen : endPos + 1 - start = (endPos - start) + 1 := by omega
    rw [hlen, List.range'_succ, List.foldl_cons]
    apply FillLandRun_keeps
    rw [GetState_SetState, if_pos]
    refine ⟨rfl, ?_⟩
    have hmb : m.InBounds := hinv.1.inBounds_of hb
    apply hmb
    · rw [hinv.1.cellXCount]; exact (hc start hs).1
    · rw [hinv.1.cellYCount]; exact (hc start hs).2
  refine ⟨hinv.1.fills_trans hfm, fun _ => ?_, fun h => by simp at h⟩
  refine ⟨(c start).1, (c start).2, (hc start hs).1, (hc start hs).2, ?_, hland⟩
  exact hinv.1.unknown_of _ _ (hu start (le_refl _) hse)

/-- The scan of `FillLand` along a line whose `i`-th cell is `c i` keeps the invariant of the
pass. -/
theorem FillLandLine_inv (c : Nat → Nat × Nat) (count : Nat) (m0 : StateMap)
    (hb : m0.InBounds)
    (hc : ∀ i, i < count → (c i).1 < m0.cellXCount ∧ (c i).2 < m0.cellYCount)
    (fuel : Nat) :
    ∀ (m : StateMap) (cont : Bool) (x start endPos state : Nat),
      PassInv m0 (m, cont) →
      (state ≠ 0 → state ≠ 1 → endPos + 1 = x ∧
        ∀ i, start ≤ i → i ≤ endPos → m.GetState (c i).1 (c i).2 = State.unknown) →
      PassInv m0
        (FillLandLine (fun m i => m.GetState (c i).1 (c i).2)
          (fun m i => m.SetState (c i).1 (c i).2 State.land) count fuel m cont x start endPos
          state) := by
  induction fuel with
  | zero =>
    intro m cont x start endPos state hinv _
    exact hinv
  | succ fuel ih =>
    intro m cont x start endPos state hinv hst
    match state, hst with
    | 0, _ =>
      rw [FillLandLine]
      split
      · split
        · exact ih m cont (x + 1) start endPos 1 hinv (fun _ h => absurd rfl h)
        · exact ih m cont (x + 1) start endPos 0 hinv (fun h => absurd rfl h)
      · exact hinv
    | 1, _ =>
      rw [FillLandLine]
      split
      · split
        · rename_i hu
          refine ih m cont (x + 1) x x 2 hinv (fun _ _ => ⟨rfl, fun i h1 h2 => ?_⟩)
          have : i = x := by omega
          rw [this]; exact hu
        · exact ih m cont x start endPos 0 hinv (fun h => absurd rfl h)
      · exact hinv
    | (k + 2), hst =>
      obtain ⟨hend, hst'⟩ := hst (by omega) (by omega)
      rw [FillLandLine]
      · split
        · split
          · rename_i hu
            refine ih m cont (x + 1) start x 2 hinv (fun _ _ => ⟨rfl, fun i h1 h2 => ?_⟩)
            by_cases hi : i = x
            · rw [hi]; exact hu
            · exact hst' i h1 (by omega)
          · split
            · split
              · rename_i hg
                exact ih _ true x start endPos 0
                  (FillLandRun_inv c count m0 hb hc m cont start endPos hinv hst' hg.1 hg.2.2)
                  (fun h => absurd rfl h)
              · exact ih m cont x start endPos 0 hinv (fun h => absurd rfl h)
            · exact ih m cont x start endPos 0 hinv (fun h => absurd rfl h)
        · exact hinv
      · omega
      · omega

theorem FillLandRow_inv (m0 : StateMap) (hb : m0.InBounds) (acc : StateMap × Bool) (y : Nat)
    (hy : y < m0.cellYCount) (hinv : PassInv m0 acc) : PassInv m0 (FillLandRow acc y) := by
  unfold FillLandRow
  refine FillLandLine_inv (fun i => (i, y)) acc.1.cellXCount m0 hb ?_ _ acc.1 acc.2 0 0 0 0
    hinv (fun h => absurd rfl h)
  intro i hi
  rw [hinv.1.cellXCount] at hi
  exact ⟨hi, hy⟩

theorem FillLandColumn_inv (m0 : StateMap) (hb : m0.InBounds) (acc : StateMap × Bool)
    (x : Nat) (hx : x < m0.cellXCount) (hinv : PassInv m0 acc) :
    PassInv m0 (FillLandColumn acc x) := by
  unfold FillLandColumn
  refine FillLandLine_inv (fun i => (x, i)) acc.1.cellYCount m0 hb ?_ _ acc.1 acc.2 0 0 0 0
    hinv (fun h => absurd rfl h)
  intro i hi
  rw [hinv.1.cellYCount] at hi
  exact ⟨hx, hi⟩

theorem FillLandPass_inv (m0 : StateMap) (hb : m0.InBounds) : PassInv m0 (FillLandPass m0) := by
  unfold FillLandPass
  have hrows : PassInv m0 ((List.range m0.cellYCount).foldl FillLandRow (m0, false)) := by
    apply foldl_inv (PassInv m0)
    · exact ⟨Fills.fills_refl _ m0, fun h => by simp at h, fun _ => rfl⟩
    · intro acc y hy hacc
      exact FillLandRow_inv m0 hb acc y (List.mem_range.mp hy) hacc
  apply foldl_inv (PassInv m0)
  · exact hrows
  · intro acc x hx hacc
    rw [hrows.1.cellXCount] at hx
    exact FillLandColumn_inv m0 hb acc x (List.mem_range.mp hx) hacc

theorem FillLandLine_fuel (get : StateMap → Nat → State) (set : StateMap → Nat → StateMap)
    (count : Nat) (fuel : Nat) :
    ∀ (m : StateMap) (cont : Bool) (x start endPos state : Nat),
      2 * (count - x) + (if state = 0 then 0 else 1) ≤ fuel →
      FillLandLine get set count (fuel + 1) m cont x start endPos state =
        FillLandLine get set count fuel m cont x start endPos state := by
  have h1 : (if (1 : Nat) = 0 then 0 else 1) = 1 := if_neg (by decide)
  have h2 : (if (2 : Nat) = 0 then 0 else 1) = 1 := if_neg (by decide)
  have h0 : (if (0 : Nat) = 0 then 0 else 1) = 0 := if_pos rfl
  induction fuel with
  | zero =>
    intro m cont x start endPos state h
    have hx : ¬ x < count := by omega
    have hs : state = 0 := by
      by_contra hne
      rw [if_neg hne] at h
      omega
    subst hs
    simp only [FillLandLine, if_neg hx]
  | succ fuel ih =>
    intro m cont x start endPos state h
    match state, h with
    | 0, h =>
      rw [h0] at h
      conv_lhs => rw [FillLandLine]
      conv_rhs => rw [FillLandLine]
      split
      · split
        · exact ih _ _ _ _ _ _ (by rw [h1]; omega)
        · exact ih _ _ _ _ _ _ (by rw [h0]; omega)
      · rfl
    | 1, h =>
      rw [h1] at h
      conv_lhs => rw [FillLandLine]
      conv_rhs => rw [FillLandLine]
      split
      · split
        · exact ih _ _ _ _ _ _ (by rw [h2]; omega)
        · exact ih _ _ _ _ _ _ (by rw [h0]; omega)
      · rfl
    | (k + 2), h =>
      have hk : (if k + 2 = 0 then 0 else 1) = 1 := if_neg (by omega)
      rw [hk] at h
      have hk0 : k + 2 = 0 → False := by omega
      have hk1 : k + 2 = 1 → False := by omega
      rw [FillLandLine.eq_4 _ _ _ _ _ _ _ _ _ _ hk0 hk1,
        FillLandLine.eq_4 _ _ _ _ _ _ _ _ _ _ hk0 hk1]
      split
      · split
        · exact ih _ _ _ _ _ _ (by rw [h2]; omega)
        · split
          · split
            · exact ih _ _ _ _ _ _ (by rw [h0]; omega)
            · exact ih _ _ _ _ _ _ (by rw [h0]; omega)
          · exact ih _ _ _ _ _ _ (by rw [h0]; omega)
      · rfl

/-- The bound `2*count` on the iterations of a scan is never reached: every larger bound
gives the same result. -/
theorem FillLandLine_fuel_add (get : StateMap → Nat → State) (set : StateMap → Nat → StateMap)
    (count : Nat) (m : StateMap) (cont : Bool) (k : Nat) :
    FillLandLine get set count (2 * count + k) m cont 0 0 0 0 =
      FillLandLine get set count (2 * count) m cont 0 0 0 0 := by
  induction k with
  | zero => rfl
  | succ k ih =>
    rw [← ih, ← Nat.add_assoc]
    exact FillLandLine_fuel get set count (2 * count + k) m cont 0 0 0 0 (by simp)

/-! ### Termination of FillLand -/

theorem countP_lt_of {α : Type} (p q : α → Bool) (l : List α)
    (h : ∀ a ∈ l, p a = true → q a = true) (a0 : α) (ha0 : a0 ∈ l) (hq : q a0 = true)
    (hp : p a0 = false) : l.countP p < l.countP q := by
  induction l with
  | nil => cases ha0
  | cons a l ih =>
    have htail : l.countP p ≤ l.countP q :=
      List.countP_mono_left (fun x hx => h x (List.mem_cons_of_mem a hx))
    have hhead : (if p a = true then 1 else 0) ≤ (if q a = true then 1 else 0) := by
      by_cases hpa : p a = true
      · rw [if_pos hpa, if_pos (h a (List.mem_cons_self a l) hpa)]
      · rw [if_neg hpa]; exact Nat.zero_le _
    rw [List.countP_cons, List.countP_cons]
    rcases List.mem_cons.mp ha0 with rfl | hmem
    · have e1 : (if p a0 = true then 1 else 0) = 0 := by rw [hp]; rfl
      have e2 : (if q a0 = true then 1 else 0) = 1 := by rw [hq]; rfl
      omega
    · have := ih (fun x hx => h x (List.mem_cons_of_mem a hx)) hmem
      omega

theorem Fills.allCells {T : State → Prop} {a b : StateMap} (h : Fills T a b) :
    allCells b = allCells a := by
  unfold WaterIndexProcessor.allCells
  rw [h.cellXCount, h.cellYCount]

theorem unknownCount_lt {a b : StateMap} (h : Fills (fun s => s = State.land) a b)
    (hc : Changed a b) : unknownCount b < unknownCount a := by
  obtain ⟨x, y, hx, hy, hu, hl⟩ := hc
  unfold unknownCount
  rw [h.allCells]
  apply countP_lt_of _ _ _ _ (x, y)
  · unfold WaterIndexProcessor.allCells
    exact List.pair_mem_product.mpr ⟨List.mem_range.mpr hx, List.mem_range.mpr hy⟩
  · simpa using hu
  · simp [hl]
  · intro c _ hb
    simp only [decide_eq_true_eq] at hb ⊢
    exact h.unknown_of _ _ hb

theorem FillLandLoop_terminates (n : Nat) :
    ∀ m : StateMap, m.InBounds → unknownCount m < n →
      ∃ m', FillLandLoop n m = some m' ∧ Fills (fun s => s = State.land) m m' ∧
        FillLandPass m' = (m', false) := by
  induction n with
  | zero => intro m _ h; omega
  | succ n ih =>
    intro m hb hn
    have hinv := FillLandPass_inv m hb
    rw [FillLandLoop]
    by_cases hcont : (FillLandPass m).2 = true
    · simp only [hcont, if_true]
      have hlt := unknownCount_lt hinv.1 (hinv.2.1 hcont)
      obtain ⟨m', h1, h2, h3⟩ := ih (FillLandPass m).1 (hinv.1.inBounds_of hb) (by omega)
      exact ⟨m', h1, hinv.1.fills_trans h2, h3⟩
    · rw [Bool.not_eq_true] at hcont
      have heq := hinv.2.2 hcont
      refine ⟨(FillLandPass m).1, by simp [hcont], hinv.1, ?_⟩
      rw [heq]
      exact Prod.ext heq hcont

theorem FillLandLoop_fixed (m : StateMap) (h : FillLandPass m = (m, false)) (k : Nat) :
    FillLandLoop (k + 1) m = some m := by
  rw [FillLandLoop, h]
  simp

theorem FillLandLoop_mono (n : Nat) :
    ∀ (m m' : StateMap), FillLandLoop n m = some m' → FillLandLoop (n + 1) m = some m' := by
  induction n with
  | zero => intro m m' h; simp [FillLandLoop] at h
  | succ n ih =>
    intro m m' h
    rw [FillLandLoop] at h ⊢
    by_cases hcont : (FillLandPass m).2 = true
    · simp only [hcont, if_true] at h ⊢
      exact ih _ _ h
    · simp only [hcont] at h ⊢
      exact h

theorem FillLandLoop_mono_le (n k : Nat) (hnk : n ≤ k) (m m' : StateMap)
    (h : FillLandLoop n m = some m') : FillLandLoop k m = some m' := by
  induction k with
  | zero =>
    have : n = 0 := by omega
    subst this; exact h
  | succ k ih =>
    by_cases hk : n = k + 1
    · subst hk; exact h
    · exact FillLandLoop_mono k m m' (ih (by omega))

theorem FillLand_spec (m : StateMap) (hb : m.InBounds) :
    ∃ m', FillLand m = some m' ∧ Fills (fun s => s = State.land) m m' ∧
      FillLandPass m' = (m', false) :=
  FillLandLoop_terminates (unknownCount m + 1) m hb (by omega)

/-! ## FillWater -/

theorem Fills.step_if {T : State → Prop} {a b : StateMap} (h : Fills T a b) (c : Prop)
    [Decidable c] (x y : Nat) (s : State) (hc : c → a.GetState x y = State.unknown)
    (hs : T s) : Fills T a (if c then b.SetState x y s else b) := by
  split
  · rename_i hc'
    exact h.step x y s (hc hc') hs
  · exact h

theorem FillWaterCell_fills (isA : List GeoCoord → List Point → Bool) (polys : List Coast)
    (level : Level) (x y : Nat) (newMap : StateMap)
    (h : Fills (fun s => s = State.water) level.stateMap newMap) :
    Fills (fun s => s = State.water) level.stateMap
      (FillWaterCell isA polys level x y newMap) := by
  unfold FillWaterCell
  split
  · split
    · exact h
    · exact ((((h.step_if _ _ _ _ (fun hc => hc.2) rfl).step_if _ _ _ _
        (fun hc => hc.2) rfl).step_if _ _ _ _ (fun hc => hc.2) rfl).step_if _ _ _ _
        (fun hc => hc.2) rfl)
  · exact h

theorem FillWaterRound_fills (isA : List GeoCoord → List Point → Bool) (polys : List Coast)
    (level : Level) :
    Fills (fun s => s = State.water) level.stateMap
      (FillWaterRound isA polys level).stateMap := by
  unfold FillWaterRound
  simp only
  apply foldl_inv (fun m : StateMap => Fills (fun s => s = State.water) level.stateMap m)
  · exact Fills.fills_refl _ _
  · intro acc y _ hacc
    apply foldl_inv (fun m : StateMap => Fills (fun s => s = State.water) level.stateMap m)
    · exact hacc
    · intro acc' x _ hacc'
      exact FillWaterCell_fills isA polys level x y acc' hacc'

theorem FillWater_fills (isA : List GeoCoord → List Point → Bool) (polys : List Coast)
    (tileCount : Nat) :
    ∀ level : Level, Fills (fun s => s = State.water) level.stateMap
      (FillWater isA level tileCount polys).stateMap := by
  induction tileCount with
  | zero => intro level; exact Fills.fills_refl _ _
  | succ n ih =>
    intro level
    rw [FillWater]
    exact (FillWaterRound_fills isA polys level).fills_trans (ih _)

theorem subOne32_lt (n y : Nat) (hpos : 0 < n) (hn : n < U32) (h : y < subOne32 n) :
    y + 1 < n := by
  unfold subOne32 at h
  unfold U32 at *
  omega

theorem CellBoundaries_make_congr {a b : StateMap} (h : SameGrid a b) (p : Pixel) :
    CellBoundaries.make b p = CellBoundaries.make a p := by
  obtain ⟨a1, a2, a3, _, a5, _, _, _⟩ := h
  unfold CellBoundaries.make
  rw [a1, a2, a3, a5]

theorem Fills.valid_of {T : State → Prop} {a b : StateMap} (h : Fills T a b) (ha : a.Valid) :
    b.Valid := by
  unfold StateMap.Valid at *
  rw [h.cellXCount, h.cellYCount, h.2.1]
  exact ha

theorem Valid.count_lt (m : StateMap) (hv : m.Valid) (x y : Nat) (hx : x < m.cellXCount)
    (hy : y < m.cellYCount) : m.cellXCount < U32 ∧ m.cellYCount < U32 := by
  have h1 : m.cellXCount * 1 ≤ m.cellXCount * m.cellYCount :=
    Nat.mul_le_mul_left _ (by omega)
  have h2 : 1 * m.cellYCount ≤ m.cellXCount * m.cellYCount :=
    Nat.mul_le_mul_right _ (by omega)
  have := hv.1
  omega

/-- One conditional write of `FillWaterCell` keeps the invariant of a round: every in-range
cell that differs from the snapshot has a water source next to it that lies in a bounding
polygon. -/
theorem FillWater_source_step (isA : List GeoCoord → List Point → Bool) (polys : List Coast)
    (level : Level) (hv : level.stateMap.Valid) (x y : Nat)
    (hx : x < level.stateMap.cellXCount) (hy : y < level.stateMap.cellYCount)
    (hw : level.stateMap.GetState x y = State.water)
    (hp : IsCellInBoundingPolygon isA (CellBoundaries.make level.stateMap ⟨x, y⟩) polys = true)
    (nm : StateMap) (hf : Fills (fun s => s = State.water) level.stateMap nm)
    (hs : ∀ u v, u < level.stateMap.cellXCount → v < level.stateMap.cellYCount →
      nm.GetState u v ≠ level.stateMap.GetState u v →
      ∃ a b, a < level.stateMap.cellXCount ∧ b < level.stateMap.cellYCount ∧
        Adjacent a b u v ∧ level.stateMap.GetState a b = State.water ∧
        IsCellInBoundingPolygon isA (CellBoundaries.make level.stateMap ⟨a, b⟩) polys = true)
    (c : Prop) [Decidable c] (x' y' : Nat)
    (hc : c → x' < level.stateMap.cellXCount ∧ y' < level.stateMap.cellYCount ∧
      Adjacent x y x' y') :
    ∀ u v, u < level.stateMap.cellXCount → v < level.stateMap.cellYCount →
      (if c then nm.SetState x' y' State.water else nm).GetState u v
        ≠ level.stateMap.GetState u v →
      ∃ a b, a < level.stateMap.cellXCount ∧ b < level.stateMap.cellYCount ∧
        Adjacent a b u v ∧ level.stateMap.GetState a b = State.water ∧
        IsCellInBoundingPolygon isA (CellBoundaries.make level.stateMap ⟨a, b⟩) polys
          = true := by
  intro u v hu hv' hne
  by_cases hcc : c
  · rw [if_pos hcc, GetState_SetState] at hne
    obtain ⟨hx', hy', hadj⟩ := hc hcc
    by_cases hid : nm.cellId x' y' = nm.cellId u v ∧ nm.cellId x' y' / 4 < nm.area.length
    · rw [hf.cellId, hf.cellId] at hid
      obtain ⟨e1, e2⟩ := cellId_inj level.stateMap hv.1 x' y' u v hx' hy' hu hv' hid.1
      subst e1 e2
      exact ⟨x, y, hx, hy, hadj, hw, hp⟩
    · rw [if_neg hid] at hne
      exact hs u v hu hv' hne
  · rw [if_neg hcc] at hne
    exact hs u v hu hv' hne

theorem FillWaterCell_source (isA : List GeoCoord → List Point → Bool) (polys : List Coast)
    (level : Level) (hv : level.stateMap.Valid) (x y : Nat)
    (hx : x < level.stateMap.cellXCount) (hy : y < level.stateMap.cellYCount)
    (nm : StateMap) (hf : Fills (fun s => s = State.water) level.stateMap nm)
    (hs : ∀ u v, u < level.stateMap.cellXCount → v < level.stateMap.cellYCount →
      nm.GetState u v ≠ level.stateMap.GetState u v →
      ∃ a b, a < level.stateMap.cellXCount ∧ b < level.stateMap.cellYCount ∧
        Adjacent a b u v ∧ level.stateMap.GetState a b = State.water ∧
        IsCellInBoundingPolygon isA (CellBoundaries.make level.stateMap ⟨a, b⟩) polys = true) :
    ∀ u v, u < level.stateMap.cellXCount → v < level.stateMap.cellYCount →
      (FillWaterCell isA polys level x y nm).GetState u v ≠ level.stateMap.GetState u v →
      ∃ a b, a < level.stateMap.cellXCount ∧ b < level.stateMap.cellYCount ∧
        Adjacent a b u v ∧ level.stateMap.GetState a b = State.water ∧
        IsCellInBoundingPolygon isA (CellBoundaries.make level.stateMap ⟨a, b⟩) polys
          = true := by
  have hcnt := Valid.count_lt level.stateMap hv x y hx hy
  unfold FillWaterCell
  split
  · rename_i hw
    split
    · exact hs
    · rename_i hp
      rw [Bool.not_eq_true, Bool.not_eq_false] at hp
      have f1 := hf.step_if (y > 0 ∧ level.stateMap.GetState x (y - 1) = State.unknown)
        x (y - 1) State.water (fun hc => hc.2) rfl
      have s1 := FillWater_source_step isA polys level hv x y hx hy hw hp nm hf hs
        (y > 0 ∧ level.stateMap.GetState x (y - 1) = State.unknown) x (y - 1)
        (fun hc => ⟨hx, by omega, Or.inl ⟨rfl, Or.inl (by omega)⟩⟩)
      have f2 := f1.step_if (y < subOne32 level.stateMap.cellYCount ∧
        level.stateMap.GetState x (y + 1) = State.unknown) x (y + 1) State.water
        (fun hc => hc.2) rfl
      have s2 := FillWater_source_step isA polys level hv x y hx hy hw hp _ f1 s1
        (y < subOne32 level.stateMap.cellYCount ∧
          level.stateMap.GetState x (y + 1) = State.unknown) x (y + 1)
        (fun hc => ⟨hx, subOne32_lt _ _ (by omega) hcnt.2 hc.1, Or.inl ⟨rfl, Or.inr rfl⟩⟩)
      have f3 := f2.step_if (x > 0 ∧ level.stateMap.GetState (x - 1) y = State.unknown)
        (x - 1) y State.water (fun hc => hc.2) rfl
      have s3 := FillWater_source_step isA polys level hv x y hx hy hw hp _ f2 s2
        (x > 0 ∧ level.stateMap.GetState (x - 1) y = State.unknown) (x - 1) y
        (fun hc => ⟨by omega, hy, Or.inr ⟨rfl, Or.inl (by omega)⟩⟩)
      exact FillWater_source_step isA polys level hv x y hx hy hw hp _ f3 s3
        (x < subOne32 level.stateMap.cellXCount ∧
          level.stateMap.GetState (x + 1) y = State.unknown) (x + 1) y
        (fun hc => ⟨subOne32_lt _ _ (by omega) hcnt.1 hc.1, hy, Or.inr ⟨rfl, Or.inr rfl⟩⟩)
  · exact hs

theorem FillWaterRound_source (isA : List GeoCoord → List Point → Bool) (polys : List Coast)
    (level : Level) (hv : level.stateMap.Valid) :
    ∀ u v, u < level.stateMap.cellXCount → v < level.stateMap.cellYCount →
      (FillWaterRound isA polys level).stateMap.GetState u v
        ≠ level.stateMap.GetState u v →
      ∃ a b, a < level.stateMap.cellXCount ∧ b < level.stateMap.cellYCount ∧
        Adjacent a b u v ∧ level.stateMap.GetState a b = State.water ∧
        IsCellInBoundingPolygon isA (CellBoundaries.make level.stateMap ⟨a, b⟩) polys
          = true := by
  unfold FillWaterRound
  simp only
  have key := foldl_inv
    (fun m : StateMap => Fills (fun s => s = State.water) level.stateMap m ∧
      ∀ u v, u < level.stateMap.cellXCount → v < level.stateMap.cellYCount →
        m.GetState u v ≠ level.stateMap.GetState u v →
        ∃ a b, a < level.stateMap.cellXCount ∧ b < level.stateMap.cellYCount ∧
          Adjacent a b u v ∧ level.stateMap.GetState a b = State.water ∧
          IsCellInBoundingPolygon isA (CellBoundaries.make level.stateMap ⟨a, b⟩) polys = true)
    (fun newMap y => (List.range level.stateMap.cellXCount).foldl
      (fun newMap x => FillWaterCell isA polys level x y newMap) newMap)
    (List.range level.stateMap.cellYCount) level.stateMap
    ⟨Fills.fills_refl _ _, fun u v _ _ hne => absurd rfl hne⟩
    (fun acc y hy hacc => by
      apply foldl_inv (fun m : StateMap => Fills (fun s => s = State.water) level.stateMap m ∧
        ∀ u v, u < level.stateMap.cellXCount → v < level.stateMap.cellYCount →
          m.GetState u v ≠ level.stateMap.GetState u v →
          ∃ a b, a < level.stateMap.cellXCount ∧ b < level.stateMap.cellYCount ∧
            Adjacent a b u v ∧ level.stateMap.GetState a b = State.water ∧
            IsCellInBoundingPolygon isA (CellBoundaries.make level.stateMap ⟨a, b⟩) polys
              = true)
      · exact hacc
      · intro acc' x hx hacc'
        exact ⟨FillWaterCell_fills isA polys level x y acc' hacc'.1,
          FillWaterCell_source isA polys level hv x y (List.mem_range.mp hx)
            (List.mem_range.mp hy) acc' hacc'.1 hacc'.2⟩)
  exact key.2

/-! ## CalculateCoastEnvironment -/

theorem tileStateOf_ne_coast (t : GroundTile.TileType) : tileStateOf t ≠ State.coast := by
  cases t <;> decide

theorem KeepOrSet.keep_trans {ts : State} {a b c : CoastEnv} (h1 : KeepOrSet ts a b)
    (h2 : KeepOrSet ts b c) : KeepOrSet ts a c := by
  obtain ⟨a0, a1, a2, a3⟩ := h1
  obtain ⟨b0, b1, b2, b3⟩ := h2
  refine ⟨?_, ?_, ?_, ?_⟩
  · rcases b0 with e | e
    · rw [e]; exact a0
    · exact Or.inr e
  · rcases b1 with e | e
    · rw [e]; exact a1
    · exact Or.inr e
  · rcases b2 with e | e
    · rw [e]; exact a2
    · exact Or.inr e
  · rcases b3 with e | e
    · rw [e]; exact a3
    · exact Or.inr e

theorem CalculateCoastEnvironmentCoord_state (tile : GroundTile) (ts : State) (env : CoastEnv)
    (c : Nat) : KeepOrSet ts env (CalculateCoastEnvironmentCoord tile ts env c) := by
  unfold CalculateCoastEnvironmentCoord
  lift_lets
  extract_lets cur next cellMax env1 env2 env3 env4 env5
  have h1 : KeepOrSet ts env env1 := by
    simp only [env1]
    split_ifs <;> exact ⟨Or.inl rfl, Or.inl rfl, Or.inl rfl, Or.inl rfl⟩
  have h2 : KeepOrSet ts env1 env2 := by
    simp only [env2]
    split_ifs
    · exact ⟨Or.inr rfl, Or.inl rfl, Or.inl rfl, Or.inl rfl⟩
    · exact ⟨Or.inl rfl, Or.inl rfl, Or.inl rfl, Or.inl rfl⟩
    · exact ⟨Or.inl rfl, Or.inl rfl, Or.inl rfl, Or.inl rfl⟩
  have h3 : KeepOrSet ts env2 env3 := by
    simp only [env3]
    split_ifs
    · exact ⟨Or.inl rfl, Or.inr rfl, Or.inl rfl, Or.inl rfl⟩
    · exact ⟨Or.inl rfl, Or.inl rfl, Or.inl rfl, Or.inl rfl⟩
    · exact ⟨Or.inl rfl, Or.inl rfl, Or.inl rfl, Or.inl rfl⟩
  have h4 : KeepOrSet ts env3 env4 := by
    simp only [env4]
    split_ifs
    · exact ⟨Or.inl rfl, Or.inl rfl, Or.inr rfl, Or.inl rfl⟩
    · exact ⟨Or.inl rfl, Or.inl rfl, Or.inl rfl, Or.inl rfl⟩
    · exact ⟨Or.inl rfl, Or.inl rfl, Or.inl rfl, Or.inl rfl⟩
  have h5 : KeepOrSet ts env4 env5 := by
    simp only [env5]
    split_ifs
    · exact ⟨Or.inl rfl, Or.inl rfl, Or.inl rfl, Or.inr rfl⟩
    · exact ⟨Or.inl rfl, Or.inl rfl, Or.inl rfl, Or.inl rfl⟩
    · exact ⟨Or.inl rfl, Or.inl rfl, Or.inl rfl, Or.inl rfl⟩
  exact (((h1.keep_trans h2).keep_trans h3).keep_trans h4).keep_trans h5

theorem CalculateCoastEnvironmentTile_state (env0 env : CoastEnv) (tile : GroundTile)
    (h : NoNewCoast env0 env) : NoNewCoast env0 (CalculateCoastEnvironmentTile env tile) := by
  unfold CalculateCoastEnvironmentTile
  apply foldl_inv (NoNewCoast env0)
  · exact h
  · intro acc c _ hacc
    have hts := tileStateOf_ne_coast tile.type
    obtain ⟨h0, h1, h2, h3⟩ :=
      CalculateCoastEnvironmentCoord_state tile (tileStateOf tile.type) acc c
    refine ⟨fun hne => ?_, fun hne => ?_, fun hne => ?_, fun hne => ?_⟩
    · rcases h0 with e | e <;> rw [e]
      · exact hacc.1 hne
      · exact hts
    · rcases h1 with e | e <;> rw [e]
      · exact hacc.2.1 hne
      · exact hts
    · rcases h2 with e | e <;> rw [e]
      · exact hacc.2.2.1 hne
      · exact hts
    · rcases h3 with e | e <;> rw [e]
      · exact hacc.2.2.2 hne
      · exact hts

theorem CalculateCoastEnvironment_env (env0 : CoastEnv) (tiles : List GroundTile) :
    NoNewCoast env0 (tiles.foldl CalculateCoastEnvironmentTile env0) := by
  apply foldl_inv (NoNewCoast env0)
  · exact ⟨id, id, id, id⟩
  · intro acc tile _ hacc
    exact CalculateCoastEnvironmentTile_state env0 acc tile hacc

theorem Fills.write_env {sm0 sm : StateMap}
    (hf : Fills (fun s => s = State.land ∨ s = State.water) sm0 sm) (g : Prop) [Decidable g]
    (x y : Nat) (s : State) (hs : g → sm0.GetState x y = State.unknown → s ≠ State.coast) :
    Fills (fun s => s = State.land ∨ s = State.water) sm0
      (if g ∧ sm.GetState x y = State.unknown then
        (if s ≠ State.unknown then sm.SetState x y s else sm) else sm) := by
  split
  · rename_i hg
    have hu := hf.unknown_of x y hg.2
    split
    · rename_i hne
      apply hf.step x y s hu
      have hc := hs hg.1 hu
      cases s
      · exact absurd rfl hne
      · exact Or.inl rfl
      · exact Or.inr rfl
      · exact absurd rfl hc
    · exact hf
  · exact hf

theorem CalculateCoastEnvironmentCell_fills (sm0 stateMap : StateMap) (coord : Pixel)
    (tiles : List GroundTile)
    (hf : Fills (fun s => s = State.land ∨ s = State.water) sm0 stateMap) :
    Fills (fun s => s = State.land ∨ s = State.water) sm0
      (CalculateCoastEnvironmentCell stateMap coord tiles) := by
  have hrefl := Fills.fills_refl (fun s => s = State.land ∨ s = State.water) stateMap
  refine hf.fills_trans ?_
  unfold CalculateCoastEnvironmentCell
  simp only
  have henv := CalculateCoastEnvironment_env
    { state0 := if coord.y < subOne32 stateMap.cellYCount
        then stateMap.GetState coord.x (coord.y + 1) else State.unknown,
      state1 := if coord.x < subOne32 stateMap.cellXCount
        then stateMap.GetState (coord.x + 1) coord.y else State.unknown,
      state2 := if coord.y > 0 then stateMap.GetState coord.x (coord.y - 1)
        else State.unknown,
      state3 := if coord.x > 0 then stateMap.GetState (coord.x - 1) coord.y
        else State.unknown,
      coordCount0 := 0, coordCount1 := 0, coordCount2 := 0, coordCount3 := 0 } tiles
  obtain ⟨e0, e1, e2, e3⟩ := henv
  simp only at e0 e1 e2 e3
  refine Fills.write_env (Fills.write_env (Fills.write_env (Fills.write_env hrefl _ _ _ _ ?_)
    _ _ _ _ ?_) _ _ _ _ ?_) _ _ _ _ ?_
  · intro hg hu
    apply e0
    rw [if_pos hg, hu]; decide
  · intro hg hu
    apply e1
    rw [if_pos hg, hu]; decide
  · intro hg hu
    apply e2
    rw [if_pos hg, hu]; decide
  · intro hg hu
    apply e3
    rw [if_pos hg, hu]; decide

theorem CalculateCoastEnvironment_fills (stateMap : StateMap)
    (cellGroundTileMap : List (Pixel × List GroundTile)) :
    Fills (fun s => s = State.land ∨ s = State.water) stateMap
      (CalculateCoastEnvironment stateMap cellGroundTileMap) := by
  unfold CalculateCoastEnvironment
  apply foldl_inv (fun m : StateMap => Fills (fun s => s = State.land ∨ s = State.water)
    stateMap m)
  · exact Fills.fills_refl _ _
  · intro acc e _ hacc
    exact CalculateCoastEnvironmentCell_fills stateMap acc e.1 e.2 hacc

/-! ## Claims on the StateMap -/

/-- C1 (amended): on a StateMap sized by `SetBox` whose cell count `xCount*yCount` fits into
32 bits, for every in-range cell `(x,y)` and every state `s`, `GetState(x,y)` after
`SetState(x,y,s)` returns `s`; the cell lives in byte `(y*xCount+x)/4`, which is a valid index
of the vector, at bit offset `2*((y*xCount+x)%4)`. -/
theorem StateMap_get_set_same (m0 : StateMap) (box : GeoBox) (cw ch : ℚ) (m : StateMap)
    (hm : m = m0.SetBox box cw ch) (hfit : m.cellXCount * m.cellYCount < U32)
    (x y : Nat) (hx : x < m.cellXCount) (hy : y < m.cellYCount) (s : State) :
    (m.SetState x y s).GetState x y = s ∧
    (y * m.cellXCount + x) / 4 < m.area.length ∧
    m.GetState x y =
      State.ofValue (slotGet (m.area.getD ((y * m.cellXCount + x) / 4) 0)
        (2 * ((y * m.cellXCount + x) % 4))) ∧
    (m.SetState x y s).area =
      m.area.set ((y * m.cellXCount + x) / 4)
        (slotSet (m.area.getD ((y * m.cellXCount + x) / 4) 0)
          (2 * ((y * m.cellXCount + x) % 4)) s.toNat) := by
  have hv : m.Valid := by rw [hm] at hfit ⊢; exact SetBox_valid m0 box cw ch hfit
  have hlt := Valid.index_lt m hv x y hx hy
  have hid := (cellId_eq m hfit x y hx hy).1
  refine ⟨?_, ?_, ?_, ?_⟩
  · rw [GetState_SetState, if_pos ⟨rfl, hlt⟩]
  · rw [← hid]; exact hlt
  · rw [GetState_eq, hid]
  · rw [SetState_area, hid]

/-- Witness of C1: the cell `(1,1)` of the `3 × 2` map. -/
theorem StateMap_get_set_same_witness :
    (smallMap.SetState 1 1 State.land).GetState 1 1 = State.land ∧
    (1 * smallMap.cellXCount + 1) / 4 < smallMap.area.length ∧
    smallMap.GetState 1 1 =
      State.ofValue (slotGet (smallMap.area.getD ((1 * smallMap.cellXCount + 1) / 4) 0)
        (2 * ((1 * smallMap.cellXCount + 1) % 4))) ∧
    (smallMap.SetState 1 1 State.land).area =
      smallMap.area.set ((1 * smallMap.cellXCount + 1) / 4)
        (slotSet (smallMap.area.getD ((1 * smallMap.cellXCount + 1) / 4) 0)
          (2 * ((1 * smallMap.cellXCount + 1) % 4)) State.land.toNat) :=
  StateMap_get_set_same StateMap.empty smallBox 1 1 smallMap rfl (by decide!) 1 1
    (by decide!) (by decide!) State.land

/-- Counterexample to C1 as stated: the map of level 16 over the whole world has
`65537 × 65537` cells, the product wraps to `131073` and the vector gets `32769` bytes; the
in-range cell `(0,3)` has byte index `49152`, outside of the vector, and does not hold the
state written to it; the in-range cell `(0,65536)` lives in byte `16384`, not in byte
`(y*xCount+x)/4 = 1073758208`. -/
theorem StateMap_get_set_same_counterexample :
    0 < level16Map.cellXCount ∧ 3 < level16Map.cellYCount ∧
    level16Map.area.length = 32769 ∧ level16Map.cellId 0 3 / 4 = 49152 ∧
    (level16Map.SetState 0 3 State.land).GetState 0 3 ≠ State.land ∧
    65536 < level16Map.cellYCount ∧ level16Map.cellId 0 65536 / 4 = 16384 ∧
    (65536 * level16Map.cellXCount + 0) / 4 = 1073758208 := by
  have hlen : level16Map.area.length = 32769 := by
    unfold level16Map
    rw [SetBox_length]
    decide!
  have hid : level16Map.cellId 0 3 / 4 = 49152 := by decide!
  refine ⟨by decide!, by decide!, hlen, hid, ?_, by decide!, by decide!, by decide!⟩
  rw [GetState_SetState, if_neg (by rw [hid, hlen]; omega)]
  unfold level16Map
  rw [SetBox_empty_GetState]
  decide

/-- C2 (amended): on a StateMap sized by `SetBox` whose cell count fits into 32 bits,
`SetState(x,y,s)` on an in-range cell leaves `GetState` of every other in-range cell
unchanged and keeps the length of the byte vector. -/
theorem StateMap_set_frame (m0 : StateMap) (box : GeoBox) (cw ch : ℚ) (m : StateMap)
    (hm : m = m0.SetBox box cw ch) (hfit : m.cellXCount * m.cellYCount < U32)
    (x y : Nat) (hx : x < m.cellXCount) (hy : y < m.cellYCount) (s : State)
    (u v : Nat) (hu : u < m.cellXCount) (hv : v < m.cellYCount) (hne : (u, v) ≠ (x, y)) :
    (m.SetState x y s).GetState u v = m.GetState u v ∧
    (m.SetState x y s).area.length = m.area.length ∧
    m.cellId x y / 4 < m.area.length ∧ m.cellId u v / 4 < m.area.length := by
  have hvalid : m.Valid := by rw [hm] at hfit ⊢; exact SetBox_valid m0 box cw ch hfit
  refine ⟨?_, SetState_length m x y s, Valid.index_lt m hvalid x y hx hy,
    Valid.index_lt m hvalid u v hu hv⟩
  rw [GetState_SetState, if_neg]
  rintro ⟨h, _⟩
  obtain ⟨h1, h2⟩ := cellId_inj m hfit x y u v hx hy hu hv h
  exact hne (by rw [h1, h2])

/-- Witness of C2: writing cell `(1,1)` of the `3 × 2` map keeps cell `(0,1)`, which shares
its byte. -/
theorem StateMap_set_frame_witness :
    (smallMap.SetState 1 1 State.water).GetState 0 1 = smallMap.GetState 0 1 ∧
    (smallMap.SetState 1 1 State.water).area.length = smallMap.area.length ∧
    smallMap.cellId 1 1 / 4 < smallMap.area.length ∧
    smallMap.cellId 0 1 / 4 < smallMap.area.length :=
  StateMap_set_frame StateMap.empty smallBox 1 1 smallMap rfl (by decide!) 1 1
    (by decide!) (by decide!) State.water 0 1 (by decide!) (by decide!) (by decide)

/-- Counterexample to C2 as stated: in the map of level 16 over the whole world
(`65537 × 65537` cells) the in-range cells `(0,65536)` and `(65536,0)` both get the 32 bit
cell id `65536`, so writing the first changes the second. -/
theorem StateMap_set_frame_counterexample :
    65536 < level16Map.cellXCount ∧ 65536 < level16Map.cellYCount ∧
    level16Map.GetState 65536 0 = State.unknown ∧
    (level16Map.SetState 0 65536 State.land).GetState 65536 0 = State.land := by
  have hlen : level16Map.area.length = 32769 := by
    unfold level16Map
    rw [SetBox_length]
    decide!
  have h0 : level16Map.GetState 65536 0 = State.unknown := by
    unfold level16Map
    rw [SetBox_empty_GetState]
  have hid1 : level16Map.cellId 0 65536 = 65536 := by decide!
  have hid2 : level16Map.cellId 65536 0 = 65536 := by decide!
  refine ⟨by decide!, by decide!, h0, ?_⟩
  rw [GetState_SetState, if_pos]
  rw [hid1, hid2, hlen]
  exact ⟨rfl, by omega⟩

/-- C3 (the code at the failing input): `SetBox` on a map that already holds a `land` cell
keeps that cell, since `resize` only initialises the bytes it adds. -/
theorem SetBox_keeps_old_cells :
    usedMap.GetState 0 0 = State.land ∧
    (usedMap.SetBox smallBox 1 1).GetState 0 0 = State.land ∧
    0 < (usedMap.SetBox smallBox 1 1).cellXCount ∧
    0 < (usedMap.SetBox smallBox 1 1).cellYCount := by
  decide!

/-- C4: after `SetBox`, with `xCount = xEnd-xStart+1` and `yCount = yEnd-yStart+1` in 32 bit
arithmetic, the byte vector has exactly `⌈xCount*yCount/4⌉` bytes whenever `xCount*yCount`
fits into 32 bits, and the byte index `(y*xCount+x)/4` of every in-range cell is a valid
index of the vector. -/
theorem SetBox_area_size (m0 : StateMap) (box : GeoBox) (cw ch : ℚ) (m : StateMap)
    (hm : m = m0.SetBox box cw ch) (hfit : m.cellXCount * m.cellYCount < U32) :
    m.cellXCount = (m.cellXEnd + U32 - m.cellXStart + 1) % U32 ∧
    m.cellYCount = (m.cellYEnd + U32 - m.cellYStart + 1) % U32 ∧
    (m.cellXStart ≤ m.cellXEnd ∧ m.cellXEnd - m.cellXStart + 1 < U32 →
      m.cellXCount = m.cellXEnd - m.cellXStart + 1) ∧
    (m.cellYStart ≤ m.cellYEnd ∧ m.cellYEnd - m.cellYStart + 1 < U32 →
      m.cellYCount = m.cellYEnd - m.cellYStart + 1) ∧
    m.area.length = (m.cellXCount * m.cellYCount + 3) / 4 ∧
    4 * m.area.length < m.cellXCount * m.cellYCount + 4 ∧
    m.cellXCount * m.cellYCount ≤ 4 * m.area.length ∧
    ∀ x y, x < m.cellXCount → y < m.cellYCount →
      m.cellId x y = y * m.cellXCount + x ∧ (y * m.cellXCount + x) / 4 < m.area.length := by
  have hv : m.Valid := by rw [hm] at hfit ⊢; exact SetBox_valid m0 box cw ch hfit
  have hxc : m.cellXCount = (m.cellXEnd + U32 - m.cellXStart + 1) % U32 := by
    rw [hm]; exact SetBox_cellXCount m0 box cw ch
  have hyc : m.cellYCount = (m.cellYEnd + U32 - m.cellYStart + 1) % U32 := by
    rw [hm]; exact SetBox_cellYCount m0 box cw ch
  have hlen := hv.2
  refine ⟨hxc, hyc, ?_, ?_, hlen, by omega, by omega, ?_⟩
  · rintro ⟨h1, h2⟩
    rw [hxc]
    have : m.cellXEnd + U32 - m.cellXStart + 1 = (m.cellXEnd - m.cellXStart + 1) + U32 := by
      omega
    rw [this, Nat.add_mod_right, Nat.mod_eq_of_lt h2]
  · rintro ⟨h1, h2⟩
    rw [hyc]
    have : m.cellYEnd + U32 - m.cellYStart + 1 = (m.cellYEnd - m.cellYStart + 1) + U32 := by
      omega
    rw [this, Nat.add_mod_right, Nat.mod_eq_of_lt h2]
  · intro x y hx hy
    have hid := (cellId_eq m hv.1 x y hx hy).1
    have hlt := Valid.index_lt m hv x y hx hy
    rw [hid] at hlt
    exact ⟨hid, hlt⟩

/-- Witness of C4: the `3 × 2` map has `6` cells in `2` bytes. -/
theorem SetBox_area_size_witness :
    smallMap.cellXCount * smallMap.cellYCount < U32 ∧
    smallMap.area.length = (smallMap.cellXCount * smallMap.cellYCount + 3) / 4 ∧
    smallMap.area.length = 2 :=
  ⟨by decide!,
   (SetBox_area_size StateMap.empty smallBox 1 1 smallMap rfl (by decide!)).2.2.2.2.1,
   by decide!⟩

/-! ## Claims on FillLand -/

/-- C5: `FillLand` is idempotent.  On every StateMap whose in-range cells lie inside of the
byte vector `FillLand` ends with a map `m'`, and running `FillLand` on `m'` ends with `m'`
again, so it changes no cell.  The results do not depend on the bound on the number of
passes. -/
theorem FillLand_idempotent (m : StateMap) (hb : m.InBounds) :
    ∃ m', FillLand m = some m' ∧ FillLand m' = some m' ∧
      (∀ k, unknownCount m + 1 ≤ k → FillLandLoop k m = some m') ∧
      (∀ k, FillLandLoop (k + 1) m' = some m') := by
  obtain ⟨m', h1, _, h3⟩ := FillLand_spec m hb
  exact ⟨m', h1, FillLandLoop_fixed m' h3 _, fun k hk => FillLandLoop_mono_le _ k hk m m' h1,
    FillLandLoop_fixed m' h3⟩

/-- Witness of C5: the row `land, unknown, coast` is filled to `land, land, coast`, which
`FillLand` leaves as it is. -/
theorem FillLand_idempotent_witness :
    landGapMap.InBounds ∧
    FillLand landGapMap = some (landGapMap.SetState 1 0 State.land) ∧
    FillLand (landGapMap.SetState 1 0 State.land) = some (landGapMap.SetState 1 0 State.land) ∧
    ∃ m', FillLand landGapMap = some m' ∧ FillLand m' = some m' ∧
      (∀ k, unknownCount landGapMap + 1 ≤ k → FillLandLoop k landGapMap = some m') ∧
      (∀ k, FillLandLoop (k + 1) m' = some m') :=
  ⟨Valid.to_inBounds landGapMap (by decide!), by decide!, by decide!,
    FillLand_idempotent landGapMap (Valid.to_inBounds landGapMap (by decide!))⟩

/-- C6: on every StateMap `m` whose in-range cells lie inside of the byte vector, `FillLand`
ends with a map `m'` in which every cell that is `land`, `coast` or `water` in `m` has kept
its state, and every cell whose state differs was `unknown` before and is `land` afterwards. -/
theorem FillLand_monotone (m : StateMap) (hb : m.InBounds) :
    ∃ m', FillLand m = some m' ∧
      (∀ k, unknownCount m + 1 ≤ k → FillLandLoop k m = some m') ∧
      ∀ x y,
        (m.GetState x y ≠ State.unknown → m'.GetState x y = m.GetState x y) ∧
        (m'.GetState x y ≠ m.GetState x y →
          m.GetState x y = State.unknown ∧ m'.GetState x y = State.land) := by
  obtain ⟨m', h1, h2, _⟩ := FillLand_spec m hb
  refine ⟨m', h1, fun k hk => FillLandLoop_mono_le _ k hk m m' h1, fun x y => ⟨?_, ?_⟩⟩
  · exact h2.keeps x y
  · intro hne
    rcases h2.2.2 x y with h | h
    · exact absurd h hne
    · exact h

/-- Witness of C6: in the row `land, unknown, coast` the `unknown` cell becomes `land`, the
other two cells keep their state. -/
theorem FillLand_monotone_witness :
    landGapMap.InBounds ∧
    (∃ m', FillLand landGapMap = some m' ∧ m'.GetState 0 0 = State.land ∧
      m'.GetState 1 0 = State.land ∧ m'.GetState 2 0 = State.coast) ∧
    ∃ m', FillLand landGapMap = some m' ∧
      (∀ k, unknownCount landGapMap + 1 ≤ k → FillLandLoop k landGapMap = some m') ∧
      ∀ x y,
        (landGapMap.GetState x y ≠ State.unknown →
          m'.GetState x y = landGapMap.GetState x y) ∧
        (m'.GetState x y ≠ landGapMap.GetState x y →
          landGapMap.GetState x y = State.unknown ∧ m'.GetState x y = State.land) :=
  ⟨Valid.to_inBounds landGapMap (by decide!),
    ⟨landGapMap.SetState 1 0 State.land, by decide!, by decide!, by decide!, by decide!⟩,
    FillLand_monotone landGapMap (Valid.to_inBounds landGapMap (by decide!))⟩

/-! ## Claims on FillWater -/

/-- C7: for every level, every `tileCount` and every list of bounding polygons, each cell
that is `land`, `coast` or `water` before `FillWater` has the same state afterwards, and every
cell that `FillWater` changes was `unknown` and becomes `water`. -/
theorem FillWater_monotone (isAreaAtLeastPartlyInArea : List GeoCoord → List Point → Bool)
    (level : Level) (tileCount : Nat) (boundingPolygons : List Coast) (x y : Nat) :
    (level.stateMap.GetState x y ≠ State.unknown →
      (FillWater isAreaAtLeastPartlyInArea level tileCount boundingPolygons).stateMap.GetState
        x y = level.stateMap.GetState x y) ∧
    ((FillWater isAreaAtLeastPartlyInArea level tileCount boundingPolygons).stateMap.GetState
        x y ≠ level.stateMap.GetState x y →
      level.stateMap.GetState x y = State.unknown ∧
      (FillWater isAreaAtLeastPartlyInArea level tileCount boundingPolygons).stateMap.GetState
        x y = State.water) := by
  have h := FillWater_fills isAreaAtLeastPartlyInArea boundingPolygons tileCount level
  refine ⟨h.keeps x y, fun hne => ?_⟩
  rcases h.2.2 x y with h' | h'
  · exact absurd h' hne
  · exact h'

/-- Example for C7: one round on the row `water, unknown, coast` turns the `unknown` cell
into `water` and keeps the other two cells. -/
theorem FillWater_monotone_witness :
    (FillWater cornerInHull waterGapLevel 1 []).stateMap.GetState 0 0
      = waterGapLevel.stateMap.GetState 0 0 ∧
    waterGapLevel.stateMap.GetState 0 0 = State.water ∧
    (FillWater cornerInHull waterGapLevel 1 []).stateMap.GetState 1 0 = State.water ∧
    (FillWater cornerInHull waterGapLevel 1 []).stateMap.GetState 2 0 = State.coast ∧
    waterGapLevel.stateMap.GetState 1 0 = State.unknown :=
  ⟨(FillWater_monotone cornerInHull waterGapLevel 1 [] 0 0).1 (by decide!),
    by decide!, by decide!, by decide!, by decide!⟩

/-- Counterexample to C8 as stated: the `unknown` cell `(1,0)` overlaps no bounding polygon,
its neighbour `(0,0)` is `water` and overlaps the bounding polygon, and one round of
`FillWater` turns `(1,0)` into `water`. -/
theorem FillWater_polygon_counterexample :
    IsCellInBoundingPolygon cornerInHull (CellBoundaries.make waterGapLevel.stateMap ⟨1, 0⟩)
      [westPolygon] = false ∧
    IsCellInBoundingPolygon cornerInHull (CellBoundaries.make waterGapLevel.stateMap ⟨0, 0⟩)
      [westPolygon] = true ∧
    waterGapLevel.stateMap.GetState 1 0 = State.unknown ∧
    (FillWater cornerInHull waterGapLevel 1 [westPolygon]).stateMap.GetState 1 0
      = State.water := by
  decide!

/-- C8 (amended): `FillWater` tests the bounding polygons on the water cell that spreads,
not on the cell that is filled.  On a valid map, every in-range cell that `FillWater` changes
has a 4-neighbour inside the map that is `water` afterwards and for which
`IsCellInBoundingPolygon` holds. -/
theorem FillWater_polygon_source
    (isAreaAtLeastPartlyInArea : List GeoCoord → List Point → Bool)
    (boundingPolygons : List Coast) (tileCount : Nat) :
    ∀ (level : Level), level.stateMap.Valid →
    ∀ u v, u < level.stateMap.cellXCount → v < level.stateMap.cellYCount →
      (FillWater isAreaAtLeastPartlyInArea level tileCount boundingPolygons).stateMap.GetState
        u v ≠ level.stateMap.GetState u v →
      ∃ x y, x < level.stateMap.cellXCount ∧ y < level.stateMap.cellYCount ∧
        Adjacent x y u v ∧
        (FillWater isAreaAtLeastPartlyInArea level tileCount
          boundingPolygons).stateMap.GetState x y = State.water ∧
        IsCellInBoundingPolygon isAreaAtLeastPartlyInArea
          (CellBoundaries.make level.stateMap ⟨x, y⟩) boundingPolygons = true := by
  induction tileCount with
  | zero =>
    intro level _ u v _ _ hne
    exact absurd rfl hne
  | succ n ih =>
    intro level hvalid u v hu hv hne
    rw [FillWater] at hne ⊢
    have hround := FillWaterRound_fills isAreaAtLeastPartlyInArea boundingPolygons level
    have hrest := FillWater_fills isAreaAtLeastPartlyInArea boundingPolygons n
      (FillWaterRound isAreaAtLeastPartlyInArea boundingPolygons level)
    by_cases h1 : (FillWaterRound isAreaAtLeastPartlyInArea boundingPolygons
        level).stateMap.GetState u v = level.stateMap.GetState u v
    · rw [← h1] at hne
      obtain ⟨x, y, hx, hy, hadj, hw, hp⟩ := ih _ (hround.valid_of hvalid) u v
        (by rw [hround.cellXCount]; exact hu) (by rw [hround.cellYCount]; exact hv) hne
      rw [hround.cellXCount] at hx
      rw [hround.cellYCount] at hy
      rw [CellBoundaries_make_congr hround.1] at hp
      exact ⟨x, y, hx, hy, hadj, hw, hp⟩
    · obtain ⟨x, y, hx, hy, hadj, hw, hp⟩ := FillWaterRound_source isAreaAtLeastPartlyInArea
        boundingPolygons level hvalid u v hu hv h1
      refine ⟨x, y, hx, hy, hadj, ?_, hp⟩
      rw [(hround.fills_trans hrest).keeps x y (by rw [hw]; decide), hw]

/-- Witness of C8 (amended): in the row `water, unknown, coast` the cell `(1,0)` is filled
from its neighbour `(0,0)`. -/
theorem FillWater_polygon_source_witness :
    waterGapLevel.stateMap.Valid ∧
    (FillWater cornerInHull waterGapLevel 1 [westPolygon]).stateMap.GetState 1 0
      ≠ waterGapLevel.stateMap.GetState 1 0 ∧
    ∃ x y, x < waterGapLevel.stateMap.cellXCount ∧ y < waterGapLevel.stateMap.cellYCount ∧
      Adjacent x y 1 0 ∧
      (FillWater cornerInHull waterGapLevel 1 [westPolygon]).stateMap.GetState x y
        = State.water ∧
      IsCellInBoundingPolygon cornerInHull (CellBoundaries.make waterGapLevel.stateMap ⟨x, y⟩)
        [westPolygon] = true :=
  ⟨by decide!, by decide!,
    FillWater_polygon_source cornerInHull [westPolygon] 1 waterGapLevel (by decide!) 1 0
      (by decide!) (by decide!) (by decide!)⟩

/-! ## Claims on CalculateCoastEnvironment and CalculateHasCellData -/

/-- C9: for every StateMap and every tile map whose tiles all have at least one coordinate,
`CalculateCoastEnvironment` changes only cells that were `unknown` before the call, and every
cell it changes becomes `land` or `water`. -/
theorem CalculateCoastEnvironment_upgrades (stateMap : StateMap)
    (cellGroundTileMap : List (Pixel × List GroundTile))
    (_hcoords : ∀ e ∈ cellGroundTileMap, ∀ t ∈ e.2, t.coords ≠ []) (x y : Nat)
    (hne : (CalculateCoastEnvironment stateMap cellGroundTileMap).GetState x y
      ≠ stateMap.GetState x y) :
    stateMap.GetState x y = State.unknown ∧
    ((CalculateCoastEnvironment stateMap cellGroundTileMap).GetState x y = State.land ∨
      (CalculateCoastEnvironment stateMap cellGroundTileMap).GetState x y = State.water) := by
  rcases (CalculateCoastEnvironment_fills stateMap cellGroundTileMap).2.2 x y with h | h
  · exact absurd h hne
  · exact h

/-- Witness of C9: a land tile along the top border of the coast cell `(1,0)` turns the
`unknown` cell `(1,1)` above it into `land`. -/
theorem CalculateCoastEnvironment_upgrades_witness :
    (∀ e ∈ coastCellTiles, ∀ t ∈ e.2, t.coords ≠ []) ∧
    (CalculateCoastEnvironment coastCellMap coastCellTiles).GetState 1 1 = State.land ∧
    (coastCellMap.GetState 1 1 = State.unknown ∧
      ((CalculateCoastEnvironment coastCellMap coastCellTiles).GetState 1 1 = State.land ∨
        (CalculateCoastEnvironment coastCellMap coastCellTiles).GetState 1 1 = State.water)) :=
  ⟨by decide, by decide!,
    CalculateCoastEnvironment_upgrades coastCellMap coastCellTiles (by decide) 1 1
      (by decide!)⟩

theorem hasCellDataRow_false (m : StateMap) (d : State) (y : Nat) (xs : List Nat) :
    hasCellDataRow m d y xs false = true ↔ ∃ x ∈ xs, m.GetState x y ≠ d := by
  induction xs with
  | nil => simp [hasCellDataRow]
  | cons x xs ih =>
    rw [hasCellDataRow]
    show (if decide (m.GetState x y ≠ d) = true then true
      else hasCellDataRow m d y xs (decide (m.GetState x y ≠ d))) = true ↔ _
    by_cases h : m.GetState x y ≠ d
    · rw [if_pos (decide_eq_true h)]
      exact ⟨fun _ => ⟨x, List.mem_cons_self x xs, h⟩, fun _ => rfl⟩
    · rw [decide_eq_false h, if_neg (by decide), ih]
      constructor
      · rintro ⟨x', hx', h'⟩
        exact ⟨x', List.mem_cons_of_mem x hx', h'⟩
      · rintro ⟨x', hx', h'⟩
        rcases List.mem_cons.mp hx' with e | e
        · rw [e] at h'; exact absurd h' h
        · exact ⟨x', e, h'⟩

theorem hasCellDataRow_cons (m : StateMap) (d : State) (y x : Nat) (xs : List Nat) (h : Bool) :
    hasCellDataRow m d y (x :: xs) h = hasCellDataRow m d y (x :: xs) false := by
  rw [hasCellDataRow, hasCellDataRow]

theorem hasCellDataRows_false (m : StateMap) (d : State) (hx : 0 < m.cellXCount)
    (ys : List Nat) :
    hasCellDataRows m d ys false = true ↔
      ∃ y ∈ ys, ∃ x, x < m.cellXCount ∧ m.GetState x y ≠ d := by
  obtain ⟨n, hn⟩ : ∃ n, m.cellXCount = n + 1 := ⟨m.cellXCount - 1, by omega⟩
  have hrange : List.range m.cellXCount = 0 :: List.range' 1 n := by
    rw [hn, List.range_eq_range', List.range'_succ]
  induction ys with
  | nil => simp [hasCellDataRows]
  | cons y ys ih =>
    rw [hasCellDataRows]
    have hrow : hasCellDataRow m d y (List.range m.cellXCount) false = true ↔
        ∃ x, x < m.cellXCount ∧ m.GetState x y ≠ d := by
      rw [hasCellDataRow_false]
      constructor
      · rintro ⟨x, hx, h⟩
        exact ⟨x, List.mem_range.mp hx, h⟩
      · rintro ⟨x, hx, h⟩
        exact ⟨x, List.mem_range.mpr hx, h⟩
    by_cases h : hasCellDataRow m d y (List.range m.cellXCount) false = true
    · simp only [h, if_true, true_iff]
      exact ⟨y, List.mem_cons_self y ys, hrow.mp h⟩
    · have h' : hasCellDataRow m d y (List.range m.cellXCount) false = false := by
        rw [Bool.not_eq_true] at h; exact h
      simp only [h', Bool.false_eq_true, if_false]
      constructor
      · intro hex
        obtain ⟨y', hy', hex'⟩ := ih.mp hex
        exact ⟨y', List.mem_cons_of_mem y hy', hex'⟩
      · rintro ⟨y', hy', hex⟩
        rcases List.mem_cons.mp hy' with e | e
        · rw [e] at hex; exact absurd (hrow.mpr hex) h
        · exact ih.mpr ⟨y', e, hex⟩

theorem hasCellDataRows_cons (m : StateMap) (d : State) (hx : 0 < m.cellXCount) (y : Nat)
    (ys : List Nat) (h : Bool) :
    hasCellDataRows m d (y :: ys) h = hasCellDataRows m d (y :: ys) false := by
  obtain ⟨n, hn⟩ : ∃ n, m.cellXCount = n + 1 := ⟨m.cellXCount - 1, by omega⟩
  have hrange : List.range m.cellXCount = 0 :: List.range' 1 n := by
    rw [hn, List.range_eq_range', List.range'_succ]
  rw [hasCellDataRows, hasCellDataRows, hrange, hasCellDataRow_cons m d y 0 _ h]

/-- C10: for every level with `xCount > 0` and `yCount > 0`, `CalculateHasCellData` sets
`defaultCellData` to the state of cell `(0,0)` and sets `hasCellData` to true exactly when
the tile map is non-empty or the state of some cell differs from the state of cell `(0,0)`;
an all-water map without tiles gets `hasCellData=false` and `defaultCellData=water`. -/
theorem CalculateHasCellData_spec (level : Level)
    (cellGroundTileMap : List (Pixel × List GroundTile))
    (hx : 0 < level.stateMap.cellXCount) (hy : 0 < level.stateMap.cellYCount) :
    (CalculateHasCellData level cellGroundTileMap).defaultCellData
      = level.stateMap.GetState 0 0 ∧
    ((CalculateHasCellData level cellGroundTileMap).hasCellData = true ↔
      cellGroundTileMap ≠ [] ∨
      ∃ x y, x < level.stateMap.cellXCount ∧ y < level.stateMap.cellYCount ∧
        level.stateMap.GetState x y ≠ level.stateMap.GetState 0 0) ∧
    (CalculateHasCellData level cellGroundTileMap).stateMap = level.stateMap ∧
    (cellGroundTileMap = [] ∧
      (∀ x, x < level.stateMap.cellXCount → ∀ y, y < level.stateMap.cellYCount →
        level.stateMap.GetState x y = State.water) →
      (CalculateHasCellData level cellGroundTileMap).hasCellData = false ∧
      (CalculateHasCellData level cellGroundTileMap).defaultCellData = State.water) := by
  obtain ⟨n, hn⟩ : ∃ n, level.stateMap.cellYCount = n + 1 :=
    ⟨level.stateMap.cellYCount - 1, by omega⟩
  have hrange : List.range level.stateMap.cellYCount = 0 :: List.range' 1 n := by
    rw [hn, List.range_eq_range', List.range'_succ]
  have hdef : (CalculateHasCellData level cellGroundTileMap).defaultCellData
      = level.stateMap.GetState 0 0 := by
    unfold CalculateHasCellData
    simp only [gt_iff_lt, hx, hy, and_self, if_true]
    split <;> rfl
  have hsm : (CalculateHasCellData level cellGroundTileMap).stateMap = level.stateMap := by
    unfold CalculateHasCellData
    simp only [gt_iff_lt, hx, hy, and_self, if_true]
    split <;> rfl
  have hhas : (CalculateHasCellData level cellGroundTileMap).hasCellData = true ↔
      cellGroundTileMap ≠ [] ∨
      ∃ x y, x < level.stateMap.cellXCount ∧ y < level.stateMap.cellYCount ∧
        level.stateMap.GetState x y ≠ level.stateMap.GetState 0 0 := by
    unfold CalculateHasCellData
    simp only [gt_iff_lt, hx, hy, and_self, if_true]
    by_cases hlen : cellGroundTileMap.length > 0
    · simp only [hlen, if_true, true_iff]
      exact Or.inl (List.ne_nil_of_length_pos hlen)
    · have hnil : cellGroundTileMap = [] := List.eq_nil_of_length_eq_zero (by omega)
      simp only [hlen, if_false]
      have hcons := hasCellDataRows_cons level.stateMap (level.stateMap.GetState 0 0) hx 0
        (List.range' 1 n) false
      rw [hrange, hasCellDataRows_cons level.stateMap (level.stateMap.GetState 0 0) hx 0
        (List.range' 1 n) false, ← hrange,
        hasCellDataRows_false level.stateMap (level.stateMap.GetState 0 0) hx]
      constructor
      · rintro ⟨y, hy', x, hx', h⟩
        exact Or.inr ⟨x, y, hx', List.mem_range.mp hy', h⟩
      · rintro (h | ⟨x, y, hx', hy', h⟩)
        · exact absurd hnil h
        · exact ⟨y, List.mem_range.mpr hy', x, hx', h⟩
  refine ⟨hdef, hhas, hsm, ?_⟩
  rintro ⟨hnil, hall⟩
  have h00 : level.stateMap.GetState 0 0 = State.water := hall 0 hx 0 hy
  refine ⟨?_, by rw [hdef, h00]⟩
  rw [← Bool.not_eq_true, hhas]
  rintro (h | ⟨x, y, hx', hy', h⟩)
  · exact h hnil
  · exact h (by rw [hall x hx' y hy', h00])

/-- Witness of C10: the all-water `3 × 2` map without tiles gets `hasCellData=false` and
`defaultCellData=water`. -/
theorem CalculateHasCellData_spec_witness :
    0 < allWaterLevel.stateMap.cellXCount ∧ 0 < allWaterLevel.stateMap.cellYCount ∧
    (CalculateHasCellData allWaterLevel []).hasCellData = false ∧
    (CalculateHasCellData allWaterLevel []).defaultCellData = State.water :=
  ⟨by decide!, by decide!,
    (CalculateHasCellData_spec allWaterLevel [] (by decide!) (by decide!)).2.2.2
      ⟨rfl, by decide!⟩⟩

/-! ## Transform -/

theorem toU16_of_range (z : Int) (h0 : 0 ≤ z) (h1 : z ≤ 32767) : ((toU16 z : Nat) : Int) = z := by
  unfold toU16
  rw [Int.toNat_of_nonneg (Int.emod_nonneg z (by decide))]
  exact Int.emod_eq_of_lt h0 (by omega)

theorem scaled_floor_range (t w : ℚ) (hw : 0 < w) (h0 : 0 ≤ t) (h1 : t ≤ w) :
    0 ≤ ⌊t / w * (GroundTile.Coord.CELL_MAX : ℚ) + 1 / 2⌋ ∧
    ⌊t / w * (GroundTile.Coord.CELL_MAX : ℚ) + 1 / 2⌋ ≤ 32767 := by
  have hq0 : 0 ≤ t / w := div_nonneg h0 (le_of_lt hw)
  have hq1 : t / w ≤ 1 := (div_le_one hw).mpr h1
  have hmax : (GroundTile.Coord.CELL_MAX : ℚ) = 32767 := by
    unfold GroundTile.Coord.CELL_MAX; norm_num
  rw [hmax]
  constructor
  · apply Int.floor_nonneg.mpr
    have : 0 ≤ t / w * 32767 := mul_nonneg hq0 (by norm_num)
    linarith
  · have hlt : t / w * 32767 + 1 / 2 < ((32768 : Int) : ℚ) := by
      have : t / w * 32767 ≤ 1 * 32767 := mul_le_mul_of_nonneg_right hq1 (by norm_num)
      push_cast
      linarith
    have := Int.floor_lt.mpr hlt
    omega

/-- C15: over exact arithmetic, for a cell of positive width and height and every point with
`cellMinLon ≤ lon ≤ cellMinLon+cellWidth` and `cellMinLat ≤ lat ≤ cellMinLat+cellHeight`,
`Transform` returns `(u,v,onCoast)` with `u = round((lon-cellMinLon)/cellWidth·CELL_MAX)` and
`v = round((lat-cellMinLat)/cellHeight·CELL_MAX)`, both in `[0, CELL_MAX]`; the minimum corner
of the cell maps to `(0,0)`, the maximum corner to `(CELL_MAX,CELL_MAX)`, and the flag is
copied. -/
theorem Transform_spec (point : GeoCoord) (stateMap : StateMap) (cellMinLat cellMinLon : ℚ)
    (coast : Bool) (hw : 0 < stateMap.cellWidth) (hh : 0 < stateMap.cellHeight)
    (hlon0 : cellMinLon ≤ point.lon) (hlon1 : point.lon ≤ cellMinLon + stateMap.cellWidth)
    (hlat0 : cellMinLat ≤ point.lat) (hlat1 : point.lat ≤ cellMinLat + stateMap.cellHeight) :
    (((Transform point stateMap cellMinLat cellMinLon coast).x : Nat) : Int)
      = round ((point.lon - cellMinLon) / stateMap.cellWidth
          * (GroundTile.Coord.CELL_MAX : ℚ)) ∧
    (((Transform point stateMap cellMinLat cellMinLon coast).y : Nat) : Int)
      = round ((point.lat - cellMinLat) / stateMap.cellHeight
          * (GroundTile.Coord.CELL_MAX : ℚ)) ∧
    (Transform point stateMap cellMinLat cellMinLon coast).x ≤ GroundTile.Coord.CELL_MAX ∧
    (Transform point stateMap cellMinLat cellMinLon coast).y ≤ GroundTile.Coord.CELL_MAX ∧
    (Transform point stateMap cellMinLat cellMinLon coast).coast = coast ∧
    Transform ⟨cellMinLat, cellMinLon⟩ stateMap cellMinLat cellMinLon coast
      = ⟨0, 0, coast⟩ ∧
    Transform ⟨cellMinLat + stateMap.cellHeight, cellMinLon + stateMap.cellWidth⟩ stateMap
        cellMinLat cellMinLon coast
      = ⟨GroundTile.Coord.CELL_MAX, GroundTile.Coord.CELL_MAX, coast⟩ := by
  have hx := scaled_floor_range (point.lon - cellMinLon) stateMap.cellWidth hw
    (by linarith) (by linarith)
  have hy := scaled_floor_range (point.lat - cellMinLat) stateMap.cellHeight hh
    (by linarith) (by linarith)
  have ex := toU16_of_range _ hx.1 hx.2
  have ey := toU16_of_range _ hy.1 hy.2
  have hmax : GroundTile.Coord.CELL_MAX = 32767 := rfl
  refine ⟨?_, ?_, ?_, ?_, rfl, ?_, ?_⟩
  · rw [round_eq]; exact ex
  · rw [round_eq]; exact ey
  · have : (((Transform point stateMap cellMinLat cellMinLon coast).x : Nat) : Int) ≤ 32767 := by
      show ((toU16 _ : Nat) : Int) ≤ 32767
      rw [ex]; exact hx.2
    rw [hmax]; omega
  · have : (((Transform point stateMap cellMinLat cellMinLon coast).y : Nat) : Int) ≤ 32767 := by
      show ((toU16 _ : Nat) : Int) ≤ 32767
      rw [ey]; exact hy.2
    rw [hmax]; omega
  · unfold Transform
    simp only [sub_self, zero_div, zero_mul, zero_add]
    have : ⌊(1 / 2 : ℚ)⌋ = 0 := by rw [Int.floor_eq_iff]; norm_num
    rw [this]
    rfl
  · unfold Transform
    simp only [add_sub_cancel_left, div_self (ne_of_gt hw), div_self (ne_of_gt hh), one_mul]
    have : ⌊((GroundTile.Coord.CELL_MAX : ℚ) + 1 / 2)⌋ = 32767 := by
      rw [Int.floor_eq_iff]; unfold GroundTile.Coord.CELL_MAX; norm_num
    rw [this]
    rfl

/-- Witness of C15: in the cell `(1,0)` of the `3 × 2` map of one degree cells, the point
`(lat 1/4, lon 3/2)` maps to `(16384, 8192)`. -/
theorem Transform_spec_witness :
    Transform ⟨1 / 4, 3 / 2⟩ smallMap 0 1 true = ⟨16384, 8192, true⟩ ∧
    (((Transform ⟨1 / 4, 3 / 2⟩ smallMap 0 1 true).x : Nat) : Int)
      = round (((3 / 2 : ℚ) - 1) / smallMap.cellWidth * (GroundTile.Coord.CELL_MAX : ℚ)) ∧
    (Transform ⟨1 / 4, 3 / 2⟩ smallMap 0 1 true).x ≤ GroundTile.Coord.CELL_MAX :=
  ⟨by decide!,
    (Transform_spec ⟨1 / 4, 3 / 2⟩ smallMap 0 1 true (by decide!) (by decide!)
      (by decide!) (by decide!) (by decide!) (by decide!)).1,
    (Transform_spec ⟨1 / 4, 3 / 2⟩ smallMap 0 1 true (by decide!) (by decide!)
      (by decide!) (by decide!) (by decide!) (by decide!)).2.2.1⟩

/-! ## Maps keyed by Pixel -/

theorem getList_cons {α : Type} (e : Pixel × List α) (m : List (Pixel × List α)) (k : Pixel) :
    getList (e :: m) k = if e.1 = k then e.2 else getList m k := by
  unfold getList
  rw [List.find?_cons]
  by_cases h : e.1 = k
  · simp [h]
  · simp [h]

theorem getList_of_not_any {α : Type} (m : List (Pixel × List α)) (k : Pixel)
    (h : m.any (fun e => decide (e.1 = k)) = false) : getList m k = [] := by
  induction m with
  | nil => rfl
  | cons e m ih =>
    rw [List.any_cons, Bool.or_eq_false_iff] at h
    rw [getList_cons, if_neg (by simpa using h.1)]
    exact ih h.2

theorem getList_insertSorted {α : Type} (lt : Pixel → Pixel → Bool)
    (m : List (Pixel × List α)) (k k' : Pixel) (l : List α)
    (h : m.any (fun e => decide (e.1 = k)) = false) :
    getList (insertSorted lt (k, l) m) k' = if k' = k then l else getList m k' := by
  induction m with
  | nil =>
    rw [insertSorted, getList_cons]
    by_cases hk : k = k'
    · simp [hk]
    · rw [if_neg hk, if_neg (fun e => hk e.symm)]
  | cons e m ih =>
    rw [List.any_cons, Bool.or_eq_false_iff] at h
    have hek : e.1 ≠ k := by simpa using h.1
    rw [insertSorted]
    split
    · rw [getList_cons]
      by_cases hk : k = k'
      · simp [hk]
      · rw [if_neg hk, if_neg (fun e => hk e.symm)]
    · rw [getList_cons, getList_cons, ih h.2]
      by_cases hk : k' = k
      · rw [if_pos hk, if_pos hk, if_neg (by rw [hk]; exact hek)]
      · rw [if_neg hk, if_neg hk]

theorem getList_map_push_ne {α : Type} (m : List (Pixel × List α)) (k k' : Pixel) (v : α)
    (hk : k' ≠ k) :
    getList (m.map (fun e => if e.1 = k then (e.1, e.2 ++ [v]) else e)) k' = getList m k' := by
  induction m with
  | nil => rfl
  | cons e m ih =>
    rw [List.map_cons, getList_cons, getList_cons, ih]
    by_cases hek : e.1 = k
    · have h1 : ¬ e.1 = k' := by rw [hek]; exact fun h => hk h.symm
      rw [if_pos hek]
      show (if e.1 = k' then e.2 ++ [v] else getList m k') = _
      rw [if_neg h1, if_neg h1]
    · rw [if_neg hek]

theorem getList_map_push_eq {α : Type} (m : List (Pixel × List α)) (k : Pixel) (v : α)
    (h : m.any (fun e => decide (e.1 = k)) = true) :
    getList (m.map (fun e => if e.1 = k then (e.1, e.2 ++ [v]) else e)) k
      = getList m k ++ [v] := by
  induction m with
  | nil => simp at h
  | cons e m ih =>
    rw [List.map_cons, getList_cons, getList_cons]
    by_cases hek : e.1 = k
    · simp [hek]
    · rw [if_neg hek, if_neg hek, if_neg hek]
      rw [List.any_cons, Bool.or_eq_true] at h
      rcases h with h | h
      · simp only [decide_eq_true_eq] at h; exact absurd h hek
      · exact ih h

theorem getList_map_push {α : Type} (m : List (Pixel × List α)) (k k' : Pixel) (v : α)
    (h : m.any (fun e => decide (e.1 = k)) = true) :
    getList (m.map (fun e => if e.1 = k then (e.1, e.2 ++ [v]) else e)) k'
      = if k' = k then getList m k ++ [v] else getList m k' := by
  by_cases hk : k' = k
  · rw [if_pos hk, hk]; exact getList_map_push_eq m k v h
  · rw [if_neg hk]; exact getList_map_push_ne m k k' v hk

/-- Reading a map after `m[k].push_back(v)`. -/
theorem getList_pushBackAt {α : Type} (lt : Pixel → Pixel → Bool) (m : List (Pixel × List α))
    (k k' : Pixel) (v : α) :
    getList (pushBackAt lt m k v) k' = if k' = k then getList m k ++ [v] else getList m k' := by
  unfold pushBackAt
  by_cases h : m.any (fun e => decide (e.1 = k)) = true
  · rw [if_pos h, getList_map_push m k k' v h]
  · rw [if_neg h]
    rw [Bool.not_eq_true] at h
    rw [getList_insertSorted lt m k k' [v] h, getList_of_not_any m k h]
    rfl

/-! ## HandleAreaCoastlinesCompletelyInACell -/

theorem setBackCoast_concat (l : List GroundTile.Coord) (c : GroundTile.Coord) (v : Bool) :
    setBackCoast (l ++ [c]) v = l ++ [{ c with coast := v }] := by
  simp [setBackCoast]

/-- Condition under which `HandleAreaCoastlinesCompletelyInACell` adds a tile for the
coastline `c` to the cell with key `k`. -/
theorem HandleAreaCoastline_getList (lt : Pixel → Pixel → Bool) (stateMap : StateMap)
    (m : List (Pixel × List GroundTile)) (c : CoastlineData) (k : Pixel) :
    getList (HandleAreaCoastline lt stateMap m c) k =
      getList m k ++
        (if areaCoastlineAt stateMap k c = true then [areaCoastlineTile stateMap c] else []) := by
  have hcoords : (areaCoastlineTile stateMap c).coords ≠ [] ↔ c.points ≠ [] := by
    constructor
    · intro h hp
      apply h
      simp [areaCoastlineTile, hp, setBackCoast]
    · intro h3
      obtain ⟨init, p, hp⟩ : ∃ init p, c.points = init ++ [p] := by
        rcases List.eq_nil_or_concat c.points with h | ⟨init, p, h⟩
        · exact absurd h h3
        · exact ⟨init, p, by simpa using h⟩
      simp [areaCoastlineTile, hp, setBackCoast_concat]
  unfold HandleAreaCoastline
  by_cases h1 : c.isArea = true ∧ c.isCompletelyInCell = true
  · rw [if_neg (not_not_intro h1)]
    by_cases h2 : stateMap.IsInAbsolute c.cell.x c.cell.y = true
    · rw [if_neg (not_not_intro h2)]
      simp only
      by_cases h3 : c.points ≠ []
      · rw [if_pos (hcoords.mpr h3), getList_pushBackAt]
        by_cases hk : k = ⟨c.cell.x - stateMap.cellXStart, c.cell.y - stateMap.cellYStart⟩
        · have hat : areaCoastlineAt stateMap k c = true := by
            simp [areaCoastlineAt, h1.1, h1.2, h2, h3, hk]
          rw [if_pos hk, if_pos hat, ← hk]
        · have hat : ¬ areaCoastlineAt stateMap k c = true := by
            intro hat
            simp only [areaCoastlineAt, Bool.and_eq_true, decide_eq_true_eq] at hat
            exact hk hat.2.symm
          rw [if_neg hk, if_neg hat, List.append_nil]
      · have hat : ¬ areaCoastlineAt stateMap k c = true := by
          intro hat
          simp only [areaCoastlineAt, Bool.and_eq_true, decide_eq_true_eq] at hat
          exact h3 hat.1.2
        rw [if_neg (fun h => h3 (hcoords.mp h)), if_neg hat, List.append_nil]
    · have hat : ¬ areaCoastlineAt stateMap k c = true := by
        intro hat
        simp only [areaCoastlineAt, Bool.and_eq_true, decide_eq_true_eq] at hat
        exact h2 hat.1.1.2
      rw [if_pos h2, if_neg hat, List.append_nil]
  · have hat : ¬ areaCoastlineAt stateMap k c = true := by
      intro hat
      simp only [areaCoastlineAt, Bool.and_eq_true, decide_eq_true_eq] at hat
      exact h1 hat.1.1.1
    rw [if_pos h1, if_neg hat, List.append_nil]

theorem HandleAreaCoastlines_getList (lt : Pixel → Pixel → Bool) (stateMap : StateMap)
    (cs : List CoastlineData) (k : Pixel) :
    ∀ m : List (Pixel × List GroundTile),
      getList (cs.foldl (HandleAreaCoastline lt stateMap) m) k =
        getList m k ++ (cs.filter (areaCoastlineAt stateMap k)).map
          (areaCoastlineTile stateMap) := by
  induction cs with
  | nil => intro m; simp
  | cons c cs ih =>
    intro m
    rw [List.foldl_cons, ih, HandleAreaCoastline_getList, List.filter_cons]
    by_cases h : areaCoastlineAt stateMap k c = true
    · rw [if_pos h, if_pos h, List.map_cons, List.append_assoc, List.singleton_append]
    · rw [if_neg h, if_neg h, List.append_nil]

theorem areaCoastlineTile_coords (stateMap : StateMap) (c : CoastlineData) (i : Nat)
    (hi : i < c.points.length) :
    (areaCoastlineTile stateMap c).coords.length = c.points.length ∧
    (areaCoastlineTile stateMap c).coords[i]? =
      some (Transform (c.points.getD i ⟨0, 0⟩) stateMap
        (stateMap.cellHeight * (c.cell.y : ℚ) - 90)
        (stateMap.cellWidth * (c.cell.x : ℚ) - 180) (decide (i + 1 < c.points.length))) := by
  obtain ⟨init, p, hp⟩ : ∃ init p, c.points = init ++ [p] := by
    rcases List.eq_nil_or_concat c.points with h | ⟨init, p, h⟩
    · rw [h] at hi; exact absurd hi (by simp)
    · exact ⟨init, p, by simpa using h⟩
  have hlen : c.points.length = init.length + 1 := by rw [hp]; simp
  have hc : (areaCoastlineTile stateMap c).coords =
      init.map (fun point => Transform point stateMap
        (stateMap.cellHeight * (c.cell.y : ℚ) - 90)
        (stateMap.cellWidth * (c.cell.x : ℚ) - 180) true) ++
      [Transform p stateMap (stateMap.cellHeight * (c.cell.y : ℚ) - 90)
        (stateMap.cellWidth * (c.cell.x : ℚ) - 180) false] := by
    unfold areaCoastlineTile
    simp only [hp, List.map_append, List.map_cons, List.map_nil, setBackCoast_concat]
    rfl
  rw [hc, hp]
  refine ⟨by simp, ?_⟩
  by_cases hlt : i < init.length
  · rw [List.getElem?_append_left (by simpa using hlt), List.getD_eq_getElem?_getD,
      List.getElem?_append_left hlt, List.getElem?_map, List.getElem?_eq_getElem hlt]
    have : decide (i + 1 < (init ++ [p]).length) = true := by simp; omega
    rw [this]
    rfl
  · have hi' : i = init.length := by omega
    subst hi'
    rw [List.getElem?_append_right (by simp), List.getD_eq_getElem?_getD,
      List.getElem?_append_right (le_refl _)]
    have : decide (init.length + 1 < (init ++ [p]).length) = false := by simp
    rw [this]
    simp

/-- C14: for every cell key `k`, `HandleAreaCoastlinesCompletelyInACell` leaves the tile list
of `k` as it was and appends to it one tile for every coastline, in order, that is an area,
is marked `isCompletelyInCell`, has its cell inside the StateMap, has at least one point, and
whose cell relative to `(xStart,yStart)` is `k`; other coastlines add no tile.  The type of
the tile follows the left state (`land` to `land`, `water` to `water`, `unknown` to
`unknown`), its coordinates are the `Transform` of the points in order, with `onCoast=true`
for every coordinate but the last and `onCoast=false` for the last. -/
theorem HandleAreaCoastlinesCompletelyInACell_spec (lt : Pixel → Pixel → Bool)
    (stateMap : StateMap) (data : Data) (cellGroundTileMap : List (Pixel × List GroundTile)) :
    (∀ k : Pixel,
      getList (HandleAreaCoastlinesCompletelyInACell lt stateMap data cellGroundTileMap) k =
        getList cellGroundTileMap k ++
          (data.coastlines.filter (fun c =>
            c.isArea && c.isCompletelyInCell && stateMap.IsInAbsolute c.cell.x c.cell.y &&
            decide (c.points ≠ []) &&
            decide ((⟨c.cell.x - stateMap.cellXStart, c.cell.y - stateMap.cellYStart⟩ : Pixel)
              = k))).map (areaCoastlineTile stateMap)) ∧
    (∀ c : CoastlineData,
      (c.left = CoastState.land → (areaCoastlineTile stateMap c).type = GroundTile.TileType.land) ∧
      (c.left = CoastState.water →
        (areaCoastlineTile stateMap c).type = GroundTile.TileType.water) ∧
      (c.left = CoastState.unknown →
        (areaCoastlineTile stateMap c).type = GroundTile.TileType.unknown) ∧
      (areaCoastlineTile stateMap c).coords.length = c.points.length ∧
      ∀ i, i < c.points.length →
        (areaCoastlineTile stateMap c).coords[i]? =
          some (Transform (c.points.getD i ⟨0, 0⟩) stateMap
            (stateMap.cellHeight * (c.cell.y : ℚ) - 90)
            (stateMap.cellWidth * (c.cell.x : ℚ) - 180)
            (decide (i + 1 < c.points.length)))) := by
  refine ⟨fun k => ?_, fun c => ⟨?_, ?_, ?_, ?_, ?_⟩⟩
  · unfold HandleAreaCoastlinesCompletelyInACell
    exact HandleAreaCoastlines_getList lt stateMap data.coastlines k cellGroundTileMap
  · intro h; simp [areaCoastlineTile, h]
  · intro h; simp [areaCoastlineTile, h]
  · intro h; simp [areaCoastlineTile, h]
  · rcases Nat.eq_zero_or_pos c.points.length with h | h
    · have : c.points = [] := List.eq_nil_of_length_eq_zero h
      simp [areaCoastlineTile, this, setBackCoast]
    · exact (areaCoastlineTile_coords stateMap c 0 h).1
  · intro i hi
    exact (areaCoastlineTile_coords stateMap c i hi).2

/-- Example for C14: the island in the global cell `(181,90)` gives one land tile with four
coordinates in the cell `(1,0)` of the `3 × 2` map, and no tile elsewhere. -/
theorem HandleAreaCoastlinesCompletelyInACell_spec_witness :
    getList (HandleAreaCoastlinesCompletelyInACell pixelLt smallMap islandData []) ⟨1, 0⟩ =
      [⟨GroundTile.TileType.land,
        [⟨8192, 8192, true⟩, ⟨8192, 24575, true⟩, ⟨24575, 24575, true⟩, ⟨8192, 8192, false⟩]⟩] ∧
    getList (HandleAreaCoastlinesCompletelyInACell pixelLt smallMap islandData []) ⟨0, 0⟩
      = getList [] ⟨0, 0⟩ ++
          (islandData.coastlines.filter (fun c =>
            c.isArea && c.isCompletelyInCell && smallMap.IsInAbsolute c.cell.x c.cell.y &&
            decide (c.points ≠ []) &&
            decide ((⟨c.cell.x - smallMap.cellXStart, c.cell.y - smallMap.cellYStart⟩ : Pixel)
              = ⟨0, 0⟩))).map (areaCoastlineTile smallMap) :=
  ⟨by decide!,
    (HandleAreaCoastlinesCompletelyInACell_spec pixelLt smallMap islandData []).1 ⟨0, 0⟩⟩

/-! ## GetCells and GetCellIntersections -/

theorem getList_foldl_pushBackAt (lt : Pixel → Pixel → Bool) (c k : Pixel) (n : Nat)
    (hits : List (Nat × Intersection)) :
    ∀ m : List (Pixel × List IntersectionRef),
      getList (hits.foldl (fun m h => pushBackAt lt m c ⟨n + h.1, h.2⟩) m) k =
        getList m k ++ (if k = c then hits.map (fun h => ⟨n + h.1, h.2⟩) else []) := by
  induction hits with
  | nil => intro m; simp
  | cons h hits ih =>
    intro m
    rw [List.foldl_cons, ih, getList_pushBackAt]
    by_cases hk : k = c
    · simp [hk]
    · simp [hk]

/-- Number of intersections with direction `d` among the intersections of a pass. -/
theorem countDirection_foldl_visit (lt : Pixel → Pixel → Bool) (d : Direction) (c k : Pixel)
    (n : Nat) (hits : List (Nat × Intersection)) (m : List (Pixel × List IntersectionRef)) :
    countDirection d (hits.foldl (fun m h => pushBackAt lt m c ⟨n + h.1, h.2⟩) m) k =
      countDirection d m k +
        (if k = c then (hits.filter (fun h => decide (h.2.direction = d))).length else 0) := by
  unfold countDirection
  rw [getList_foldl_pushBackAt]
  by_cases hk : k = c
  · simp only [hk, if_true, List.filter_append, List.length_append, List.filter_map,
      List.length_map]
    rfl
  · simp [hk]

theorem record_balance (distanceSquare : GeoCoord → GeoCoord → ℚ) (a : GeoCoord)
    (coastline p : Nat) (atStart atEnd : Bool) (first second : Option (GeoCoord × Nat)) :
    ((GetCellIntersections.record distanceSquare a coastline p atStart atEnd first
        second).filter (fun h => decide (h.2.direction = Direction.in_))).length +
      (if (atStart && decide ((GetCellIntersections.record distanceSquare a coastline p
          atStart atEnd first second).length = 1)) = true then 1 else 0) =
    ((GetCellIntersections.record distanceSquare a coastline p atStart atEnd first
        second).filter (fun h => decide (h.2.direction = Direction.out))).length +
      (if (!atStart && atEnd && decide ((GetCellIntersections.record distanceSquare a coastline
          p atStart atEnd first second).length = 1)) = true then 1 else 0) := by
  unfold GetCellIntersections.record
  rcases first with _ | first
  · simp
  · rcases second with _ | second
    · cases atStart <;> cases atEnd <;> simp
    · simp only []
      by_cases hd : distanceSquare first.1 a ≤ distanceSquare second.1 a
      · simp [hd]
      · simp [hd]

/-- The intersections of one pass: as many `in` as `out`, except for one `out` more when the
segment leaves the cell of its first point through one crossing, and one `in` more when it
enters the cell of its second point through one crossing. -/
theorem visit_balance
    (getLineIntersection : GeoCoord → GeoCoord → GeoCoord → GeoCoord → Option GeoCoord)
    (distanceSquare : GeoCoord → GeoCoord → ℚ)
    (stateMap : StateMap) (points : List GeoCoord) (coastline : Nat) (v : CellVisit) :
    ((GetCellIntersections.visit getLineIntersection distanceSquare stateMap points coastline
        v).filter (fun h => decide (h.2.direction = Direction.in_))).length +
      (if (v.isStart stateMap points &&
          decide ((GetCellIntersections.visit getLineIntersection distanceSquare stateMap points
            coastline v).length = 1)) = true then 1 else 0) =
    ((GetCellIntersections.visit getLineIntersection distanceSquare stateMap points coastline
        v).filter (fun h => decide (h.2.direction = Direction.out))).length +
      (if (!(v.isStart stateMap points) && v.isEnd stateMap points &&
          decide ((GetCellIntersections.visit getLineIntersection distanceSquare stateMap points
            coastline v).length = 1)) = true then 1 else 0) := by
  unfold GetCellIntersections.visit
  exact record_balance _ _ _ _ _ _ _ _

theorem GetCellIntersections_balance_from (lt : Pixel → Pixel → Bool)
    (getLineIntersection : GeoCoord → GeoCoord → GeoCoord → GeoCoord → Option GeoCoord)
    (distanceSquare : GeoCoord → GeoCoord → ℚ)
    (stateMap : StateMap) (points : List GeoCoord) (coastline : Nat) (k : Pixel)
    (vs : List CellVisit) :
    ∀ st : List (Pixel × List IntersectionRef) × Nat,
      countDirection Direction.in_ (vs.foldl (fun st v =>
          ((GetCellIntersections.visit getLineIntersection distanceSquare stateMap points
              coastline v).foldl
            (fun m h => pushBackAt lt m (v.coord stateMap) ⟨st.2 + h.1, h.2⟩) st.1,
           st.2 + 2)) st).1 k +
        (vs.filter (fun v =>
          decide (v.coord stateMap = k) && v.isStart stateMap points &&
          decide ((GetCellIntersections.visit getLineIntersection distanceSquare stateMap points
            coastline v).length = 1))).length +
        countDirection Direction.out st.1 k =
      countDirection Direction.out (vs.foldl (fun st v =>
          ((GetCellIntersections.visit getLineIntersection distanceSquare stateMap points
              coastline v).foldl
            (fun m h => pushBackAt lt m (v.coord stateMap) ⟨st.2 + h.1, h.2⟩) st.1,
           st.2 + 2)) st).1 k +
        (vs.filter (fun v =>
          decide (v.coord stateMap = k) && !(v.isStart stateMap points) &&
          v.isEnd stateMap points &&
          decide ((GetCellIntersections.visit getLineIntersection distanceSquare stateMap points
            coastline v).length = 1))).length +
        countDirection Direction.in_ st.1 k := by
  induction vs with
  | nil => intro st; simp; omega
  | cons v vs ih =>
    intro st
    rw [List.foldl_cons]
    have h := ih ((GetCellIntersections.visit getLineIntersection distanceSquare stateMap points
              coastline v).foldl
            (fun m h => pushBackAt lt m (v.coord stateMap) ⟨st.2 + h.1, h.2⟩) st.1,
           st.2 + 2)
    simp only [countDirection_foldl_visit] at h
    have hb := visit_balance getLineIntersection distanceSquare stateMap points coastline v
    simp only [List.filter_cons]
    by_cases hk : v.coord stateMap = k
    · subst hk
      simp only [decide_True, Bool.true_and, if_true] at h hb ⊢
      split_ifs at hb ⊢ <;> simp only [List.length_cons] at * <;> omega
    · have hk' : ¬ k = v.coord stateMap := fun e => hk e.symm
      simp only [hk, hk', decide_False, Bool.false_and, if_false] at h ⊢
      simp only [Bool.false_eq_true, if_false]
      omega

/-- C16 (amended): in the map that `GetCellIntersections` returns for a coastline, the
intersections of a cell are balanced up to the ends of the segments: the number of `in`
plus the number of passes in which a segment leaves the cell of its first point through a
single crossing (recorded as `out` only) equals the number of `out` plus the number of passes
in which a segment enters the cell of its second point through a single crossing (recorded as
`in` only).  The numbers of `in` and `out` are equal exactly when these two numbers of passes
are. -/
theorem GetCellIntersections_balance (lt : Pixel → Pixel → Bool)
    (getLineIntersection : GeoCoord → GeoCoord → GeoCoord → GeoCoord → Option GeoCoord)
    (distanceSquare : GeoCoord → GeoCoord → ℚ)
    (stateMap : StateMap) (points : List GeoCoord) (coastline next : Nat) (k : Pixel) :
    countDirection Direction.in_ (GetCellIntersections lt getLineIntersection distanceSquare
        stateMap points coastline [] next).1 k +
      leaveOnlyCount getLineIntersection distanceSquare stateMap points coastline k =
    countDirection Direction.out (GetCellIntersections lt getLineIntersection distanceSquare
        stateMap points coastline [] next).1 k +
      enterOnlyCount getLineIntersection distanceSquare stateMap points coastline k ∧
    (countDirection Direction.in_ (GetCellIntersections lt getLineIntersection distanceSquare
        stateMap points coastline [] next).1 k =
      countDirection Direction.out (GetCellIntersections lt getLineIntersection distanceSquare
        stateMap points coastline [] next).1 k ↔
     leaveOnlyCount getLineIntersection distanceSquare stateMap points coastline k =
      enterOnlyCount getLineIntersection distanceSquare stateMap points coastline k) := by
  have h := GetCellIntersections_balance_from lt getLineIntersection distanceSquare stateMap
    points coastline k (cellVisits stateMap points) ([], next)
  have h0 : ∀ d, countDirection d ([] : List (Pixel × List IntersectionRef)) k = 0 := by
    intro d; simp [countDirection, getList]
  simp only [h0, Nat.add_zero] at h
  unfold GetCellIntersections leaveOnlyCount enterOnlyCount
  exact ⟨h, by omega⟩

/-- Counterexample to C16: the way of two points from the cell `(180,90)` to its right
neighbour is recorded in the cell with key `(0,0)` with one `out` and no `in`, and in the cell
with key `(1,0)` with one `in` and no `out`. -/
theorem GetCellIntersections_balance_counterexample :
    countDirection Direction.in_ (GetCellIntersections pixelLt GetLineIntersection
      DistanceSquare smallMap crossingWay 0 [] 0).1 ⟨0, 0⟩ = 0 ∧
    countDirection Direction.out (GetCellIntersections pixelLt GetLineIntersection
      DistanceSquare smallMap crossingWay 0 [] 0).1 ⟨0, 0⟩ = 1 ∧
    countDirection Direction.in_ (GetCellIntersections pixelLt GetLineIntersection
      DistanceSquare smallMap crossingWay 0 [] 0).1 ⟨1, 0⟩ = 1 ∧
    countDirection Direction.out (GetCellIntersections pixelLt GetLineIntersection
      DistanceSquare smallMap crossingWay 0 [] 0).1 ⟨1, 0⟩ = 0 := by
  decide!

/-- Example for C16: for the way of two points from the cell `(180,90)` to its right
neighbour the equation holds in the cell with key `(0,0)` with `0 + 1 = 1 + 0`. -/
theorem GetCellIntersections_balance_witness :
    leaveOnlyCount GetLineIntersection DistanceSquare smallMap crossingWay 0 ⟨0, 0⟩ = 1 ∧
    enterOnlyCount GetLineIntersection DistanceSquare smallMap crossingWay 0 ⟨0, 0⟩ = 0 ∧
    countDirection Direction.in_ (GetCellIntersections pixelLt GetLineIntersection
        DistanceSquare smallMap crossingWay 0 [] 0).1 ⟨0, 0⟩ +
      leaveOnlyCount GetLineIntersection DistanceSquare smallMap crossingWay 0 ⟨0, 0⟩ =
    countDirection Direction.out (GetCellIntersections pixelLt GetLineIntersection
        DistanceSquare smallMap crossingWay 0 [] 0).1 ⟨0, 0⟩ +
      enterOnlyCount GetLineIntersection DistanceSquare smallMap crossingWay 0 ⟨0, 0⟩ :=
  ⟨by decide!, by decide!,
    (GetCellIntersections_balance pixelLt GetLineIntersection DistanceSquare smallMap
      crossingWay 0 0 ⟨0, 0⟩).1⟩

theorem mem_insertSorted {α : Type} (lt : Pixel → Pixel → Bool) (e x : Pixel × α) :
    ∀ l : List (Pixel × α), x ∈ insertSorted lt e l ↔ x = e ∨ x ∈ l := by
  intro l
  induction l with
  | nil => simp [insertSorted]
  | cons e' rest ih =>
    unfold insertSorted
    split_ifs
    · simp
    · simp only [List.mem_cons, ih]
      tauto

theorem mem_setInsert (lt : Pixel → Pixel → Bool) (s : List Pixel) (p q : Pixel) :
    q ∈ setInsert lt s p ↔ q ∈ s ∨ q = p := by
  unfold setInsert
  split_ifs with h
  · constructor
    · exact Or.inl
    · rintro (h1 | h1)
      · exact h1
      · rw [h1]; exact h
  · simp only [List.mem_map, mem_insertSorted, Prod.exists, exists_and_right, exists_eq_right]
    constructor
    · rintro ⟨u, hu | ⟨q', hq', hu⟩⟩
      · right; exact (Prod.mk.inj hu).1
      · left
        have := (Prod.mk.inj hu).1
        rw [← this]; exact hq'
    · rintro (h1 | h1)
      · exact ⟨(), Or.inr ⟨q, h1, rfl⟩⟩
      · exact ⟨(), Or.inl (by rw [h1])⟩

theorem mem_loopRange (lo hi x : Nat) : x ∈ loopRange lo hi ↔ lo ≤ x ∧ x ≤ hi := by
  unfold loopRange
  rw [List.mem_range'_1]
  omega

theorem key_pushBackAt {α : Type} (lt : Pixel → Pixel → Bool) (m : List (Pixel × List α))
    (k q : Pixel) (v : α) :
    q ∈ (pushBackAt lt m k v).map Prod.fst ↔ q ∈ m.map Prod.fst ∨ q = k := by
  unfold pushBackAt
  split_ifs with h
  · have hmap : (m.map (fun e => if e.1 = k then (e.1, e.2 ++ [v]) else e)).map Prod.fst
        = m.map Prod.fst := by
      rw [List.map_map]
      apply List.map_congr_left
      intro e _
      simp only [Function.comp]
      split_ifs <;> rfl
    rw [hmap]
    constructor
    · exact Or.inl
    · rintro (h1 | h1)
      · exact h1
      · rw [h1]
        obtain ⟨e, he, hek⟩ := List.any_eq_true.mp h
        have : e.1 = k := of_decide_eq_true hek
        rw [← this]
        exact List.mem_map_of_mem _ he
  · simp only [List.mem_map, mem_insertSorted]
    constructor
    · rintro ⟨e, he | he, rfl⟩
      · right; rw [he]
      · left; exact ⟨e, he, rfl⟩
    · rintro (⟨e, he, rfl⟩ | h1)
      · exact ⟨e, Or.inr he, rfl⟩
      · exact ⟨(k, [v]), Or.inl rfl, h1.symm⟩

theorem mem_foldl_setInsert_col (lt : Pixel → Pixel → Bool) (c : Nat → Bool) (x : Nat)
    (q : Pixel) (ys : List Nat) :
    ∀ s : List Pixel,
      q ∈ ys.foldl (fun s y => if c y = true then setInsert lt s ⟨x, y⟩ else s) s ↔
        q ∈ s ∨ (q.x = x ∧ q.y ∈ ys ∧ c q.y = true) := by
  induction ys with
  | nil => intro s; simp
  | cons y ys ih =>
    intro s
    rw [List.foldl_cons, ih]
    by_cases hc : c y = true
    · rw [if_pos hc, mem_setInsert]
      constructor
      · rintro ((h | h) | ⟨h1, h2, h3⟩)
        · exact Or.inl h
        · right; subst h; exact ⟨rfl, List.mem_cons_self _ _, hc⟩
        · exact Or.inr ⟨h1, List.mem_cons_of_mem _ h2, h3⟩
      · rintro (h | ⟨h1, h2, h3⟩)
        · exact Or.inl (Or.inl h)
        · rcases List.mem_cons.mp h2 with h2 | h2
          · left; right
            cases q
            simp only at h1 h2
            rw [h1, h2]
          · exact Or.inr ⟨h1, h2, h3⟩
    · rw [if_neg hc]
      constructor
      · rintro (h | ⟨h1, h2, h3⟩)
        · exact Or.inl h
        · exact Or.inr ⟨h1, List.mem_cons_of_mem _ h2, h3⟩
      · rintro (h | ⟨h1, h2, h3⟩)
        · exact Or.inl h
        · rcases List.mem_cons.mp h2 with h2 | h2
          · rw [h2] at h3; exact absurd h3 hc
          · exact Or.inr ⟨h1, h2, h3⟩

theorem mem_foldl_setInsert_grid (lt : Pixel → Pixel → Bool) (c : Nat → Nat → Bool)
    (q : Pixel) (ys : List Nat) (xs : List Nat) :
    ∀ s : List Pixel,
      q ∈ xs.foldl (fun s x =>
          ys.foldl (fun s y => if c x y = true then setInsert lt s ⟨x, y⟩ else s) s) s ↔
        q ∈ s ∨ (q.x ∈ xs ∧ q.y ∈ ys ∧ c q.x q.y = true) := by
  induction xs with
  | nil => intro s; simp
  | cons x xs ih =>
    intro s
    rw [List.foldl_cons, ih, mem_foldl_setInsert_col lt (c x) x q ys s]
    constructor
    · rintro ((h | ⟨h1, h2, h3⟩) | ⟨h1, h2, h3⟩)
      · exact Or.inl h
      · right; rw [h1]; exact ⟨List.mem_cons_self _ _, h2, h3⟩
      · exact Or.inr ⟨List.mem_cons_of_mem _ h1, h2, h3⟩
    · rintro (h | ⟨h1, h2, h3⟩)
      · exact Or.inl (Or.inl h)
      · rcases List.mem_cons.mp h1 with h1 | h1
        · left; right; rw [← h1]; exact ⟨rfl, h2, h3⟩
        · exact Or.inr ⟨h1, h2, h3⟩

/-- The pixels of `GetCells` for a line: the old ones, the global cell of `a`, and the global
cells of the rectangle between the cells of `a` and `b` of which a border meets the line. -/
theorem mem_GetCells_segment (lt : Pixel → Pixel → Bool)
    (linesIntersect : GeoCoord → GeoCoord → GeoCoord → GeoCoord → Bool)
    (stateMap : StateMap) (a b : GeoCoord) (s : List Pixel) (q : Pixel) :
    q ∈ GetCells.segment lt linesIntersect stateMap a b s ↔
      q ∈ s ∨ q = ⟨cellXOf stateMap a, cellYOf stateMap a⟩ ∨
      ((cellXOf stateMap a ≠ cellXOf stateMap b ∨ cellYOf stateMap a ≠ cellYOf stateMap b) ∧
        min (cellXOf stateMap a) (cellXOf stateMap b) ≤ q.x ∧
        q.x ≤ max (cellXOf stateMap a) (cellXOf stateMap b) ∧
        min (cellYOf stateMap a) (cellYOf stateMap b) ≤ q.y ∧
        q.y ≤ max (cellYOf stateMap a) (cellYOf stateMap b) ∧
        GetCells.hitsBorder linesIntersect a b (GetCells.borderPoints stateMap q.x q.y)
          = true) := by
  unfold GetCells.segment
  simp only []
  split_ifs with h
  · rw [mem_foldl_setInsert_grid lt
      (fun x y => GetCells.hitsBorder linesIntersect a b (GetCells.borderPoints stateMap x y))
      q, mem_setInsert, mem_loopRange, mem_loopRange]
    tauto
  · rw [mem_setInsert]
    tauto

theorem mem_foldl_of_step {σ ι : Type} (mem : σ → Prop) (P : ι → Prop) (f : σ → ι → σ)
    (hf : ∀ s i, mem (f s i) ↔ mem s ∨ P i) (l : List ι) :
    ∀ s, mem (l.foldl f s) ↔ mem s ∨ ∃ i ∈ l, P i := by
  induction l with
  | nil => intro s; simp
  | cons i l ih =>
    intro s
    rw [List.foldl_cons, ih, hf]
    simp only [List.mem_cons, exists_eq_or_imp]
    tauto

theorem mem_cellVisits (stateMap : StateMap) (points : List GeoCoord) (v : CellVisit) :
    v ∈ cellVisits stateMap points ↔
      v.p + 1 < points.length ∧
      (cellXOf stateMap (points.getD v.p ⟨0, 0⟩) ≠ cellXOf stateMap (points.getD (v.p + 1) ⟨0, 0⟩)
        ∨ cellYOf stateMap (points.getD v.p ⟨0, 0⟩) ≠
          cellYOf stateMap (points.getD (v.p + 1) ⟨0, 0⟩)) ∧
      min (cellXOf stateMap (points.getD v.p ⟨0, 0⟩))
        (cellXOf stateMap (points.getD (v.p + 1) ⟨0, 0⟩)) ≤ v.x ∧
      v.x ≤ max (cellXOf stateMap (points.getD v.p ⟨0, 0⟩))
        (cellXOf stateMap (points.getD (v.p + 1) ⟨0, 0⟩)) ∧
      min (cellYOf stateMap (points.getD v.p ⟨0, 0⟩))
        (cellYOf stateMap (points.getD (v.p + 1) ⟨0, 0⟩)) ≤ v.y ∧
      v.y ≤ max (cellYOf stateMap (points.getD v.p ⟨0, 0⟩))
        (cellYOf stateMap (points.getD (v.p + 1) ⟨0, 0⟩)) ∧
      stateMap.IsInAbsolute v.x v.y = true := by
  unfold cellVisits
  simp only [List.mem_flatMap, List.mem_range]
  constructor
  · rintro ⟨p, hp, hv⟩
    split_ifs at hv with hc
    · simp only [List.mem_flatMap, List.mem_map, List.mem_filter, mem_loopRange] at hv
      obtain ⟨x, hx, y, ⟨hy, hin⟩, rfl⟩ := hv
      exact ⟨by simp only; omega, hc, hx.1, hx.2, hy.1, hy.2, hin⟩
    · simp at hv
  · rintro ⟨hp, hc, hx1, hx2, hy1, hy2, hin⟩
    refine ⟨v.p, by omega, ?_⟩
    rw [if_pos hc]
    simp only [List.mem_flatMap, List.mem_map, List.mem_filter, mem_loopRange]
    exact ⟨v.x, ⟨hx1, hx2⟩, v.y, ⟨⟨hy1, hy2⟩, hin⟩, rfl⟩

theorem key_foldl_pushBackAt (lt : Pixel → Pixel → Bool) (c q : Pixel) (n : Nat)
    (hits : List (Nat × Intersection)) :
    ∀ m : List (Pixel × List IntersectionRef),
      q ∈ (hits.foldl (fun m h => pushBackAt lt m c ⟨n + h.1, h.2⟩) m).map Prod.fst →
        q ∈ m.map Prod.fst ∨ q = c := by
  induction hits with
  | nil => intro m h; exact Or.inl h
  | cons h hits ih =>
    intro m hq
    rw [List.foldl_cons] at hq
    rcases ih _ hq with h1 | h1
    · exact (key_pushBackAt lt m c q _).mp h1
    · exact Or.inr h1

theorem key_GetCellIntersections_from (lt : Pixel → Pixel → Bool)
    (getLineIntersection : GeoCoord → GeoCoord → GeoCoord → GeoCoord → Option GeoCoord)
    (distanceSquare : GeoCoord → GeoCoord → ℚ)
    (stateMap : StateMap) (points : List GeoCoord) (coastline : Nat) (q : Pixel)
    (vs : List CellVisit) :
    ∀ st : List (Pixel × List IntersectionRef) × Nat,
      q ∈ (vs.foldl (fun st v =>
          ((GetCellIntersections.visit getLineIntersection distanceSquare stateMap points
              coastline v).foldl
            (fun m h => pushBackAt lt m (v.coord stateMap) ⟨st.2 + h.1, h.2⟩) st.1,
           st.2 + 2)) st).1.map Prod.fst →
      q ∈ st.1.map Prod.fst ∨ ∃ v ∈ vs, q = v.coord stateMap := by
  induction vs with
  | nil => intro st h; exact Or.inl h
  | cons v vs ih =>
    intro st hq
    rw [List.foldl_cons] at hq
    rcases ih _ hq with h1 | ⟨w, hw, h1⟩
    · rcases key_foldl_pushBackAt lt _ q _ _ _ h1 with h2 | h2
      · exact Or.inl h2
      · exact Or.inr ⟨v, List.mem_cons_self _ _, h2⟩
    · exact Or.inr ⟨w, List.mem_cons_of_mem _ hw, h1⟩

/-- C17 (amended): `GetCells` inserts global cell indices, `GetCellIntersections` adds keys
relative to `(xStart,yStart)`.  A pixel is in the set of `GetCells` exactly if it was in the
set before, or it is the global cell `(cx1,cy1)` of the first point of a segment, or it is a
global cell `(x,y)` of the rectangle between the cells of the two points of a segment that
lie in different cells, and a border of the cell meets the segment.  Every key that
`GetCellIntersections` adds to its map is `(x-xStart, y-yStart)` for a global cell `(x,y)` of
such a rectangle which is in the range of the StateMap. -/
theorem GetCells_pixels (lt : Pixel → Pixel → Bool)
    (linesIntersect : GeoCoord → GeoCoord → GeoCoord → GeoCoord → Bool)
    (getLineIntersection : GeoCoord → GeoCoord → GeoCoord → GeoCoord → Option GeoCoord)
    (distanceSquare : GeoCoord → GeoCoord → ℚ)
    (stateMap : StateMap) (points : List GeoCoord) (q : Pixel) :
    (∀ s : List Pixel, q ∈ GetCells lt linesIntersect stateMap points s ↔
      q ∈ s ∨ ∃ p, p + 1 < points.length ∧
        (q = ⟨cellXOf stateMap (points.getD p ⟨0, 0⟩), cellYOf stateMap (points.getD p ⟨0, 0⟩)⟩ ∨
         ((cellXOf stateMap (points.getD p ⟨0, 0⟩) ≠
              cellXOf stateMap (points.getD (p + 1) ⟨0, 0⟩) ∨
            cellYOf stateMap (points.getD p ⟨0, 0⟩) ≠
              cellYOf stateMap (points.getD (p + 1) ⟨0, 0⟩)) ∧
          min (cellXOf stateMap (points.getD p ⟨0, 0⟩))
            (cellXOf stateMap (points.getD (p + 1) ⟨0, 0⟩)) ≤ q.x ∧
          q.x ≤ max (cellXOf stateMap (points.getD p ⟨0, 0⟩))
            (cellXOf stateMap (points.getD (p + 1) ⟨0, 0⟩)) ∧
          min (cellYOf stateMap (points.getD p ⟨0, 0⟩))
            (cellYOf stateMap (points.getD (p + 1) ⟨0, 0⟩)) ≤ q.y ∧
          q.y ≤ max (cellYOf stateMap (points.getD p ⟨0, 0⟩))
            (cellYOf stateMap (points.getD (p + 1) ⟨0, 0⟩)) ∧
          GetCells.hitsBorder linesIntersect (points.getD p ⟨0, 0⟩) (points.getD (p + 1) ⟨0, 0⟩)
            (GetCells.borderPoints stateMap q.x q.y) = true))) ∧
    (∀ (coastline next : Nat) (m : List (Pixel × List IntersectionRef)),
      q ∈ (GetCellIntersections lt getLineIntersection distanceSquare stateMap points coastline
            m next).1.map Prod.fst →
      q ∈ m.map Prod.fst ∨ ∃ p x y, p + 1 < points.length ∧
        min (cellXOf stateMap (points.getD p ⟨0, 0⟩))
          (cellXOf stateMap (points.getD (p + 1) ⟨0, 0⟩)) ≤ x ∧
        x ≤ max (cellXOf stateMap (points.getD p ⟨0, 0⟩))
          (cellXOf stateMap (points.getD (p + 1) ⟨0, 0⟩)) ∧
        min (cellYOf stateMap (points.getD p ⟨0, 0⟩))
          (cellYOf stateMap (points.getD (p + 1) ⟨0, 0⟩)) ≤ y ∧
        y ≤ max (cellYOf stateMap (points.getD p ⟨0, 0⟩))
          (cellYOf stateMap (points.getD (p + 1) ⟨0, 0⟩)) ∧
        stateMap.cellXStart ≤ x ∧ x ≤ stateMap.cellXEnd ∧
        stateMap.cellYStart ≤ y ∧ y ≤ stateMap.cellYEnd ∧
        q = ⟨x - stateMap.cellXStart, y - stateMap.cellYStart⟩) := by
  constructor
  · intro s
    unfold GetCells
    rw [mem_foldl_of_step (fun s => q ∈ s) _ _
      (fun s p => mem_GetCells_segment lt linesIntersect stateMap (points.getD p ⟨0, 0⟩)
        (points.getD (p + 1) ⟨0, 0⟩) s q)]
    simp only [List.mem_range]
    constructor
    · rintro (h | ⟨p, hp, h⟩)
      · exact Or.inl h
      · exact Or.inr ⟨p, by omega, h⟩
    · rintro (h | ⟨p, hp, h⟩)
      · exact Or.inl h
      · exact Or.inr ⟨p, by omega, h⟩
  · intro coastline next m hq
    unfold GetCellIntersections at hq
    rcases key_GetCellIntersections_from lt getLineIntersection distanceSquare stateMap points
      coastline q _ _ hq with h | ⟨v, hv, h⟩
    · exact Or.inl h
    · right
      obtain ⟨hp, _, hx1, hx2, hy1, hy2, hin⟩ := (mem_cellVisits stateMap points v).mp hv
      simp only [StateMap.IsInAbsolute, decide_eq_true_eq] at hin
      exact ⟨v.p, v.x, v.y, hp, hx1, hx2, hy1, hy2, hin.1, hin.2.1, hin.2.2.1, hin.2.2.2, h⟩

/-- Counterexample to C17: in the map whose first cell is the global cell `(180,90)`,
`GetCells` for a path inside this cell returns the pixel `(180,90)`, the global index, and
not the pixel `(0,0)` relative to `(xStart,yStart)`. -/
theorem GetCells_pixels_counterexample :
    smallMap.cellXStart = 180 ∧ smallMap.cellYStart = 90 ∧
    cellXOf smallMap ⟨1/4, 1/4⟩ = 180 ∧ cellYOf smallMap ⟨1/4, 1/4⟩ = 90 ∧
    GetCells pixelLt LinesIntersect smallMap innerPath [] = [⟨180, 90⟩] ∧
    (⟨180 - smallMap.cellXStart, 90 - smallMap.cellYStart⟩ : Pixel) ∉
      GetCells pixelLt LinesIntersect smallMap innerPath [] := by
  decide!

/-- Example for C17: the way from the cell `(180,90)` to its right neighbour gives the global
pixels `(180,90)` and `(181,90)` in `GetCells` and the keys `(0,0)` and `(1,0)` in
`GetCellIntersections`. -/
theorem GetCells_pixels_witness :
    GetCells pixelLt LinesIntersect smallMap crossingWay [] = [⟨180, 90⟩, ⟨181, 90⟩] ∧
    (GetCellIntersections pixelLt GetLineIntersection DistanceSquare smallMap crossingWay 0
      [] 0).1.map Prod.fst = [⟨0, 0⟩, ⟨1, 0⟩] ∧
    ((⟨180, 90⟩ : Pixel) ∈ GetCells pixelLt LinesIntersect smallMap crossingWay [] ↔
      (⟨180, 90⟩ : Pixel) ∈ ([] : List Pixel) ∨ ∃ p, p + 1 < crossingWay.length ∧
        ((⟨180, 90⟩ : Pixel) = ⟨cellXOf smallMap (crossingWay.getD p ⟨0, 0⟩),
            cellYOf smallMap (crossingWay.getD p ⟨0, 0⟩)⟩ ∨
         ((cellXOf smallMap (crossingWay.getD p ⟨0, 0⟩) ≠
              cellXOf smallMap (crossingWay.getD (p + 1) ⟨0, 0⟩) ∨
            cellYOf smallMap (crossingWay.getD p ⟨0, 0⟩) ≠
              cellYOf smallMap (crossingWay.getD (p + 1) ⟨0, 0⟩)) ∧
          min (cellXOf smallMap (crossingWay.getD p ⟨0, 0⟩))
            (cellXOf smallMap (crossingWay.getD (p + 1) ⟨0, 0⟩)) ≤ (⟨180, 90⟩ : Pixel).x ∧
          (⟨180, 90⟩ : Pixel).x ≤ max (cellXOf smallMap (crossingWay.getD p ⟨0, 0⟩))
            (cellXOf smallMap (crossingWay.getD (p + 1) ⟨0, 0⟩)) ∧
          min (cellYOf smallMap (crossingWay.getD p ⟨0, 0⟩))
            (cellYOf smallMap (crossingWay.getD (p + 1) ⟨0, 0⟩)) ≤ (⟨180, 90⟩ : Pixel).y ∧
          (⟨180, 90⟩ : Pixel).y ≤ max (cellYOf smallMap (crossingWay.getD p ⟨0, 0⟩))
            (cellYOf smallMap (crossingWay.getD (p + 1) ⟨0, 0⟩)) ∧
          GetCells.hitsBorder LinesIntersect (crossingWay.getD p ⟨0, 0⟩)
            (crossingWay.getD (p + 1) ⟨0, 0⟩)
            (GetCells.borderPoints smallMap (⟨180, 90⟩ : Pixel).x (⟨180, 90⟩ : Pixel).y)
              = true))) :=
  ⟨by decide!, by decide!,
    (GetCells_pixels pixelLt LinesIntersect GetLineIntersection DistanceSquare smallMap
      crossingWay ⟨180, 90⟩).1 []⟩

/-! ## SynthesizeCoastlines2 -/

theorem stdSort_perm {α : Type} (lt : α → α → Bool) (v : List α) :
    (stdSort lt v).Perm v :=
  List.perm_insertionSort _ v

theorem stdSort_length {α : Type} (lt : α → α → Bool) (v : List α) :
    (stdSort lt v).length = v.length :=
  (stdSort_perm lt v).length_eq

theorem zipWith_map_self {α β γ : Type} (f : β → α → γ) (g : α → β) (l : List α) :
    List.zipWith f (l.map g) l = l.map (fun x => f (g x) x) := by
  induction l with
  | nil => rfl
  | cons x l ih => simp [ih]

theorem zip_map_self {α β : Type} (g : α → β) (l : List α) :
    List.zip l (l.map g) = l.map (fun x => (x, g x)) := by
  induction l with
  | nil => rfl
  | cons x l ih => simp [ih]

theorem cutCandidate_map
    (findPathIntersections : List Point → List Point → Bool → Bool → List PathIntersection)
    (coastlines : List Coast) (c : Coast) (g : Coast → List PathIntersection)
    (synthesized : List Coast) :
    SynthesizeCoastlines2.cutCandidate findPathIntersections coastlines
        (coastlines.map g, synthesized) c =
      (coastlines.map (fun coastline =>
          g coastline ++ SynthesizeCoastlines2.valid findPathIntersections c coastline),
       synthesized ++ SynthesizeCoastlines2.candidateParts c (coastlines.flatMap
          (fun coastline => SynthesizeCoastlines2.valid findPathIntersections c coastline))) := by
  unfold SynthesizeCoastlines2.cutCandidate
  simp only []
  rw [zipWith_map_self]

theorem cutCandidate_foldl
    (findPathIntersections : List Point → List Point → Bool → Bool → List PathIntersection)
    (coastlines : List Coast) (candidates : List Coast) :
    ∀ (g : Coast → List PathIntersection) (synthesized : List Coast),
      candidates.foldl (SynthesizeCoastlines2.cutCandidate findPathIntersections coastlines)
          (coastlines.map g, synthesized) =
        (coastlines.map (fun coastline => g coastline ++ candidates.flatMap (fun c =>
            SynthesizeCoastlines2.valid findPathIntersections c coastline)),
         synthesized ++ candidates.flatMap (fun c =>
            SynthesizeCoastlines2.candidateParts c (coastlines.flatMap (fun coastline =>
              SynthesizeCoastlines2.valid findPathIntersections c coastline)))) := by
  induction candidates with
  | nil => intro g synthesized; simp
  | cons c candidates ih =>
    intro g synthesized
    rw [List.foldl_cons, cutCandidate_map, ih]
    simp [List.append_assoc]

theorem foldl_append_flatMap {α β : Type} (f : α → List β) (l : List α) :
    ∀ acc : List β, l.foldl (fun acc x => acc ++ f x) acc = acc ++ l.flatMap f := by
  induction l with
  | nil => intro acc; simp
  | cons x l ih => intro acc; simp [ih, List.append_assoc]

/-- The list that `SynthesizeCoastlines2` returns: the old content, then the coasts of every
bounding polygon in order, then the coasts of every coastline in order. -/
theorem SynthesizeCoastlines2_eq
    (findPathIntersections : List Point → List Point → Bool → Bool → List PathIntersection)
    (isAreaInArea : List Point → List Point → Bool)
    (boundingPolygons coastlines synthesized : List Coast) :
    SynthesizeCoastlines2 findPathIntersections isAreaInArea boundingPolygons coastlines
        synthesized =
      synthesized ++
      boundingPolygons.flatMap (fun polygon =>
        SynthesizeCoastlines2.candidateParts (SynthesizeCoastlines2.candidate polygon)
          (polygonIntersections findPathIntersections coastlines polygon)) ++
      coastlines.flatMap (fun coastline =>
        SynthesizeCoastlines2.wayParts isAreaInArea boundingPolygons coastline
          (coastlineIntersections findPathIntersections boundingPolygons coastline)) := by
  unfold SynthesizeCoastlines2
  simp only []
  rw [cutCandidate_foldl findPathIntersections coastlines _ (fun _ => []) synthesized]
  simp only [List.nil_append]
  rw [zip_map_self, foldl_append_flatMap]
  simp only [List.flatMap_map, polygonIntersections, coastlineIntersections]

theorem PathIntersectionSortA_false (i1 i2 : PathIntersection) :
    PathIntersectionSortA i2 i1 = false ↔
      i1.aIndex < i2.aIndex ∨
        (i1.aIndex = i2.aIndex ∧ i1.aDistanceSquare ≤ i2.aDistanceSquare) := by
  unfold PathIntersectionSortA
  split_ifs with h
  · simp only [decide_eq_false_iff_not, not_lt]
    constructor
    · intro hd; exact Or.inr ⟨h.symm, hd⟩
    · rintro (hl | ⟨_, hd⟩)
      · omega
      · exact hd
  · simp only [decide_eq_false_iff_not, not_lt]
    constructor
    · intro hd; left; omega
    · rintro (hl | ⟨he, _⟩)
      · omega
      · exact absurd he.symm h

theorem PathIntersectionSortB_false (i1 i2 : PathIntersection) :
    PathIntersectionSortB i2 i1 = false ↔
      i1.bIndex < i2.bIndex ∨
        (i1.bIndex = i2.bIndex ∧ i1.bDistanceSquare ≤ i2.bDistanceSquare) := by
  unfold PathIntersectionSortB
  split_ifs with h
  · simp only [decide_eq_false_iff_not, not_lt]
    constructor
    · intro hd; exact Or.inr ⟨h.symm, hd⟩
    · rintro (hl | ⟨_, hd⟩)
      · omega
      · exact hd
  · simp only [decide_eq_false_iff_not, not_lt]
    constructor
    · intro hd; left; omega
    · rintro (hl | ⟨he, _⟩)
      · omega
      · exact absurd he.symm h

theorem lex_total (a1 a2 : Nat) (d1 d2 : ℚ) :
    (a1 < a2 ∨ (a1 = a2 ∧ d1 ≤ d2)) ∨ (a2 < a1 ∨ (a2 = a1 ∧ d2 ≤ d1)) := by
  rcases Nat.lt_trichotomy a1 a2 with h | h | h
  · exact Or.inl (Or.inl h)
  · rcases le_total d1 d2 with hd | hd
    · exact Or.inl (Or.inr ⟨h, hd⟩)
    · exact Or.inr (Or.inr ⟨h.symm, hd⟩)
  · exact Or.inr (Or.inl h)

theorem lex_trans (a1 a2 a3 : Nat) (d1 d2 d3 : ℚ)
    (h12 : a1 < a2 ∨ (a1 = a2 ∧ d1 ≤ d2)) (h23 : a2 < a3 ∨ (a2 = a3 ∧ d2 ≤ d3)) :
    a1 < a3 ∨ (a1 = a3 ∧ d1 ≤ d3) := by
  rcases h12 with h | ⟨h, hd⟩ <;> rcases h23 with h' | ⟨h', hd'⟩
  · left; omega
  · left; omega
  · left; omega
  · exact Or.inr ⟨h.trans h', hd.trans hd'⟩

/-- The list sorted with `PathIntersectionSortA` is in the order of `(aIndex,
aDistanceSquare)`. -/
theorem stdSort_sortedA (v : List PathIntersection) :
    (stdSort PathIntersectionSortA v).Pairwise (fun i1 i2 =>
      i1.aIndex < i2.aIndex ∨
        (i1.aIndex = i2.aIndex ∧ i1.aDistanceSquare ≤ i2.aDistanceSquare)) := by
  haveI : IsTotal PathIntersection (fun a b => PathIntersectionSortA b a = false) :=
    ⟨fun a b => by
      rw [PathIntersectionSortA_false, PathIntersectionSortA_false]
      exact lex_total _ _ _ _⟩
  haveI : IsTrans PathIntersection (fun a b => PathIntersectionSortA b a = false) :=
    ⟨fun a b c => by
      rw [PathIntersectionSortA_false, PathIntersectionSortA_false,
        PathIntersectionSortA_false]
      exact lex_trans _ _ _ _ _ _⟩
  have h := List.sorted_insertionSort (fun a b => PathIntersectionSortA b a = false) v
  exact List.Pairwise.imp (fun {a b} hab => (PathIntersectionSortA_false a b).mp hab) h

/-- The list sorted with `PathIntersectionSortB` is in the order of `(bIndex,
bDistanceSquare)`. -/
theorem stdSort_sortedB (v : List PathIntersection) :
    (stdSort PathIntersectionSortB v).Pairwise (fun i1 i2 =>
      i1.bIndex < i2.bIndex ∨
        (i1.bIndex = i2.bIndex ∧ i1.bDistanceSquare ≤ i2.bDistanceSquare)) := by
  haveI : IsTotal PathIntersection (fun a b => PathIntersectionSortB b a = false) :=
    ⟨fun a b => by
      rw [PathIntersectionSortB_false, PathIntersectionSortB_false]
      exact lex_total _ _ _ _⟩
  haveI : IsTrans PathIntersection (fun a b => PathIntersectionSortB b a = false) :=
    ⟨fun a b c => by
      rw [PathIntersectionSortB_false, PathIntersectionSortB_false,
        PathIntersectionSortB_false]
      exact lex_trans _ _ _ _ _ _⟩
  have h := List.sorted_insertionSort (fun a b => PathIntersectionSortB b a = false) v
  exact List.Pairwise.imp (fun {a b} hab => (PathIntersectionSortB_false a b).mp hab) h

theorem candidateParts_even (c : Coast) (ints : List PathIntersection)
    (hn : 0 < ints.length) (heven : ints.length % 2 = 0) :
    SynthesizeCoastlines2.candidateParts c ints =
      (List.range (stdSort PathIntersectionSortA ints).length).map
        (SynthesizeCoastlines2.candidatePart c (stdSort PathIntersectionSortA ints)) := by
  unfold SynthesizeCoastlines2.candidateParts
  have h1 : ints ≠ [] := by
    intro h; rw [h] at hn; exact absurd hn (by simp)
  rw [if_neg h1, if_neg (not_not_intro heven)]

/-- C18: for a bounding polygon with `n > 0`, `n` even, valid intersections (orientation not
`0`) with all coastlines, `SynthesizeCoastlines2` appends for it exactly `n` coasts to the
result, one behind the other.  With `s` the intersections sorted by `(aIndex,
aDistanceSquare)`, the coast `k` starts with the point of `s[k]`, ends with the point of
`s[(k+1) mod n]`, has between them the points of the polygon from the index `aIndex_k+1` to
the index `aIndex_(k+1)+1` (exclusive), both modulo the number of points, going around the end
of the polygon if the first index lies behind the second; it has `isArea=false`, the `right`
of the polygon, and `left=water` if the orientation of `s[k]` is positive, else `land`. -/
theorem SynthesizeCoastlines2_cut_polygon
    (findPathIntersections : List Point → List Point → Bool → Bool → List PathIntersection)
    (isAreaInArea : List Point → List Point → Bool)
    (boundingPolygons coastlines synthesized : List Coast) (polygon : Coast)
    (hn : 0 < (polygonIntersections findPathIntersections coastlines polygon).length)
    (heven : (polygonIntersections findPathIntersections coastlines polygon).length % 2 = 0) :
    SynthesizeCoastlines2 findPathIntersections isAreaInArea boundingPolygons coastlines
        synthesized =
      synthesized ++
      boundingPolygons.flatMap (fun polygon =>
        SynthesizeCoastlines2.candidateParts (SynthesizeCoastlines2.candidate polygon)
          (polygonIntersections findPathIntersections coastlines polygon)) ++
      coastlines.flatMap (fun coastline =>
        SynthesizeCoastlines2.wayParts isAreaInArea boundingPolygons coastline
          (coastlineIntersections findPathIntersections boundingPolygons coastline)) ∧
    (stdSort PathIntersectionSortA
        (polygonIntersections findPathIntersections coastlines polygon)).Perm
      (polygonIntersections findPathIntersections coastlines polygon) ∧
    (stdSort PathIntersectionSortA
        (polygonIntersections findPathIntersections coastlines polygon)).Pairwise
      (fun i1 i2 => i1.aIndex < i2.aIndex ∨
        (i1.aIndex = i2.aIndex ∧ i1.aDistanceSquare ≤ i2.aDistanceSquare)) ∧
    (SynthesizeCoastlines2.candidateParts (SynthesizeCoastlines2.candidate polygon)
        (polygonIntersections findPathIntersections coastlines polygon)).length =
      (polygonIntersections findPathIntersections coastlines polygon).length ∧
    ∀ k, k < (polygonIntersections findPathIntersections coastlines polygon).length →
      ∃ part int1 int2,
        (SynthesizeCoastlines2.candidateParts (SynthesizeCoastlines2.candidate polygon)
          (polygonIntersections findPathIntersections coastlines polygon))[k]? = some part ∧
        (stdSort PathIntersectionSortA
          (polygonIntersections findPathIntersections coastlines polygon))[k]? = some int1 ∧
        (stdSort PathIntersectionSortA
          (polygonIntersections findPathIntersections coastlines polygon))[(k + 1) %
            (polygonIntersections findPathIntersections coastlines polygon).length]?
          = some int2 ∧
        part.coast =
          [⟨0, int1.point⟩] ++
          (if (int1.aIndex + 1) % U64 % polygon.coast.length >
                (int2.aIndex + 1) % U64 % polygon.coast.length ∨
              ((int1.aIndex + 1) % U64 % polygon.coast.length =
                (int2.aIndex + 1) % U64 % polygon.coast.length ∧
               int1.aDistanceSquare > int2.aDistanceSquare) then
            polygon.coast.drop ((int1.aIndex + 1) % U64 % polygon.coast.length) ++
              polygon.coast.take ((int2.aIndex + 1) % U64 % polygon.coast.length)
          else
            (polygon.coast.take ((int2.aIndex + 1) % U64 % polygon.coast.length)).drop
              ((int1.aIndex + 1) % U64 % polygon.coast.length)) ++
          [⟨0, int2.point⟩] ∧
        part.isArea = false ∧
        part.right = polygon.right ∧
        part.left = (if int1.orientation > 0 then CoastState.water else CoastState.land) := by
  have hlen := stdSort_length PathIntersectionSortA
    (polygonIntersections findPathIntersections coastlines polygon)
  refine ⟨SynthesizeCoastlines2_eq _ _ _ _ _, stdSort_perm _ _, stdSort_sortedA _, ?_, ?_⟩
  · rw [candidateParts_even _ _ hn heven]
    simp [hlen]
  · intro k hk
    have hk2 : (k + 1) % (polygonIntersections findPathIntersections coastlines polygon).length
        < (stdSort PathIntersectionSortA
            (polygonIntersections findPathIntersections coastlines polygon)).length := by
      rw [hlen]; exact Nat.mod_lt _ hn
    have hk1 : k < (stdSort PathIntersectionSortA
        (polygonIntersections findPathIntersections coastlines polygon)).length := by
      rw [hlen]; exact hk
    refine ⟨SynthesizeCoastlines2.candidatePart (SynthesizeCoastlines2.candidate polygon)
        (stdSort PathIntersectionSortA
          (polygonIntersections findPathIntersections coastlines polygon)) k,
      (stdSort PathIntersectionSortA
        (polygonIntersections findPathIntersections coastlines polygon)).get ⟨k, hk1⟩,
      (stdSort PathIntersectionSortA
        (polygonIntersections findPathIntersections coastlines polygon)).get ⟨_, hk2⟩,
      ?_, List.getElem?_eq_getElem hk1, List.getElem?_eq_getElem hk2, ?_⟩
    · rw [candidateParts_even _ _ hn heven, List.getElem?_map,
        List.getElem?_range hk1]
      rfl
    · unfold SynthesizeCoastlines2.candidatePart CutPath SynthesizeCoastlines2.candidate
      simp only [hlen, List.getD_eq_getElem?_getD, List.getElem?_eq_getElem hk1,
        List.getElem?_eq_getElem hk2, Option.getD_some, List.get_eq_getElem]
      refine ⟨?_, trivial, trivial, trivial⟩
      split_ifs <;> simp

/-- Example for C18: the square polygon and the way that crosses it from west to east at
`lat = 1` have two valid intersections; the result is the two parts of the polygon, followed
by the part of the way inside of the polygon. -/
theorem SynthesizeCoastlines2_cut_polygon_witness :
    SynthesizeCoastlines2 FindPathIntersections (fun _ _ => false) [squarePolygon]
        [throughWay] [] =
      [{ id := 0, isArea := false, left := CoastState.water, right := CoastState.water,
         coast := [⟨0, ⟨1, 0⟩⟩, ⟨2, ⟨2, 0⟩⟩, ⟨3, ⟨2, 2⟩⟩, ⟨0, ⟨1, 2⟩⟩] },
       { id := 0, isArea := false, left := CoastState.land, right := CoastState.water,
         coast := [⟨0, ⟨1, 2⟩⟩, ⟨4, ⟨0, 2⟩⟩, ⟨1, ⟨0, 0⟩⟩, ⟨1, ⟨0, 0⟩⟩, ⟨0, ⟨1, 0⟩⟩] },
       { id := 10, isArea := false, left := CoastState.land, right := CoastState.water,
         coast := [⟨0, ⟨1, 0⟩⟩, ⟨0, ⟨1, 2⟩⟩] }] ∧
    (polygonIntersections FindPathIntersections [throughWay] squarePolygon).length = 2 ∧
    (SynthesizeCoastlines2.candidateParts (SynthesizeCoastlines2.candidate squarePolygon)
        (polygonIntersections FindPathIntersections [throughWay] squarePolygon)).length =
      (polygonIntersections FindPathIntersections [throughWay] squarePolygon).length :=
  ⟨by decide!, by decide!,
    (SynthesizeCoastlines2_cut_polygon FindPathIntersections (fun _ _ => false)
      [squarePolygon] [throughWay] [] squarePolygon (by decide!) (by decide!)).2.2.2.1⟩

theorem filterMap_eq_map_filter_of {α β : Type} (f : α → Option β) (p : α → Bool)
    (g : α → β) :
    ∀ l : List α, (∀ i ∈ l, f i = if p i = true then some (g i) else none) →
      l.filterMap f = (l.filter p).map g := by
  intro l
  induction l with
  | nil => intro _; rfl
  | cons x l ih =>
    intro h
    have hx := h x (List.mem_cons_self _ _)
    have hl := ih (fun i hi => h i (List.mem_cons_of_mem _ hi))
    by_cases hp : p x = true
    · rw [if_pos hp] at hx
      rw [List.filterMap_cons_some hx, List.filter_cons_of_pos hp, List.map_cons, hl]
    · rw [if_neg hp] at hx
      rw [List.filterMap_cons_none hx, List.filter_cons_of_neg hp, hl]

theorem valid_orientation
    (findPathIntersections : List Point → List Point → Bool → Bool → List PathIntersection)
    (c coastline : Coast) (i : PathIntersection)
    (hi : i ∈ SynthesizeCoastlines2.valid findPathIntersections c coastline) :
    i.orientation ≠ 0 := by
  unfold SynthesizeCoastlines2.valid at hi
  exact of_decide_eq_true (List.mem_filter.mp hi).2

theorem coastlineIntersections_orientation
    (findPathIntersections : List Point → List Point → Bool → Bool → List PathIntersection)
    (boundingPolygons : List Coast) (coastline : Coast) (i : PathIntersection)
    (hi : i ∈ coastlineIntersections findPathIntersections boundingPolygons coastline) :
    i.orientation ≠ 0 := by
  unfold coastlineIntersections at hi
  obtain ⟨polygon, _, h⟩ := List.mem_flatMap.mp hi
  exact valid_orientation _ _ _ _ h

/-- C19: for a coastline with `n > 0`, `n` even, valid intersections (orientation not `0`)
with all bounding polygons, `SynthesizeCoastlines2` appends to the result, with `s` the
intersections sorted by `(bIndex, bDistanceSquare)`, one coast for every `i` below the limit
(`n` for an area, `n-1` for a way) at which the orientation of `s[i]` is positive, in the
order of `i`, and no other coast.  The coast for `i` starts with the point of `s[i]`, ends
with the point of `s[(i+1) mod n]`, has between them the points of the coastline from the
index `bIndex_i+1` to the index `bIndex_(i+1)+1` (exclusive), both modulo the number of
points, going around the end of the coastline if the first index lies behind the second; it
has `isArea=false` and `left`, `right`, `id` and `sortCriteria` of the coastline. -/
theorem SynthesizeCoastlines2_cut_coastline
    (findPathIntersections : List Point → List Point → Bool → Bool → List PathIntersection)
    (isAreaInArea : List Point → List Point → Bool)
    (boundingPolygons coastlines synthesized : List Coast) (coastline : Coast)
    (hn : 0 < (coastlineIntersections findPathIntersections boundingPolygons coastline).length)
    (heven :
      (coastlineIntersections findPathIntersections boundingPolygons coastline).length % 2 = 0) :
    SynthesizeCoastlines2 findPathIntersections isAreaInArea boundingPolygons coastlines
        synthesized =
      synthesized ++
      boundingPolygons.flatMap (fun polygon =>
        SynthesizeCoastlines2.candidateParts (SynthesizeCoastlines2.candidate polygon)
          (polygonIntersections findPathIntersections coastlines polygon)) ++
      coastlines.flatMap (fun coastline =>
        SynthesizeCoastlines2.wayParts isAreaInArea boundingPolygons coastline
          (coastlineIntersections findPathIntersections boundingPolygons coastline)) ∧
    (stdSort PathIntersectionSortB
        (coastlineIntersections findPathIntersections boundingPolygons coastline)).Perm
      (coastlineIntersections findPathIntersections boundingPolygons coastline) ∧
    (stdSort PathIntersectionSortB
        (coastlineIntersections findPathIntersections boundingPolygons coastline)).Pairwise
      (fun i1 i2 => i1.bIndex < i2.bIndex ∨
        (i1.bIndex = i2.bIndex ∧ i1.bDistanceSquare ≤ i2.bDistanceSquare)) ∧
    SynthesizeCoastlines2.wayParts isAreaInArea boundingPolygons coastline
        (coastlineIntersections findPathIntersections boundingPolygons coastline) =
      ((List.range
          (if coastline.isArea = true then
            (coastlineIntersections findPathIntersections boundingPolygons coastline).length
           else
            (coastlineIntersections findPathIntersections boundingPolygons coastline).length
              - 1)).filter
        (fun i => decide (((stdSort PathIntersectionSortB
          (coastlineIntersections findPathIntersections boundingPolygons coastline)).getD i
            PathIntersection.zero).orientation > 0))).map
        (fun i =>
          let int1 := (stdSort PathIntersectionSortB
            (coastlineIntersections findPathIntersections boundingPolygons coastline)).getD i
              PathIntersection.zero
          let int2 := (stdSort PathIntersectionSortB
            (coastlineIntersections findPathIntersections boundingPolygons coastline)).getD
              ((i + 1) %
                (coastlineIntersections findPathIntersections boundingPolygons coastline).length)
              PathIntersection.zero
          let first := (int1.bIndex + 1) % U64 % coastline.coast.length
          let last := (int2.bIndex + 1) % U64 % coastline.coast.length
          ({ coast :=
               [⟨0, int1.point⟩] ++
               (if first > last ∨ (first = last ∧ int1.bDistanceSquare > int2.bDistanceSquare)
                then coastline.coast.drop first ++ coastline.coast.take last
                else (coastline.coast.take last).drop first) ++
               [⟨0, int2.point⟩],
             isArea := false, left := coastline.left, right := coastline.right,
             id := coastline.id, sortCriteria := coastline.sortCriteria } : Coast)) := by
  have hlen := stdSort_length PathIntersectionSortB
    (coastlineIntersections findPathIntersections boundingPolygons coastline)
  refine ⟨SynthesizeCoastlines2_eq _ _ _ _ _, stdSort_perm _ _, stdSort_sortedB _, ?_⟩
  have h1 : coastlineIntersections findPathIntersections boundingPolygons coastline ≠ [] := by
    intro h; rw [h] at hn; exact absurd hn (by simp)
  unfold SynthesizeCoastlines2.wayParts
  rw [if_neg h1, if_neg (not_not_intro heven)]
  simp only [hlen]
  have hlim : (if coastline.isArea = true then
      (coastlineIntersections findPathIntersections boundingPolygons coastline).length
     else (coastlineIntersections findPathIntersections boundingPolygons coastline).length - 1)
      ≤ (coastlineIntersections findPathIntersections boundingPolygons coastline).length := by
    split_ifs <;> omega
  apply filterMap_eq_map_filter_of
  intro i hi
  have hi1 : i < (stdSort PathIntersectionSortB
      (coastlineIntersections findPathIntersections boundingPolygons coastline)).length := by
    rw [hlen]; exact lt_of_lt_of_le (List.mem_range.mp hi) hlim
  have hne : ((stdSort PathIntersectionSortB
      (coastlineIntersections findPathIntersections boundingPolygons coastline)).getD i
        PathIntersection.zero).orientation ≠ 0 := by
    rw [List.getD_eq_getElem _ _ hi1]
    exact coastlineIntersections_orientation findPathIntersections boundingPolygons coastline _
      ((stdSort_perm _ _).mem_iff.mp (List.getElem_mem hi1))
  unfold SynthesizeCoastlines2.wayPart CutPath
  simp only [hlen, decide_eq_true_eq]
  by_cases hpos : ((stdSort PathIntersectionSortB
      (coastlineIntersections findPathIntersections boundingPolygons coastline)).getD i
        PathIntersection.zero).orientation > 0
  · rw [if_neg (not_lt.mpr (le_of_lt hpos)), if_pos hpos]
    congr 1
    split_ifs <;> simp
  · rw [if_pos (lt_of_le_of_ne (not_lt.mp hpos) hne), if_neg hpos]

/-- Example for C19: the way that crosses the square polygon from west to east has two valid
intersections; the one part that is emitted starts at the crossing with positive orientation,
and nothing is emitted for the crossing with negative orientation. -/
theorem SynthesizeCoastlines2_cut_coastline_witness :
    stdSort PathIntersectionSortB
        (coastlineIntersections FindPathIntersections [squarePolygon] throughWay) =
      [{ point := ⟨1, 0⟩, aIndex := 0, bIndex := 0, orientation := 1, aDistanceSquare := 1,
         bDistanceSquare := 1 },
       { point := ⟨1, 2⟩, aIndex := 2, bIndex := 0, orientation := -1, aDistanceSquare := 1,
         bDistanceSquare := 9 }] ∧
    SynthesizeCoastlines2.wayParts (fun _ _ => false) [squarePolygon] throughWay
        (coastlineIntersections FindPathIntersections [squarePolygon] throughWay) =
      [{ id := 10, isArea := false, left := CoastState.land, right := CoastState.water,
         coast := [⟨0, ⟨1, 0⟩⟩, ⟨0, ⟨1, 2⟩⟩] }] ∧
    (stdSort PathIntersectionSortB
        (coastlineIntersections FindPathIntersections [squarePolygon] throughWay)).Perm
      (coastlineIntersections FindPathIntersections [squarePolygon] throughWay) :=
  ⟨by decide!, by decide!,
    (SynthesizeCoastlines2_cut_coastline FindPathIntersections (fun _ _ => false)
      [squarePolygon] [throughWay] [] throughWay (by decide!) (by decide!)).2.1⟩

theorem candidatePart_head (c : Coast) (s : List PathIntersection) (k : Nat) :
    (SynthesizeCoastlines2.candidatePart c s k).coast.head? =
      some ⟨0, (s.getD k PathIntersection.zero).point⟩ := by
  unfold SynthesizeCoastlines2.candidatePart CutPath
  simp only []
  split_ifs <;> simp

/-- C20 (amended): an odd number of valid intersections of a pair of a bounding polygon and a
coastline has no effect on the result of `SynthesizeCoastlines2`.  Every valid intersection of
the pair is taken into the list of the polygon and, for a polygon of the call, into the list
of the coastline.  The polygon is cut whenever the number of its valid intersections with all
coastlines is even, and then a part starts at every one of them; it gives no coast when this
number is odd.  The coastline gives no coast when the number of its valid intersections with
all polygons is odd. -/
theorem SynthesizeCoastlines2_odd_pair
    (findPathIntersections : List Point → List Point → Bool → Bool → List PathIntersection)
    (isAreaInArea : List Point → List Point → Bool)
    (boundingPolygons coastlines synthesized : List Coast) (polygon coastline : Coast)
    (i : PathIntersection) (hc : coastline ∈ coastlines)
    (hi : i ∈ SynthesizeCoastlines2.valid findPathIntersections
      (SynthesizeCoastlines2.candidate polygon) coastline) :
    SynthesizeCoastlines2 findPathIntersections isAreaInArea boundingPolygons coastlines
        synthesized =
      synthesized ++
      boundingPolygons.flatMap (fun polygon =>
        SynthesizeCoastlines2.candidateParts (SynthesizeCoastlines2.candidate polygon)
          (polygonIntersections findPathIntersections coastlines polygon)) ++
      coastlines.flatMap (fun coastline =>
        SynthesizeCoastlines2.wayParts isAreaInArea boundingPolygons coastline
          (coastlineIntersections findPathIntersections boundingPolygons coastline)) ∧
    i ∈ polygonIntersections findPathIntersections coastlines polygon ∧
    (polygon ∈ boundingPolygons →
      i ∈ coastlineIntersections findPathIntersections boundingPolygons coastline) ∧
    ((polygonIntersections findPathIntersections coastlines polygon).length % 2 = 0 →
      ∃ part ∈ SynthesizeCoastlines2.candidateParts (SynthesizeCoastlines2.candidate polygon)
          (polygonIntersections findPathIntersections coastlines polygon),
        part.coast.head? = some ⟨0, i.point⟩) ∧
    ((polygonIntersections findPathIntersections coastlines polygon).length % 2 = 1 →
      SynthesizeCoastlines2.candidateParts (SynthesizeCoastlines2.candidate polygon)
        (polygonIntersections findPathIntersections coastlines polygon) = []) ∧
    ((coastlineIntersections findPathIntersections boundingPolygons coastline).length % 2 = 1 →
      SynthesizeCoastlines2.wayParts isAreaInArea boundingPolygons coastline
        (coastlineIntersections findPathIntersections boundingPolygons coastline) = []) := by
  have hmem : i ∈ polygonIntersections findPathIntersections coastlines polygon := by
    unfold polygonIntersections
    exact List.mem_flatMap.mpr ⟨coastline, hc, hi⟩
  refine ⟨SynthesizeCoastlines2_eq _ _ _ _ _, hmem, ?_, ?_, ?_, ?_⟩
  · intro hp
    unfold coastlineIntersections
    exact List.mem_flatMap.mpr ⟨polygon, hp, hi⟩
  · intro heven
    have hn : 0 < (polygonIntersections findPathIntersections coastlines polygon).length :=
      List.length_pos_of_mem hmem
    have hs : i ∈ stdSort PathIntersectionSortA
        (polygonIntersections findPathIntersections coastlines polygon) :=
      (stdSort_perm _ _).mem_iff.mpr hmem
    obtain ⟨k, hk, hki⟩ := List.getElem_of_mem hs
    refine ⟨SynthesizeCoastlines2.candidatePart (SynthesizeCoastlines2.candidate polygon)
      (stdSort PathIntersectionSortA
        (polygonIntersections findPathIntersections coastlines polygon)) k, ?_, ?_⟩
    · rw [candidateParts_even _ _ hn heven]
      exact List.mem_map_of_mem _ (List.mem_range.mpr hk)
    · rw [candidatePart_head, List.getD_eq_getElem _ _ hk, hki]
  · intro hodd
    unfold SynthesizeCoastlines2.candidateParts
    have h1 : polygonIntersections findPathIntersections coastlines polygon ≠ [] :=
      List.ne_nil_of_mem hmem
    rw [if_neg h1, if_pos (by omega)]
  · intro hodd
    unfold SynthesizeCoastlines2.wayParts
    have h1 : coastlineIntersections findPathIntersections boundingPolygons coastline ≠ [] := by
      intro h; rw [h] at hodd; simp at hodd
    rw [if_neg h1, if_pos (by omega)]

/-- Counterexample to C20: the square polygon has one valid intersection with the way that
ends in it and one with the way that starts in it, an odd number for either pair.
`SynthesizeCoastlines2` cuts the polygon at these two intersections: the first part starts
at the crossing `(1,0)` of the first way and ends at the crossing `(1/2,2)` of the second
way. -/
theorem SynthesizeCoastlines2_odd_pair_counterexample :
    SynthesizeCoastlines2.valid FindPathIntersections
        (SynthesizeCoastlines2.candidate squarePolygon) enteringWay =
      [{ point := ⟨1, 0⟩, aIndex := 0, bIndex := 0, orientation := 1, aDistanceSquare := 1,
         bDistanceSquare := 1 }] ∧
    SynthesizeCoastlines2.valid FindPathIntersections
        (SynthesizeCoastlines2.candidate squarePolygon) leavingWay =
      [{ point := ⟨1/2, 2⟩, aIndex := 2, bIndex := 0, orientation := -1,
         aDistanceSquare := 9/4, bDistanceSquare := 1 }] ∧
    SynthesizeCoastlines2 FindPathIntersections (fun _ _ => false) [squarePolygon]
        [enteringWay, leavingWay] [] =
      [{ id := 0, isArea := false, left := CoastState.water, right := CoastState.water,
         coast := [⟨0, ⟨1, 0⟩⟩, ⟨2, ⟨2, 0⟩⟩, ⟨3, ⟨2, 2⟩⟩, ⟨0, ⟨1/2, 2⟩⟩] },
       { id := 0, isArea := false, left := CoastState.land, right := CoastState.water,
         coast := [⟨0, ⟨1/2, 2⟩⟩, ⟨4, ⟨0, 2⟩⟩, ⟨1, ⟨0, 0⟩⟩, ⟨1, ⟨0, 0⟩⟩, ⟨0, ⟨1, 0⟩⟩] }] := by
  decide!

/-- Example for C20: the crossing `(1,0)` of the square polygon and the way that ends in it
is in the list of the polygon, which has two entries. -/
theorem SynthesizeCoastlines2_odd_pair_witness :
    (polygonIntersections FindPathIntersections [enteringWay, leavingWay]
      squarePolygon).length = 2 ∧
    ({ point := ⟨1, 0⟩, aIndex := 0, bIndex := 0, orientation := 1, aDistanceSquare := 1,
       bDistanceSquare := 1 } : PathIntersection) ∈
      polygonIntersections FindPathIntersections [enteringWay, leavingWay] squarePolygon :=
  ⟨by decide!,
    (SynthesizeCoastlines2_odd_pair FindPathIntersections (fun _ _ => false) [squarePolygon]
      [enteringWay, leavingWay] [] squarePolygon enteringWay
      { point := ⟨1, 0⟩, aIndex := 0, bIndex := 0, orientation := 1, aDistanceSquare := 1,
        bDistanceSquare := 1 } (by decide!) (by decide!)).2.1⟩

/-! ## The cell walker -/

/-- The walks of `HandleCoastlineCell` in the cell `(0,0)` that the straight way crosses: one
from the intersection `out` with a land tile, one from the intersection `in` with a water
tile. -/
theorem HandleCoastlineCell_straight :
    HandleCoastlineCell pixelLt IntersectionCWComparator ⟨0, 0⟩ [0] smallMap [] straightData =
      some ([(⟨0, 0⟩, [straightLandTile, straightWaterTile])],
        [⟨straightOut, straightLandTile, true⟩, ⟨straightIn, straightWaterTile, true⟩]) := by
  decide!

theorem grows_refl (g : GroundTile) : GroundTile.Grows 0 g g := ⟨rfl, le_refl _⟩

theorem grows_trans {n m : Nat} {g g' g'' : GroundTile} (h1 : GroundTile.Grows n g g')
    (h2 : GroundTile.Grows m g' g'') : GroundTile.Grows (n + m) g g'' :=
  ⟨h2.1.trans h1.1, by have := h1.2; have := h2.2; omega⟩

theorem grows_mono {n m : Nat} {g g' : GroundTile} (h : GroundTile.Grows n g g')
    (hm : m ≤ n) : GroundTile.Grows m g g' :=
  ⟨h.1, by have := h.2; omega⟩

theorem grows_push (g : GroundTile) (c : GroundTile.Coord) : GroundTile.Grows 1 g (g.push c) :=
  ⟨rfl, by simp [GroundTile.push]⟩

theorem setBackCoast_length (coords : List GroundTile.Coord) (value : Bool) :
    (setBackCoast coords value).length = coords.length := by
  rcases List.eq_nil_or_concat coords with h | ⟨init, c, h⟩
  · subst h; rfl
  · have h' : coords = init ++ [c] := by simpa using h
    rw [h', setBackCoast_concat]
    simp

theorem grows_setBackCoast (g : GroundTile) (value : Bool) :
    GroundTile.Grows 0 g (g.setBackCoast value) :=
  ⟨rfl, by simp [GroundTile.setBackCoast, setBackCoast_length]⟩

theorem grows_foldl_push {ι : Type} (f : ι → GroundTile.Coord) (l : List ι) :
    ∀ g : GroundTile, GroundTile.Grows 0 g (l.foldl (fun g i => g.push (f i)) g) := by
  induction l with
  | nil => intro g; exact grows_refl g
  | cons i l ih =>
    intro g
    rw [List.foldl_cons]
    exact grows_mono (grows_trans (grows_push g (f i)) (ih _)) (by omega)

theorem grows_WalkBorderCW_loop (borderCoords : List GroundTile.Coord) (endBorderPoint : Nat) :
    ∀ (fuel borderPoint : Nat) (g : GroundTile) (r : GroundTile × Nat),
      WalkBorderCW.loop borderCoords endBorderPoint fuel borderPoint g = some r →
        GroundTile.Grows 0 g r.1 := by
  intro fuel
  induction fuel with
  | zero => intro bp g r h; simp [WalkBorderCW.loop] at h
  | succ fuel ih =>
    intro bp g r h
    unfold WalkBorderCW.loop at h
    by_cases hc : bp ≠ endBorderPoint
    · rw [if_pos hc] at h
      exact grows_mono (grows_trans (grows_push g _) (ih _ _ _ h)) (by omega)
    · rw [if_neg hc] at h
      simp only [Option.some.injEq] at h
      subst h
      exact grows_refl g

theorem grows_WalkBorderCW (g g' : GroundTile) (stateMap : StateMap)
    (cellMinLat cellMinLon : ℚ) (incoming outgoing : Intersection)
    (borderCoords : List GroundTile.Coord)
    (h : WalkBorderCW g stateMap cellMinLat cellMinLon incoming outgoing borderCoords
      = some g') : GroundTile.Grows 1 g g' := by
  unfold WalkBorderCW at h
  simp only [] at h
  split_ifs at h with hc
  · cases hl : WalkBorderCW.loop borderCoords outgoing.borderIndex 4
        ((incoming.borderIndex + 1) % 4) g with
    | none => rw [hl] at h; simp at h
    | some r =>
      rw [hl] at h
      simp only [Option.some.injEq] at h
      subst h
      exact grows_mono (grows_trans (grows_trans (grows_WalkBorderCW_loop _ _ _ _ _ _ hl)
        (grows_push _ _)) (grows_push _ _)) (by omega)
  · simp only [Option.some.injEq] at h
    subst h
    exact grows_push _ _

theorem grows_WalkPathBack_loop (stateMap : StateMap) (cellMinLat cellMinLon : ℚ)
    (points : List GeoCoord) (targetIdx : Nat) :
    ∀ (fuel idx : Nat) (g : GroundTile) (r : GroundTile × Nat),
      WalkPathBack.loop stateMap cellMinLat cellMinLon points targetIdx fuel idx g = some r →
        GroundTile.Grows 0 g r.1 := by
  intro fuel
  induction fuel with
  | zero => intro idx g r h; simp [WalkPathBack.loop] at h
  | succ fuel ih =>
    intro idx g r h
    unfold WalkPathBack.loop at h
    by_cases hc : idx ≠ targetIdx
    · rw [if_pos hc] at h
      exact grows_mono (grows_trans (grows_push g _) (ih _ _ _ h)) (by omega)
    · rw [if_neg hc] at h
      simp only [Option.some.injEq] at h
      subst h
      exact grows_refl g

theorem grows_WalkPathForward_loop (stateMap : StateMap) (cellMinLat cellMinLon : ℚ)
    (points : List GeoCoord) (targetIdx : Nat) :
    ∀ (fuel idx : Nat) (g : GroundTile) (r : GroundTile × Nat),
      WalkPathForward.loop stateMap cellMinLat cellMinLon points targetIdx fuel idx g = some r →
        GroundTile.Grows 0 g r.1 := by
  intro fuel
  induction fuel with
  | zero => intro idx g r h; simp [WalkPathForward.loop] at h
  | succ fuel ih =>
    intro idx g r h
    unfold WalkPathForward.loop at h
    by_cases hc : idx ≠ targetIdx
    · rw [if_pos hc] at h
      exact grows_mono (grows_trans (grows_push g _) (ih _ _ _ h)) (by omega)
    · rw [if_neg hc] at h
      simp only [Option.some.injEq] at h
      subst h
      exact grows_refl g

theorem grows_WalkPathBack (g g' : GroundTile) (stateMap : StateMap)
    (cellMinLat cellMinLon : ℚ) (pathStart pathEnd : Intersection) (points : List GeoCoord)
    (isArea : Bool)
    (h : WalkPathBack g stateMap cellMinLat cellMinLon pathStart pathEnd points isArea
      = some g') : GroundTile.Grows 1 g g' := by
  unfold WalkPathBack at h
  simp only [] at h
  have h0 := grows_setBackCoast g true
  by_cases ha : isArea = true
  · rw [if_pos ha] at h
    by_cases hs : pathStart.prevWayPointIndex = pathEnd.prevWayPointIndex ∧
        pathStart.distanceSquare > pathEnd.distanceSquare
    · rw [if_pos hs] at h
      simp only [Option.some.injEq] at h
      subst h
      exact grows_mono (grows_trans h0 (grows_push _ _)) (by omega)
    · rw [if_neg hs] at h
      split at h
      · simp at h
      · rename_i r hl
        simp only [Option.some.injEq] at h
        subst h
        exact grows_mono (grows_trans (grows_trans (grows_trans h0
          (grows_WalkPathBack_loop _ _ _ _ _ _ _ _ _ hl)) (grows_push _ _)) (grows_push _ _))
          (by omega)
  · rw [if_neg ha] at h
    split_ifs at h with ht
    simp only [Option.some.injEq] at h
    subst h
    exact grows_mono (grows_trans (grows_trans h0 (grows_foldl_push _ _ _)) (grows_push _ _))
      (by omega)

theorem grows_WalkPathForward (g g' : GroundTile) (stateMap : StateMap)
    (cellMinLat cellMinLon : ℚ) (pathStart pathEnd : Intersection) (points : List GeoCoord)
    (isArea : Bool)
    (h : WalkPathForward g stateMap cellMinLat cellMinLon pathStart pathEnd points isArea
      = some g') : GroundTile.Grows 1 g g' := by
  unfold WalkPathForward at h
  simp only [] at h
  have h0 := grows_setBackCoast g true
  by_cases ha : isArea = true
  · rw [if_pos ha] at h
    by_cases hs : pathStart.prevWayPointIndex = pathEnd.prevWayPointIndex ∧
        pathStart.distanceSquare < pathEnd.distanceSquare
    · rw [if_pos hs] at h
      simp only [Option.some.injEq] at h
      subst h
      exact grows_mono (grows_trans h0 (grows_push _ _)) (by omega)
    · rw [if_neg hs] at h
      split at h
      · simp at h
      · rename_i r hl
        simp only [Option.some.injEq] at h
        subst h
        exact grows_mono (grows_trans (grows_trans (grows_trans h0
          (grows_WalkPathForward_loop _ _ _ _ _ _ _ _ _ hl)) (grows_push _ _))
          (grows_push _ _)) (by omega)
  · rw [if_neg ha] at h
    split_ifs at h with ht
    simp only [Option.some.injEq] at h
    subst h
    exact grows_mono (grows_trans (grows_trans h0 (grows_foldl_push _ _ _)) (grows_push _ _))
      (by omega)

theorem grows_WalkPath (g g' : GroundTile) (stateMap : StateMap)
    (cellBoundaries : CellBoundaries) (pathStart pathEnd : Intersection)
    (coastline : CoastlineData)
    (h : WalkPath g stateMap cellBoundaries pathStart pathEnd coastline = some g') :
    GroundTile.Grows 1 g g' := by
  unfold WalkPath at h
  split_ifs at h
  · exact grows_WalkPathBack _ _ _ _ _ _ _ _ _ h
  · exact grows_WalkPathForward _ _ _ _ _ _ _ _ _ h

theorem grows_WalkFromTripoint_finish (g g' : GroundTile) (stateMap : StateMap)
    (cellBoundaries : CellBoundaries) (pathStart' : Intersection)
    (pathEnd pathEnd' : Option IntersectionRef) (s : WalkFromTripoint.Search)
    (h : WalkFromTripoint.finish g stateMap cellBoundaries pathEnd s
      = some (some (g', pathStart', pathEnd'))) :
    GroundTile.Grows 1 g g' := by
  unfold WalkFromTripoint.finish at h
  split at h
  · simp at h
  · rename_i outgoing ho
    by_cases hd : outgoing.direction = s.outgoingEnd.direction
    · rw [if_pos hd] at h
      simp at h
    · rw [if_neg hd] at h
      simp only [] at h
      split at h
      · simp at h
      · rename_i g1 hw
        simp only [Option.some.injEq, Prod.mk.injEq] at h
        rw [← h.1]
        exact grows_WalkPath _ _ _ _ _ _ _ hw

theorem grows_WalkFromTripoint (g g' : GroundTile) (stateMap : StateMap)
    (cellBoundaries : CellBoundaries) (pathStart pathStart' : Intersection)
    (pathEnd pathEnd' : Option IntersectionRef) (data : Data)
    (intersectionsCW : List IntersectionRef) (containingPaths : List Nat)
    (h : WalkFromTripoint g stateMap cellBoundaries pathStart pathEnd data intersectionsCW
      containingPaths = some (some (g', pathStart', pathEnd'))) :
    GroundTile.Grows 1 g g' := by
  unfold WalkFromTripoint at h
  simp only [] at h
  by_cases h2 : (data.coastlines.getD pathStart.coastline CoastlineData.none).points.length < 2
  · rw [if_pos h2] at h
    simp at h
  · rw [if_neg h2] at h
    exact grows_WalkFromTripoint_finish _ _ _ _ _ _ _ _ h

theorem grows_tripoints (stateMap : StateMap) (intersectionsCW : List IntersectionRef)
    (cellBoundaries : CellBoundaries) (data : Data) (containingPaths : List Nat)
    (coastline : CoastlineData) :
    ∀ (fuel step : Nat) (pathStart : Intersection) (g g' : GroundTile)
      (pathEnd : IntersectionRef) (step' : Nat),
      WalkBoundaryCW.tripoints stateMap intersectionsCW cellBoundaries data containingPaths
          coastline fuel step pathStart g = some (some (g', pathEnd, step')) →
        GroundTile.Grows 0 g g' := by
  intro fuel
  induction fuel with
  | zero => intro step ps g g' pe step' h; simp [WalkBoundaryCW.tripoints] at h
  | succ fuel ih =>
    intro step ps g g' pe step' h
    unfold WalkBoundaryCW.tripoints at h
    by_cases ha : coastline.isArea = true
    · rw [if_pos ha] at h
      simp at h
    · rw [if_neg ha] at h
      split at h
      · simp at h
      · simp at h
      · rename_i g1 ps1 pe1 hw
        have hg := grows_WalkFromTripoint _ _ _ _ _ _ _ _ _ _ _ hw
        simp only [] at h
        by_cases hs : step + 1 > 1000
        · rw [if_pos hs] at h
          simp at h
        · rw [if_neg hs] at h
          split at h
          · simp only [Option.some.injEq, Prod.mk.injEq] at h
            rw [← h.1]
            exact grows_mono hg (by omega)
          · exact grows_mono (grows_trans hg (ih _ _ _ _ _ _ h)) (by omega)

theorem grows_path (stateMap : StateMap) (intersectionsCW : List IntersectionRef)
    (cellBoundaries : CellBoundaries) (data : Data) (containingPaths : List Nat)
    (fuel step : Nat) (pathStart : IntersectionRef) (g g' : GroundTile)
    (pathEnd : IntersectionRef) (step' : Nat)
    (h : WalkBoundaryCW.path stateMap intersectionsCW cellBoundaries data containingPaths
      fuel step pathStart g = some (some (g', pathEnd, step'))) :
    GroundTile.Grows 1 g g' := by
  unfold WalkBoundaryCW.path at h
  simp only [] at h
  split at h
  · split at h
    · simp at h
    · rename_i g1 hw
      exact grows_mono (grows_trans (grows_WalkPath _ _ _ _ _ _ _ hw)
        (grows_tripoints _ _ _ _ _ _ _ _ _ _ _ _ _ h)) (by omega)
  · split at h
    · simp at h
    · rename_i g1 hw
      simp only [Option.some.injEq, Prod.mk.injEq] at h
      rw [← h.1]
      exact grows_WalkPath _ _ _ _ _ _ _ hw

theorem subset_visitedInsert (v : List Nat) (a : Nat) : v ⊆ visitedInsert v a := by
  unfold visitedInsert
  split_ifs
  · exact List.Subset.refl _
  · exact List.subset_append_left _ _

theorem mem_visitedInsert (v : List Nat) (a : Nat) : a ∈ visitedInsert v a := by
  unfold visitedInsert
  split_ifs with h
  · exact h
  · simp

/-- The loop of `WalkBoundaryCW`: the ground tile keeps its type, the set of the visited
intersections grows, and if the loop is entered with `step==0` it visits `pathStart` and a
walk with the result `true` adds two coordinates or more. -/
theorem WalkBoundaryCW_loop_spec (stateMap : StateMap) (startIntersection : IntersectionRef)
    (intersectionsCW : List IntersectionRef) (cellBoundaries : CellBoundaries) (data : Data)
    (containingPaths : List Nat) :
    ∀ (fuel step : Nat) (pathStart : IntersectionRef) (g : GroundTile) (v : List Nat)
      (b : Bool) (g' : GroundTile) (v' : List Nat),
      WalkBoundaryCW.loop stateMap startIntersection intersectionsCW cellBoundaries data
          containingPaths fuel step pathStart g v = some (b, g', v') →
        g'.type = g.type ∧ v ⊆ v' ∧ (step = 0 → pathStart.addr ∈ v') ∧
        (b = true → g.coords.length ≤ g'.coords.length ∧
          (step = 0 → g.coords.length + 2 ≤ g'.coords.length)) := by
  intro fuel
  induction fuel with
  | zero => intro step ps g v b g' v' h; simp [WalkBoundaryCW.loop] at h
  | succ fuel ih =>
    intro step ps g v b g' v' h
    unfold WalkBoundaryCW.loop at h
    by_cases hc : step = 0 ∨ ps.addr ≠ startIntersection.addr
    · rw [if_pos hc] at h
      simp only [] at h
      split at h
      · simp at h
      · simp only [Option.some.injEq, Prod.mk.injEq] at h
        obtain ⟨hb, hg, hv⟩ := h
        subst hb hg hv
        exact ⟨rfl, subset_visitedInsert _ _, fun _ => mem_visitedInsert _ _,
          fun hf => absurd hf (by simp)⟩
      · rename_i g1 pe step1 hp
        have hg1 := grows_path _ _ _ _ _ _ _ _ _ _ _ _ hp
        by_cases hs : step1 + 1 > 1000
        · rw [if_pos hs] at h
          simp only [Option.some.injEq, Prod.mk.injEq] at h
          obtain ⟨hb, hg, hv⟩ := h
          subst hb hg hv
          exact ⟨hg1.1, subset_visitedInsert _ _, fun _ => mem_visitedInsert _ _,
            fun hf => absurd hf (by simp)⟩
        · rw [if_neg hs] at h
          split at h
          · simp at h
          · rename_i next hn
            split at h
            · simp at h
            · rename_i g2 hw
              have hg2 := grows_WalkBorderCW _ _ _ _ _ _ _ _ hw
              obtain ⟨ht, hsub, _, hlen⟩ := ih _ _ _ _ _ _ _ h
              have h12 := grows_trans hg1 hg2
              refine ⟨ht.trans h12.1, fun a ha => hsub (subset_visitedInsert _ _ ha),
                fun _ => hsub (mem_visitedInsert _ _), fun hb => ?_⟩
              have := (hlen hb).1
              have := h12.2
              exact ⟨by omega, fun _ => by omega⟩
    · rw [if_neg hc] at h
      simp only [Option.some.injEq, Prod.mk.injEq] at h
      obtain ⟨hb, hg, hv⟩ := h
      subst hb hg hv
      exact ⟨rfl, List.Subset.refl _, fun h0 => absurd (Or.inl h0) hc,
        fun _ => ⟨le_refl _, fun h0 => absurd (Or.inl h0) hc⟩⟩

/-- A call of `WalkBoundaryCW` that returns: the ground tile keeps its type, the start is
visited afterwards, what was visited stays visited, and with the result `true` the ground
tile has three coordinates more. -/
theorem WalkBoundaryCW_spec (g : GroundTile) (stateMap : StateMap)
    (startIntersection : IntersectionRef) (intersectionsCW : List IntersectionRef)
    (v : List Nat) (cellBoundaries : CellBoundaries) (data : Data)
    (containingPaths : List Nat) (b : Bool) (g' : GroundTile) (v' : List Nat)
    (h : WalkBoundaryCW g stateMap startIntersection intersectionsCW v cellBoundaries data
      containingPaths = some (b, g', v')) :
    g'.type = g.type ∧ v ⊆ v' ∧ startIntersection.addr ∈ v' ∧
      (b = true → g.coords.length + 3 ≤ g'.coords.length) := by
  unfold WalkBoundaryCW at h
  obtain ⟨ht, hsub, hmem, hlen⟩ := WalkBoundaryCW_loop_spec _ _ _ _ _ _ _ _ _ _ _ _ _ _ h
  refine ⟨ht, hsub, hmem rfl, fun hb => ?_⟩
  have := (hlen hb).2 rfl
  simp only [GroundTile.push, List.length_append, List.length_singleton] at this
  omega

theorem HandleCoastlineCell_step_inv (lt : Pixel → Pixel → Bool) (cell : Pixel)
    (stateMap : StateMap) (data : Data) (intersectionsCW : List IntersectionRef)
    (cellBoundaries : CellBoundaries) (containingPaths : List Nat)
    (map0 : List (Pixel × List GroundTile))
    (st st' : List Nat × List (Pixel × List GroundTile) × List WalkRecord)
    (i : IntersectionRef) (hi : i ∈ intersectionsCW)
    (hinv : HandleCoastlineCell.Inv cell data intersectionsCW map0 st)
    (h : HandleCoastlineCell.step lt cell stateMap data intersectionsCW cellBoundaries
      containingPaths (some st) i = some st') :
    HandleCoastlineCell.Inv cell data intersectionsCW map0 st' ∧
      (i.obj.direction ≠ Direction.touch → st'.2.2 ≠ []) := by
  obtain ⟨visited, map, walks⟩ := st
  unfold HandleCoastlineCell.step at h
  simp only [] at h
  by_cases ht : i.obj.direction = Direction.touch
  · rw [if_pos ht] at h
    simp only [Option.some.injEq] at h
    subst h
    exact ⟨hinv, fun hn => absurd ht hn⟩
  · rw [if_neg ht] at h
    by_cases hv : i.addr ∈ visited
    · rw [if_pos hv] at h
      simp only [Option.some.injEq] at h
      subst h
      refine ⟨hinv, fun _ hw => ?_⟩
      have := hinv.2.2.1 hw
      simp only at this
      rw [this] at hv
      exact absurd hv (by simp)
    · rw [if_neg hv] at h
      split at h
      · simp at h
      · rename_i result g' v' hw
        obtain ⟨htype, hsub, hmem, hlen⟩ := WalkBoundaryCW_spec _ _ _ _ _ _ _ _ _ _ _ hw
        obtain ⟨hall, hnd, hempty, hcell, hother⟩ := hinv
        simp only at hall hnd hempty hcell hother
        have hfresh : i.addr ∉ walks.map (fun w => w.start.addr) := by
          intro hin
          obtain ⟨w, hw1, hw2⟩ := List.mem_map.mp hin
          have := (hall w hw1).2.2.1
          rw [hw2] at this
          exact hv this
        have hall' : ∀ r : Bool, ∀ w ∈ walks ++ [⟨i, g', r⟩],
            (r = true → result = true) →
            w.start ∈ intersectionsCW ∧ w.start.obj.direction ≠ Direction.touch ∧
            w.start.addr ∈ v' ∧
            w.groundTile.type = HandleCoastlineCell.tileType
              (if w.start.obj.direction = Direction.in_ then
                (data.coastlines.getD w.start.obj.coastline CoastlineData.none).right
               else (data.coastlines.getD w.start.obj.coastline CoastlineData.none).left) ∧
            (w.result = true → 3 ≤ w.groundTile.coords.length) := by
          intro r w hwm hr
          rcases List.mem_append.mp hwm with hwm | hwm
          · obtain ⟨h1, h2, h3, h4, h5⟩ := hall w hwm
            exact ⟨h1, h2, hsub h3, h4, h5⟩
          · simp only [List.mem_singleton] at hwm
            subst hwm
            refine ⟨hi, ht, hmem, htype, fun hres => ?_⟩
            have := hlen (hr hres)
            simp only [List.length_nil] at this
            show 3 ≤ g'.coords.length
            omega
        have hnd' : ∀ r : Bool,
            ((walks ++ [(⟨i, g', r⟩ : WalkRecord)]).map (fun w => w.start.addr)).Nodup := by
          intro r
          rw [List.map_append, List.nodup_append]
          refine ⟨hnd, by simp, ?_⟩
          intro a ha hb
          simp only [List.map_cons, List.map_nil, List.mem_singleton] at hb
          subst hb
          exact hfresh ha
        by_cases hr : result = false
        · rw [if_pos hr] at h
          simp only [Option.some.injEq] at h
          subst h
          refine ⟨⟨fun w hwm => hall' false w hwm (by simp), hnd' false, by simp, ?_, hother⟩,
            fun _ => by simp⟩
          simp only [List.filter_append, List.map_append]
          rw [hcell]
          simp
        · rw [if_neg hr] at h
          simp only [Option.some.injEq] at h
          subst h
          have hres : result = true := by cases result <;> simp_all
          refine ⟨⟨fun w hwm => hall' true w hwm (fun _ => hres), hnd' true, by simp, ?_, ?_⟩,
            fun _ => by simp⟩
          · simp only [List.filter_append, List.map_append]
            rw [getList_pushBackAt, if_pos rfl, hcell]
            simp
          · intro k hk
            simp only
            rw [getList_pushBackAt, if_neg hk]
            exact hother k hk

theorem HandleCoastlineCell_step_walks (lt : Pixel → Pixel → Bool) (cell : Pixel)
    (stateMap : StateMap) (data : Data) (intersectionsCW : List IntersectionRef)
    (cellBoundaries : CellBoundaries) (containingPaths : List Nat)
    (st st' : List Nat × List (Pixel × List GroundTile) × List WalkRecord)
    (i : IntersectionRef)
    (h : HandleCoastlineCell.step lt cell stateMap data intersectionsCW cellBoundaries
      containingPaths (some st) i = some st') (hne : st.2.2 ≠ []) : st'.2.2 ≠ [] := by
  obtain ⟨visited, map, walks⟩ := st
  unfold HandleCoastlineCell.step at h
  simp only [] at h
  by_cases ht : i.obj.direction = Direction.touch
  · rw [if_pos ht] at h
    simp only [Option.some.injEq] at h; subst h; exact hne
  · rw [if_neg ht] at h
    by_cases hv : i.addr ∈ visited
    · rw [if_pos hv] at h
      simp only [Option.some.injEq] at h; subst h; exact hne
    · rw [if_neg hv] at h
      split at h
      · simp at h
      · rename_i result g' v' hw
        by_cases hr : result = false
        · rw [if_pos hr] at h
          simp only [Option.some.injEq] at h
          subst h
          simp
        · rw [if_neg hr] at h
          simp only [Option.some.injEq] at h
          subst h
          simp

theorem HandleCoastlineCell_step_none (lt : Pixel → Pixel → Bool) (cell : Pixel)
    (stateMap : StateMap) (data : Data) (intersectionsCW : List IntersectionRef)
    (cellBoundaries : CellBoundaries) (containingPaths : List Nat)
    (l : List IntersectionRef) :
    l.foldl (HandleCoastlineCell.step lt cell stateMap data intersectionsCW cellBoundaries
      containingPaths) none = none := by
  induction l with
  | nil => rfl
  | cons i l ih => rw [List.foldl_cons]; exact ih

theorem HandleCoastlineCell_foldl_inv (lt : Pixel → Pixel → Bool) (cell : Pixel)
    (stateMap : StateMap) (data : Data) (intersectionsCW : List IntersectionRef)
    (cellBoundaries : CellBoundaries) (containingPaths : List Nat)
    (map0 : List (Pixel × List GroundTile)) (l : List IntersectionRef) :
    ∀ (st st' : List Nat × List (Pixel × List GroundTile) × List WalkRecord),
      (∀ i ∈ l, i ∈ intersectionsCW) →
      HandleCoastlineCell.Inv cell data intersectionsCW map0 st →
      l.foldl (HandleCoastlineCell.step lt cell stateMap data intersectionsCW cellBoundaries
        containingPaths) (some st) = some st' →
      HandleCoastlineCell.Inv cell data intersectionsCW map0 st' ∧
        ((st.2.2 ≠ [] ∨ ∃ r ∈ l, r.obj.direction ≠ Direction.touch) → st'.2.2 ≠ []) := by
  induction l with
  | nil =>
    intro st st' _ hinv h
    simp only [List.foldl_nil, Option.some.injEq] at h
    subst h
    refine ⟨hinv, ?_⟩
    rintro (h | ⟨r, hr, _⟩)
    · exact h
    · simp at hr
  | cons i l ih =>
    intro st st' hl hinv h
    rw [List.foldl_cons] at h
    cases hs : HandleCoastlineCell.step lt cell stateMap data intersectionsCW cellBoundaries
        containingPaths (some st) i with
    | none =>
      rw [hs, HandleCoastlineCell_step_none] at h
      simp at h
    | some st1 =>
      rw [hs] at h
      obtain ⟨hinv1, hne1⟩ := HandleCoastlineCell_step_inv lt cell stateMap data
        intersectionsCW cellBoundaries containingPaths map0 st st1 i
        (hl i (List.mem_cons_self _ _)) hinv hs
      obtain ⟨hinv', hne'⟩ := ih st1 st' (fun j hj => hl j (List.mem_cons_of_mem _ hj)) hinv1 h
      refine ⟨hinv', ?_⟩
      rintro (h0 | ⟨r, hr, hrt⟩)
      · exact hne' (Or.inl (HandleCoastlineCell_step_walks _ _ _ _ _ _ _ _ _ _ hs h0))
      · rcases List.mem_cons.mp hr with hr | hr
        · subst hr
          exact hne' (Or.inl (hne1 hrt))
        · exact hne' (Or.inr ⟨r, hr, hrt⟩)

/-- The result of `HandleCoastlineCell` and the record of its walks. -/
theorem HandleCoastlineCell_inv (lt : Pixel → Pixel → Bool)
    (cwLess : IntersectionRef → IntersectionRef → Bool) (cell : Pixel)
    (intersectCoastlines : List Nat) (stateMap : StateMap)
    (cellGroundTileMap : List (Pixel × List GroundTile)) (data : Data)
    (map' : List (Pixel × List GroundTile)) (walks : List WalkRecord)
    (h : HandleCoastlineCell lt cwLess cell intersectCoastlines stateMap cellGroundTileMap data
      = some (map', walks)) :
    ∃ visited, HandleCoastlineCell.Inv cell data
        (HandleCoastlineCell.intersectionsCW cwLess cell intersectCoastlines data)
        cellGroundTileMap (visited, map', walks) ∧
      ((∃ r ∈ HandleCoastlineCell.intersectionsCW cwLess cell intersectCoastlines data,
          r.obj.direction ≠ Direction.touch) → walks ≠ []) := by
  unfold HandleCoastlineCell at h
  simp only [] at h
  split at h
  · simp at h
  · rename_i visited m w hf
    simp only [Option.some.injEq, Prod.mk.injEq] at h
    obtain ⟨hm, hw⟩ := h
    subst hm hw
    have hinv0 : HandleCoastlineCell.Inv cell data
        (HandleCoastlineCell.intersectionsCW cwLess cell intersectCoastlines data)
        cellGroundTileMap ([], cellGroundTileMap, []) := by
      refine ⟨fun w hw => absurd hw (by simp), by simp, fun _ => rfl, by simp,
        fun _ _ => rfl⟩
    obtain ⟨hinv, hne⟩ := HandleCoastlineCell_foldl_inv lt cell stateMap data _ _ _
      cellGroundTileMap _ _ _ (fun i hi => hi) hinv0 hf
    exact ⟨visited, hinv, fun hex => hne (Or.inr hex)⟩

/-! ### The walks come to an end -/

theorem WalkBorderCW_loop_isSome (borderCoords : List GroundTile.Coord)
    (endBorderPoint borderPoint : Nat) (g : GroundTile) (he : endBorderPoint < 4)
    (hb : borderPoint < 4) :
    (WalkBorderCW.loop borderCoords endBorderPoint 4 borderPoint g).isSome = true := by
  interval_cases endBorderPoint <;> interval_cases borderPoint <;>
    simp [WalkBorderCW.loop]

theorem WalkBorderCW_isSome (g : GroundTile) (stateMap : StateMap) (cellMinLat cellMinLon : ℚ)
    (incoming outgoing : Intersection) (borderCoords : List GroundTile.Coord)
    (ho : outgoing.borderIndex < 4) :
    (WalkBorderCW g stateMap cellMinLat cellMinLon incoming outgoing borderCoords).isSome
      = true := by
  unfold WalkBorderCW
  simp only []
  split_ifs with hc
  · have h := WalkBorderCW_loop_isSome borderCoords outgoing.borderIndex
      ((incoming.borderIndex + 1) % 4) g ho (Nat.mod_lt _ (by decide))
    cases hl : WalkBorderCW.loop borderCoords outgoing.borderIndex 4
        ((incoming.borderIndex + 1) % 4) g with
    | none => rw [hl] at h; simp at h
    | some r => rfl
  · rfl

theorem WalkPathBack_loop_down (stateMap : StateMap) (cellMinLat cellMinLon : ℚ)
    (points : List GeoCoord) (targetIdx : Nat) :
    ∀ (fuel idx : Nat) (g : GroundTile), targetIdx ≤ idx → idx - targetIdx < fuel →
      (WalkPathBack.loop stateMap cellMinLat cellMinLon points targetIdx fuel idx g).isSome
        = true := by
  intro fuel
  induction fuel with
  | zero => intro idx g _ h; omega
  | succ fuel ih =>
    intro idx g hle hf
    unfold WalkPathBack.loop
    by_cases hc : idx ≠ targetIdx
    · rw [if_pos hc, if_pos (by omega)]
      exact ih _ _ (by omega) (by omega)
    · rw [if_neg hc]; rfl

theorem WalkPathBack_loop_isSome (stateMap : StateMap) (cellMinLat cellMinLon : ℚ)
    (points : List GeoCoord) (targetIdx : Nat) (ht : targetIdx < points.length)
    (hlen : points.length + 1 < U64) :
    ∀ (fuel idx : Nat) (g : GroundTile), idx + points.length + 1 < fuel →
      (WalkPathBack.loop stateMap cellMinLat cellMinLon points targetIdx fuel idx g).isSome
        = true := by
  intro fuel
  induction fuel with
  | zero => intro idx g h; omega
  | succ fuel ih =>
    intro idx g hf
    by_cases hge : targetIdx ≤ idx
    · exact WalkPathBack_loop_down _ _ _ _ _ _ _ _ hge (by omega)
    · unfold WalkPathBack.loop
      rw [if_pos (by omega)]
      by_cases h0 : idx > 0
      · rw [if_pos h0]
        exact ih _ _ (by omega)
      · rw [if_neg h0]
        have hm : (points.length + U64 - 1) % U64 = points.length - 1 := by
          have : points.length + U64 - 1 = (points.length - 1) + U64 := by omega
          rw [this, Nat.add_mod_right]
          exact Nat.mod_eq_of_lt (by omega)
        rw [hm]
        exact WalkPathBack_loop_down _ _ _ _ _ _ _ _ (by omega) (by omega)

theorem WalkPathForward_loop_up (stateMap : StateMap) (cellMinLat cellMinLon : ℚ)
    (points : List GeoCoord) (targetIdx : Nat) (ht : targetIdx < points.length)
    (hlen : points.length + 1 < U64) :
    ∀ (fuel idx : Nat) (g : GroundTile), idx ≤ targetIdx → targetIdx - idx < fuel →
      (WalkPathForward.loop stateMap cellMinLat cellMinLon points targetIdx fuel idx g).isSome
        = true := by
  have hm : (points.length + U64 - 1) % U64 = points.length - 1 := by
    have : points.length + U64 - 1 = (points.length - 1) + U64 := by omega
    rw [this, Nat.add_mod_right]
    exact Nat.mod_eq_of_lt (by omega)
  intro fuel
  induction fuel with
  | zero => intro idx g _ h; omega
  | succ fuel ih =>
    intro idx g hle hf
    unfold WalkPathForward.loop
    by_cases hc : idx ≠ targetIdx
    · rw [if_pos hc, hm, if_neg (by omega)]
      exact ih _ _ (by omega) (by omega)
    · rw [if_neg hc]; rfl

theorem WalkPathForward_loop_isSome (stateMap : StateMap) (cellMinLat cellMinLon : ℚ)
    (points : List GeoCoord) (targetIdx : Nat) (ht : targetIdx < points.length)
    (hlen : points.length + 1 < U64) :
    ∀ (fuel idx : Nat) (g : GroundTile),
      (idx ≤ targetIdx → targetIdx - idx < fuel) →
      (targetIdx < idx → (points.length - 1 - idx) + targetIdx + 1 < fuel) →
      (WalkPathForward.loop stateMap cellMinLat cellMinLon points targetIdx fuel idx g).isSome
        = true := by
  have hm : (points.length + U64 - 1) % U64 = points.length - 1 := by
    have : points.length + U64 - 1 = (points.length - 1) + U64 := by omega
    rw [this, Nat.add_mod_right]
    exact Nat.mod_eq_of_lt (by omega)
  intro fuel
  induction fuel with
  | zero =>
    intro idx g h1 h2
    by_cases hle : idx ≤ targetIdx
    · have := h1 hle; omega
    · have := h2 (by omega); omega
  | succ fuel ih =>
    intro idx g h1 h2
    by_cases hle : idx ≤ targetIdx
    · exact WalkPathForward_loop_up _ _ _ _ _ ht hlen _ _ _ hle (h1 hle)
    · have hf := h2 (by omega)
      unfold WalkPathForward.loop
      rw [if_pos (by omega), hm]
      by_cases hge : idx ≥ points.length - 1
      · rw [if_pos hge]
        exact WalkPathForward_loop_up _ _ _ _ _ ht hlen _ _ _ (by omega) (by omega)
      · rw [if_neg hge]
        exact ih _ _ (fun h => by omega) (fun h => by omega)

theorem WalkPathBack_isSome (g : GroundTile) (stateMap : StateMap) (cellMinLat cellMinLon : ℚ)
    (pathStart pathEnd : Intersection) (points : List GeoCoord) (isArea : Bool)
    (he : pathEnd.prevWayPointIndex < points.length) (hlen : points.length + 1 < U64) :
    (WalkPathBack g stateMap cellMinLat cellMinLon pathStart pathEnd points isArea).isSome
      = true := by
  have hmod : (pathEnd.prevWayPointIndex + 1) % U64 = pathEnd.prevWayPointIndex + 1 :=
    Nat.mod_eq_of_lt (by omega)
  unfold WalkPathBack
  simp only [hmod]
  by_cases ha : isArea = true
  · rw [if_pos ha]
    split_ifs with hs ht
    · rfl
    · have h := WalkPathBack_loop_isSome stateMap cellMinLat cellMinLon points 0 (by omega) hlen
        (pathStart.prevWayPointIndex + points.length + 2) pathStart.prevWayPointIndex
        (g.setBackCoast true) (by omega)
      cases hl : WalkPathBack.loop stateMap cellMinLat cellMinLon points 0
          (pathStart.prevWayPointIndex + points.length + 2) pathStart.prevWayPointIndex
          (g.setBackCoast true) with
      | none => rw [hl] at h; simp at h
      | some r => rfl
    · have h := WalkPathBack_loop_isSome stateMap cellMinLat cellMinLon points
        (pathEnd.prevWayPointIndex + 1) (by omega) hlen
        (pathStart.prevWayPointIndex + points.length + 2) pathStart.prevWayPointIndex
        (g.setBackCoast true) (by omega)
      cases hl : WalkPathBack.loop stateMap cellMinLat cellMinLon points
          (pathEnd.prevWayPointIndex + 1)
          (pathStart.prevWayPointIndex + points.length + 2) pathStart.prevWayPointIndex
          (g.setBackCoast true) with
      | none => rw [hl] at h; simp at h
      | some r => rfl
  · rw [if_neg ha, if_neg (by omega)]
    rfl

theorem WalkPathForward_isSome (g : GroundTile) (stateMap : StateMap)
    (cellMinLat cellMinLon : ℚ) (pathStart pathEnd : Intersection) (points : List GeoCoord)
    (isArea : Bool) (he : pathEnd.prevWayPointIndex < points.length)
    (hlen : points.length + 1 < U64) :
    (WalkPathForward g stateMap cellMinLat cellMinLon pathStart pathEnd points isArea).isSome
      = true := by
  unfold WalkPathForward
  simp only []
  by_cases ha : isArea = true
  · rw [if_pos ha]
    split_ifs with hs ht
    · rfl
    · omega
    · have h := WalkPathForward_loop_isSome stateMap cellMinLat cellMinLon points
        pathEnd.prevWayPointIndex he hlen (points.length + 2)
        ((pathStart.prevWayPointIndex + 1) % U64) (g.setBackCoast true)
        (fun h => by omega) (fun h => by omega)
      cases hl : WalkPathForward.loop stateMap cellMinLat cellMinLon points
          pathEnd.prevWayPointIndex (points.length + 2)
          ((pathStart.prevWayPointIndex + 1) % U64) (g.setBackCoast true) with
      | none => rw [hl] at h; simp at h
      | some r => rfl
  · rw [if_neg ha, if_neg (by omega)]
    rfl

theorem WalkPath_isSome (g : GroundTile) (stateMap : StateMap)
    (cellBoundaries : CellBoundaries) (pathStart pathEnd : Intersection)
    (coastline : CoastlineData)
    (he : pathEnd.prevWayPointIndex < coastline.points.length)
    (hlen : coastline.points.length + 1 < U64) :
    (WalkPath g stateMap cellBoundaries pathStart pathEnd coastline).isSome = true := by
  unfold WalkPath
  split_ifs
  · exact WalkPathBack_isSome _ _ _ _ _ _ _ _ he hlen
  · exact WalkPathForward_isSome _ _ _ _ _ _ _ _ he hlen

theorem FindSiblingIntersection_pass_mem (intersection : Intersection) (first : Bool)
    (P : IntersectionRef → Prop) (candidates : List IntersectionRef)
    (hc : ∀ i ∈ candidates, P i) :
    ∀ (result : Option IntersectionRef) (r : IntersectionRef),
      (∀ r0, result = some r0 → P r0) →
      FindSiblingIntersection.pass intersection first candidates result = some r → P r := by
  unfold FindSiblingIntersection.pass
  induction candidates with
  | nil => intro result r h0 h; exact h0 r h
  | cons i l ih =>
    intro result r h0 h
    rw [List.foldl_cons] at h
    refine ih (fun j hj => hc j (List.mem_cons_of_mem _ hj)) _ r ?_ h
    intro r0 hr0
    have hi := hc i (List.mem_cons_self _ _)
    split_ifs at hr0
    all_goals first
      | exact h0 r0 hr0
      | (cases result with
          | none => simp only [Option.some.injEq] at hr0; rw [← hr0]; exact hi
          | some r1 =>
            simp only at hr0
            split_ifs at hr0
            · simp only [Option.some.injEq] at hr0; rw [← hr0]; exact hi
            · exact h0 r0 hr0)

theorem FindSiblingIntersection_mem (intersection : Intersection)
    (intersectionsCW : List IntersectionRef) (isArea : Bool) (r : IntersectionRef)
    (h : FindSiblingIntersection intersection intersectionsCW isArea = some r) :
    r ∈ intersectionsCW ∧ r.obj.coastline = intersection.coastline := by
  unfold FindSiblingIntersection at h
  simp only [] at h
  generalize (if intersection.direction = Direction.in_ then Direction.out
    else Direction.in_) = d at h
  have hc : ∀ i ∈ intersectionsCW.filter (fun i =>
      decide (intersection.coastline = i.obj.coastline ∧ i.obj.direction = d)),
      i ∈ intersectionsCW ∧ i.obj.coastline = intersection.coastline := by
    intro i hi
    obtain ⟨h1, h2⟩ := List.mem_filter.mp hi
    exact ⟨h1, (of_decide_eq_true h2).1.symm⟩
  by_cases hcond : (FindSiblingIntersection.pass intersection true
      (intersectionsCW.filter (fun i =>
        decide (intersection.coastline = i.obj.coastline ∧ i.obj.direction = d)))
      none).isSome = true ∨ ¬ isArea = true
  · rw [if_pos hcond] at h
    exact FindSiblingIntersection_pass_mem intersection true _ _ hc none r
      (fun r0 hr0 => by simp at hr0) h
  · rw [if_neg hcond] at h
    refine FindSiblingIntersection_pass_mem intersection false _ _ hc _ r ?_ h
    intro r0 hr0
    exact FindSiblingIntersection_pass_mem intersection true _ _ hc none r0
      (fun r1 hr1 => by simp at hr1) hr0

theorem WalkFromTripoint_pathCell_mem (intersectionsCW : List IntersectionRef)
    (pathIndex : Nat) (direction : Direction) (p : IntersectionRef)
    (h : WalkFromTripoint.pathCell intersectionsCW pathIndex direction = some p) :
    p ∈ intersectionsCW ∧ p.obj.coastline = pathIndex := by
  unfold WalkFromTripoint.pathCell at h
  have key : ∀ (l : List IntersectionRef) (acc : Option IntersectionRef),
      (∀ i ∈ l, i ∈ intersectionsCW) →
      (∀ q, acc = some q → q ∈ intersectionsCW ∧ q.obj.coastline = pathIndex) →
      ∀ q, l.foldl (fun pathCellIntersection cellIntersection =>
        if cellIntersection.obj.coastline = pathIndex then
          match pathCellIntersection with
          | none => some cellIntersection
          | some p =>
            let p1 :=
              if direction = Direction.out ∧
                  (p.obj.prevWayPointIndex > cellIntersection.obj.prevWayPointIndex ∨
                    (p.obj.prevWayPointIndex = cellIntersection.obj.prevWayPointIndex ∧
                      p.obj.distanceSquare > cellIntersection.obj.distanceSquare)) then
                cellIntersection
              else p
            let p2 :=
              if direction = Direction.in_ ∧
                  (p1.obj.prevWayPointIndex < cellIntersection.obj.prevWayPointIndex ∨
                    (p1.obj.prevWayPointIndex = cellIntersection.obj.prevWayPointIndex ∧
                      p1.obj.distanceSquare < cellIntersection.obj.distanceSquare)) then
                cellIntersection
              else p1
            some p2
        else pathCellIntersection) acc = some q →
        q ∈ intersectionsCW ∧ q.obj.coastline = pathIndex := by
    intro l
    induction l with
    | nil => intro acc _ hacc q hq; exact hacc q hq
    | cons i l ih =>
      intro acc hl hacc q hq
      rw [List.foldl_cons] at hq
      refine ih _ (fun j hj => hl j (List.mem_cons_of_mem _ hj)) ?_ q hq
      intro q0 hq0
      have hi := hl i (List.mem_cons_self _ _)
      by_cases hc : i.obj.coastline = pathIndex
      · rw [if_pos hc] at hq0
        cases acc with
        | none =>
          simp only [Option.some.injEq] at hq0
          rw [← hq0]; exact ⟨hi, hc⟩
        | some p0 =>
          have hp0 := hacc p0 rfl
          simp only [Option.some.injEq] at hq0
          rw [← hq0]
          split_ifs <;> first | exact ⟨hi, hc⟩ | exact hp0
      · rw [if_neg hc] at hq0
        exact hacc q0 hq0
  exact key intersectionsCW none (fun i hi => hi) (fun q hq => by simp at hq) p h

theorem GetNextCW_mem (intersectionsCW : List IntersectionRef) (current : IntersectionRef)
    (hc : current ∈ intersectionsCW) :
    ∃ next, GetNextCW intersectionsCW current = some next ∧ next ∈ intersectionsCW := by
  unfold GetNextCW
  have hsub : ∀ x ∈ intersectionsCW.dropWhile (fun r => decide (r.addr ≠ current.addr)),
      x ∈ intersectionsCW :=
    fun x hx => (List.dropWhile_suffix _).subset hx
  have hne : intersectionsCW.dropWhile (fun r => decide (r.addr ≠ current.addr)) ≠ [] := by
    intro h
    rw [List.dropWhile_eq_nil_iff] at h
    have := h current hc
    simp at this
  cases hd : intersectionsCW.dropWhile (fun r => decide (r.addr ≠ current.addr)) with
  | nil => exact absurd hd hne
  | cons a rest =>
    cases rest with
    | nil =>
      simp only []
      cases hcw : intersectionsCW with
      | nil => rw [hcw] at hc; simp at hc
      | cons b l => exact ⟨b, rfl, List.mem_cons_self _ _⟩
    | cons next rest' =>
      refine ⟨next, rfl, hsub next ?_⟩
      rw [hd]
      simp

theorem WellFormed_length (intersectionsCW : List IntersectionRef) (data : Data)
    (hwf : HandleCoastlineCell.WellFormed intersectionsCW data) (k : Nat) :
    (data.coastlines.getD k CoastlineData.none).points.length + 1 < U64 := by
  by_cases hk : k < data.coastlines.length
  · rw [List.getD_eq_getElem _ _ hk]
    exact hwf.1 _ (List.getElem_mem hk)
  · rw [List.getD_eq_default _ _ (by omega)]
    decide

theorem WalkFromTripoint_candidate_inv (pathStart : Intersection) (data : Data)
    (intersectionsCW : List IntersectionRef) (tripoint previousPoint : GeoCoord)
    (walkType : CoastState) (s : WalkFromTripoint.Search) (pathIndex : Nat)
    (hwf : HandleCoastlineCell.WellFormed intersectionsCW data)
    (hs : WalkFromTripoint.Search.Inv intersectionsCW s) :
    WalkFromTripoint.Search.Inv intersectionsCW
      (WalkFromTripoint.candidate pathStart data intersectionsCW tripoint previousPoint
        walkType s pathIndex) := by
  unfold WalkFromTripoint.candidate
  simp only []
  by_cases h1 : pathStart.coastline = pathIndex
  · rw [if_pos h1]; exact hs
  rw [if_neg h1]
  by_cases h2 : (data.coastlines.getD pathIndex CoastlineData.none).points.length < 2
  · rw [if_pos h2]; exact hs
  rw [if_neg h2]
  split_ifs
  all_goals first
    | exact hs
    | (have hlen := WellFormed_length intersectionsCW data hwf pathIndex
       refine ⟨fun _ => ⟨?_, hlen⟩, fun hic => ?_⟩
       · simp only []
         split
         · rename_i p hp
           obtain ⟨hp1, hp2⟩ := WalkFromTripoint_pathCell_mem _ _ _ _ hp
           have := (hwf.2 p hp1).2
           rw [hp2] at this
           exact this
         · simp only []
           omega
       · simp only [Option.isSome_iff_exists] at hic
         obtain ⟨p, hp⟩ := hic
         exact ⟨p, (WalkFromTripoint_pathCell_mem _ _ _ _ hp).1, hp⟩)

theorem WalkFromTripoint_foldl_inv (pathStart : Intersection) (data : Data)
    (intersectionsCW : List IntersectionRef) (tripoint previousPoint : GeoCoord)
    (walkType : CoastState) (hwf : HandleCoastlineCell.WellFormed intersectionsCW data)
    (candidates : List Nat) :
    ∀ s, WalkFromTripoint.Search.Inv intersectionsCW s →
      WalkFromTripoint.Search.Inv intersectionsCW
        (candidates.foldl (WalkFromTripoint.candidate pathStart data intersectionsCW tripoint
          previousPoint walkType) s) := by
  induction candidates with
  | nil => intro s hs; exact hs
  | cons k l ih =>
    intro s hs
    rw [List.foldl_cons]
    exact ih _ (WalkFromTripoint_candidate_inv _ _ _ _ _ _ _ _ hwf hs)

theorem WalkFromTripoint_finish_total (g : GroundTile) (stateMap : StateMap)
    (cellBoundaries : CellBoundaries) (intersectionsCW : List IntersectionRef)
    (s : WalkFromTripoint.Search) (hs : WalkFromTripoint.Search.Inv intersectionsCW s) :
    ∃ res, WalkFromTripoint.finish g stateMap cellBoundaries none s = some res ∧
      ∀ g' pathStart' pathEnd, res = some (g', pathStart', some pathEnd) →
        pathEnd ∈ intersectionsCW := by
  unfold WalkFromTripoint.finish
  cases ho : s.outgoing with
  | none => exact ⟨none, rfl, fun _ _ _ h => by simp at h⟩
  | some outgoing =>
    simp only []
    by_cases hd : outgoing.direction = s.outgoingEnd.direction
    · rw [if_pos hd]
      exact ⟨none, rfl, fun _ _ _ h => by simp at h⟩
    · rw [if_neg hd]
      obtain ⟨he, hlen⟩ := hs.1 (by rw [ho]; rfl)
      have hw := WalkPath_isSome g stateMap cellBoundaries outgoing s.outgoingEnd
        s.outgoingCoastline he hlen
      cases hwp : WalkPath g stateMap cellBoundaries outgoing s.outgoingEnd
          s.outgoingCoastline with
      | none => rw [hwp] at hw; simp at hw
      | some g1 =>
        refine ⟨_, rfl, fun g' ps' pe h => ?_⟩
        simp only [Option.some.injEq, Prod.mk.injEq] at h
        obtain ⟨_, _, h3⟩ := h
        by_cases hic : s.intersectCell = true
        · rw [if_pos hic] at h3
          obtain ⟨p, hp, hp'⟩ := hs.2 hic
          rw [hp'] at h3
          simp only [Option.some.injEq] at h3
          rw [← h3]; exact hp
        · rw [if_neg hic] at h3
          simp at h3

theorem WalkFromTripoint_total (g : GroundTile) (stateMap : StateMap)
    (cellBoundaries : CellBoundaries) (pathStart : Intersection) (data : Data)
    (intersectionsCW : List IntersectionRef) (containingPaths : List Nat)
    (hwf : HandleCoastlineCell.WellFormed intersectionsCW data) :
    ∃ res, WalkFromTripoint g stateMap cellBoundaries pathStart none data intersectionsCW
        containingPaths = some res ∧
      ∀ g' pathStart' pathEnd, res = some (g', pathStart', some pathEnd) →
        pathEnd ∈ intersectionsCW := by
  unfold WalkFromTripoint
  simp only []
  by_cases h2 : (data.coastlines.getD pathStart.coastline CoastlineData.none).points.length < 2
  · rw [if_pos h2]
    exact ⟨none, rfl, fun _ _ _ h => by simp at h⟩
  · rw [if_neg h2]
    apply WalkFromTripoint_finish_total
    apply WalkFromTripoint_foldl_inv _ _ _ _ _ _ hwf
    exact ⟨fun h => by simp at h, fun h => by simp at h⟩

theorem WalkBoundaryCW_tripoints_total (stateMap : StateMap)
    (intersectionsCW : List IntersectionRef) (cellBoundaries : CellBoundaries) (data : Data)
    (containingPaths : List Nat) (coastline : CoastlineData)
    (hwf : HandleCoastlineCell.WellFormed intersectionsCW data) :
    ∀ (fuel step : Nat) (pathStart : Intersection) (g : GroundTile),
      step ≤ 1000 → 1001 ≤ fuel + step →
      ∃ res, WalkBoundaryCW.tripoints stateMap intersectionsCW cellBoundaries data
          containingPaths coastline fuel step pathStart g = some res ∧
        ∀ g' pathEnd step', res = some (g', pathEnd, step') →
          pathEnd ∈ intersectionsCW ∧ step ≤ step' ∧ step' ≤ 1000 := by
  intro fuel
  induction fuel with
  | zero => intro step ps g h1 h2; omega
  | succ fuel ih =>
    intro step ps g h1 h2
    unfold WalkBoundaryCW.tripoints
    by_cases ha : coastline.isArea = true
    · rw [if_pos ha]
      exact ⟨none, rfl, fun _ _ _ h => by simp at h⟩
    · rw [if_neg ha]
      obtain ⟨res, hres, hmem⟩ := WalkFromTripoint_total g stateMap cellBoundaries ps data
        intersectionsCW containingPaths hwf
      rw [hres]
      cases res with
      | none => exact ⟨none, rfl, fun _ _ _ h => by simp at h⟩
      | some r =>
        obtain ⟨g1, ps1, pe1⟩ := r
        simp only []
        by_cases hs : step + 1 > 1000
        · rw [if_pos hs]
          exact ⟨none, rfl, fun _ _ _ h => by simp at h⟩
        · rw [if_neg hs]
          cases pe1 with
          | some pe =>
            refine ⟨_, rfl, fun g' pathEnd step' h => ?_⟩
            simp only [Option.some.injEq, Prod.mk.injEq] at h
            obtain ⟨_, h2', h3⟩ := h
            rw [← h2', ← h3]
            exact ⟨hmem g1 ps1 pe rfl, by omega, by omega⟩
          | none =>
            obtain ⟨res2, hres2, hprop⟩ := ih (step + 1) ps1 g1 (by omega) (by omega)
            refine ⟨res2, hres2, fun g' pathEnd step' h => ?_⟩
            obtain ⟨p1, p2, p3⟩ := hprop g' pathEnd step' h
            exact ⟨p1, by omega, p3⟩

theorem WalkBoundaryCW_path_total (stateMap : StateMap)
    (intersectionsCW : List IntersectionRef) (cellBoundaries : CellBoundaries) (data : Data)
    (containingPaths : List Nat)
    (hwf : HandleCoastlineCell.WellFormed intersectionsCW data)
    (fuel step : Nat) (pathStart : IntersectionRef) (g : GroundTile)
    (hps : pathStart ∈ intersectionsCW) (h1 : step ≤ 1000) (h2 : 1001 ≤ fuel + step) :
    ∃ res, WalkBoundaryCW.path stateMap intersectionsCW cellBoundaries data containingPaths
        fuel step pathStart g = some res ∧
      ∀ g' pathEnd step', res = some (g', pathEnd, step') →
        pathEnd ∈ intersectionsCW ∧ step ≤ step' ∧ step' ≤ 1000 := by
  unfold WalkBoundaryCW.path
  simp only []
  have hlen := WellFormed_length intersectionsCW data hwf pathStart.obj.coastline
  have hprev := (hwf.2 pathStart hps).2
  cases hsib : FindSiblingIntersection pathStart.obj intersectionsCW
      (data.coastlines.getD pathStart.obj.coastline CoastlineData.none).isArea with
  | none =>
    simp only []
    have hm : ((data.coastlines.getD pathStart.obj.coastline CoastlineData.none).points.length
        + U64 - 1) % U64 =
        (data.coastlines.getD pathStart.obj.coastline CoastlineData.none).points.length - 1 := by
      have : (data.coastlines.getD pathStart.obj.coastline CoastlineData.none).points.length
          + U64 - 1 =
          ((data.coastlines.getD pathStart.obj.coastline CoastlineData.none).points.length - 1)
            + U64 := by omega
      rw [this, Nat.add_mod_right]
      exact Nat.mod_eq_of_lt (by omega)
    have hw := WalkPath_isSome g stateMap cellBoundaries pathStart.obj
      { coastline := pathStart.obj.coastline,
        prevWayPointIndex :=
          if decide (pathStart.obj.direction = Direction.in_) = true then
            ((data.coastlines.getD pathStart.obj.coastline CoastlineData.none).points.length
              + U64 - 1) % U64
          else 0,
        point :=
          if decide (pathStart.obj.direction = Direction.in_) = true then
            (data.coastlines.getD pathStart.obj.coastline CoastlineData.none).points.getD
              (((data.coastlines.getD pathStart.obj.coastline
                CoastlineData.none).points.length + U64 - 1) % U64) ⟨0, 0⟩
          else
            (data.coastlines.getD pathStart.obj.coastline CoastlineData.none).points.getD 0
              ⟨0, 0⟩,
        distanceSquare := 0,
        direction :=
          if decide (pathStart.obj.direction = Direction.in_) = true then Direction.out
          else Direction.in_,
        borderIndex := 0 }
      (data.coastlines.getD pathStart.obj.coastline CoastlineData.none)
      (by simp only [hm]; split_ifs <;> omega) hlen
    cases hwp : WalkPath g stateMap cellBoundaries pathStart.obj _
        (data.coastlines.getD pathStart.obj.coastline CoastlineData.none) with
    | none => rw [hwp] at hw; simp at hw
    | some g1 =>
      simp only []
      exact WalkBoundaryCW_tripoints_total stateMap intersectionsCW cellBoundaries data
        containingPaths _ hwf fuel step pathStart.obj g1 h1 h2
  | some pathEnd =>
    simp only []
    obtain ⟨hpe1, hpe2⟩ := FindSiblingIntersection_mem _ _ _ _ hsib
    have hpe := (hwf.2 pathEnd hpe1).2
    rw [hpe2] at hpe
    have hw := WalkPath_isSome g stateMap cellBoundaries pathStart.obj pathEnd.obj
      (data.coastlines.getD pathStart.obj.coastline CoastlineData.none) hpe hlen
    cases hwp : WalkPath g stateMap cellBoundaries pathStart.obj pathEnd.obj
        (data.coastlines.getD pathStart.obj.coastline CoastlineData.none) with
    | none => rw [hwp] at hw; simp at hw
    | some g1 =>
      refine ⟨_, rfl, fun g' pe step' h => ?_⟩
      simp only [Option.some.injEq, Prod.mk.injEq] at h
      obtain ⟨_, h2', h3⟩ := h
      rw [← h2', ← h3]
      exact ⟨hpe1, le_refl _, h1⟩

theorem WalkBoundaryCW_loop_total (stateMap : StateMap) (startIntersection : IntersectionRef)
    (intersectionsCW : List IntersectionRef) (cellBoundaries : CellBoundaries) (data : Data)
    (containingPaths : List Nat)
    (hwf : HandleCoastlineCell.WellFormed intersectionsCW data) :
    ∀ (fuel step : Nat) (pathStart : IntersectionRef) (g : GroundTile) (v : List Nat),
      pathStart ∈ intersectionsCW → step ≤ 1000 → 1002 ≤ fuel + step →
      (WalkBoundaryCW.loop stateMap startIntersection intersectionsCW cellBoundaries data
        containingPaths fuel step pathStart g v).isSome = true := by
  intro fuel
  induction fuel with
  | zero => intro step ps g v _ h1 h2; omega
  | succ fuel ih =>
    intro step ps g v hps h1 h2
    unfold WalkBoundaryCW.loop
    by_cases hc : step = 0 ∨ ps.addr ≠ startIntersection.addr
    · rw [if_pos hc]
      simp only []
      obtain ⟨res, hres, hprop⟩ := WalkBoundaryCW_path_total stateMap intersectionsCW
        cellBoundaries data containingPaths hwf fuel step ps g hps h1 (by omega)
      rw [hres]
      cases res with
      | none => rfl
      | some r =>
        obtain ⟨g1, pe, step1⟩ := r
        obtain ⟨hpe, hs1, hs2⟩ := hprop g1 pe step1 rfl
        simp only []
        by_cases hs : step1 + 1 > 1000
        · rw [if_pos hs]; rfl
        · rw [if_neg hs]
          obtain ⟨next, hn, hnm⟩ := GetNextCW_mem intersectionsCW pe hpe
          rw [hn]
          simp only []
          have hb := WalkBorderCW_isSome g1 stateMap cellBoundaries.latMin
            cellBoundaries.lonMin pe.obj next.obj cellBoundaries.borderCoords
            (hwf.2 next hnm).1
          cases hw : WalkBorderCW g1 stateMap cellBoundaries.latMin cellBoundaries.lonMin
              pe.obj next.obj cellBoundaries.borderCoords with
          | none => rw [hw] at hb; simp at hb
          | some g2 =>
            simp only []
            exact ih _ _ _ _ hnm (by omega) (by omega)
    · rw [if_neg hc]; rfl

theorem WalkBoundaryCW_total (g : GroundTile) (stateMap : StateMap)
    (startIntersection : IntersectionRef) (intersectionsCW : List IntersectionRef)
    (v : List Nat) (cellBoundaries : CellBoundaries) (data : Data)
    (containingPaths : List Nat)
    (hwf : HandleCoastlineCell.WellFormed intersectionsCW data)
    (hs : startIntersection ∈ intersectionsCW) :
    (WalkBoundaryCW g stateMap startIntersection intersectionsCW v cellBoundaries data
      containingPaths).isSome = true := by
  unfold WalkBoundaryCW
  exact WalkBoundaryCW_loop_total _ _ _ _ _ _ hwf _ _ _ _ _ hs (by omega) (by omega)

theorem HandleCoastlineCell_step_total (lt : Pixel → Pixel → Bool) (cell : Pixel)
    (stateMap : StateMap) (data : Data) (intersectionsCW : List IntersectionRef)
    (cellBoundaries : CellBoundaries) (containingPaths : List Nat)
    (hwf : HandleCoastlineCell.WellFormed intersectionsCW data)
    (st : List Nat × List (Pixel × List GroundTile) × List WalkRecord)
    (i : IntersectionRef) (hi : i ∈ intersectionsCW) :
    (HandleCoastlineCell.step lt cell stateMap data intersectionsCW cellBoundaries
      containingPaths (some st) i).isSome = true := by
  obtain ⟨visited, map, walks⟩ := st
  unfold HandleCoastlineCell.step
  simp only []
  by_cases ht : i.obj.direction = Direction.touch
  · rw [if_pos ht]; rfl
  · rw [if_neg ht]
    by_cases hv : i.addr ∈ visited
    · rw [if_pos hv]; rfl
    · rw [if_neg hv]
      have hw := WalkBoundaryCW_total
        { type := HandleCoastlineCell.tileType
            (if i.obj.direction = Direction.in_ then
              (data.coastlines.getD i.obj.coastline CoastlineData.none).right
             else (data.coastlines.getD i.obj.coastline CoastlineData.none).left),
          coords := [] }
        stateMap i intersectionsCW visited cellBoundaries data containingPaths hwf hi
      cases hwb : WalkBoundaryCW
          { type := HandleCoastlineCell.tileType
              (if i.obj.direction = Direction.in_ then
                (data.coastlines.getD i.obj.coastline CoastlineData.none).right
               else (data.coastlines.getD i.obj.coastline CoastlineData.none).left),
            coords := [] }
          stateMap i intersectionsCW visited cellBoundaries data containingPaths with
      | none => rw [hwb] at hw; simp at hw
      | some r =>
        obtain ⟨result, g', v'⟩ := r
        simp only []
        split_ifs <;> rfl

/-- On well formed data every walk of `HandleCoastlineCell` comes to an end:
`HandleCoastlineCell` returns. -/
theorem HandleCoastlineCell_total (lt : Pixel → Pixel → Bool)
    (cwLess : IntersectionRef → IntersectionRef → Bool) (cell : Pixel)
    (intersectCoastlines : List Nat) (stateMap : StateMap)
    (cellGroundTileMap : List (Pixel × List GroundTile)) (data : Data)
    (hwf : HandleCoastlineCell.WellFormed
      (HandleCoastlineCell.intersectionsCW cwLess cell intersectCoastlines data) data) :
    ∃ res, HandleCoastlineCell lt cwLess cell intersectCoastlines stateMap cellGroundTileMap
      data = some res := by
  have key : ∀ (l : List IntersectionRef)
      (st : List Nat × List (Pixel × List GroundTile) × List WalkRecord),
      (∀ i ∈ l, i ∈ HandleCoastlineCell.intersectionsCW cwLess cell intersectCoastlines data) →
      (l.foldl (HandleCoastlineCell.step lt cell stateMap data
        (HandleCoastlineCell.intersectionsCW cwLess cell intersectCoastlines data)
        (CellBoundaries.make stateMap cell) (HandleCoastlineCell.containingPaths cell data))
        (some st)).isSome = true := by
    intro l
    induction l with
    | nil => intro st _; rfl
    | cons i l ih =>
      intro st hl
      rw [List.foldl_cons]
      have hs := HandleCoastlineCell_step_total lt cell stateMap data _
        (CellBoundaries.make stateMap cell) (HandleCoastlineCell.containingPaths cell data)
        hwf st i (hl i (List.mem_cons_self _ _))
      cases hst : HandleCoastlineCell.step lt cell stateMap data
          (HandleCoastlineCell.intersectionsCW cwLess cell intersectCoastlines data)
          (CellBoundaries.make stateMap cell) (HandleCoastlineCell.containingPaths cell data)
          (some st) i with
      | none => rw [hst] at hs; simp at hs
      | some st1 => exact ih st1 (fun j hj => hl j (List.mem_cons_of_mem _ hj))
  unfold HandleCoastlineCell
  simp only []
  have h := key (HandleCoastlineCell.intersectionsCW cwLess cell intersectCoastlines data)
    ([], cellGroundTileMap, []) (fun i hi => hi)
  cases hf : (HandleCoastlineCell.intersectionsCW cwLess cell intersectCoastlines data).foldl
      (HandleCoastlineCell.step lt cell stateMap data
        (HandleCoastlineCell.intersectionsCW cwLess cell intersectCoastlines data)
        (CellBoundaries.make stateMap cell) (HandleCoastlineCell.containingPaths cell data))
      (some ([], cellGroundTileMap, [])) with
  | none => rw [hf] at h; simp at h
  | some r =>
    obtain ⟨v, m, w⟩ := r
    exact ⟨(m, w), rfl⟩

/-! ### A cell that one way crosses -/

theorem FindSiblingIntersection_pair (data : Data) (k : Nat) (entry exit : IntersectionRef)
    (cw : List IntersectionRef) (hcw : cw = [entry, exit] ∨ cw = [exit, entry])
    (h : CrossedByWay data k entry exit) :
    FindSiblingIntersection entry.obj cw false = some exit ∧
    FindSiblingIntersection exit.obj cw false = some entry := by
  obtain ⟨h1, h2, h3, h4, _, h6, _, _, _⟩ := h
  rcases hcw with rfl | rfl <;>
    simp [FindSiblingIntersection, FindSiblingIntersection.pass, List.filter, h1, h2, h3, h4, h6]

theorem GetNextCW_pair (a b : IntersectionRef) (hab : a.addr ≠ b.addr) :
    GetNextCW [a, b] a = some b ∧ GetNextCW [a, b] b = some a := by
  constructor
  · simp [GetNextCW, List.dropWhile]
  · simp [GetNextCW, List.dropWhile, hab]

/-- A walk that comes back to its start after one path and one piece of the border returns
`true` and visits its start only. -/
theorem WalkBoundaryCW_one_round (g : GroundTile) (stateMap : StateMap)
    (x y : IntersectionRef) (cw : List IntersectionRef) (v : List Nat)
    (cellBoundaries : CellBoundaries) (data : Data) (containingPaths : List Nat)
    (hwf : HandleCoastlineCell.WellFormed cw data) (hx : x ∈ cw) (hy : y ∈ cw)
    (hyc : y.obj.coastline = x.obj.coastline)
    (hsib : FindSiblingIntersection x.obj cw
      (data.coastlines.getD x.obj.coastline CoastlineData.none).isArea = some y)
    (hnext : GetNextCW cw y = some x) :
    ∃ g', WalkBoundaryCW g stateMap x cw v cellBoundaries data containingPaths =
      some (true, g', visitedInsert v x.addr) := by
  have hlen := WellFormed_length cw data hwf x.obj.coastline
  have hpe := (hwf.2 y hy).2
  rw [hyc] at hpe
  have hw := WalkPath_isSome
    (g.push (Transform x.obj.point stateMap cellBoundaries.latMin cellBoundaries.lonMin false))
    stateMap cellBoundaries x.obj y.obj
    (data.coastlines.getD x.obj.coastline CoastlineData.none) hpe hlen
  obtain ⟨g1, hg1⟩ := Option.isSome_iff_exists.mp hw
  have hb := WalkBorderCW_isSome g1 stateMap cellBoundaries.latMin cellBoundaries.lonMin
    y.obj x.obj cellBoundaries.borderCoords (hwf.2 x hx).1
  obtain ⟨g2, hg2⟩ := Option.isSome_iff_exists.mp hb
  refine ⟨g2, ?_⟩
  unfold WalkBoundaryCW
  rw [show (1002 : Nat) = 1000 + 1 + 1 from rfl]
  rw [WalkBoundaryCW.loop, if_pos (Or.inl rfl)]
  simp only [WalkBoundaryCW.path, hsib, hg1, hnext, hg2]
  rw [if_neg (by omega), WalkBoundaryCW.loop, if_neg (by simp)]

theorem HandleCoastlineCell_pair (lt : Pixel → Pixel → Bool)
    (cwLess : IntersectionRef → IntersectionRef → Bool) (cell : Pixel)
    (intersectCoastlines : List Nat) (stateMap : StateMap)
    (cellGroundTileMap : List (Pixel × List GroundTile)) (data : Data)
    (a b : IntersectionRef)
    (hcw : HandleCoastlineCell.intersectionsCW cwLess cell intersectCoastlines data = [a, b])
    (hwf : HandleCoastlineCell.WellFormed [a, b] data)
    (hta : a.obj.direction ≠ Direction.touch) (htb : b.obj.direction ≠ Direction.touch)
    (hab : a.addr ≠ b.addr) (hc : b.obj.coastline = a.obj.coastline)
    (hsa : FindSiblingIntersection a.obj [a, b]
      (data.coastlines.getD a.obj.coastline CoastlineData.none).isArea = some b)
    (hsb : FindSiblingIntersection b.obj [a, b]
      (data.coastlines.getD b.obj.coastline CoastlineData.none).isArea = some a) :
    ∃ ga gb,
      HandleCoastlineCell lt cwLess cell intersectCoastlines stateMap cellGroundTileMap data =
        some (pushBackAt lt (pushBackAt lt cellGroundTileMap cell ga) cell gb,
          [⟨a, ga, true⟩, ⟨b, gb, true⟩]) ∧
      ga.type = HandleCoastlineCell.tileType
        (if a.obj.direction = Direction.in_ then
          (data.coastlines.getD a.obj.coastline CoastlineData.none).right
         else (data.coastlines.getD a.obj.coastline CoastlineData.none).left) ∧
      gb.type = HandleCoastlineCell.tileType
        (if b.obj.direction = Direction.in_ then
          (data.coastlines.getD b.obj.coastline CoastlineData.none).right
         else (data.coastlines.getD b.obj.coastline CoastlineData.none).left) ∧
      3 ≤ ga.coords.length ∧ 3 ≤ gb.coords.length := by
  have hnext := GetNextCW_pair a b hab
  obtain ⟨ga, hga⟩ := WalkBoundaryCW_one_round
    { type := HandleCoastlineCell.tileType
        (if a.obj.direction = Direction.in_ then
          (data.coastlines.getD a.obj.coastline CoastlineData.none).right
         else (data.coastlines.getD a.obj.coastline CoastlineData.none).left),
      coords := [] }
    stateMap a b [a, b] [] (CellBoundaries.make stateMap cell) data
    (HandleCoastlineCell.containingPaths cell data) hwf (by simp) (by simp) hc hsa hnext.2
  obtain ⟨gb, hgb⟩ := WalkBoundaryCW_one_round
    { type := HandleCoastlineCell.tileType
        (if b.obj.direction = Direction.in_ then
          (data.coastlines.getD b.obj.coastline CoastlineData.none).right
         else (data.coastlines.getD b.obj.coastline CoastlineData.none).left),
      coords := [] }
    stateMap b a [a, b] (visitedInsert [] a.addr) (CellBoundaries.make stateMap cell) data
    (HandleCoastlineCell.containingPaths cell data) hwf (by simp) (by simp) hc.symm hsb hnext.1
  obtain ⟨hta', _, _, hla⟩ := WalkBoundaryCW_spec _ _ _ _ _ _ _ _ _ _ _ hga
  obtain ⟨htb', _, _, hlb⟩ := WalkBoundaryCW_spec _ _ _ _ _ _ _ _ _ _ _ hgb
  refine ⟨ga, gb, ?_, hta', htb', ?_, ?_⟩
  · unfold HandleCoastlineCell
    simp only [hcw, List.foldl_cons, List.foldl_nil]
    have hvb : b.addr ∉ visitedInsert [] a.addr := by
      simp [visitedInsert]
      exact fun h => hab h.symm
    have step1 : HandleCoastlineCell.step lt cell stateMap data [a, b]
        (CellBoundaries.make stateMap cell) (HandleCoastlineCell.containingPaths cell data)
        (some ([], cellGroundTileMap, [])) a =
        some (visitedInsert [] a.addr, pushBackAt lt cellGroundTileMap cell ga,
          [⟨a, ga, true⟩]) := by
      unfold HandleCoastlineCell.step
      simp only []
      rw [if_neg hta, if_neg (by simp), hga]
      simp
    have step2 : HandleCoastlineCell.step lt cell stateMap data [a, b]
        (CellBoundaries.make stateMap cell) (HandleCoastlineCell.containingPaths cell data)
        (some (visitedInsert [] a.addr, pushBackAt lt cellGroundTileMap cell ga,
          [⟨a, ga, true⟩])) b =
        some (visitedInsert (visitedInsert [] a.addr) b.addr,
          pushBackAt lt (pushBackAt lt cellGroundTileMap cell ga) cell gb,
          [⟨a, ga, true⟩, ⟨b, gb, true⟩]) := by
      unfold HandleCoastlineCell.step
      simp only []
      rw [if_neg htb, if_neg hvb, hgb]
      simp
    rw [step1, step2]
  · have := hla rfl
    simp only [List.length_nil] at this
    omega
  · have := hlb rfl
    simp only [List.length_nil] at this
    omega

theorem intersectionsCW_pair (cwLess : IntersectionRef → IntersectionRef → Bool) (cell : Pixel)
    (data : Data) (k : Nat) (entry exit : IntersectionRef)
    (hcell : getList (data.coastlines.getD k CoastlineData.none).cellIntersections cell =
      [entry, exit]) :
    HandleCoastlineCell.intersectionsCW cwLess cell [k] data = [entry, exit] ∨
    HandleCoastlineCell.intersectionsCW cwLess cell [k] data = [exit, entry] := by
  unfold HandleCoastlineCell.intersectionsCW stdSort
  simp only [List.flatMap_cons, List.flatMap_nil, List.append_nil, hcell,
    List.insertionSort, List.orderedInsert]
  split_ifs
  · exact Or.inl rfl
  · exact Or.inr rfl

/-- C12 (amended): for a cell that a single way coastline with `left=land` and `right=water`
crosses, with one intersection `in` and one intersection `out` on the border of the cell,
`HandleCoastlineCell` returns and appends exactly two ground tiles to the list of the cell:
the tile of the walk that starts at the intersection `in`, of type `water`, and the tile of
the walk that starts at the intersection `out`, of type `land`, in the order of the two
intersections around the border.  Neither has the type `coast`, each has at least 3
coordinates. -/
theorem HandleCoastlineCell_single_way (lt : Pixel → Pixel → Bool)
    (cwLess : IntersectionRef → IntersectionRef → Bool) (cell : Pixel) (stateMap : StateMap)
    (cellGroundTileMap : List (Pixel × List GroundTile)) (data : Data) (k : Nat)
    (entry exit : IntersectionRef)
    (hcell : getList (data.coastlines.getD k CoastlineData.none).cellIntersections cell =
      [entry, exit])
    (hcross : CrossedByWay data k entry exit)
    (hwf : HandleCoastlineCell.WellFormed [entry, exit] data) :
    ∃ map' walks t1 t2,
      HandleCoastlineCell lt cwLess cell [k] stateMap cellGroundTileMap data =
        some (map', walks) ∧
      getList map' cell = getList cellGroundTileMap cell ++ [t1, t2] ∧
      ((t1.type = GroundTile.TileType.water ∧ t2.type = GroundTile.TileType.land) ∨
        (t1.type = GroundTile.TileType.land ∧ t2.type = GroundTile.TileType.water)) ∧
      t1.type ≠ GroundTile.TileType.coast ∧ t2.type ≠ GroundTile.TileType.coast ∧
      3 ≤ t1.coords.length ∧ 3 ≤ t2.coords.length := by
  have hc := hcross
  obtain ⟨h1, h2, h3, h4, h5, h6, h7, h8, h9⟩ := hc
  have htin : HandleCoastlineCell.tileType
      (if entry.obj.direction = Direction.in_ then
        (data.coastlines.getD entry.obj.coastline CoastlineData.none).right
       else (data.coastlines.getD entry.obj.coastline CoastlineData.none).left) =
      GroundTile.TileType.water := by
    rw [if_pos h1, h3, h9]; rfl
  have htout : HandleCoastlineCell.tileType
      (if exit.obj.direction = Direction.in_ then
        (data.coastlines.getD exit.obj.coastline CoastlineData.none).right
       else (data.coastlines.getD exit.obj.coastline CoastlineData.none).left) =
      GroundTile.TileType.land := by
    rw [if_neg (by rw [h2]; decide), h4, h8]; rfl
  rcases intersectionsCW_pair cwLess cell data k entry exit hcell with hcw | hcw
  · obtain ⟨hs1, hs2⟩ := FindSiblingIntersection_pair data k entry exit [entry, exit]
      (Or.inl rfl) hcross
    obtain ⟨ga, gb, hres, hta, htb, hla, hlb⟩ := HandleCoastlineCell_pair lt cwLess cell [k]
      stateMap cellGroundTileMap data entry exit hcw hwf (by rw [h1]; decide)
      (by rw [h2]; decide) h5 (by rw [h3, h4]) (by rw [h3, h7]; exact hs1)
      (by rw [h4, h7]; exact hs2)
    rw [htin] at hta
    rw [htout] at htb
    refine ⟨_, _, ga, gb, hres, ?_, Or.inl ⟨hta, htb⟩, by rw [hta]; decide,
      by rw [htb]; decide, hla, hlb⟩
    rw [getList_pushBackAt, if_pos rfl, getList_pushBackAt, if_pos rfl]
    simp
  · obtain ⟨hs1, hs2⟩ := FindSiblingIntersection_pair data k entry exit [exit, entry]
      (Or.inr rfl) hcross
    have hwf' : HandleCoastlineCell.WellFormed [exit, entry] data :=
      ⟨hwf.1, fun r hr => hwf.2 r (by simp at hr ⊢; tauto)⟩
    obtain ⟨ga, gb, hres, hta, htb, hla, hlb⟩ := HandleCoastlineCell_pair lt cwLess cell [k]
      stateMap cellGroundTileMap data exit entry hcw hwf' (by rw [h2]; decide)
      (by rw [h1]; decide) (fun h => h5 h.symm) (by rw [h3, h4]) (by rw [h4, h7]; exact hs2)
      (by rw [h3, h7]; exact hs1)
    rw [htout] at hta
    rw [htin] at htb
    refine ⟨_, _, ga, gb, hres, ?_, Or.inr ⟨hta, htb⟩, by rw [hta]; decide,
      by rw [htb]; decide, hla, hlb⟩
    rw [getList_pushBackAt, if_pos rfl, getList_pushBackAt, if_pos rfl]
    simp

/-- Counterexample to C12: in the cell `(0,0)`, which the straight way coastline with land on
its left and water on its right crosses with one intersection `in` and one intersection
`out`, `HandleCoastlineCell` leaves two ground tiles, one of type `land` and one of type
`water`, and no tile of type `coast`. -/
theorem HandleCoastlineCell_single_way_counterexample :
    straightCoastline.isArea = false ∧ straightCoastline.left = CoastState.land ∧
    straightCoastline.right = CoastState.water ∧
    getList straightCoastline.cellIntersections ⟨0, 0⟩ = [straightIn, straightOut] ∧
    (HandleCoastlineCell pixelLt IntersectionCWComparator ⟨0, 0⟩ [0] smallMap []
        straightData).map (fun r => getList r.1 ⟨0, 0⟩) =
      some [straightLandTile, straightWaterTile] ∧
    straightLandTile.type = GroundTile.TileType.land ∧
    straightWaterTile.type = GroundTile.TileType.water := by
  decide!

/-- Example for C12: the straight way coastline of two points in the cell `(0,0)`. -/
theorem HandleCoastlineCell_single_way_witness :
    CrossedByWay straightData 0 straightIn straightOut ∧
    HandleCoastlineCell.WellFormed [straightIn, straightOut] straightData ∧
    ∃ map' walks t1 t2,
      HandleCoastlineCell pixelLt IntersectionCWComparator ⟨0, 0⟩ [0] smallMap []
        straightData = some (map', walks) ∧
      getList map' ⟨0, 0⟩ = getList [] ⟨0, 0⟩ ++ [t1, t2] ∧
      ((t1.type = GroundTile.TileType.water ∧ t2.type = GroundTile.TileType.land) ∨
        (t1.type = GroundTile.TileType.land ∧ t2.type = GroundTile.TileType.water)) ∧
      t1.type ≠ GroundTile.TileType.coast ∧ t2.type ≠ GroundTile.TileType.coast ∧
      3 ≤ t1.coords.length ∧ 3 ≤ t2.coords.length :=
  have hcross : CrossedByWay straightData 0 straightIn straightOut := by
    unfold CrossedByWay; decide!
  have hwf : HandleCoastlineCell.WellFormed [straightIn, straightOut] straightData := by
    unfold HandleCoastlineCell.WellFormed; decide!
  ⟨hcross, hwf,
    HandleCoastlineCell_single_way pixelLt IntersectionCWComparator ⟨0, 0⟩ smallMap []
      straightData 0 straightIn straightOut (by decide!) hcross hwf⟩

/-- C11: on well formed data `HandleCoastlineCell` returns, and in every run that returns,
every walk starts at an intersection
of `intersectionsCW` that is no touch, and its ground tile has the type of the right state of
the coastline if the direction of the intersection is `in` and of the left state otherwise:
`land` for `land`, `water` for `water`, `unknown` for every other state.  No two walks start
at the same intersection, a walk is started if there is an intersection that is no touch, and
the ground tiles of the walks that return `true` are appended to the list of the cell in the
order of the walks. -/
theorem HandleCoastlineCell_tile_type (lt : Pixel → Pixel → Bool)
    (cwLess : IntersectionRef → IntersectionRef → Bool) (cell : Pixel)
    (intersectCoastlines : List Nat) (stateMap : StateMap)
    (cellGroundTileMap : List (Pixel × List GroundTile)) (data : Data) :
    (HandleCoastlineCell.WellFormed
        (HandleCoastlineCell.intersectionsCW cwLess cell intersectCoastlines data) data →
      ∃ res, HandleCoastlineCell lt cwLess cell intersectCoastlines stateMap cellGroundTileMap
        data = some res) ∧
    ∀ (map' : List (Pixel × List GroundTile)) (walks : List WalkRecord),
    HandleCoastlineCell lt cwLess cell intersectCoastlines stateMap cellGroundTileMap data
      = some (map', walks) →
    (∀ w ∈ walks,
      w.start ∈ HandleCoastlineCell.intersectionsCW cwLess cell intersectCoastlines data ∧
      w.start.obj.direction ≠ Direction.touch ∧
      ∀ coastState : CoastState,
        coastState = (if w.start.obj.direction = Direction.in_ then
            (data.coastlines.getD w.start.obj.coastline CoastlineData.none).right
          else (data.coastlines.getD w.start.obj.coastline CoastlineData.none).left) →
        (coastState = CoastState.land → w.groundTile.type = GroundTile.TileType.land) ∧
        (coastState = CoastState.water → w.groundTile.type = GroundTile.TileType.water) ∧
        (coastState ≠ CoastState.land → coastState ≠ CoastState.water →
          w.groundTile.type = GroundTile.TileType.unknown)) ∧
    (walks.map (fun w => w.start.addr)).Nodup ∧
    ((∃ r ∈ HandleCoastlineCell.intersectionsCW cwLess cell intersectCoastlines data,
        r.obj.direction ≠ Direction.touch) → walks ≠ []) ∧
    getList map' cell = getList cellGroundTileMap cell ++
      (walks.filter (fun w => w.result)).map (fun w => w.groundTile) := by
  refine ⟨HandleCoastlineCell_total lt cwLess cell intersectCoastlines stateMap
    cellGroundTileMap data, fun map' walks h => ?_⟩
  obtain ⟨visited, ⟨hall, hnd, _, hcell, _⟩, hne⟩ :=
    HandleCoastlineCell_inv lt cwLess cell intersectCoastlines stateMap cellGroundTileMap data
      map' walks h
  refine ⟨fun w hw => ?_, hnd, hne, hcell⟩
  obtain ⟨h1, h2, _, h4, _⟩ := hall w hw
  refine ⟨h1, h2, fun coastState hcs => ?_⟩
  rw [h4, ← hcs]
  unfold HandleCoastlineCell.tileType
  refine ⟨fun hl => by rw [if_pos hl], fun hw' => ?_, fun hl hw' => by rw [if_neg hl, if_neg hw']⟩
  rw [if_neg (by rw [hw']; decide), if_pos hw']

/-- Example for C11: in the cell that the straight way crosses the walk from the intersection
`out` has a tile of the type of the left state, `land`, the walk from the intersection `in` a
tile of the type of the right state, `water`. -/
theorem HandleCoastlineCell_tile_type_witness :
    HandleCoastlineCell pixelLt IntersectionCWComparator ⟨0, 0⟩ [0] smallMap [] straightData =
      some ([(⟨0, 0⟩, [straightLandTile, straightWaterTile])],
        [⟨straightOut, straightLandTile, true⟩, ⟨straightIn, straightWaterTile, true⟩]) ∧
    ([⟨straightOut, straightLandTile, true⟩, ⟨straightIn, straightWaterTile, true⟩] :
      List WalkRecord).map (fun w => w.start.addr) = [0, 1] ∧
    (([⟨straightOut, straightLandTile, true⟩, ⟨straightIn, straightWaterTile, true⟩] :
      List WalkRecord).map (fun w => w.start.addr)).Nodup :=
  ⟨HandleCoastlineCell_straight, by decide,
    ((HandleCoastlineCell_tile_type pixelLt IntersectionCWComparator ⟨0, 0⟩ [0] smallMap []
      straightData).2 _ _ HandleCoastlineCell_straight).2.1⟩

/-- C13: on well formed data `HandleCoastlineCell` returns, and in every run that returns,
the list of the cell in
`cellGroundTileMap` is the old list with the ground tiles of the walks for which
`WalkBoundaryCW` returned `true` appended, every one of these ground tiles has at least 3
coordinates, and the lists of the other cells are unchanged. -/
theorem HandleCoastlineCell_three_coords (lt : Pixel → Pixel → Bool)
    (cwLess : IntersectionRef → IntersectionRef → Bool) (cell : Pixel)
    (intersectCoastlines : List Nat) (stateMap : StateMap)
    (cellGroundTileMap : List (Pixel × List GroundTile)) (data : Data) :
    (HandleCoastlineCell.WellFormed
        (HandleCoastlineCell.intersectionsCW cwLess cell intersectCoastlines data) data →
      ∃ res, HandleCoastlineCell lt cwLess cell intersectCoastlines stateMap cellGroundTileMap
        data = some res) ∧
    ∀ (map' : List (Pixel × List GroundTile)) (walks : List WalkRecord),
    HandleCoastlineCell lt cwLess cell intersectCoastlines stateMap cellGroundTileMap data
      = some (map', walks) →
    getList map' cell = getList cellGroundTileMap cell ++
      (walks.filter (fun w => w.result)).map (fun w => w.groundTile) ∧
    (∀ t ∈ (walks.filter (fun w => w.result)).map (fun w => w.groundTile),
      3 ≤ t.coords.length) ∧
    ∀ k, k ≠ cell → getList map' k = getList cellGroundTileMap k := by
  refine ⟨HandleCoastlineCell_total lt cwLess cell intersectCoastlines stateMap
    cellGroundTileMap data, fun map' walks h => ?_⟩
  obtain ⟨visited, ⟨hall, _, _, hcell, hother⟩, _⟩ :=
    HandleCoastlineCell_inv lt cwLess cell intersectCoastlines stateMap cellGroundTileMap data
      map' walks h
  refine ⟨hcell, fun t ht => ?_, hother⟩
  obtain ⟨w, hw, rfl⟩ := List.mem_map.mp ht
  obtain ⟨hw1, hw2⟩ := List.mem_filter.mp hw
  exact (hall w hw1).2.2.2.2 hw2

/-- Example for C13: the two ground tiles of the cell that the straight way crosses have five
coordinates each. -/
theorem HandleCoastlineCell_three_coords_witness :
    straightLandTile.coords.length = 5 ∧ straightWaterTile.coords.length = 5 ∧
    getList [((⟨0, 0⟩ : Pixel), [straightLandTile, straightWaterTile])] ⟨0, 0⟩ =
      getList [] ⟨0, 0⟩ ++
        (([⟨straightOut, straightLandTile, true⟩, ⟨straightIn, straightWaterTile, true⟩] :
          List WalkRecord).filter (fun w => w.result)).map (fun w => w.groundTile) :=
  ⟨by decide, by decide,
    ((HandleCoastlineCell_three_coords pixelLt IntersectionCWComparator ⟨0, 0⟩ [0] smallMap []
      straightData).2 _ _ HandleCoastlineCell_straight).1⟩

/-! ## WriteTiles: the coordinates of a tile -/

theorem tileWords_getElem (coords : List GroundTile.Coord) :
    ∀ (i : Nat) (c : GroundTile.Coord), coords[i]? = some c →
      (coords.flatMap WriteTiles.coordWords)[2 * i]? =
          some (if c.coast then (c.x ||| 32768) % 65536 else c.x) ∧
      (coords.flatMap WriteTiles.coordWords)[2 * i + 1]? = some c.y := by
  induction coords with
  | nil => intro i c h; simp at h
  | cons d rest ih =>
    intro i c h
    cases i with
    | zero =>
      simp only [List.getElem?_cons_zero, Option.some.injEq] at h
      subst h
      simp [WriteTiles.coordWords]
    | succ i =>
      simp only [List.getElem?_cons_succ] at h
      obtain ⟨h1, h2⟩ := ih i c h
      have e1 : 2 * (i + 1) = (2 * i) + 1 + 1 := by ring
      have e2 : 2 * (i + 1) + 1 = (2 * i + 1) + 1 + 1 := by ring
      rw [List.flatMap_cons, e2, e1]
      simp only [WriteTiles.coordWords, List.cons_append, List.nil_append,
        List.getElem?_cons_succ]
      exact ⟨h1, h2⟩

theorem lor_coast_bit (x : Nat) (hx : x ≤ 32767) : x ||| 32768 = x + 32768 := by
  have hx15 : x < 2 ^ 15 := by norm_num; omega
  apply Nat.eq_of_testBit_eq
  intro i
  rw [Nat.testBit_or, show (32768 : Nat) = 2 ^ 15 from rfl, Nat.testBit_two_pow,
    Nat.add_comm x (2 ^ 15)]
  rcases Nat.lt_trichotomy i 15 with h | h | h
  · rw [Nat.testBit_two_pow_add_gt h]
    have : decide (15 = i) = false := by simp; omega
    rw [this, Bool.or_false]
  · subst h
    rw [Nat.testBit_two_pow_add_eq, Nat.testBit_lt_two_pow hx15]
    rfl
  · have h1 : x < 2 ^ i := lt_of_lt_of_le hx15 (Nat.pow_le_pow_right (by decide) (le_of_lt h))
    have h2 : 2 ^ 15 + x < 2 ^ i := by
      have : 2 ^ 16 ≤ 2 ^ i := Nat.pow_le_pow_right (by decide) h
      have : (2 : Nat) ^ 16 = 2 ^ 15 + 2 ^ 15 := by norm_num
      omega
    rw [Nat.testBit_lt_two_pow h1, Nat.testBit_lt_two_pow h2]
    have : decide (15 = i) = false := by simp; omega
    rw [this]
    rfl

/-- C28: for every coordinate `c` of a tile with `c.x ≤ CELL_MAX`, the loop over the
coordinates in `WriteTiles` writes at the places `2 i` and `2 i + 1` of the tile a 16 bit value
for `x` of which bit 15 is set if and only if `c` is on the coast and of which the low 15 bits
are `c.x`, and the value `c.y`; masking bit 15 gives back `c`. -/
theorem WriteTiles_coord_words (tile : GroundTile) (i : Nat) (c : GroundTile.Coord)
    (hc : tile.coords[i]? = some c) (hx : c.x ≤ GroundTile.Coord.CELL_MAX) :
    ∃ wx wy, (WriteTiles.tileWords tile)[2 * i]? = some wx ∧
      (WriteTiles.tileWords tile)[2 * i + 1]? = some wy ∧
      wx < 65536 ∧ (wx.testBit 15 = true ↔ c.coast = true) ∧ wx % 32768 = c.x ∧ wy = c.y ∧
      (⟨wx % 32768, wy, wx.testBit 15⟩ : GroundTile.Coord) = c ∧
      (WriteTiles.tileWords tile).length = 2 * tile.coords.length := by
  obtain ⟨h1, h2⟩ := tileWords_getElem tile.coords i c hc
  have hx' : c.x ≤ 32767 := hx
  refine ⟨_, _, h1, h2, ?_⟩
  have hlen : (WriteTiles.tileWords tile).length = 2 * tile.coords.length := by
    unfold WriteTiles.tileWords
    generalize tile.coords = l
    induction l with
    | nil => rfl
    | cons d rest ih =>
      rw [List.flatMap_cons, List.length_append, ih]
      simp only [WriteTiles.coordWords, List.length_cons, List.length_nil]
      omega
  cases hcoast : c.coast with
  | true =>
    have e : (c.x ||| 32768) % 65536 = c.x + 32768 := by
      rw [lor_coast_bit c.x hx']
      exact Nat.mod_eq_of_lt (by omega)
    have hbit : (c.x + 32768).testBit 15 = true := by
      rw [Nat.testBit_to_div_mod]
      have : (c.x + 32768) / 2 ^ 15 = 1 := by
        norm_num
        omega
      rw [this]
      rfl
    have hmod : (c.x + 32768) % 32768 = c.x := by omega
    simp only [if_true, e, hbit, hmod, true_iff, true_and]
    refine ⟨by omega, ?_, hlen⟩
    cases c
    simp_all
  | false =>
    have hbit : c.x.testBit 15 = false := by
      rw [Nat.testBit_to_div_mod]
      have : c.x / 2 ^ 15 = 0 := by
        norm_num
        omega
      rw [this]
      rfl
    have hmod : c.x % 32768 = c.x := Nat.mod_eq_of_lt (by omega)
    simp only [Bool.false_eq_true, if_false, hbit, hmod, true_and]
    refine ⟨by omega, ?_, hlen⟩
    cases c
    simp_all

/-- Example for C28: the coordinate `(8192, 24575)` on the coast is written as `40960`,
which is `8192 + 32768`, and `24575`. -/
theorem WriteTiles_coord_words_witness :
    WriteTiles.tileWords ⟨GroundTile.TileType.land, [⟨0, 0, false⟩, ⟨8192, 24575, true⟩]⟩ =
      [0, 0, 40960, 24575] ∧
    ∃ wx wy, (WriteTiles.tileWords
        ⟨GroundTile.TileType.land, [⟨0, 0, false⟩, ⟨8192, 24575, true⟩]⟩)[2 * 1]? = some wx ∧
      (WriteTiles.tileWords
        ⟨GroundTile.TileType.land, [⟨0, 0, false⟩, ⟨8192, 24575, true⟩]⟩)[2 * 1 + 1]? = some wy ∧
      wx < 65536 ∧ (wx.testBit 15 = true ↔ (⟨8192, 24575, true⟩ : GroundTile.Coord).coast = true) ∧
      wx % 32768 = (⟨8192, 24575, true⟩ : GroundTile.Coord).x ∧
      wy = (⟨8192, 24575, true⟩ : GroundTile.Coord).y ∧
      (⟨wx % 32768, wy, wx.testBit 15⟩ : GroundTile.Coord) = ⟨8192, 24575, true⟩ ∧
      (WriteTiles.tileWords
        ⟨GroundTile.TileType.land, [⟨0, 0, false⟩, ⟨8192, 24575, true⟩]⟩).length =
        2 * (⟨GroundTile.TileType.land, [⟨0, 0, false⟩, ⟨8192, 24575, true⟩]⟩ :
          GroundTile).coords.length :=
  ⟨by decide,
    WriteTiles_coord_words ⟨GroundTile.TileType.land, [⟨0, 0, false⟩, ⟨8192, 24575, true⟩]⟩ 1
      ⟨8192, 24575, true⟩ rfl (by decide)⟩

/-! ## SynthesizeCoastlines -/

theorem define_inner_fold (isAreaInArea : List Point → List Point → Bool) (l : List Coast) :
    ∀ c : Coast,
      l.foldl (fun (c : Coast) testCoast =>
        if testCoast.right = CoastState.water ∧ isAreaInArea testCoast.coast c.coast = true
        then { c with left := CoastState.water } else c) c =
      if l.any (SynthesizeCoastlines.waterTest isAreaInArea c) = true ∨
          c.left = CoastState.water then
        { c with left := CoastState.water }
      else c := by
  induction l with
  | nil =>
    intro c
    simp only [List.foldl_nil, List.any_nil, Bool.false_eq_true, false_or]
    split_ifs with h
    · cases c; simp_all
    · rfl
  | cons t l ih =>
    intro c
    rw [List.foldl_cons, ih]
    by_cases ht : t.right = CoastState.water ∧ isAreaInArea t.coast c.coast = true
    · rw [if_pos ht]
      have h1 : SynthesizeCoastlines.waterTest isAreaInArea c t = true := by
        simp [SynthesizeCoastlines.waterTest, ht.1, ht.2]
      rw [if_pos (Or.inr rfl), if_pos (Or.inl (by simp [List.any_cons, h1]))]
    · rw [if_neg ht]
      have h1 : SynthesizeCoastlines.waterTest isAreaInArea c t = false := by
        simp only [SynthesizeCoastlines.waterTest, Bool.and_eq_false_iff, decide_eq_false_iff_not]
        by_cases hr : t.right = CoastState.water
        · right
          have := fun h => ht ⟨hr, h⟩
          simpa using this
        · exact Or.inl hr
      simp only [List.any_cons, h1, Bool.false_or]

theorem waterTest_congr (isAreaInArea : List Point → List Point → Bool) (c c' t t' : Coast)
    (hc : c'.coast = c.coast) (ht : t'.coast = t.coast)
    (hr : t'.right = CoastState.water ↔ t.right = CoastState.water) :
    SynthesizeCoastlines.waterTest isAreaInArea c' t' =
      SynthesizeCoastlines.waterTest isAreaInArea c t := by
  unfold SynthesizeCoastlines.waterTest
  rw [hc, ht]
  congr 1
  exact decide_eq_decide.mpr hr

theorem any_waterTest_congr (isAreaInArea : List Point → List Point → Bool) (c : Coast) :
    ∀ (l l' : List Coast), List.Forall₂ (fun t t' => t'.coast = t.coast ∧
        (t'.right = CoastState.water ↔ t.right = CoastState.water)) l l' →
      l'.any (SynthesizeCoastlines.waterTest isAreaInArea c) =
        l.any (SynthesizeCoastlines.waterTest isAreaInArea c) := by
  intro l l' h
  induction h with
  | nil => rfl
  | cons hab _ ih =>
    rw [List.any_cons, List.any_cons, ih,
      waterTest_congr isAreaInArea c c _ _ rfl hab.1 hab.2]

theorem defined_rel (isAreaInArea : List Point → List Point → Bool) (s0 : List Coast)
    (c : Coast) :
    (SynthesizeCoastlines.defined isAreaInArea s0 c).coast = c.coast ∧
    ((SynthesizeCoastlines.defined isAreaInArea s0 c).right = CoastState.water ↔
      c.right = CoastState.water) := by
  unfold SynthesizeCoastlines.defined
  refine ⟨rfl, ?_⟩
  simp only []
  split_ifs with h
  · rw [h]; decide
  · exact Iff.rfl

theorem define_step (isAreaInArea : List Point → List Point → Bool) (s0 s : List Coast)
    (k : Nat) (c : Coast) (hk : s0[k]? = some c) (hsk : s[k]? = some c)
    (hrel : List.Forall₂ (fun t t' => t'.coast = t.coast ∧
        (t'.right = CoastState.water ↔ t.right = CoastState.water)) s0 s) :
    SynthesizeCoastlines.define isAreaInArea s k =
      s.set k (SynthesizeCoastlines.defined isAreaInArea s0 c) := by
  unfold SynthesizeCoastlines.define
  rw [hsk]
  simp only [List.set_set]
  congr 1
  -- the list of the inner loop is related to `s0` as well
  have hrel' : ∀ c1 : Coast, c1.coast = c.coast →
      (c1.right = CoastState.water ↔ c.right = CoastState.water) →
      (s.set k c1).any (SynthesizeCoastlines.waterTest isAreaInArea c1) =
        s0.any (SynthesizeCoastlines.waterTest isAreaInArea c) := by
    intro c1 hc1 hr1
    have hf : List.Forall₂ (fun t t' => t'.coast = t.coast ∧
        (t'.right = CoastState.water ↔ t.right = CoastState.water)) s0 (s.set k c1) := by
      rw [List.forall₂_iff_get] at hrel ⊢
      refine ⟨by rw [List.length_set]; exact hrel.1, fun j h1 h2 => ?_⟩
      rw [List.length_set] at h2
      by_cases hj : k = j
      · subst hj
        have e0 : s0.get ⟨k, h1⟩ = c := by
          have := List.getElem?_eq_getElem h1
          rw [hk] at this
          exact (Option.some.inj this).symm
        simp only [List.get_eq_getElem, List.getElem_set_self] at e0 ⊢
        rw [e0]
        exact ⟨hc1, hr1⟩
      · simp only [List.get_eq_getElem, List.getElem_set_ne hj]
        exact hrel.2 j h1 h2
    rw [any_waterTest_congr isAreaInArea c1 s0 _ hf]
    congr 1
    funext t
    exact waterTest_congr isAreaInArea c c1 t t hc1 rfl Iff.rfl
  unfold SynthesizeCoastlines.defined
  rcases c with ⟨id, isArea, left, right, coast, sc⟩
  simp only [] at hrel' ⊢
  by_cases hr : right = CoastState.undefined
  · subst hr
    have hany := hrel' ⟨id, isArea, left, CoastState.unknown, coast, sc⟩ rfl
      ⟨fun h => by simp at h, fun h => by simp at h⟩
    by_cases hl : left = CoastState.undefined
    · subst hl
      cases isArea with
      | true =>
        simp only [if_true, and_self, true_and]
        rw [define_inner_fold, hany]
        by_cases hw : s0.any (SynthesizeCoastlines.waterTest isAreaInArea
            ⟨id, true, CoastState.undefined, CoastState.undefined, coast, sc⟩) = true
        · simp [hw]
        · simp [hw]
      | false => simp
    · simp [hl]
  · have hany := hrel' ⟨id, isArea, left, right, coast, sc⟩ rfl Iff.rfl
    by_cases hl : left = CoastState.undefined
    · subst hl
      cases isArea with
      | true =>
        simp only [hr, if_true, if_false, and_self, true_and]
        rw [define_inner_fold, hany]
        by_cases hw : s0.any (SynthesizeCoastlines.waterTest isAreaInArea
            ⟨id, true, CoastState.undefined, right, coast, sc⟩) = true
        · simp [hw]
        · simp [hw]
      | false => simp [hr]
    · simp [hl, hr]

theorem define_foldl (isAreaInArea : List Point → List Point → Bool) (s0 : List Coast) :
    ∀ k, k ≤ s0.length →
      ((List.range k).foldl (SynthesizeCoastlines.define isAreaInArea) s0).length = s0.length ∧
      ∀ j, ((List.range k).foldl (SynthesizeCoastlines.define isAreaInArea) s0)[j]? =
        if j < k then (s0[j]?).map (SynthesizeCoastlines.defined isAreaInArea s0)
        else s0[j]? := by
  intro k
  induction k with
  | zero => intro _; simp
  | succ k ih =>
    intro hk
    obtain ⟨hlen, hget⟩ := ih (by omega)
    rw [List.range_succ, List.foldl_append, List.foldl_cons, List.foldl_nil]
    have hk0 : k < s0.length := by omega
    have hc0 : s0[k]? = some (s0.get ⟨k, hk0⟩) := List.getElem?_eq_getElem hk0
    have hsk : ((List.range k).foldl (SynthesizeCoastlines.define isAreaInArea) s0)[k]? =
        some (s0.get ⟨k, hk0⟩) := by
      rw [hget k, if_neg (by omega), hc0]
    have hrel : List.Forall₂ (fun t t' => t'.coast = t.coast ∧
        (t'.right = CoastState.water ↔ t.right = CoastState.water)) s0
        ((List.range k).foldl (SynthesizeCoastlines.define isAreaInArea) s0) := by
      rw [List.forall₂_iff_get]
      refine ⟨hlen.symm, fun j h1 h2 => ?_⟩
      have hj := hget j
      rw [List.getElem?_eq_getElem h2, List.getElem?_eq_getElem h1] at hj
      simp only [List.get_eq_getElem]
      by_cases hjk : j < k
      · rw [if_pos hjk] at hj
        simp only [Option.map_some', Option.some.injEq] at hj
        rw [hj]
        exact defined_rel isAreaInArea s0 _
      · rw [if_neg hjk] at hj
        simp only [Option.some.injEq] at hj
        rw [hj]
        exact ⟨rfl, Iff.rfl⟩
    rw [define_step isAreaInArea s0 _ k _ hc0 hsk hrel]
    refine ⟨by rw [List.length_set]; exact hlen, fun j => ?_⟩
    by_cases hjk : j = k
    · subst hjk
      rw [List.getElem?_set_self (by rw [hlen]; exact hk0), if_pos (by omega), hc0]
      rfl
    · rw [List.getElem?_set_ne (fun h => hjk h.symm), hget j]
      by_cases hlt : j < k
      · rw [if_pos hlt, if_pos (by omega)]
      · rw [if_neg hlt, if_neg (by omega)]

/-- The pass of `SynthesizeCoastlines` over the list `synthesized` gives every coast of the
list its defined sides, with the test of the inner loop applied to the list before the
pass. -/
theorem define_foldl_eq (isAreaInArea : List Point → List Point → Bool) (s0 : List Coast) :
    (List.range s0.length).foldl (SynthesizeCoastlines.define isAreaInArea) s0 =
      s0.map (SynthesizeCoastlines.defined isAreaInArea s0) := by
  obtain ⟨_, hget⟩ := define_foldl isAreaInArea s0 s0.length (le_refl _)
  apply List.ext_getElem?
  intro j
  rw [hget j, List.getElem?_map]
  by_cases hj : j < s0.length
  · rw [if_pos hj]
  · rw [if_neg hj, List.getElem?_eq_none (by omega)]
    rfl

/-- C21: an area coastline without valid intersection with any bounding polygon adds to the
result of `SynthesizeCoastlines2`, at its place behind the coasts of the bounding polygons and
of the coastlines before it, the coastline itself, once and unchanged, if
`IsAreaAtLeastPartlyInArea` holds for the coastline and at least one bounding polygon, and
nothing if it holds for none. -/
theorem SynthesizeCoastlines2_island
    (findPathIntersections : List Point → List Point → Bool → Bool → List PathIntersection)
    (isAreaInArea : List Point → List Point → Bool)
    (boundingPolygons coastlines synthesized : List Coast) (coastline : Coast)
    (ha : coastline.isArea = true)
    (hn : coastlineIntersections findPathIntersections boundingPolygons coastline = []) :
    SynthesizeCoastlines2 findPathIntersections isAreaInArea boundingPolygons coastlines
        synthesized =
      synthesized ++
      boundingPolygons.flatMap (fun polygon =>
        SynthesizeCoastlines2.candidateParts (SynthesizeCoastlines2.candidate polygon)
          (polygonIntersections findPathIntersections coastlines polygon)) ++
      coastlines.flatMap (fun coastline =>
        SynthesizeCoastlines2.wayParts isAreaInArea boundingPolygons coastline
          (coastlineIntersections findPathIntersections boundingPolygons coastline)) ∧
    ((∃ poly ∈ boundingPolygons, isAreaInArea coastline.coast poly.coast = true) →
      SynthesizeCoastlines2.wayParts isAreaInArea boundingPolygons coastline
        (coastlineIntersections findPathIntersections boundingPolygons coastline) =
        [coastline]) ∧
    ((∀ poly ∈ boundingPolygons, isAreaInArea coastline.coast poly.coast = false) →
      SynthesizeCoastlines2.wayParts isAreaInArea boundingPolygons coastline
        (coastlineIntersections findPathIntersections boundingPolygons coastline) = []) := by
  refine ⟨SynthesizeCoastlines2_eq _ _ _ _ _, ?_, ?_⟩
  · rintro ⟨poly, hp, hin⟩
    unfold SynthesizeCoastlines2.wayParts
    rw [hn, if_pos rfl, if_pos ⟨ha, List.any_eq_true.mpr ⟨poly, hp, hin⟩⟩]
  · intro hall
    unfold SynthesizeCoastlines2.wayParts
    rw [hn, if_pos rfl, if_neg]
    rintro ⟨_, hany⟩
    obtain ⟨poly, hp, hin⟩ := List.any_eq_true.mp hany
    rw [hall poly hp] at hin
    exact absurd hin (by simp)

/-- Example for C21: the island inside of the square polygon is kept, the island outside of
it is not. -/
theorem SynthesizeCoastlines2_island_witness :
    SynthesizeCoastlines2 FindPathIntersections IsAreaAtLeastPartlyInArea [squarePolygon]
        [outerIsland, innerIsland] [] =
      [SynthesizeCoastlines2.candidate squarePolygon, innerIsland] ∧
    SynthesizeCoastlines2.wayParts IsAreaAtLeastPartlyInArea [squarePolygon] innerIsland
        (coastlineIntersections FindPathIntersections [squarePolygon] innerIsland) =
      [innerIsland] :=
  ⟨by decide!,
    (SynthesizeCoastlines2_island FindPathIntersections IsAreaAtLeastPartlyInArea
      [squarePolygon] [outerIsland, innerIsland] [] innerIsland (by decide!) (by decide!)).2.1
      ⟨squarePolygon, by simp, by decide!⟩⟩

/-- C22: `SynthesizeCoastlines` returns the list of `SynthesizeCoastlines2` with the sides
defined: the coast at every place keeps its `id`, `isArea` and points, its `right` is
`unknown` if it was `undefined` and unchanged otherwise, its `left` is `water` or `land` if it
was `undefined` and unchanged otherwise.  No coast of the result has `right` or `left`
`undefined`. -/
theorem SynthesizeCoastlines_sides
    (findPathIntersections : List Point → List Point → Bool → Bool → List PathIntersection)
    (isAreaInArea : List Point → List Point → Bool)
    (coastlines boundingPolygons : List Coast) :
    (SynthesizeCoastlines findPathIntersections isAreaInArea coastlines
        boundingPolygons).length =
      (SynthesizeCoastlines2 findPathIntersections isAreaInArea boundingPolygons coastlines
        []).length ∧
    (∀ (i : Nat) (c : Coast), (SynthesizeCoastlines2 findPathIntersections isAreaInArea
        boundingPolygons coastlines [])[i]? = some c →
      ∃ c' : Coast, (SynthesizeCoastlines findPathIntersections isAreaInArea coastlines
          boundingPolygons)[i]? = some c' ∧
        c'.id = c.id ∧ c'.isArea = c.isArea ∧ c'.coast = c.coast ∧
        (c.right = CoastState.undefined → c'.right = CoastState.unknown) ∧
        (c.right ≠ CoastState.undefined → c'.right = c.right) ∧
        (c.left = CoastState.undefined →
          c'.left = CoastState.water ∨ c'.left = CoastState.land) ∧
        (c.left ≠ CoastState.undefined → c'.left = c.left)) ∧
    ∀ c' ∈ SynthesizeCoastlines findPathIntersections isAreaInArea coastlines
        boundingPolygons,
      c'.right ≠ CoastState.undefined ∧ c'.left ≠ CoastState.undefined := by
  unfold SynthesizeCoastlines
  simp only []
  rw [define_foldl_eq]
  refine ⟨by simp, fun i c hc => ?_, fun c' hc' => ?_⟩
  · refine ⟨SynthesizeCoastlines.defined isAreaInArea (SynthesizeCoastlines2
      findPathIntersections isAreaInArea boundingPolygons coastlines []) c,
      by rw [List.getElem?_map, hc]; rfl, rfl, rfl, rfl, ?_, ?_, ?_, ?_⟩
    · intro h; simp [SynthesizeCoastlines.defined, h]
    · intro h; simp [SynthesizeCoastlines.defined, h]
    · intro h
      simp only [SynthesizeCoastlines.defined, h, if_true]
      split_ifs
      · exact Or.inl rfl
      · exact Or.inr rfl
    · intro h; simp [SynthesizeCoastlines.defined, h]
  · obtain ⟨c, _, rfl⟩ := List.mem_map.mp hc'
    unfold SynthesizeCoastlines.defined
    constructor
    · simp only []
      split_ifs with h
      · decide
      · exact h
    · simp only []
      split_ifs with h1 h2
      · decide
      · decide
      · exact h1

/-- Example for C22: the bounding polygon with both sides `undefined` and an island in it. -/
theorem SynthesizeCoastlines_sides_witness :
    SynthesizeCoastlines FindPathIntersections IsAreaAtLeastPartlyInArea [innerIsland]
        [openPolygon] =
      [{ id := 0, isArea := true, left := CoastState.water, right := CoastState.unknown,
         coast := openPolygon.coast }, innerIsland] ∧
    (SynthesizeCoastlines FindPathIntersections IsAreaAtLeastPartlyInArea [innerIsland]
        [openPolygon]).length =
      (SynthesizeCoastlines2 FindPathIntersections IsAreaAtLeastPartlyInArea [openPolygon]
        [innerIsland] []).length :=
  ⟨by decide!,
    (SynthesizeCoastlines_sides FindPathIntersections IsAreaAtLeastPartlyInArea [innerIsland]
      [openPolygon]).1⟩

/-- C23 (amended): in the pass of `SynthesizeCoastlines`, a coast `A` of the list whose left
is `undefined` gets `left=water` exactly when it is an area and for some coast `W` of the list
with `right=water` the test `IsAreaAtLeastPartlyInArea` holds with the points of `W` as the
first argument and the points of `A` as the second one: `W` is the inner and `A` the outer
area of the test.  Otherwise `A` gets `left=land`. -/
theorem SynthesizeCoastlines_left_water
    (findPathIntersections : List Point → List Point → Bool → Bool → List PathIntersection)
    (isAreaInArea : List Point → List Point → Bool)
    (coastlines boundingPolygons : List Coast) (i : Nat) (A : Coast)
    (hA : (SynthesizeCoastlines2 findPathIntersections isAreaInArea boundingPolygons
      coastlines [])[i]? = some A)
    (hl : A.left = CoastState.undefined) :
    ∃ A', (SynthesizeCoastlines findPathIntersections isAreaInArea coastlines
        boundingPolygons)[i]? = some A' ∧
      (A'.left = CoastState.water ↔
        (A.isArea = true ∧
          ∃ W ∈ SynthesizeCoastlines2 findPathIntersections isAreaInArea boundingPolygons
              coastlines [],
            W.right = CoastState.water ∧ isAreaInArea W.coast A.coast = true)) ∧
      (A'.left = CoastState.land ↔
        ¬ (A.isArea = true ∧
          ∃ W ∈ SynthesizeCoastlines2 findPathIntersections isAreaInArea boundingPolygons
              coastlines [],
            W.right = CoastState.water ∧ isAreaInArea W.coast A.coast = true)) := by
  unfold SynthesizeCoastlines
  simp only []
  rw [define_foldl_eq]
  refine ⟨SynthesizeCoastlines.defined isAreaInArea (SynthesizeCoastlines2
    findPathIntersections isAreaInArea boundingPolygons coastlines []) A,
    by rw [List.getElem?_map, hA]; rfl, ?_⟩
  have hiff : (A.isArea = true ∧
      (SynthesizeCoastlines2 findPathIntersections isAreaInArea boundingPolygons coastlines
        []).any (SynthesizeCoastlines.waterTest isAreaInArea A) = true) ↔
      (A.isArea = true ∧
        ∃ W ∈ SynthesizeCoastlines2 findPathIntersections isAreaInArea boundingPolygons
            coastlines [],
          W.right = CoastState.water ∧ isAreaInArea W.coast A.coast = true) := by
    simp only [List.any_eq_true, SynthesizeCoastlines.waterTest, Bool.and_eq_true,
      decide_eq_true_eq]
  simp only [SynthesizeCoastlines.defined, hl, if_true]
  rw [← hiff]
  split_ifs with h
  · exact ⟨iff_of_true rfl h, iff_of_false (by decide) (not_not.mpr h)⟩
  · exact ⟨iff_of_false (by decide) h, iff_of_true rfl h⟩

/-- Counterexample to C23: the bounding polygon `A` with `left` undefined contains the island
`W` with `right=water`, and `A` is not contained in any coast with `right=water`: the test
with `A` as the inner area fails for every coast of the list.  The pass gives `A` the side
`left=water`, because the test holds with `W` as the inner and `A` as the outer area. -/
theorem SynthesizeCoastlines_left_water_counterexample :
    SynthesizeCoastlines2 FindPathIntersections IsAreaAtLeastPartlyInArea [openPolygon]
        [innerIsland] [] =
      [SynthesizeCoastlines2.candidate openPolygon, innerIsland] ∧
    (SynthesizeCoastlines2.candidate openPolygon).left = CoastState.undefined ∧
    (SynthesizeCoastlines2.candidate openPolygon).right ≠ CoastState.water ∧
    innerIsland.right = CoastState.water ∧
    IsAreaAtLeastPartlyInArea (SynthesizeCoastlines2.candidate openPolygon).coast
      innerIsland.coast = false ∧
    IsAreaAtLeastPartlyInArea innerIsland.coast
      (SynthesizeCoastlines2.candidate openPolygon).coast = true ∧
    ((SynthesizeCoastlines FindPathIntersections IsAreaAtLeastPartlyInArea [innerIsland]
      [openPolygon])[0]?).map (fun c => c.left) = some CoastState.water := by
  decide!

/-- Example for C23: the bounding polygon with `left` undefined that contains an island. -/
theorem SynthesizeCoastlines_left_water_witness :
    ∃ A', (SynthesizeCoastlines FindPathIntersections IsAreaAtLeastPartlyInArea [innerIsland]
        [openPolygon])[0]? = some A' ∧
      (A'.left = CoastState.water ↔
        ((SynthesizeCoastlines2.candidate openPolygon).isArea = true ∧
          ∃ W ∈ SynthesizeCoastlines2 FindPathIntersections IsAreaAtLeastPartlyInArea
              [openPolygon] [innerIsland] [],
            W.right = CoastState.water ∧ IsAreaAtLeastPartlyInArea W.coast
              (SynthesizeCoastlines2.candidate openPolygon).coast = true)) ∧
      (A'.left = CoastState.land ↔
        ¬ ((SynthesizeCoastlines2.candidate openPolygon).isArea = true ∧
          ∃ W ∈ SynthesizeCoastlines2 FindPathIntersections IsAreaAtLeastPartlyInArea
              [openPolygon] [innerIsland] [],
            W.right = CoastState.water ∧ IsAreaAtLeastPartlyInArea W.coast
              (SynthesizeCoastlines2.candidate openPolygon).coast = true)) :=
  SynthesizeCoastlines_left_water FindPathIntersections IsAreaAtLeastPartlyInArea
    [innerIsland] [openPolygon] 0 (SynthesizeCoastlines2.candidate openPolygon) (by decide!)
    (by decide!)

/-! ### FillWaterAroundIsland -/

theorem any_key_of_mem {α : Type} (m : List (Pixel × List α)) (k : Pixel)
    (h : k ∈ m.map Prod.fst) : m.any (fun e => decide (e.1 = k)) = true := by
  obtain ⟨e, he, hk⟩ := List.mem_map.mp h
  exact List.any_eq_true.mpr ⟨e, he, by simpa using hk⟩

theorem pushFrontAt_of_mem {α : Type} (lt : Pixel → Pixel → Bool) (m : List (Pixel × List α))
    (k : Pixel) (v : α) (h : k ∈ m.map Prod.fst) :
    pushFrontAt lt m k v = m.map (fun e => if e.1 = k then (e.1, v :: e.2) else e) := by
  unfold pushFrontAt
  rw [if_pos (any_key_of_mem m k h)]

theorem key_map_front {α : Type} (m : List (Pixel × List α)) (k : Pixel) (v : α) :
    (m.map (fun e => if e.1 = k then (e.1, v :: e.2) else e)).map Prod.fst = m.map Prod.fst := by
  rw [List.map_map]
  apply List.map_congr_left
  intro e _
  simp only [Function.comp]
  split_ifs <;> rfl

theorem getList_map_front {α : Type} (m : List (Pixel × List α)) (k k' : Pixel) (v : α)
    (h : k ∈ m.map Prod.fst) :
    getList (m.map (fun e => if e.1 = k then (e.1, v :: e.2) else e)) k' =
      if k' = k then v :: getList m k else getList m k' := by
  induction m with
  | nil => simp at h
  | cons e m ih =>
    rw [List.map_cons, getList_cons]
    by_cases hek : e.1 = k
    · rw [if_pos hek]
      by_cases hk : k' = k
      · rw [if_pos hk, if_pos (by rw [hk]; exact hek), getList_cons, if_pos hek]
      · rw [if_neg hk, if_neg (by rw [hek]; exact fun h => hk h.symm), getList_cons,
          if_neg (by rw [hek]; exact fun h => hk h.symm)]
        by_cases hm : k ∈ m.map Prod.fst
        · rw [ih hm, if_neg hk]
        · have hmap : m.map (fun e => if e.1 = k then (e.1, v :: e.2) else e) = m := by
            conv_rhs => rw [← List.map_id m]
            apply List.map_congr_left
            intro e' he'
            rw [if_neg]
            · rfl
            · intro h'
              exact hm (List.mem_map.mpr ⟨e', he', h'⟩)
          rw [hmap]
    · rw [if_neg hek]
      have hm : k ∈ m.map Prod.fst := by
        rw [List.map_cons, List.mem_cons] at h
        rcases h with h | h
        · exact absurd h.symm hek
        · exact h
      rw [ih hm, getList_cons, getList_cons, if_neg hek]
      by_cases hk : k' = k
      · subst hk
        simp [hek]
      · simp [hk]

/-- Reading a map after `m[k].push_front(v)` for a key of the map. -/
theorem getList_pushFrontAt {α : Type} (lt : Pixel → Pixel → Bool) (m : List (Pixel × List α))
    (k k' : Pixel) (v : α) (h : k ∈ m.map Prod.fst) :
    getList (pushFrontAt lt m k v) k' = if k' = k then v :: getList m k else getList m k' := by
  rw [pushFrontAt_of_mem lt m k v h, getList_map_front m k k' v h]

theorem FillWaterAroundIsland_tile_eq (stateMap : StateMap) (coord : Pixel) :
    FillWaterAroundIsland.tile (CellBoundaries.make stateMap coord) =
      { type := GroundTile.TileType.water,
        coords := [⟨0, GroundTile.Coord.CELL_MAX, false⟩,
                   ⟨GroundTile.Coord.CELL_MAX, GroundTile.Coord.CELL_MAX, false⟩,
                   ⟨GroundTile.Coord.CELL_MAX, 0, false⟩, ⟨0, 0, false⟩] } := rfl

theorem ContainsCoord_eq_false (coordEq : GroundTile.Coord → GroundTile.Coord → Bool)
    (tiles : List GroundTile) (coord : GroundTile.Coord) :
    ContainsCoord coordEq tiles coord = false ↔
      ∀ tile ∈ tiles, ∀ c ∈ tile.coords, coordEq c coord = false := by
  unfold ContainsCoord
  simp only [List.any_eq_false, List.any_eq_true, not_exists, not_and, Bool.not_eq_true]

theorem fillWater_chain (p1 p3 : Prop) [Decidable p1] [Decidable p3] (w1 w2 w3 w4 : Bool) :
    (let fillWater := false
     let fillWater := if (!fillWater && decide p1 && w1) = true then true else fillWater
     let fillWater := if (!fillWater && w2) = true then true else fillWater
     let fillWater := if (!fillWater && decide p3 && w3) = true then true else fillWater
     let fillWater := if (!fillWater && w4) = true then true else fillWater
     fillWater) = true ↔
      ((p1 ∧ w1 = true) ∨ w2 = true ∨ (p3 ∧ w3 = true) ∨ w4 = true) := by
  by_cases h1 : p1 <;> by_cases h3 : p3 <;> cases w1 <;> cases w2 <;> cases w3 <;>
    cases w4 <;> simp [h1, h3]

theorem fillWater_eq (coordEq : GroundTile.Coord → GroundTile.Coord → Bool)
    (stateMap : StateMap) (m : List (Pixel × List GroundTile)) (coord : Pixel) :
    FillWaterAroundIsland.fillWater coordEq stateMap m coord
        (CellBoundaries.make stateMap coord) = true ↔
      ((coord.y > 0 ∧ ContainsWater coordEq ⟨coord.x, coord.y - 1⟩ stateMap m
          ⟨0, GroundTile.Coord.CELL_MAX, false⟩
          ⟨GroundTile.Coord.CELL_MAX, GroundTile.Coord.CELL_MAX, false⟩ = true) ∨
       ContainsWater coordEq ⟨coord.x, (coord.y + 1) % U32⟩ stateMap m
          ⟨GroundTile.Coord.CELL_MAX, 0, false⟩ ⟨0, 0, false⟩ = true ∨
       (coord.x > 0 ∧ ContainsWater coordEq ⟨coord.x - 1, coord.y⟩ stateMap m
          ⟨0, GroundTile.Coord.CELL_MAX, false⟩ ⟨0, 0, false⟩ = true) ∨
       ContainsWater coordEq ⟨(coord.x + 1) % U32, coord.y⟩ stateMap m
          ⟨GroundTile.Coord.CELL_MAX, GroundTile.Coord.CELL_MAX, false⟩
          ⟨GroundTile.Coord.CELL_MAX, 0, false⟩ = true) := by
  unfold FillWaterAroundIsland.fillWater
  simp only [CellBoundaries.make, List.getD_cons_zero, List.getD_cons_succ]
  exact fillWater_chain _ _ _ _ _ _

/-- One pass of the loop of `FillWaterAroundIsland`: the water tile is put in front of the
list of the cell if the condition `fills` holds, and the map is unchanged if not. -/
theorem FillWaterAroundIsland_cell_eq (coordEq : GroundTile.Coord → GroundTile.Coord → Bool)
    (isA : List GeoCoord → List Point → Bool) (lt : Pixel → Pixel → Bool)
    (stateMap : StateMap) (polys : List Coast) (m : List (Pixel × List GroundTile))
    (coord : Pixel) :
    (FillWaterAroundIsland.fills coordEq isA stateMap polys m coord →
      FillWaterAroundIsland.cell coordEq isA lt stateMap polys m coord =
        pushFrontAt lt m coord (FillWaterAroundIsland.tile (CellBoundaries.make stateMap coord))) ∧
    (¬ FillWaterAroundIsland.fills coordEq isA stateMap polys m coord →
      FillWaterAroundIsland.cell coordEq isA lt stateMap polys m coord = m) := by
  have hcorner : (ContainsCoord coordEq (getList m coord)
        ((CellBoundaries.make stateMap coord).borderCoords.getD 0 ⟨0, 0, false⟩) ||
      ContainsCoord coordEq (getList m coord)
        ((CellBoundaries.make stateMap coord).borderCoords.getD 1 ⟨0, 0, false⟩) ||
      ContainsCoord coordEq (getList m coord)
        ((CellBoundaries.make stateMap coord).borderCoords.getD 2 ⟨0, 0, false⟩) ||
      ContainsCoord coordEq (getList m coord)
        ((CellBoundaries.make stateMap coord).borderCoords.getD 3 ⟨0, 0, false⟩)) = false ↔
      ∀ tile ∈ getList m coord, ∀ c ∈ tile.coords,
        ∀ corner ∈ (CellBoundaries.make stateMap coord).borderCoords,
          coordEq c corner = false := by
    simp only [Bool.or_eq_false_iff, ContainsCoord_eq_false, CellBoundaries.make,
      List.getD_cons_zero, List.getD_cons_succ, List.mem_cons, List.mem_singleton,
      List.not_mem_nil, or_false]
    constructor
    · rintro ⟨⟨⟨h0, h1⟩, h2⟩, h3⟩ tile ht c hc corner hcor
      rcases hcor with rfl | rfl | rfl | rfl
      · exact h0 tile ht c hc
      · exact h1 tile ht c hc
      · exact h2 tile ht c hc
      · exact h3 tile ht c hc
    · intro h
      exact ⟨⟨⟨fun tile ht c hc => h tile ht c hc _ (Or.inl rfl),
        fun tile ht c hc => h tile ht c hc _ (Or.inr (Or.inl rfl))⟩,
        fun tile ht c hc => h tile ht c hc _ (Or.inr (Or.inr (Or.inl rfl)))⟩,
        fun tile ht c hc => h tile ht c hc _ (Or.inr (Or.inr (Or.inr rfl)))⟩
  constructor
  · rintro ⟨hc, hp, hw⟩
    unfold FillWaterAroundIsland.cell
    simp only []
    rw [if_neg (by rw [hcorner.mpr hc]; simp), if_neg (by rw [hp]; simp),
      if_pos ((fillWater_eq coordEq stateMap m coord).mpr hw)]
  · intro hn
    unfold FillWaterAroundIsland.cell
    simp only []
    by_cases h1 : (ContainsCoord coordEq (getList m coord)
        ((CellBoundaries.make stateMap coord).borderCoords.getD 0 ⟨0, 0, false⟩) ||
      ContainsCoord coordEq (getList m coord)
        ((CellBoundaries.make stateMap coord).borderCoords.getD 1 ⟨0, 0, false⟩) ||
      ContainsCoord coordEq (getList m coord)
        ((CellBoundaries.make stateMap coord).borderCoords.getD 2 ⟨0, 0, false⟩) ||
      ContainsCoord coordEq (getList m coord)
        ((CellBoundaries.make stateMap coord).borderCoords.getD 3 ⟨0, 0, false⟩)) = true
    · rw [if_pos h1]
    · rw [if_neg h1]
      by_cases h2 : (!IsCellInBoundingPolygon isA (CellBoundaries.make stateMap coord) polys)
          = true
      · rw [if_pos h2]
      · rw [if_neg h2]
        by_cases h3 : FillWaterAroundIsland.fillWater coordEq stateMap m coord
            (CellBoundaries.make stateMap coord) = true
        · exfalso
          apply hn
          refine ⟨hcorner.mp (by simpa using h1), by simpa using h2,
            (fillWater_eq coordEq stateMap m coord).mp h3⟩
        · rw [if_neg h3]

theorem FillWaterAroundIsland_cell_cases (coordEq : GroundTile.Coord → GroundTile.Coord → Bool)
    (isA : List GeoCoord → List Point → Bool) (lt : Pixel → Pixel → Bool)
    (stateMap : StateMap) (polys : List Coast) (m : List (Pixel × List GroundTile))
    (coord : Pixel) (hk : coord ∈ m.map Prod.fst) :
    FillWaterAroundIsland.cell coordEq isA lt stateMap polys m coord = m ∨
    FillWaterAroundIsland.cell coordEq isA lt stateMap polys m coord =
      m.map (fun e => if e.1 = coord then
        (e.1, FillWaterAroundIsland.tile (CellBoundaries.make stateMap coord) :: e.2) else e) := by
  by_cases h : FillWaterAroundIsland.fills coordEq isA stateMap polys m coord
  · right
    rw [(FillWaterAroundIsland_cell_eq coordEq isA lt stateMap polys m coord).1 h,
      pushFrontAt_of_mem lt m coord _ hk]
  · left
    exact (FillWaterAroundIsland_cell_eq coordEq isA lt stateMap polys m coord).2 h

theorem FillWaterAroundIsland_cell_keys (coordEq : GroundTile.Coord → GroundTile.Coord → Bool)
    (isA : List GeoCoord → List Point → Bool) (lt : Pixel → Pixel → Bool)
    (stateMap : StateMap) (polys : List Coast) (m : List (Pixel × List GroundTile))
    (coord : Pixel) (hk : coord ∈ m.map Prod.fst) :
    (FillWaterAroundIsland.cell coordEq isA lt stateMap polys m coord).map Prod.fst =
      m.map Prod.fst := by
  rcases FillWaterAroundIsland_cell_cases coordEq isA lt stateMap polys m coord hk with h | h
  · rw [h]
  · rw [h, key_map_front]

theorem FillWaterAroundIsland_cell_other (coordEq : GroundTile.Coord → GroundTile.Coord → Bool)
    (isA : List GeoCoord → List Point → Bool) (lt : Pixel → Pixel → Bool)
    (stateMap : StateMap) (polys : List Coast) (m : List (Pixel × List GroundTile))
    (coord k : Pixel) (hk : coord ∈ m.map Prod.fst) (hne : k ≠ coord) :
    getList (FillWaterAroundIsland.cell coordEq isA lt stateMap polys m coord) k =
      getList m k := by
  rcases FillWaterAroundIsland_cell_cases coordEq isA lt stateMap polys m coord hk with h | h
  · rw [h]
  · rw [h, getList_map_front m coord k _ hk, if_neg hne]

/-- The passes for keys other than `k` leave the keys of the map and the list of `k`. -/
theorem FillWaterAroundIsland_foldl_other
    (coordEq : GroundTile.Coord → GroundTile.Coord → Bool)
    (isA : List GeoCoord → List Point → Bool) (lt : Pixel → Pixel → Bool)
    (stateMap : StateMap) (polys : List Coast) (k : Pixel) (l : List Pixel) :
    ∀ m : List (Pixel × List GroundTile), (∀ c ∈ l, c ∈ m.map Prod.fst) →
      (l.foldl (FillWaterAroundIsland.cell coordEq isA lt stateMap polys) m).map Prod.fst =
        m.map Prod.fst ∧
      (k ∉ l →
        getList (l.foldl (FillWaterAroundIsland.cell coordEq isA lt stateMap polys) m) k =
          getList m k) := by
  induction l with
  | nil => intro m _; exact ⟨rfl, fun _ => rfl⟩
  | cons c l ih =>
    intro m hl
    rw [List.foldl_cons]
    have hc : c ∈ m.map Prod.fst := hl c (List.mem_cons_self _ _)
    have hkeys := FillWaterAroundIsland_cell_keys coordEq isA lt stateMap polys m c hc
    obtain ⟨ih1, ih2⟩ := ih (FillWaterAroundIsland.cell coordEq isA lt stateMap polys m c)
      (fun c' hc' => by rw [hkeys]; exact hl c' (List.mem_cons_of_mem _ hc'))
    refine ⟨by rw [ih1, hkeys], fun hk => ?_⟩
    rw [List.mem_cons, not_or] at hk
    rw [ih2 hk.2]
    exact FillWaterAroundIsland_cell_other coordEq isA lt stateMap polys m c k hc hk.1

theorem FillWaterAroundIsland_foldl_rel
    (coordEq : GroundTile.Coord → GroundTile.Coord → Bool)
    (isA : List GeoCoord → List Point → Bool) (lt : Pixel → Pixel → Bool)
    (stateMap : StateMap) (polys : List Coast) (wt : GroundTile)
    (hwt : ∀ coord, FillWaterAroundIsland.tile (CellBoundaries.make stateMap coord) = wt)
    (m : List (Pixel × List GroundTile)) (l : List Pixel) :
    ∀ (done : List Pixel) (m' : List (Pixel × List GroundTile)),
      l.Nodup → (∀ c ∈ l, c ∉ done) → (∀ c ∈ l, c ∈ m'.map Prod.fst) →
      List.Forall₂ (fun e e' => e'.1 = e.1 ∧ (e'.2 = e.2 ∨ (e.1 ∈ done ∧ e'.2 = wt :: e.2)))
        m m' →
      List.Forall₂ (fun e e' => e'.1 = e.1 ∧ (e'.2 = e.2 ∨ e'.2 = wt :: e.2)) m
        (l.foldl (FillWaterAroundIsland.cell coordEq isA lt stateMap polys) m') := by
  induction l with
  | nil =>
    intro done m' _ _ _ h
    exact h.imp (fun _ _ hr => ⟨hr.1, hr.2.imp id (fun h => h.2)⟩)
  | cons c l ih =>
    intro done m' hn hd hk h
    rw [List.foldl_cons]
    rw [List.nodup_cons] at hn
    have hc : c ∈ m'.map Prod.fst := hk c (List.mem_cons_self _ _)
    have hkeys := FillWaterAroundIsland_cell_keys coordEq isA lt stateMap polys m' c hc
    apply ih (c :: done) _ hn.2
    · intro c' hc' hmem
      rw [List.mem_cons] at hmem
      rcases hmem with rfl | hmem
      · exact hn.1 hc'
      · exact hd c' (List.mem_cons_of_mem _ hc') hmem
    · intro c' hc'
      rw [hkeys]
      exact hk c' (List.mem_cons_of_mem _ hc')
    · rcases FillWaterAroundIsland_cell_cases coordEq isA lt stateMap polys m' c hc
        with hcase | hcase
      · rw [hcase]
        exact h.imp (fun _ _ hr =>
          ⟨hr.1, hr.2.imp id (fun h => ⟨List.mem_cons_of_mem _ h.1, h.2⟩)⟩)
      · rw [hcase, hwt, List.forall₂_map_right_iff]
        apply h.imp
        intro e e' hr
        by_cases he : e'.1 = c
        · rw [if_pos he]
          refine ⟨hr.1, Or.inr ⟨?_, ?_⟩⟩
          · rw [← hr.1, he]
            exact List.mem_cons_self _ _
          · rcases hr.2 with h2 | h2
            · show wt :: e'.2 = wt :: e.2
              rw [h2]
            · exfalso
              apply hd c (List.mem_cons_self _ _)
              rw [← he, hr.1]
              exact h2.1
        · rw [if_neg he]
          exact ⟨hr.1, hr.2.imp id (fun h => ⟨List.mem_cons_of_mem _ h.1, h.2⟩)⟩

/-- C25: `FillWaterAroundIsland` leaves the `StateMap` and the keys of `cellGroundTileMap`;
the list of every cell is the list before, or the list before with one tile in front of it:
the water tile with the coordinates `(0,CELL_MAX)`, `(CELL_MAX,CELL_MAX)`, `(CELL_MAX,0)`,
`(0,0)` in this order. -/
theorem FillWaterAroundIsland_frame (coordEq : GroundTile.Coord → GroundTile.Coord → Bool)
    (isAreaAtLeastPartlyInArea : List GeoCoord → List Point → Bool)
    (lt : Pixel → Pixel → Bool) (stateMap : StateMap)
    (cellGroundTileMap : List (Pixel × List GroundTile)) (boundingPolygons : List Coast)
    (hn : (cellGroundTileMap.map Prod.fst).Nodup) :
    (FillWaterAroundIsland coordEq isAreaAtLeastPartlyInArea lt stateMap cellGroundTileMap
      boundingPolygons).1 = stateMap ∧
    (FillWaterAroundIsland coordEq isAreaAtLeastPartlyInArea lt stateMap cellGroundTileMap
      boundingPolygons).2.map Prod.fst = cellGroundTileMap.map Prod.fst ∧
    List.Forall₂ (fun e e' => e'.1 = e.1 ∧
        (e'.2 = e.2 ∨
          e'.2 = { type := GroundTile.TileType.water,
                   coords := [⟨0, GroundTile.Coord.CELL_MAX, false⟩,
                              ⟨GroundTile.Coord.CELL_MAX, GroundTile.Coord.CELL_MAX, false⟩,
                              ⟨GroundTile.Coord.CELL_MAX, 0, false⟩, ⟨0, 0, false⟩] } :: e.2))
      cellGroundTileMap
      (FillWaterAroundIsland coordEq isAreaAtLeastPartlyInArea lt stateMap cellGroundTileMap
        boundingPolygons).2 := by
  refine ⟨rfl, ?_, ?_⟩
  · exact (FillWaterAroundIsland_foldl_other coordEq isAreaAtLeastPartlyInArea lt stateMap
      boundingPolygons ⟨0, 0⟩ _ cellGroundTileMap (fun c hc => hc)).1
  · apply FillWaterAroundIsland_foldl_rel coordEq isAreaAtLeastPartlyInArea lt stateMap
      boundingPolygons _ (FillWaterAroundIsland_tile_eq stateMap) cellGroundTileMap _ []
      cellGroundTileMap hn (fun _ _ h => by simp at h) (fun c hc => hc)
    exact List.forall₂_same.mpr (fun e _ => ⟨rfl, Or.inl rfl⟩)

/-- Example for C25: the cell of an island with water on its left gets the water tile in
front of the tile of the island. -/
theorem FillWaterAroundIsland_frame_witness :
    FillWaterAroundIsland GroundTile.Coord.eq (fun _ _ => false) pixelLt oneWaterMap
        [(⟨1, 0⟩, [islandTile])] [] =
      (oneWaterMap, [(⟨1, 0⟩, [cellWaterTile, islandTile])]) ∧
    (FillWaterAroundIsland GroundTile.Coord.eq (fun _ _ => false) pixelLt oneWaterMap
      [(⟨1, 0⟩, [islandTile])] []).2.map Prod.fst = [⟨1, 0⟩] :=
  ⟨by decide!,
    (FillWaterAroundIsland_frame GroundTile.Coord.eq (fun _ _ => false) pixelLt oneWaterMap
      [(⟨1, 0⟩, [islandTile])] [] (by decide)).2.1⟩

/-- C26 (amended): `FillWaterAroundIsland` puts the water tile in front of the list of a cell
exactly when, in the map as the passes for the cells before it left it, none of the four
corner coordinates occurs in a tile of the cell, the cell lies in a bounding polygon and at
least one of the four tests of the neighbours finds water: the cell below (only if `y>0`),
the cell above, the cell on the left (only if `x>0`) or the cell on the right.  One
neighbour with water is enough; the list of the cell is unchanged if no test finds water. -/
theorem FillWaterAroundIsland_condition
    (coordEq : GroundTile.Coord → GroundTile.Coord → Bool)
    (isAreaAtLeastPartlyInArea : List GeoCoord → List Point → Bool)
    (lt : Pixel → Pixel → Bool) (stateMap : StateMap)
    (cellGroundTileMap : List (Pixel × List GroundTile)) (boundingPolygons : List Coast)
    (hn : (cellGroundTileMap.map Prod.fst).Nodup) (i : Nat) (coord : Pixel)
    (hi : (cellGroundTileMap.map Prod.fst)[i]? = some coord) :
    getList (((cellGroundTileMap.map Prod.fst).take i).foldl
      (FillWaterAroundIsland.cell coordEq isAreaAtLeastPartlyInArea lt stateMap
        boundingPolygons) cellGroundTileMap) coord = getList cellGroundTileMap coord ∧
    (FillWaterAroundIsland.fills coordEq isAreaAtLeastPartlyInArea stateMap boundingPolygons
        (((cellGroundTileMap.map Prod.fst).take i).foldl
          (FillWaterAroundIsland.cell coordEq isAreaAtLeastPartlyInArea lt stateMap
            boundingPolygons) cellGroundTileMap) coord →
      getList (FillWaterAroundIsland coordEq isAreaAtLeastPartlyInArea lt stateMap
          cellGroundTileMap boundingPolygons).2 coord =
        { type := GroundTile.TileType.water,
          coords := [⟨0, GroundTile.Coord.CELL_MAX, false⟩,
                     ⟨GroundTile.Coord.CELL_MAX, GroundTile.Coord.CELL_MAX, false⟩,
                     ⟨GroundTile.Coord.CELL_MAX, 0, false⟩, ⟨0, 0, false⟩] } ::
          getList cellGroundTileMap coord) ∧
    (¬ FillWaterAroundIsland.fills coordEq isAreaAtLeastPartlyInArea stateMap
        boundingPolygons
        (((cellGroundTileMap.map Prod.fst).take i).foldl
          (FillWaterAroundIsland.cell coordEq isAreaAtLeastPartlyInArea lt stateMap
            boundingPolygons) cellGroundTileMap) coord →
      getList (FillWaterAroundIsland coordEq isAreaAtLeastPartlyInArea lt stateMap
          cellGroundTileMap boundingPolygons).2 coord =
        getList cellGroundTileMap coord) := by
  obtain ⟨hlt, hget⟩ := List.getElem?_eq_some.mp hi
  have hsplit : cellGroundTileMap.map Prod.fst =
      (cellGroundTileMap.map Prod.fst).take i ++
        coord :: (cellGroundTileMap.map Prod.fst).drop (i + 1) := by
    conv_lhs => rw [← List.take_append_drop i (cellGroundTileMap.map Prod.fst)]
    rw [List.drop_eq_getElem_cons hlt, hget]
  have hn2 := hn
  rw [hsplit, List.nodup_middle, List.nodup_cons, List.mem_append, not_or] at hn2
  obtain ⟨⟨hnl, hnr⟩, _⟩ := hn2
  have hL := FillWaterAroundIsland_foldl_other coordEq isAreaAtLeastPartlyInArea lt stateMap
    boundingPolygons coord ((cellGroundTileMap.map Prod.fst).take i) cellGroundTileMap
    (fun c hc => List.mem_of_mem_take hc)
  have hcoord : coord ∈ cellGroundTileMap.map Prod.fst := by
    rw [← hget]; exact List.getElem_mem _
  have hR := fun m (hm : m.map Prod.fst = cellGroundTileMap.map Prod.fst) =>
    (FillWaterAroundIsland_foldl_other coordEq isAreaAtLeastPartlyInArea lt stateMap
      boundingPolygons coord ((cellGroundTileMap.map Prod.fst).drop (i + 1)) m
      (fun c hc => by rw [hm]; exact List.mem_of_mem_drop hc)).2 hnr
  have hres : (FillWaterAroundIsland coordEq isAreaAtLeastPartlyInArea lt stateMap
      cellGroundTileMap boundingPolygons).2 =
      ((cellGroundTileMap.map Prod.fst).drop (i + 1)).foldl
        (FillWaterAroundIsland.cell coordEq isAreaAtLeastPartlyInArea lt stateMap
          boundingPolygons)
        (FillWaterAroundIsland.cell coordEq isAreaAtLeastPartlyInArea lt stateMap
          boundingPolygons
          (((cellGroundTileMap.map Prod.fst).take i).foldl
            (FillWaterAroundIsland.cell coordEq isAreaAtLeastPartlyInArea lt stateMap
              boundingPolygons) cellGroundTileMap) coord) := by
    unfold FillWaterAroundIsland
    simp only []
    conv_lhs => rw [hsplit]
    rw [List.foldl_append, List.foldl_cons]
  have hbefore : coord ∈ (((cellGroundTileMap.map Prod.fst).take i).foldl
      (FillWaterAroundIsland.cell coordEq isAreaAtLeastPartlyInArea lt stateMap
        boundingPolygons) cellGroundTileMap).map Prod.fst := by
    rw [hL.1]; exact hcoord
  have hkeys1 := FillWaterAroundIsland_cell_keys coordEq isAreaAtLeastPartlyInArea lt
    stateMap boundingPolygons _ coord hbefore
  refine ⟨hL.2 hnl, fun hf => ?_, fun hf => ?_⟩
  · rw [hres, hR _ (by rw [hkeys1, hL.1]),
      (FillWaterAroundIsland_cell_eq coordEq isAreaAtLeastPartlyInArea lt stateMap
        boundingPolygons _ coord).1 hf,
      getList_pushFrontAt lt _ coord coord _ hbefore, if_pos rfl, hL.2 hnl]
    rfl
  · rw [hres, hR _ (by rw [hkeys1, hL.1]),
      (FillWaterAroundIsland_cell_eq coordEq isAreaAtLeastPartlyInArea lt stateMap
        boundingPolygons _ coord).2 hf, hL.2 hnl]

/-- Counterexample to C26: of the four neighbours of the cell `(1,0)` only the left one
contains water: the neighbours `(2,0)` and `(1,1)` are `land` without tiles and there is no
cell `(1,-1)`.  `FillWaterAroundIsland` puts the water tile in front of the list of the
cell. -/
theorem FillWaterAroundIsland_condition_counterexample :
    oneWaterMap.GetState 0 0 = State.water ∧
    oneWaterMap.GetState 2 0 = State.land ∧
    oneWaterMap.GetState 1 1 = State.land ∧
    (∀ c1 ∈ (CellBoundaries.make oneWaterMap ⟨1, 0⟩).borderCoords,
      ∀ c2 ∈ (CellBoundaries.make oneWaterMap ⟨1, 0⟩).borderCoords,
        ContainsWater GroundTile.Coord.eq ⟨2, 0⟩ oneWaterMap [(⟨1, 0⟩, [islandTile])] c1 c2 =
          false ∧
        ContainsWater GroundTile.Coord.eq ⟨1, 1⟩ oneWaterMap [(⟨1, 0⟩, [islandTile])] c1 c2 =
          false) ∧
    FillWaterAroundIsland GroundTile.Coord.eq (fun _ _ => false) pixelLt oneWaterMap
        [(⟨1, 0⟩, [islandTile])] [] =
      (oneWaterMap, [(⟨1, 0⟩, [cellWaterTile, islandTile])]) := by
  decide!

/-- Example for C26: the cell of an island with water on its left. -/
theorem FillWaterAroundIsland_condition_witness :
    getList (FillWaterAroundIsland GroundTile.Coord.eq (fun _ _ => false) pixelLt
        oneWaterMap [(⟨1, 0⟩, [islandTile])] []).2 ⟨1, 0⟩ =
      { type := GroundTile.TileType.water,
        coords := [⟨0, GroundTile.Coord.CELL_MAX, false⟩,
                   ⟨GroundTile.Coord.CELL_MAX, GroundTile.Coord.CELL_MAX, false⟩,
                   ⟨GroundTile.Coord.CELL_MAX, 0, false⟩, ⟨0, 0, false⟩] } ::
        getList [(⟨1, 0⟩, [islandTile])] ⟨1, 0⟩ :=
  (FillWaterAroundIsland_condition GroundTile.Coord.eq (fun _ _ => false) pixelLt oneWaterMap
    [(⟨1, 0⟩, [islandTile])] [] (by decide) 0 ⟨1, 0⟩ (by decide)).2.1
    (by unfold FillWaterAroundIsland.fills; decide!)

/-- C27 (the code at the failing input): `FillWaterAroundIsland` and a neighbour to the
left.  With a water tile of
the neighbour `(0,0)` that has the two ends of the shared border as coordinates, and no water
elsewhere, the cell `(1,0)` is left as it is; with a water tile of the neighbour that has the
two ends of the border across from the shared one, the cell gets the water tile.  The test
of the left neighbour looks for `borderCoords[0]` and `borderCoords[3]`, the ends of the left
border of the neighbour. -/
theorem FillWaterAroundIsland_left_neighbour :
    sharedBorderTile.type = GroundTile.TileType.water ∧
    (⟨GroundTile.Coord.CELL_MAX, 0, false⟩ : GroundTile.Coord) ∈ sharedBorderTile.coords ∧
    (⟨GroundTile.Coord.CELL_MAX, GroundTile.Coord.CELL_MAX, false⟩ : GroundTile.Coord) ∈
      sharedBorderTile.coords ∧
    ContainsWater GroundTile.Coord.eq ⟨0, 0⟩ coastRowMap
      [(⟨0, 0⟩, [sharedBorderTile]), (⟨1, 0⟩, [islandTile])]
      ⟨GroundTile.Coord.CELL_MAX, GroundTile.Coord.CELL_MAX, false⟩
      ⟨GroundTile.Coord.CELL_MAX, 0, false⟩ = true ∧
    FillWaterAroundIsland GroundTile.Coord.eq (fun _ _ => false) pixelLt coastRowMap
        [(⟨0, 0⟩, [sharedBorderTile]), (⟨1, 0⟩, [islandTile])] [] =
      (coastRowMap, [(⟨0, 0⟩, [sharedBorderTile]), (⟨1, 0⟩, [islandTile])]) ∧
    FillWaterAroundIsland GroundTile.Coord.eq (fun _ _ => false) pixelLt coastRowMap
        [(⟨0, 0⟩, [farBorderTile]), (⟨1, 0⟩, [islandTile])] [] =
      (coastRowMap, [(⟨0, 0⟩, [farBorderTile]), (⟨1, 0⟩, [cellWaterTile, islandTile])]) := by
  decide!

/-! ### FindSiblingIntersection -/

/-- A loop that keeps the first best element among the elements with `sat`. -/
theorem foldl_pick {α : Type} (sat : α → Prop) [DecidablePred sat] (better : α → α → Prop)
    [DecidableRel better]
    (h1 : ∀ a x c, better a x → better x c → better a c)
    (h2 : ∀ a x c, better a x → ¬ better c x → better a c) (l : List α) :
    (l.foldl (FindSiblingIntersection.step sat better) none = none ↔ ∀ c ∈ l, ¬ sat c) ∧
    ∀ x, l.foldl (FindSiblingIntersection.step sat better) none = some x →
      ∃ l1 l2, l = l1 ++ x :: l2 ∧ sat x ∧ (∀ c ∈ l1, sat c → better x c) ∧
        (∀ c ∈ l2, sat c → ¬ better c x) := by
  induction l using List.reverseRecOn with
  | nil => exact ⟨by simp, fun x h => by simp at h⟩
  | append_singleton l a ih =>
    rw [List.foldl_append, List.foldl_cons, List.foldl_nil]
    obtain ⟨ihn, ihs⟩ := ih
    by_cases hs : sat a
    · cases hres : l.foldl (FindSiblingIntersection.step sat better) none with
      | none =>
        have hstep : FindSiblingIntersection.step sat better none a = some a := by
          simp only [FindSiblingIntersection.step, if_pos hs]
        rw [hstep]
        refine ⟨⟨fun h => by simp at h, fun h => absurd hs (h a (by simp))⟩, fun x hx => ?_⟩
        simp only [Option.some.injEq] at hx
        subst hx
        exact ⟨l, [], rfl, hs, fun c hc hsc => absurd hsc (ihn.mp hres c hc),
          fun c hc => by simp at hc⟩
      | some r =>
        have hstep : FindSiblingIntersection.step sat better (some r) a =
            if better a r then some a else some r := by
          simp only [FindSiblingIntersection.step, if_pos hs]
        rw [hstep]
        obtain ⟨l1, l2, hl, hsr, hb1, hb2⟩ := ihs r hres
        refine ⟨⟨fun h => by split_ifs at h, fun h => absurd hs (h a (by simp))⟩,
          fun x hx => ?_⟩
        by_cases hb : better a r
        · rw [if_pos hb] at hx
          simp only [Option.some.injEq] at hx
          subst hx
          refine ⟨l, [], rfl, hs, fun c hc hsc => ?_, fun c hc => by simp at hc⟩
          rw [hl, List.mem_append, List.mem_cons] at hc
          rcases hc with hc | rfl | hc
          · exact h1 _ _ _ hb (hb1 c hc hsc)
          · exact hb
          · exact h2 _ _ _ hb (hb2 c hc hsc)
        · rw [if_neg hb] at hx
          simp only [Option.some.injEq] at hx
          subst hx
          refine ⟨l1, l2 ++ [a], by rw [hl]; simp, hsr, hb1, fun c hc hsc => ?_⟩
          rw [List.mem_append, List.mem_singleton] at hc
          rcases hc with hc | rfl
          · exact hb2 c hc hsc
          · exact hb
    · have hstep : ∀ res, FindSiblingIntersection.step sat better res a = res := by
        intro res
        simp only [FindSiblingIntersection.step, if_neg hs]
      rw [hstep]
      refine ⟨⟨fun h c hc => ?_, fun h => ihn.mpr (fun c hc => h c (by simp [hc]))⟩,
        fun x hx => ?_⟩
      · rw [List.mem_append, List.mem_singleton] at hc
        rcases hc with hc | rfl
        · exact ihn.mp h c hc
        · exact hs
      · obtain ⟨l1, l2, hl, hsr, hb1, hb2⟩ := ihs x hx
        refine ⟨l1, l2 ++ [a], by rw [hl]; simp, hsr, hb1, fun c hc hsc => ?_⟩
        rw [List.mem_append, List.mem_singleton] at hc
        rcases hc with hc | rfl
        · exact hb2 c hc hsc
        · exact absurd hsc hs

theorem FindSiblingIntersection_eq (intersection : Intersection)
    (intersectionsCW : List IntersectionRef) (isArea : Bool) :
    FindSiblingIntersection intersection intersectionsCW isArea =
      if (FindSiblingIntersection.pass intersection true
          (FindSiblingIntersection.candidates intersection intersectionsCW) none).isSome ∨
          ¬ isArea then
        FindSiblingIntersection.pass intersection true
          (FindSiblingIntersection.candidates intersection intersectionsCW) none
      else
        FindSiblingIntersection.pass intersection false
          (FindSiblingIntersection.candidates intersection intersectionsCW)
          (FindSiblingIntersection.pass intersection true
            (FindSiblingIntersection.candidates intersection intersectionsCW) none) := rfl

theorem pass_in_first (intersection : Intersection) (l : List IntersectionRef)
    (h : intersection.direction = Direction.in_) :
    FindSiblingIntersection.pass intersection true l none =
      l.foldl (FindSiblingIntersection.step
        (fun i : IntersectionRef => intersection.prevWayPointIndex ≤ i.obj.prevWayPointIndex)
        (fun i r : IntersectionRef => i.obj.prevWayPointIndex < r.obj.prevWayPointIndex)) none := by
  unfold FindSiblingIntersection.pass
  congr 1
  funext result i
  cases result <;> simp [FindSiblingIntersection.step, h]

theorem pass_in_second (intersection : Intersection) (l : List IntersectionRef)
    (h : intersection.direction = Direction.in_) :
    FindSiblingIntersection.pass intersection false l none =
      l.foldl (FindSiblingIntersection.step
        (fun i : IntersectionRef => i.obj.prevWayPointIndex ≤ intersection.prevWayPointIndex)
        (fun i r : IntersectionRef => i.obj.prevWayPointIndex < r.obj.prevWayPointIndex)) none := by
  unfold FindSiblingIntersection.pass
  congr 1
  funext result i
  cases result <;> simp [FindSiblingIntersection.step, h]

theorem pass_out_first (intersection : Intersection) (l : List IntersectionRef)
    (h : intersection.direction ≠ Direction.in_) :
    FindSiblingIntersection.pass intersection true l none =
      l.foldl (FindSiblingIntersection.step
        (fun i : IntersectionRef => i.obj.prevWayPointIndex ≤ intersection.prevWayPointIndex)
        (fun i r : IntersectionRef => r.obj.prevWayPointIndex < i.obj.prevWayPointIndex)) none := by
  unfold FindSiblingIntersection.pass
  congr 1
  funext result i
  cases result <;> simp [FindSiblingIntersection.step, h]

theorem pass_out_second (intersection : Intersection) (l : List IntersectionRef)
    (h : intersection.direction ≠ Direction.in_) :
    FindSiblingIntersection.pass intersection false l none =
      l.foldl (FindSiblingIntersection.step
        (fun i : IntersectionRef => intersection.prevWayPointIndex ≤ i.obj.prevWayPointIndex)
        (fun i r : IntersectionRef => r.obj.prevWayPointIndex < i.obj.prevWayPointIndex)) none := by
  unfold FindSiblingIntersection.pass
  congr 1
  funext result i
  cases result <;> simp [FindSiblingIntersection.step, h]

theorem FindSiblingIntersection_in (intersection : Intersection)
    (intersectionsCW : List IntersectionRef) (isArea : Bool)
    (h : intersection.direction = Direction.in_) :
    (FindSiblingIntersection intersection intersectionsCW isArea = none ↔
      (∀ c ∈ FindSiblingIntersection.candidates intersection intersectionsCW,
        c.obj.prevWayPointIndex < intersection.prevWayPointIndex) ∧
      (isArea = false ∨ FindSiblingIntersection.candidates intersection intersectionsCW = [])) ∧
    ∀ x, FindSiblingIntersection intersection intersectionsCW isArea = some x →
      ∃ l1 l2, FindSiblingIntersection.candidates intersection intersectionsCW =
          l1 ++ x :: l2 ∧
        ((intersection.prevWayPointIndex ≤ x.obj.prevWayPointIndex ∧
          (∀ c ∈ l1, intersection.prevWayPointIndex ≤ c.obj.prevWayPointIndex →
            x.obj.prevWayPointIndex < c.obj.prevWayPointIndex) ∧
          (∀ c ∈ l2, intersection.prevWayPointIndex ≤ c.obj.prevWayPointIndex →
            x.obj.prevWayPointIndex ≤ c.obj.prevWayPointIndex)) ∨
         (isArea = true ∧
          (∀ c ∈ FindSiblingIntersection.candidates intersection intersectionsCW,
            c.obj.prevWayPointIndex < intersection.prevWayPointIndex) ∧
          (∀ c ∈ l1, x.obj.prevWayPointIndex < c.obj.prevWayPointIndex) ∧
          (∀ c ∈ l2, x.obj.prevWayPointIndex ≤ c.obj.prevWayPointIndex))) := by
  rw [FindSiblingIntersection_eq]
  have hf := foldl_pick
    (fun i : IntersectionRef => intersection.prevWayPointIndex ≤ i.obj.prevWayPointIndex)
    (fun i r : IntersectionRef => i.obj.prevWayPointIndex < r.obj.prevWayPointIndex)
    (fun a x c h1 h2 => lt_trans h1 h2) (fun a x c h1 h2 => by simp only [] at *; omega)
    (FindSiblingIntersection.candidates intersection intersectionsCW)
  have hs := foldl_pick
    (fun i : IntersectionRef => i.obj.prevWayPointIndex ≤ intersection.prevWayPointIndex)
    (fun i r : IntersectionRef => i.obj.prevWayPointIndex < r.obj.prevWayPointIndex)
    (fun a x c h1 h2 => lt_trans h1 h2) (fun a x c h1 h2 => by simp only [] at *; omega)
    (FindSiblingIntersection.candidates intersection intersectionsCW)
  rw [← pass_in_first intersection _ h] at hf
  rw [← pass_in_second intersection _ h] at hs
  cases hfirst : FindSiblingIntersection.pass intersection true
      (FindSiblingIntersection.candidates intersection intersectionsCW) none with
  | some r =>
    have hcond : (some r).isSome = true ∨ ¬ isArea = true := Or.inl rfl
    simp only [if_pos hcond]
    obtain ⟨l1, l2, hl, hsat, hb1, hb2⟩ := hf.2 r hfirst
    refine ⟨⟨fun hn => by simp at hn, fun hn => ?_⟩, fun x hx => ?_⟩
    · have hlt := hn.1 r (by rw [hl]; simp)
      have hsat' := hsat
      simp only [] at hsat'
      omega
    · simp only [Option.some.injEq] at hx
      subst hx
      exact ⟨l1, l2, hl, Or.inl ⟨hsat, hb1, fun c hc hc' => Nat.le_of_not_lt (hb2 c hc hc')⟩⟩
  | none =>
    have hall : ∀ c ∈ FindSiblingIntersection.candidates intersection intersectionsCW,
        c.obj.prevWayPointIndex < intersection.prevWayPointIndex :=
      fun c hc => Nat.lt_of_not_le (hf.1.mp hfirst c hc)
    cases isArea with
    | false =>
      have hcond : (none : Option IntersectionRef).isSome = true ∨ ¬ false = true :=
        Or.inr (by simp)
      simp only [if_pos hcond]
      exact ⟨⟨fun _ => ⟨hall, Or.inl (by first | rfl | trivial)⟩,
        fun _ => by first | rfl | trivial⟩, fun x hx => by simp at hx⟩
    | true =>
      have hcond : ¬ ((none : Option IntersectionRef).isSome = true ∨ ¬ true = true) := by
        simp
      simp only [if_neg hcond]
      refine ⟨⟨fun hn => ⟨hall, Or.inr ?_⟩, fun hn => ?_⟩, fun x hx => ?_⟩
      · have hno := hs.1.mp hn
        cases hc : FindSiblingIntersection.candidates intersection intersectionsCW with
        | nil => rfl
        | cons c rest =>
          exfalso
          have hmem : c ∈ FindSiblingIntersection.candidates intersection intersectionsCW := by
            rw [hc]; simp
          exact hno c hmem (le_of_lt (hall c hmem))
      · rcases hn.2 with h' | h'
        · simp at h'
        · rw [h']; rfl
      · obtain ⟨l1, l2, hl, hsat, hb1, hb2⟩ := hs.2 x hx
        refine ⟨l1, l2, hl, Or.inr ⟨by first | rfl | trivial, hall, fun c hc => ?_,
          fun c hc => ?_⟩⟩
        · exact hb1 c hc (le_of_lt (hall c (by rw [hl]; simp [hc])))
        · exact Nat.le_of_not_lt (hb2 c hc (le_of_lt (hall c (by rw [hl]; simp [hc]))))

theorem FindSiblingIntersection_out (intersection : Intersection)
    (intersectionsCW : List IntersectionRef) (isArea : Bool)
    (h : intersection.direction ≠ Direction.in_) :
    (FindSiblingIntersection intersection intersectionsCW isArea = none ↔
      (∀ c ∈ FindSiblingIntersection.candidates intersection intersectionsCW,
        intersection.prevWayPointIndex < c.obj.prevWayPointIndex) ∧
      (isArea = false ∨ FindSiblingIntersection.candidates intersection intersectionsCW = [])) ∧
    ∀ x, FindSiblingIntersection intersection intersectionsCW isArea = some x →
      ∃ l1 l2, FindSiblingIntersection.candidates intersection intersectionsCW =
          l1 ++ x :: l2 ∧
        ((x.obj.prevWayPointIndex ≤ intersection.prevWayPointIndex ∧
          (∀ c ∈ l1, c.obj.prevWayPointIndex ≤ intersection.prevWayPointIndex →
            c.obj.prevWayPointIndex < x.obj.prevWayPointIndex) ∧
          (∀ c ∈ l2, c.obj.prevWayPointIndex ≤ intersection.prevWayPointIndex →
            c.obj.prevWayPointIndex ≤ x.obj.prevWayPointIndex)) ∨
         (isArea = true ∧
          (∀ c ∈ FindSiblingIntersection.candidates intersection intersectionsCW,
            intersection.prevWayPointIndex < c.obj.prevWayPointIndex) ∧
          (∀ c ∈ l1, c.obj.prevWayPointIndex < x.obj.prevWayPointIndex) ∧
          (∀ c ∈ l2, c.obj.prevWayPointIndex ≤ x.obj.prevWayPointIndex))) := by
  rw [FindSiblingIntersection_eq]
  have hf := foldl_pick
    (fun i : IntersectionRef => i.obj.prevWayPointIndex ≤ intersection.prevWayPointIndex)
    (fun i r : IntersectionRef => r.obj.prevWayPointIndex < i.obj.prevWayPointIndex)
    (fun a x c h1 h2 => lt_trans h2 h1) (fun a x c h1 h2 => by simp only [] at *; omega)
    (FindSiblingIntersection.candidates intersection intersectionsCW)
  have hs := foldl_pick
    (fun i : IntersectionRef => intersection.prevWayPointIndex ≤ i.obj.prevWayPointIndex)
    (fun i r : IntersectionRef => r.obj.prevWayPointIndex < i.obj.prevWayPointIndex)
    (fun a x c h1 h2 => lt_trans h2 h1) (fun a x c h1 h2 => by simp only [] at *; omega)
    (FindSiblingIntersection.candidates intersection intersectionsCW)
  rw [← pass_out_first intersection _ h] at hf
  rw [← pass_out_second intersection _ h] at hs
  cases hfirst : FindSiblingIntersection.pass intersection true
      (FindSiblingIntersection.candidates intersection intersectionsCW) none with
  | some r =>
    have hcond : (some r).isSome = true ∨ ¬ isArea = true := Or.inl rfl
    simp only [if_pos hcond]
    obtain ⟨l1, l2, hl, hsat, hb1, hb2⟩ := hf.2 r hfirst
    refine ⟨⟨fun hn => by simp at hn, fun hn => ?_⟩, fun x hx => ?_⟩
    · have hlt := hn.1 r (by rw [hl]; simp)
      have hsat' := hsat
      simp only [] at hsat'
      omega
    · simp only [Option.some.injEq] at hx
      subst hx
      exact ⟨l1, l2, hl, Or.inl ⟨hsat, hb1, fun c hc hc' => Nat.le_of_not_lt (hb2 c hc hc')⟩⟩
  | none =>
    have hall : ∀ c ∈ FindSiblingIntersection.candidates intersection intersectionsCW,
        intersection.prevWayPointIndex < c.obj.prevWayPointIndex :=
      fun c hc => Nat.lt_of_not_le (hf.1.mp hfirst c hc)
    cases isArea with
    | false =>
      have hcond : (none : Option IntersectionRef).isSome = true ∨ ¬ false = true :=
        Or.inr (by simp)
      simp only [if_pos hcond]
      exact ⟨⟨fun _ => ⟨hall, Or.inl (by first | rfl | trivial)⟩,
        fun _ => by first | rfl | trivial⟩, fun x hx => by simp at hx⟩
    | true =>
      have hcond : ¬ ((none : Option IntersectionRef).isSome = true ∨ ¬ true = true) := by
        simp
      simp only [if_neg hcond]
      refine ⟨⟨fun hn => ⟨hall, Or.inr ?_⟩, fun hn => ?_⟩, fun x hx => ?_⟩
      · have hno := hs.1.mp hn
        cases hc : FindSiblingIntersection.candidates intersection intersectionsCW with
        | nil => rfl
        | cons c rest =>
          exfalso
          have hmem : c ∈ FindSiblingIntersection.candidates intersection intersectionsCW := by
            rw [hc]; simp
          exact hno c hmem (le_of_lt (hall c hmem))
      · rcases hn.2 with h' | h'
        · simp at h'
        · rw [h']; rfl
      · obtain ⟨l1, l2, hl, hsat, hb1, hb2⟩ := hs.2 x hx
        refine ⟨l1, l2, hl, Or.inr ⟨by first | rfl | trivial, hall, fun c hc => ?_,
          fun c hc => ?_⟩⟩
        · exact hb1 c hc (le_of_lt (hall c (by rw [hl]; simp [hc])))
        · exact Nat.le_of_not_lt (hb2 c hc (le_of_lt (hall c (by rw [hl]; simp [hc]))))

/-- C30 (amended): the candidates of `FindSiblingIntersection` are the intersections of
`intersectionsCW` with the coastline of the given intersection and the direction of the
search, `out` for a given `in` and `in` for every other direction.  For a given `in` the
result is the first candidate, in the order of `intersectionsCW`, with the smallest
`prevWayPointIndex` among the candidates whose `prevWayPointIndex` is not below the one of the
given intersection; `distanceSquare` is not compared.  If there is no such candidate the
result is null for a way, and for an area it is the first candidate with the smallest
`prevWayPointIndex` of all, which lies below the one of the given intersection (the search
wraps around).  For every other direction the same holds with the largest
`prevWayPointIndex` not above the one of the given intersection, and for an area without such
a candidate with the largest one of all. -/
theorem FindSiblingIntersection_nearest (intersection : Intersection)
    (intersectionsCW : List IntersectionRef) (isArea : Bool) :
    (∀ c, c ∈ FindSiblingIntersection.candidates intersection intersectionsCW ↔
      c ∈ intersectionsCW ∧ intersection.coastline = c.obj.coastline ∧
      c.obj.direction =
        (if intersection.direction = Direction.in_ then Direction.out else Direction.in_)) ∧
    (intersection.direction = Direction.in_ →
      (FindSiblingIntersection intersection intersectionsCW isArea = none ↔
        (∀ c ∈ FindSiblingIntersection.candidates intersection intersectionsCW,
          c.obj.prevWayPointIndex < intersection.prevWayPointIndex) ∧
        (isArea = false ∨
          FindSiblingIntersection.candidates intersection intersectionsCW = [])) ∧
      ∀ x, FindSiblingIntersection intersection intersectionsCW isArea = some x →
        ∃ l1 l2, FindSiblingIntersection.candidates intersection intersectionsCW =
            l1 ++ x :: l2 ∧
          ((intersection.prevWayPointIndex ≤ x.obj.prevWayPointIndex ∧
            (∀ c ∈ l1, intersection.prevWayPointIndex ≤ c.obj.prevWayPointIndex →
              x.obj.prevWayPointIndex < c.obj.prevWayPointIndex) ∧
            (∀ c ∈ l2, intersection.prevWayPointIndex ≤ c.obj.prevWayPointIndex →
              x.obj.prevWayPointIndex ≤ c.obj.prevWayPointIndex)) ∨
           (isArea = true ∧
            (∀ c ∈ FindSiblingIntersection.candidates intersection intersectionsCW,
              c.obj.prevWayPointIndex < intersection.prevWayPointIndex) ∧
            (∀ c ∈ l1, x.obj.prevWayPointIndex < c.obj.prevWayPointIndex) ∧
            (∀ c ∈ l2, x.obj.prevWayPointIndex ≤ c.obj.prevWayPointIndex)))) ∧
    (intersection.direction ≠ Direction.in_ →
      (FindSiblingIntersection intersection intersectionsCW isArea = none ↔
        (∀ c ∈ FindSiblingIntersection.candidates intersection intersectionsCW,
          intersection.prevWayPointIndex < c.obj.prevWayPointIndex) ∧
        (isArea = false ∨
          FindSiblingIntersection.candidates intersection intersectionsCW = [])) ∧
      ∀ x, FindSiblingIntersection intersection intersectionsCW isArea = some x →
        ∃ l1 l2, FindSiblingIntersection.candidates intersection intersectionsCW =
            l1 ++ x :: l2 ∧
          ((x.obj.prevWayPointIndex ≤ intersection.prevWayPointIndex ∧
            (∀ c ∈ l1, c.obj.prevWayPointIndex ≤ intersection.prevWayPointIndex →
              c.obj.prevWayPointIndex < x.obj.prevWayPointIndex) ∧
            (∀ c ∈ l2, c.obj.prevWayPointIndex ≤ intersection.prevWayPointIndex →
              c.obj.prevWayPointIndex ≤ x.obj.prevWayPointIndex)) ∨
           (isArea = true ∧
            (∀ c ∈ FindSiblingIntersection.candidates intersection intersectionsCW,
              intersection.prevWayPointIndex < c.obj.prevWayPointIndex) ∧
            (∀ c ∈ l1, c.obj.prevWayPointIndex < x.obj.prevWayPointIndex) ∧
            (∀ c ∈ l2, c.obj.prevWayPointIndex ≤ x.obj.prevWayPointIndex)))) := by
  refine ⟨fun c => ?_, FindSiblingIntersection_in intersection intersectionsCW isArea,
    FindSiblingIntersection_out intersection intersectionsCW isArea⟩
  unfold FindSiblingIntersection.candidates
  simp only [List.mem_filter, decide_eq_true_eq]

/-- Counterexample to C30: the area coastline `ringPoints` leaves the cell `(0,0)` on its
segment `0` and comes back on its segment `2`.  For the intersection `ringIn` with the
direction `in` and `prevWayPointIndex=2`, `FindSiblingIntersection` returns the intersection
`ringOut` with `prevWayPointIndex=0`: the result has the smaller `prevWayPointIndex`, it does
not lie behind the given intersection in the sense of the claim. -/
theorem FindSiblingIntersection_nearest_counterexample :
    getList (GetCellIntersections pixelLt GetLineIntersection DistanceSquare smallMap
      ringPoints 0 [] 0).1 ⟨0, 0⟩ = [ringOut, ringIn] ∧
    ringIn.obj.direction = Direction.in_ ∧
    FindSiblingIntersection ringIn.obj [ringOut, ringIn] true = some ringOut ∧
    ringOut.obj.prevWayPointIndex < ringIn.obj.prevWayPointIndex := by
  decide!

/-- Example for C30: the two intersections of the straight way with the cell `(0,0)` are
siblings of each other. -/
theorem FindSiblingIntersection_nearest_witness :
    FindSiblingIntersection straightIn.obj [straightIn, straightOut] false =
      some straightOut ∧
    FindSiblingIntersection straightOut.obj [straightIn, straightOut] false =
      some straightIn ∧
    ∃ l1 l2, FindSiblingIntersection.candidates straightIn.obj [straightIn, straightOut] =
        l1 ++ straightOut :: l2 ∧
      ((straightIn.obj.prevWayPointIndex ≤ straightOut.obj.prevWayPointIndex ∧
        (∀ c ∈ l1, straightIn.obj.prevWayPointIndex ≤ c.obj.prevWayPointIndex →
          straightOut.obj.prevWayPointIndex < c.obj.prevWayPointIndex) ∧
        (∀ c ∈ l2, straightIn.obj.prevWayPointIndex ≤ c.obj.prevWayPointIndex →
          straightOut.obj.prevWayPointIndex ≤ c.obj.prevWayPointIndex)) ∨
       (false = true ∧
        (∀ c ∈ FindSiblingIntersection.candidates straightIn.obj [straightIn, straightOut],
          c.obj.prevWayPointIndex < straightIn.obj.prevWayPointIndex) ∧
        (∀ c ∈ l1, straightOut.obj.prevWayPointIndex < c.obj.prevWayPointIndex) ∧
        (∀ c ∈ l2, straightOut.obj.prevWayPointIndex ≤ c.obj.prevWayPointIndex))) :=
  ⟨by decide!, by decide!,
    ((FindSiblingIntersection_nearest straightIn.obj [straightIn, straightOut] false).2.1
      (by decide!)).2 straightOut (by decide!)⟩

/-! ### The counters of WalkBoundaryCW -/

theorem tripointsCounted_proj (stateMap : StateMap) (intersectionsCW : List IntersectionRef)
    (cellBoundaries : CellBoundaries) (data : Data) (containingPaths : List Nat)
    (coastline : CoastlineData) :
    ∀ (fuel step walks : Nat) (pathStart : Intersection) (g : GroundTile),
      (WalkBoundaryCW.tripointsCounted stateMap intersectionsCW cellBoundaries data
        containingPaths coastline fuel step walks pathStart g).map
          (fun r => r.1.map (fun p => (p.1, p.2, r.2.1))) =
        WalkBoundaryCW.tripoints stateMap intersectionsCW cellBoundaries data containingPaths
          coastline fuel step pathStart g := by
  intro fuel
  induction fuel with
  | zero => intro step walks ps g; rfl
  | succ fuel ih =>
    intro step walks ps g
    unfold WalkBoundaryCW.tripointsCounted WalkBoundaryCW.tripoints
    by_cases ha : coastline.isArea = true
    · rw [if_pos ha, if_pos ha]; rfl
    · rw [if_neg ha, if_neg ha]
      cases WalkFromTripoint g stateMap cellBoundaries ps none data intersectionsCW
          containingPaths with
      | none => rfl
      | some res =>
        cases res with
        | none => rfl
        | some r =>
          obtain ⟨g1, ps1, pe1⟩ := r
          simp only []
          by_cases hs : step + 1 > 1000
          · rw [if_pos hs, if_pos hs]; rfl
          · rw [if_neg hs, if_neg hs]
            cases pe1 with
            | some pe => rfl
            | none => exact ih (step + 1) (walks + 1) ps1 g1

theorem tripointsCounted_bound (stateMap : StateMap) (intersectionsCW : List IntersectionRef)
    (cellBoundaries : CellBoundaries) (data : Data) (containingPaths : List Nat)
    (coastline : CoastlineData) :
    ∀ (fuel step walks : Nat) (pathStart : Intersection) (g : GroundTile)
      (r : Option (GroundTile × IntersectionRef) × Nat × Nat),
      step ≤ 1000 →
      WalkBoundaryCW.tripointsCounted stateMap intersectionsCW cellBoundaries data
        containingPaths coastline fuel step walks pathStart g = some r →
      step ≤ r.2.1 ∧ r.2.1 ≤ 1001 ∧ r.2.2 + step = walks + r.2.1 ∧
        (r.1.isSome = true → r.2.1 ≤ 1000) := by
  intro fuel
  induction fuel with
  | zero => intro step walks ps g r _ h; simp [WalkBoundaryCW.tripointsCounted] at h
  | succ fuel ih =>
    intro step walks ps g r hstep h
    unfold WalkBoundaryCW.tripointsCounted at h
    by_cases ha : coastline.isArea = true
    · rw [if_pos ha] at h
      simp only [Option.some.injEq] at h
      subst h
      exact ⟨le_refl _, by simp only []; omega, rfl,
        fun hh => by simp at hh⟩
    · rw [if_neg ha] at h
      cases hw : WalkFromTripoint g stateMap cellBoundaries ps none data intersectionsCW
          containingPaths with
      | none => rw [hw] at h; simp at h
      | some res =>
        rw [hw] at h
        cases res with
        | none =>
          simp only [Option.some.injEq] at h
          subst h
          exact ⟨le_refl _, by simp only []; omega, rfl,
            fun hh => by simp at hh⟩
        | some r1 =>
          obtain ⟨g1, ps1, pe1⟩ := r1
          simp only [] at h
          by_cases hs : step + 1 > 1000
          · rw [if_pos hs] at h
            simp only [Option.some.injEq] at h
            subst h
            exact ⟨by simp only []; omega, by simp only []; omega, by simp only []; omega,
              fun hh => by simp at hh⟩
          · rw [if_neg hs] at h
            cases pe1 with
            | some pe =>
              simp only [Option.some.injEq] at h
              subst h
              exact ⟨by simp only []; omega, by simp only []; omega,
                by simp only []; omega, fun _ => by simp only []; omega⟩
            | none =>
              simp only [] at h
              obtain ⟨p1, p2, p3, p4⟩ := ih (step + 1) (walks + 1) ps1 g1 r (by omega) h
              exact ⟨by omega, p2, by omega, p4⟩

theorem pathCounted_proj (stateMap : StateMap) (intersectionsCW : List IntersectionRef)
    (cellBoundaries : CellBoundaries) (data : Data) (containingPaths : List Nat)
    (fuel step walks : Nat) (pathStart : IntersectionRef) (g : GroundTile) :
    (WalkBoundaryCW.pathCounted stateMap intersectionsCW cellBoundaries data containingPaths
      fuel step walks pathStart g).map (fun r => r.1.map (fun p => (p.1, p.2, r.2.1))) =
      WalkBoundaryCW.path stateMap intersectionsCW cellBoundaries data containingPaths fuel
        step pathStart g := by
  unfold WalkBoundaryCW.pathCounted WalkBoundaryCW.path
  simp only []
  cases FindSiblingIntersection pathStart.obj intersectionsCW
      (data.coastlines.getD pathStart.obj.coastline CoastlineData.none).isArea with
  | none =>
    simp only []
    cases WalkPath g stateMap cellBoundaries pathStart.obj _
        (data.coastlines.getD pathStart.obj.coastline CoastlineData.none) with
    | none => rfl
    | some g1 => exact tripointsCounted_proj _ _ _ _ _ _ _ _ _ _ _
  | some pathEnd =>
    simp only []
    cases WalkPath g stateMap cellBoundaries pathStart.obj pathEnd.obj
        (data.coastlines.getD pathStart.obj.coastline CoastlineData.none) with
    | none => rfl
    | some g1 => rfl

theorem pathCounted_bound (stateMap : StateMap) (intersectionsCW : List IntersectionRef)
    (cellBoundaries : CellBoundaries) (data : Data) (containingPaths : List Nat)
    (fuel step walks : Nat) (pathStart : IntersectionRef) (g : GroundTile)
    (r : Option (GroundTile × IntersectionRef) × Nat × Nat) (hstep : step ≤ 1000)
    (h : WalkBoundaryCW.pathCounted stateMap intersectionsCW cellBoundaries data
      containingPaths fuel step walks pathStart g = some r) :
    step ≤ r.2.1 ∧ r.2.1 ≤ 1001 ∧ r.2.2 + step = walks + 1 + r.2.1 ∧
      (r.1.isSome = true → r.2.1 ≤ 1000) := by
  unfold WalkBoundaryCW.pathCounted at h
  simp only [] at h
  cases hsib : FindSiblingIntersection pathStart.obj intersectionsCW
      (data.coastlines.getD pathStart.obj.coastline CoastlineData.none).isArea with
  | none =>
    rw [hsib] at h
    simp only [] at h
    cases hw : WalkPath g stateMap cellBoundaries pathStart.obj _
        (data.coastlines.getD pathStart.obj.coastline CoastlineData.none) with
    | none => rw [hw] at h; simp at h
    | some g1 =>
      rw [hw] at h
      simp only [] at h
      obtain ⟨p1, p2, p3, p4⟩ := tripointsCounted_bound _ _ _ _ _ _ _ _ _ _ _ r hstep h
      exact ⟨p1, p2, by omega, p4⟩
  | some pathEnd =>
    rw [hsib] at h
    simp only [] at h
    cases hw : WalkPath g stateMap cellBoundaries pathStart.obj pathEnd.obj
        (data.coastlines.getD pathStart.obj.coastline CoastlineData.none) with
    | none => rw [hw] at h; simp at h
    | some g1 =>
      rw [hw] at h
      simp only [Option.some.injEq] at h
      subst h
      exact ⟨le_refl _, by simp only []; omega, rfl,
        fun _ => by simp only []; omega⟩

theorem loopCounted_proj (stateMap : StateMap) (startIntersection : IntersectionRef)
    (intersectionsCW : List IntersectionRef) (cellBoundaries : CellBoundaries) (data : Data)
    (containingPaths : List Nat) :
    ∀ (fuel step walks : Nat) (pathStart : IntersectionRef) (g : GroundTile) (v : List Nat),
      (WalkBoundaryCW.loopCounted stateMap startIntersection intersectionsCW cellBoundaries
        data containingPaths fuel step walks pathStart g v).map
          (fun r => (r.1, r.2.1, r.2.2.1)) =
        WalkBoundaryCW.loop stateMap startIntersection intersectionsCW cellBoundaries data
          containingPaths fuel step pathStart g v := by
  intro fuel
  induction fuel with
  | zero => intro step walks ps g v; rfl
  | succ fuel ih =>
    intro step walks ps g v
    unfold WalkBoundaryCW.loopCounted WalkBoundaryCW.loop
    by_cases hc : step = 0 ∨ ps.addr ≠ startIntersection.addr
    · rw [if_pos hc, if_pos hc]
      simp only []
      rw [← pathCounted_proj stateMap intersectionsCW cellBoundaries data containingPaths
        fuel step walks ps g]
      cases WalkBoundaryCW.pathCounted stateMap intersectionsCW cellBoundaries data
          containingPaths fuel step walks ps g with
      | none => rfl
      | some r =>
        obtain ⟨res, step1, walks1⟩ := r
        cases res with
        | none => rfl
        | some p =>
          obtain ⟨g1, pe⟩ := p
          simp only [Option.map_some']
          by_cases hs : step1 + 1 > 1000
          · rw [if_pos hs, if_pos hs]; rfl
          · rw [if_neg hs, if_neg hs]
            cases GetNextCW intersectionsCW pe with
            | none => rfl
            | some next =>
              simp only []
              cases WalkBorderCW g1 stateMap cellBoundaries.latMin cellBoundaries.lonMin
                  pe.obj next.obj cellBoundaries.borderCoords with
              | none => rfl
              | some g2 => exact ih (step1 + 1) walks1 next g2 _
    · rw [if_neg hc, if_neg hc]; rfl

theorem loopCounted_bound (stateMap : StateMap) (startIntersection : IntersectionRef)
    (intersectionsCW : List IntersectionRef) (cellBoundaries : CellBoundaries) (data : Data)
    (containingPaths : List Nat) :
    ∀ (fuel step walks : Nat) (pathStart : IntersectionRef) (g : GroundTile) (v : List Nat)
      (r : Bool × GroundTile × List Nat × Nat × Nat),
      step ≤ 1000 → walks = step →
      WalkBoundaryCW.loopCounted stateMap startIntersection intersectionsCW cellBoundaries
        data containingPaths fuel step walks pathStart g v = some r →
      r.2.2.2.1 ≤ 1001 ∧ r.2.2.2.2 ≤ r.2.2.2.1 + 1 ∧
        (r.1 = true → r.2.2.2.2 = r.2.2.2.1 ∧ r.2.2.2.1 ≤ 1000) ∧
        (1000 < r.2.2.2.1 → r.1 = false) := by
  intro fuel
  induction fuel with
  | zero => intro step walks ps g v r _ _ h; simp [WalkBoundaryCW.loopCounted] at h
  | succ fuel ih =>
    intro step walks ps g v r hstep hwalks h
    unfold WalkBoundaryCW.loopCounted at h
    by_cases hc : step = 0 ∨ ps.addr ≠ startIntersection.addr
    · rw [if_pos hc] at h
      simp only [] at h
      cases hp : WalkBoundaryCW.pathCounted stateMap intersectionsCW cellBoundaries data
          containingPaths fuel step walks ps g with
      | none => rw [hp] at h; simp at h
      | some r1 =>
        obtain ⟨p1, p2, p3, p4⟩ := pathCounted_bound _ _ _ _ _ _ _ _ _ _ r1 hstep hp
        rw [hp] at h
        obtain ⟨res, step1, walks1⟩ := r1
        simp only [] at p1 p2 p3 p4
        cases res with
        | none =>
          simp only [Option.some.injEq] at h
          subst h
          exact ⟨p2, by simp only []; omega, fun hh => by simp at hh, fun _ => rfl⟩
        | some p =>
          obtain ⟨g1, pe⟩ := p
          have p4' := p4 rfl
          simp only [] at h
          by_cases hs : step1 + 1 > 1000
          · rw [if_pos hs] at h
            simp only [Option.some.injEq] at h
            subst h
            exact ⟨by simp only []; omega, by simp only []; omega,
              fun hh => by simp at hh, fun _ => rfl⟩
          · rw [if_neg hs] at h
            cases hn : GetNextCW intersectionsCW pe with
            | none => rw [hn] at h; simp at h
            | some next =>
              rw [hn] at h
              simp only [] at h
              cases hb : WalkBorderCW g1 stateMap cellBoundaries.latMin cellBoundaries.lonMin
                  pe.obj next.obj cellBoundaries.borderCoords with
              | none => rw [hb] at h; simp at h
              | some g2 =>
                rw [hb] at h
                simp only [] at h
                exact ih (step1 + 1) walks1 next g2 _ r (by omega) (by omega) h
    · rw [if_neg hc] at h
      simp only [Option.some.injEq] at h
      subst h
      exact ⟨by simp only []; omega, by simp only []; omega,
        fun _ => ⟨hwalks, hstep⟩, fun hh => by simp only [] at hh; omega⟩

/-- C29 (amended): on an input in which every coastline has fewer than `2^64-1` points and
every intersection of `intersectionsCW` has a `borderIndex` in `0..3` and a
`prevWayPointIndex` that is an index of the points of its coastline, `WalkBoundaryCW` from an
intersection of `intersectionsCW` returns.  The counter `step` is tested behind the walk of
the step: a call that returns `true` went at most 1000 walk steps, as many as it counted; a
call returns `false` when `step` is above 1000, and then it went 1001 walk steps, or 1002 if
the last pass walked to the end of a coastline and on from a tripoint. -/
theorem WalkBoundaryCW_step_cap (g : GroundTile) (stateMap : StateMap)
    (startIntersection : IntersectionRef) (intersectionsCW : List IntersectionRef)
    (v : List Nat) (cellBoundaries : CellBoundaries) (data : Data)
    (containingPaths : List Nat)
    (hwf : HandleCoastlineCell.WellFormed intersectionsCW data)
    (hs : startIntersection ∈ intersectionsCW) :
    ∃ result tile visited step walks,
      WalkBoundaryCW.counted g stateMap startIntersection intersectionsCW v cellBoundaries
        data containingPaths = some (result, tile, visited, step, walks) ∧
      WalkBoundaryCW g stateMap startIntersection intersectionsCW v cellBoundaries data
        containingPaths = some (result, tile, visited) ∧
      step ≤ 1001 ∧ walks ≤ step + 1 ∧
      (result = true → walks = step ∧ step ≤ 1000) ∧
      (1000 < step → result = false) := by
  have hproj := loopCounted_proj stateMap startIntersection intersectionsCW cellBoundaries
    data containingPaths 1002 0 0 startIntersection
    (g.push (Transform startIntersection.obj.point stateMap cellBoundaries.latMin
      cellBoundaries.lonMin false)) v
  have htotal := WalkBoundaryCW_total g stateMap startIntersection intersectionsCW v
    cellBoundaries data containingPaths hwf hs
  cases hc : WalkBoundaryCW.counted g stateMap startIntersection intersectionsCW v
      cellBoundaries data containingPaths with
  | none =>
    unfold WalkBoundaryCW.counted at hc
    rw [hc] at hproj
    unfold WalkBoundaryCW at htotal
    rw [← hproj] at htotal
    simp at htotal
  | some r =>
    obtain ⟨result, tile, visited, step, walks⟩ := r
    have hc' := hc
    unfold WalkBoundaryCW.counted at hc'
    rw [hc'] at hproj
    obtain ⟨b1, b2, b3, b4⟩ := loopCounted_bound stateMap startIntersection intersectionsCW
      cellBoundaries data containingPaths 1002 0 0 startIntersection _ v _ (by omega) rfl hc'
    exact ⟨result, tile, visited, step, walks, rfl, hproj.symm, b1, b2, b3, b4⟩

/-- Counterexample to C29: the walk from the first intersection of `circlingCW` goes from
the second pass on around the other four intersections and does not come back to its start.
Every `prevWayPointIndex` is an index of the points of its coastline and every `borderIndex`
is in `0..3`.  The call returns `false` with `step=1001` after 1001 walk steps, not after
1000. -/
theorem WalkBoundaryCW_step_cap_counterexample :
    (∀ r ∈ circlingCW, r.obj.borderIndex < 4 ∧
      r.obj.prevWayPointIndex <
        (circlingData.coastlines.getD r.obj.coastline CoastlineData.none).points.length) ∧
    (WalkBoundaryCW.counted { type := GroundTile.TileType.water, coords := [] } smallMap
      (circlingCW.getD 0 ⟨0, Intersection.zero⟩) circlingCW []
      (CellBoundaries.make smallMap ⟨0, 0⟩) circlingData []).map
        (fun r => (r.1, r.2.2.2)) = some (false, 1001, 1001) := by
  decide!

/-- Example for C29: the walk from the entry of the straight way returns `true` after one
walk step. -/
theorem WalkBoundaryCW_step_cap_witness :
    HandleCoastlineCell.WellFormed [straightIn, straightOut] straightData ∧
    (WalkBoundaryCW.counted { type := GroundTile.TileType.water, coords := [] } smallMap
      straightIn [straightIn, straightOut] [] (CellBoundaries.make smallMap ⟨0, 0⟩)
      straightData []).map (fun r => (r.1, r.2.2.2)) = some (true, 1, 1) ∧
    ∃ result tile visited step walks,
      WalkBoundaryCW.counted { type := GroundTile.TileType.water, coords := [] } smallMap
        straightIn [straightIn, straightOut] [] (CellBoundaries.make smallMap ⟨0, 0⟩)
        straightData [] = some (result, tile, visited, step, walks) ∧
      WalkBoundaryCW { type := GroundTile.TileType.water, coords := [] } smallMap
        straightIn [straightIn, straightOut] [] (CellBoundaries.make smallMap ⟨0, 0⟩)
        straightData [] = some (result, tile, visited) ∧
      step ≤ 1001 ∧ walks ≤ step + 1 ∧
      (result = true → walks = step ∧ step ≤ 1000) ∧
      (1000 < step → result = false) :=
  have hwf : HandleCoastlineCell.WellFormed [straightIn, straightOut] straightData := by
    unfold HandleCoastlineCell.WellFormed; decide!
  ⟨hwf, by decide!,
    WalkBoundaryCW_step_cap { type := GroundTile.TileType.water, coords := [] } smallMap
      straightIn [straightIn, straightOut] [] (CellBoundaries.make smallMap ⟨0, 0⟩)
      straightData [] hwf (by simp)⟩

/-! ### CalculateCoastlineData -/

theorem mem_pairs (n i j : Nat) :
    (i, j) ∈ CalculateCoastlineData.pairs n ↔ i < j ∧ j < n := by
  unfold CalculateCoastlineData.pairs
  simp only [List.mem_flatMap, List.mem_range, List.mem_map, List.mem_range', Prod.mk.injEq]
  constructor
  · rintro ⟨a, ha, b, ⟨k, hk, rfl⟩, rfl, rfl⟩
    omega
  · rintro ⟨h1, h2⟩
    exact ⟨i, by omega, j, ⟨j - (i + 1), by omega, by omega⟩, rfl, rfl⟩

theorem getD_none_eq {α : Type} (l : List (Option α)) (i : Nat) (a : α)
    (h : l[i]? = some (some a)) : l.getD i none = some a := by
  rw [List.getD_eq_getElem?_getD, h]
  rfl

theorem getD_none_some {α : Type} (l : List (Option α)) (i : Nat) (a : α)
    (h : l.getD i none = some a) : l[i]? = some (some a) := by
  rw [List.getD_eq_getElem?_getD] at h
  cases hl : l[i]? with
  | none => rw [hl] at h; simp at h
  | some x => rw [hl] at h; simp only [Option.getD_some] at h; rw [h]

/-- The passes of the filter: a pass leaves the vector, or it sets the area of a pair of an
area and a way with intersections to null. -/
theorem filterPair_cases
    (fpi : List GeoCoord → List GeoCoord → Bool → Bool → List PathIntersection)
    (tc : List (Option (CoastlineData × Coast))) (ij : Nat × Nat) :
    CalculateCoastlineData.filterPair fpi tc ij = tc ∨
    ∃ a b, tc[ij.1]? = some (some a) ∧ tc[ij.2]? = some (some b) ∧
      fpi a.1.points b.1.points a.1.isArea b.1.isArea ≠ [] ∧
      ((a.1.isArea = true ∧ b.1.isArea = false ∧
          CalculateCoastlineData.filterPair fpi tc ij = tc.set ij.1 none) ∨
       (a.1.isArea = false ∧ b.1.isArea = true ∧
          CalculateCoastlineData.filterPair fpi tc ij = tc.set ij.2 none)) := by
  unfold CalculateCoastlineData.filterPair
  cases ha : tc.getD ij.1 none with
  | none => exact Or.inl rfl
  | some a =>
    simp only []
    cases hb : tc.getD ij.2 none with
    | none => exact Or.inl rfl
    | some b =>
      simp only []
      by_cases h1 : a.1.isArea = b.1.isArea
      · rw [if_pos h1]; exact Or.inl rfl
      · rw [if_neg h1]
        by_cases h2 : fpi a.1.points b.1.points a.1.isArea b.1.isArea ≠ []
        · rw [if_pos h2]
          by_cases h3 : a.1.isArea = true ∧ b.1.isArea = false
          · rw [if_pos h3]
            exact Or.inr ⟨a, b, getD_none_some _ _ _ ha, getD_none_some _ _ _ hb, h2,
              Or.inl ⟨h3.1, h3.2, rfl⟩⟩
          · rw [if_neg h3]
            by_cases h4 : b.1.isArea = true ∧ a.1.isArea = false
            · rw [if_pos h4]
              exact Or.inr ⟨a, b, getD_none_some _ _ _ ha, getD_none_some _ _ _ hb, h2,
                Or.inr ⟨h4.2, h4.1, rfl⟩⟩
            · rw [if_neg h4]; exact Or.inl rfl
        · rw [if_neg h2]; exact Or.inl rfl

/-- A pass for a pair of an area and a way with intersections sets one of the two to null. -/
theorem filterPair_test
    (fpi : List GeoCoord → List GeoCoord → Bool → Bool → List PathIntersection)
    (tc : List (Option (CoastlineData × Coast))) (ij : Nat × Nat)
    (a b : CoastlineData × Coast)
    (ha : tc[ij.1]? = some (some a)) (hb : tc[ij.2]? = some (some b))
    (hne : a.1.isArea ≠ b.1.isArea)
    (hint : fpi a.1.points b.1.points a.1.isArea b.1.isArea ≠ []) :
    CalculateCoastlineData.filterPair fpi tc ij = tc.set ij.1 none ∨
    CalculateCoastlineData.filterPair fpi tc ij = tc.set ij.2 none := by
  unfold CalculateCoastlineData.filterPair
  rw [getD_none_eq _ _ _ ha]
  simp only []
  rw [getD_none_eq _ _ _ hb]
  simp only []
  rw [if_neg hne, if_pos hint]
  by_cases h3 : a.1.isArea = true ∧ b.1.isArea = false
  · rw [if_pos h3]; exact Or.inl rfl
  · rw [if_neg h3]
    have h4 : b.1.isArea = true ∧ a.1.isArea = false := by
      cases hA : a.1.isArea <;> cases hB : b.1.isArea <;> simp_all
    rw [if_pos h4]; exact Or.inr rfl

theorem filterPair_length
    (fpi : List GeoCoord → List GeoCoord → Bool → Bool → List PathIntersection)
    (tc : List (Option (CoastlineData × Coast))) (ij : Nat × Nat) :
    (CalculateCoastlineData.filterPair fpi tc ij).length = tc.length := by
  rcases filterPair_cases fpi tc ij with h | ⟨a, b, _, _, _, ⟨_, _, h⟩ | ⟨_, _, h⟩⟩ <;>
    rw [h] <;> simp

theorem getElem?_set_none {α : Type} (l : List (Option α)) (i k : Nat) (e : α)
    (h : (l.set i none)[k]? = some (some e)) : l[k]? = some (some e) := by
  rw [List.getElem?_set] at h
  by_cases hik : i = k
  · rw [if_pos hik] at h
    split_ifs at h
    simp at h
  · rw [if_neg hik] at h; exact h

theorem filterPair_keeps
    (fpi : List GeoCoord → List GeoCoord → Bool → Bool → List PathIntersection)
    (tc : List (Option (CoastlineData × Coast))) (ij : Nat × Nat) (k : Nat)
    (e : CoastlineData × Coast)
    (h : (CalculateCoastlineData.filterPair fpi tc ij)[k]? = some (some e)) :
    tc[k]? = some (some e) := by
  rcases filterPair_cases fpi tc ij with h' | ⟨a, b, _, _, _, ⟨_, _, h'⟩ | ⟨_, _, h'⟩⟩
  · rw [h'] at h; exact h
  · rw [h'] at h; exact getElem?_set_none _ _ _ _ h
  · rw [h'] at h; exact getElem?_set_none _ _ _ _ h

theorem filterPair_foldl_keeps
    (fpi : List GeoCoord → List GeoCoord → Bool → Bool → List PathIntersection)
    (ps : List (Nat × Nat)) :
    ∀ (tc : List (Option (CoastlineData × Coast))) (k : Nat) (e : CoastlineData × Coast),
      (ps.foldl (CalculateCoastlineData.filterPair fpi) tc)[k]? = some (some e) →
      tc[k]? = some (some e) := by
  induction ps with
  | nil => intro tc k e h; exact h
  | cons p ps ih =>
    intro tc k e h
    rw [List.foldl_cons] at h
    exact filterPair_keeps fpi tc p k e (ih _ k e h)

/-- Behind the passes for the pairs `ps`, an area and a way of a pair of `ps` that are both
left have no intersection. -/
theorem filterPair_foldl_good
    (fpi : List GeoCoord → List GeoCoord → Bool → Bool → List PathIntersection)
    (ps : List (Nat × Nat)) :
    ∀ (tc : List (Option (CoastlineData × Coast))) (ij : Nat × Nat), ij ∈ ps →
      ∀ a b : CoastlineData × Coast,
        (ps.foldl (CalculateCoastlineData.filterPair fpi) tc)[ij.1]? = some (some a) →
        (ps.foldl (CalculateCoastlineData.filterPair fpi) tc)[ij.2]? = some (some b) →
        a.1.isArea ≠ b.1.isArea →
        fpi a.1.points b.1.points a.1.isArea b.1.isArea = [] := by
  induction ps with
  | nil => intro tc ij h; simp at h
  | cons p ps ih =>
    intro tc ij hij a b ha hb hne
    rw [List.foldl_cons] at ha hb
    rw [List.mem_cons] at hij
    rcases hij with rfl | hij
    · have ha1 := filterPair_foldl_keeps fpi ps _ _ _ ha
      have hb1 := filterPair_foldl_keeps fpi ps _ _ _ hb
      have ha0 := filterPair_keeps fpi tc ij _ _ ha1
      have hb0 := filterPair_keeps fpi tc ij _ _ hb1
      by_contra hint
      rcases filterPair_test fpi tc ij a b ha0 hb0 hne hint with h | h
      · rw [h, List.getElem?_set, if_pos rfl] at ha1
        split_ifs at ha1
        simp at ha1
      · rw [h, List.getElem?_set, if_pos rfl] at hb1
        split_ifs at hb1
        simp at hb1
    · exact ih _ ij hij a b ha hb hne

theorem Filtered_refl
    (fpi : List GeoCoord → List GeoCoord → Bool → Bool → List PathIntersection)
    (tc : List (Option (CoastlineData × Coast))) :
    CalculateCoastlineData.Filtered fpi tc tc := ⟨rfl, fun _ => Or.inl rfl⟩

/-- A place that is not null behind the filter is as it was. -/
theorem Filtered_some
    (fpi : List GeoCoord → List GeoCoord → Bool → Bool → List PathIntersection)
    (tc0 tc : List (Option (CoastlineData × Coast)))
    (h : CalculateCoastlineData.Filtered fpi tc0 tc) (k : Nat) (e : CoastlineData × Coast)
    (hk : tc[k]? = some (some e)) : tc0[k]? = some (some e) := by
  rcases h.2 k with h1 | ⟨h1, _⟩
  · rw [← h1]; exact hk
  · rw [h1] at hk; simp at hk

theorem Filtered_set
    (fpi : List GeoCoord → List GeoCoord → Bool → Bool → List PathIntersection)
    (tc0 tc : List (Option (CoastlineData × Coast)))
    (h : CalculateCoastlineData.Filtered fpi tc0 tc) (i j : Nat)
    (a w : CoastlineData × Coast)
    (ha : tc[i]? = some (some a)) (hw : tc[j]? = some (some w))
    (haa : a.1.isArea = true) (hww : w.1.isArea = false)
    (hint : fpi a.1.points w.1.points true false ≠ [] ∨
      fpi w.1.points a.1.points false true ≠ []) :
    CalculateCoastlineData.Filtered fpi tc0 (tc.set i none) := by
  refine ⟨by rw [List.length_set]; exact h.1, fun k => ?_⟩
  by_cases hik : i = k
  · subst hik
    right
    refine ⟨?_, a, Filtered_some fpi tc0 tc h i a ha, haa, j, w,
      Filtered_some fpi tc0 tc h j w hw, hww, hint⟩
    rw [List.getElem?_set, if_pos rfl]
    have hlt : i < tc.length := by
      by_contra hn
      rw [List.getElem?_eq_none (by omega)] at ha
      simp at ha
    rw [if_pos hlt]
  · rw [List.getElem?_set, if_neg hik]
    exact h.2 k

theorem filterPair_Filtered
    (fpi : List GeoCoord → List GeoCoord → Bool → Bool → List PathIntersection)
    (tc0 tc : List (Option (CoastlineData × Coast)))
    (h : CalculateCoastlineData.Filtered fpi tc0 tc) (ij : Nat × Nat) :
    CalculateCoastlineData.Filtered fpi tc0 (CalculateCoastlineData.filterPair fpi tc ij) := by
  rcases filterPair_cases fpi tc ij with h' | ⟨a, b, ha, hb, hint, ⟨h1, h2, h'⟩ | ⟨h1, h2, h'⟩⟩
  · rw [h']; exact h
  · rw [h']
    rw [h1, h2] at hint
    exact Filtered_set fpi tc0 tc h _ _ a b ha hb h1 h2 (Or.inl hint)
  · rw [h']
    rw [h1, h2] at hint
    exact Filtered_set fpi tc0 tc h _ _ b a hb ha h2 h1 (Or.inr hint)

theorem kinds_eq (l : List (Option (CoastlineData × Coast))) :
    ∀ s : Bool × Bool,
      ((l.foldl (fun s e =>
          if s.1 && s.2 then s
          else
            match e with
            | none => s
            | some c => (s.1 || c.1.isArea, s.2 || !c.1.isArea)) s).1 &&
       (l.foldl (fun s e =>
          if s.1 && s.2 then s
          else
            match e with
            | none => s
            | some c => (s.1 || c.1.isArea, s.2 || !c.1.isArea)) s).2) =
      ((s.1 || l.any (fun e => match e with | none => false | some c => c.1.isArea)) &&
       (s.2 || l.any (fun e => match e with | none => false | some c => !c.1.isArea))) := by
  induction l with
  | nil => intro s; simp
  | cons e l ih =>
    intro s
    rw [List.foldl_cons, ih]
    obtain ⟨s1, s2⟩ := s
    cases e with
    | none => cases s1 <;> cases s2 <;> simp
    | some c => cases s1 <;> cases s2 <;> cases c.1.isArea <;> simp

/-- The filter runs if the vector holds an area and a way. -/
theorem kinds_of_mem (tc : List (Option (CoastlineData × Coast)))
    (a w : CoastlineData × Coast) (ha : some a ∈ tc) (hw : some w ∈ tc)
    (haa : a.1.isArea = true) (hww : w.1.isArea = false) :
    ((CalculateCoastlineData.kinds tc).1 && (CalculateCoastlineData.kinds tc).2) = true := by
  unfold CalculateCoastlineData.kinds
  rw [kinds_eq]
  simp only [Bool.false_or, Bool.and_eq_true, List.any_eq_true]
  exact ⟨⟨some a, ha, haa⟩, ⟨some w, hw, by simp [hww]⟩⟩

/-- The filter of `CalculateCoastlineData`: what it removes, and what is true of the
coastlines it leaves. -/
theorem filter_spec
    (fpi : List GeoCoord → List GeoCoord → Bool → Bool → List PathIntersection)
    (tc : List (Option (CoastlineData × Coast))) :
    CalculateCoastlineData.Filtered fpi tc (CalculateCoastlineData.filter fpi tc) ∧
    ∀ (i j : Nat) (a b : CoastlineData × Coast), i < j →
      (CalculateCoastlineData.filter fpi tc)[i]? = some (some a) →
      (CalculateCoastlineData.filter fpi tc)[j]? = some (some b) →
      a.1.isArea ≠ b.1.isArea →
      fpi a.1.points b.1.points a.1.isArea b.1.isArea = [] := by
  unfold CalculateCoastlineData.filter
  simp only []
  by_cases hk : ((CalculateCoastlineData.kinds tc).1 && (CalculateCoastlineData.kinds tc).2)
      = true
  · rw [if_pos hk]
    refine ⟨?_, fun i j a b hij ha hb hne => ?_⟩
    · exact foldl_inv (CalculateCoastlineData.Filtered fpi tc) _ _ _ (Filtered_refl fpi tc)
        (fun acc p _ hacc => filterPair_Filtered fpi tc acc hacc p)
    · have hj : j < tc.length := by
        have hb0 := filterPair_foldl_keeps fpi _ _ _ _ hb
        by_contra hn
        rw [List.getElem?_eq_none (by omega)] at hb0
        simp at hb0
      exact filterPair_foldl_good fpi _ tc (i, j) ((mem_pairs _ _ _).mpr ⟨hij, hj⟩) a b ha hb
        hne
  · rw [if_neg hk]
    refine ⟨Filtered_refl fpi tc, fun i j a b _ ha hb hne => ?_⟩
    exfalso
    apply hk
    have hma : some a ∈ tc := List.getElem?_mem ha
    have hmb : some b ∈ tc := List.getElem?_mem hb
    cases hA : a.1.isArea with
    | true =>
      cases hB : b.1.isArea with
      | true => rw [hA, hB] at hne; exact absurd rfl hne
      | false => exact kinds_of_mem tc a b hma hmb hA hB
    | false =>
      cases hB : b.1.isArea with
      | true => exact kinds_of_mem tc b a hmb hma hB hA
      | false => rw [hA, hB] at hne; exact absurd rfl hne

theorem cover_core (lt : Pixel → Pixel → Bool)
    (gli : GeoCoord → GeoCoord → GeoCoord → GeoCoord → Option GeoCoord)
    (ds : GeoCoord → GeoCoord → ℚ) (gbb : List Point → GeoBox) (stateMap : StateMap)
    (st : Data × Nat) (e : Option (CoastlineData × Coast)) :
    (CalculateCoastlineData.cover lt gli ds gbb stateMap st e).1.coastlines.map
        CoastlineData.core =
      st.1.coastlines.map CoastlineData.core ++
        (match e with
         | none => []
         | some c => [c.1.core]) := by
  cases e with
  | none => simp [CalculateCoastlineData.cover]
  | some c =>
    obtain ⟨coastline, coast⟩ := c
    unfold CalculateCoastlineData.cover
    simp only []
    split_ifs <;> simp [CoastlineData.core]

theorem cover_foldl_core (lt : Pixel → Pixel → Bool)
    (gli : GeoCoord → GeoCoord → GeoCoord → GeoCoord → Option GeoCoord)
    (ds : GeoCoord → GeoCoord → ℚ) (gbb : List Point → GeoBox) (stateMap : StateMap)
    (l : List (Option (CoastlineData × Coast))) :
    ∀ st : Data × Nat,
      (l.foldl (CalculateCoastlineData.cover lt gli ds gbb stateMap) st).1.coastlines.map
          CoastlineData.core =
        st.1.coastlines.map CoastlineData.core ++
          (l.filterMap id).map (fun c => c.1.core) := by
  induction l with
  | nil => intro st; simp
  | cons e l ih =>
    intro st
    rw [List.foldl_cons, ih, cover_core]
    cases e with
    | none => simp
    | some c => simp

/-- C24: behind the filter of `CalculateCoastlineData`, `data.coastlines` holds the
coastlines that the filter left, in their order, with their `id`, `isArea`, points and sides.
For every two of them, one an area and one a way, `FindPathIntersections` of the points of
the one that comes first and the points of the other one is empty.  The filter leaves every
place of the vector as it was, or sets it to null: then the place held an area, and a way of
the vector has an intersection with this area.  No way is removed, and no area is removed
without a way that intersects it. -/
theorem CalculateCoastlineData_filter
    (findPathIntersections : List GeoCoord → List GeoCoord → Bool → Bool →
      List PathIntersection)
    (lt : Pixel → Pixel → Bool)
    (getLineIntersection : GeoCoord → GeoCoord → GeoCoord → GeoCoord → Option GeoCoord)
    (distanceSquare : GeoCoord → GeoCoord → ℚ) (getBoundingBox : List Point → GeoBox)
    (stateMap : StateMap) (transformedCoastlines : List (Option (CoastlineData × Coast)))
    (data : Data) (next : Nat) :
    (CalculateCoastlineData findPathIntersections lt getLineIntersection distanceSquare
        getBoundingBox stateMap transformedCoastlines data next).1.coastlines.map
        CoastlineData.core =
      ((CalculateCoastlineData.filter findPathIntersections
        transformedCoastlines).filterMap id).map (fun c => c.1.core) ∧
    (CalculateCoastlineData findPathIntersections lt getLineIntersection distanceSquare
        getBoundingBox stateMap transformedCoastlines data next).1.coastlines.Pairwise
      (fun A B => A.isArea ≠ B.isArea →
        findPathIntersections A.points B.points A.isArea B.isArea = []) ∧
    (CalculateCoastlineData.filter findPathIntersections transformedCoastlines).length =
      transformedCoastlines.length ∧
    (∀ (i : Nat) (w : CoastlineData × Coast),
      transformedCoastlines[i]? = some (some w) → w.1.isArea = false →
      (CalculateCoastlineData.filter findPathIntersections transformedCoastlines)[i]? =
        some (some w)) ∧
    (∀ (i : Nat) (a : CoastlineData × Coast),
      transformedCoastlines[i]? = some (some a) →
      (CalculateCoastlineData.filter findPathIntersections transformedCoastlines)[i]? =
          some (some a) ∨
        ((CalculateCoastlineData.filter findPathIntersections transformedCoastlines)[i]? =
            some none ∧
          a.1.isArea = true ∧
          ∃ (j : Nat) (w : CoastlineData × Coast),
            transformedCoastlines[j]? = some (some w) ∧ w.1.isArea = false ∧
            (CalculateCoastlineData.filter findPathIntersections transformedCoastlines)[j]? =
              some (some w) ∧
            (findPathIntersections a.1.points w.1.points true false ≠ [] ∨
              findPathIntersections w.1.points a.1.points false true ≠ []))) := by
  obtain ⟨hrel, hgood⟩ := filter_spec findPathIntersections transformedCoastlines
  have hcore : (CalculateCoastlineData findPathIntersections lt getLineIntersection
      distanceSquare getBoundingBox stateMap transformedCoastlines data
      next).1.coastlines.map CoastlineData.core =
      ((CalculateCoastlineData.filter findPathIntersections
        transformedCoastlines).filterMap id).map (fun c => c.1.core) := by
    unfold CalculateCoastlineData
    rw [cover_foldl_core]
    simp
  have hway : ∀ (i : Nat) (w : CoastlineData × Coast),
      transformedCoastlines[i]? = some (some w) → w.1.isArea = false →
      (CalculateCoastlineData.filter findPathIntersections transformedCoastlines)[i]? =
        some (some w) := by
    intro i w hw hww
    rcases hrel.2 i with h | ⟨_, a, ha, haa, _⟩
    · rw [h]; exact hw
    · rw [hw] at ha
      simp only [Option.some.injEq] at ha
      rw [ha, haa] at hww
      exact absurd hww (by simp)
  refine ⟨hcore, ?_, hrel.1, hway, fun i a ha => ?_⟩
  · have hp : List.Pairwise
        (fun x y : Int × Bool × List GeoCoord × CoastState × CoastState =>
          x.2.1 ≠ y.2.1 → findPathIntersections x.2.2.1 y.2.2.1 x.2.1 y.2.1 = [])
        ((CalculateCoastlineData findPathIntersections lt getLineIntersection distanceSquare
          getBoundingBox stateMap transformedCoastlines data next).1.coastlines.map
          CoastlineData.core) := by
      rw [hcore, List.pairwise_map, List.pairwise_filterMap, List.pairwise_iff_getElem]
      intro i j hi hj hij b hb b' hb'
      simp only [id, Option.mem_def] at hb hb'
      exact hgood i j b b' hij (by rw [List.getElem?_eq_getElem hi, hb])
        (by rw [List.getElem?_eq_getElem hj, hb'])
    rw [List.pairwise_map] at hp
    exact hp
  · rcases hrel.2 i with h | ⟨h, a', ha', haa, j, w, hw, hww, hint⟩
    · left; rw [h]; exact ha
    · right
      rw [ha] at ha'
      simp only [Option.some.injEq] at ha'
      subst ha'
      exact ⟨h, haa, j, w, hw, hww, hway j w hw hww, hint⟩

/-- Example for C24: an island that a way coastline runs through, a null pointer, the way,
and an island next to them.  The filter removes the first island only. -/
theorem CalculateCoastlineData_filter_witness :
    CalculateCoastlineData.filter FindPathIntersectionsCoord
      [some crossedIsland, none, some crossingCoast, some freeIsland] =
      [none, none, some crossingCoast, some freeIsland] ∧
    FindPathIntersectionsCoord crossedIsland.1.points crossingCoast.1.points true false ≠ [] ∧
    FindPathIntersectionsCoord crossingCoast.1.points freeIsland.1.points false true = [] ∧
    (CalculateCoastlineData FindPathIntersectionsCoord pixelLt GetLineIntersection
        DistanceSquare GetBoundingBox smallMap
        [some crossedIsland, none, some crossingCoast, some freeIsland]
        { coastlines := [], cellCoastlines := [], cellCoveredCoastlines := [] }
        0).1.coastlines.map CoastlineData.core =
      [crossingCoast.1.core, freeIsland.1.core] ∧
    (CalculateCoastlineData FindPathIntersectionsCoord pixelLt GetLineIntersection
        DistanceSquare GetBoundingBox smallMap
        [some crossedIsland, none, some crossingCoast, some freeIsland]
        { coastlines := [], cellCoastlines := [], cellCoveredCoastlines := [] }
        0).1.coastlines.Pairwise
      (fun A B => A.isArea ≠ B.isArea →
        FindPathIntersectionsCoord A.points B.points A.isArea B.isArea = []) :=
  ⟨by decide!, by decide!, by decide!, by decide!,
    (CalculateCoastlineData_filter FindPathIntersectionsCoord pixelLt GetLineIntersection
      DistanceSquare GetBoundingBox smallMap
      [some crossedIsland, none, some crossingCoast, some freeIsland]
      { coastlines := [], cellCoastlines := [], cellCoveredCoastlines := [] } 0).2.1⟩

/-! ### Claims on the synthesizer, on `CutPath`, on the walk along the border and on the
search for the sibling -/

theorem flatMap_congr_mem {α β : Type} (l : List α) (f g : α → List β)
    (h : ∀ a ∈ l, f a = g a) : l.flatMap f = l.flatMap g := by
  induction l with
  | nil => rfl
  | cons a l ih =>
    rw [List.flatMap_cons, List.flatMap_cons, h a (List.mem_cons_self _ _),
      ih (fun b hb => h b (List.mem_cons_of_mem _ hb))]

/-- C40: a way coastline without valid intersection with a bounding polygon adds nothing to
the result of `SynthesizeCoastlines2`, whatever `IsAreaAtLeastPartlyInArea` says and wherever
it stands in the list of the coastlines: its own part of the result is empty, and the result
is the one for the coastlines without it.  With no bounding polygon `SynthesizeCoastlines2`
leaves the list `synthesized` as it is for every list of coastlines, so that it returns the
empty list for the empty list, and `SynthesizeCoastlines`, which calls it with the empty list,
returns the empty list for every list of coastlines. -/
theorem SynthesizeCoastlines2_way_dropped
    (findPathIntersections : List Point → List Point → Bool → Bool → List PathIntersection)
    (isAreaInArea : List Point → List Point → Bool)
    (boundingPolygons coastlines synthesized : List Coast) :
    (∀ (l1 l2 : List Coast) (coastline : Coast), coastline.isArea = false →
      coastlineIntersections findPathIntersections boundingPolygons coastline = [] →
      SynthesizeCoastlines2.wayParts isAreaInArea boundingPolygons coastline
        (coastlineIntersections findPathIntersections boundingPolygons coastline) = [] ∧
      SynthesizeCoastlines2 findPathIntersections isAreaInArea boundingPolygons
          (l1 ++ coastline :: l2) synthesized =
        SynthesizeCoastlines2 findPathIntersections isAreaInArea boundingPolygons
          (l1 ++ l2) synthesized) ∧
    SynthesizeCoastlines2 findPathIntersections isAreaInArea [] coastlines synthesized =
      synthesized ∧
    SynthesizeCoastlines2 findPathIntersections isAreaInArea [] coastlines [] = [] ∧
    SynthesizeCoastlines findPathIntersections isAreaInArea coastlines [] = [] := by
  have hempty : ∀ (cs s : List Coast),
      SynthesizeCoastlines2 findPathIntersections isAreaInArea [] cs s = s := by
    intro cs s
    rw [SynthesizeCoastlines2_eq]
    have hw : cs.flatMap (fun coastline =>
        SynthesizeCoastlines2.wayParts isAreaInArea [] coastline
          (coastlineIntersections findPathIntersections [] coastline)) = [] := by
      rw [List.flatMap_eq_nil_iff]
      intro c _
      simp [SynthesizeCoastlines2.wayParts, coastlineIntersections]
    rw [hw]
    simp
  refine ⟨fun l1 l2 coastline hway hnone => ?_, hempty coastlines synthesized,
    hempty coastlines [], ?_⟩
  · have hparts : SynthesizeCoastlines2.wayParts isAreaInArea boundingPolygons coastline
        (coastlineIntersections findPathIntersections boundingPolygons coastline) = [] := by
      unfold SynthesizeCoastlines2.wayParts
      rw [hnone, if_pos rfl, if_neg]
      rintro ⟨h, _⟩
      rw [hway] at h
      exact absurd h (by simp)
    have hvalid : ∀ polygon ∈ boundingPolygons,
        SynthesizeCoastlines2.valid findPathIntersections
          (SynthesizeCoastlines2.candidate polygon) coastline = [] := by
      unfold coastlineIntersections at hnone
      rw [List.flatMap_eq_nil_iff] at hnone
      exact hnone
    refine ⟨hparts, ?_⟩
    rw [SynthesizeCoastlines2_eq, SynthesizeCoastlines2_eq]
    congr 1
    · congr 1
      apply flatMap_congr_mem
      intro polygon hp
      unfold polygonIntersections
      rw [List.flatMap_append, List.flatMap_append, List.flatMap_cons, hvalid polygon hp,
        List.nil_append]
    · rw [List.flatMap_append, List.flatMap_append, List.flatMap_cons, hparts,
        List.nil_append]
  · unfold SynthesizeCoastlines
    simp only []
    rw [hempty coastlines []]
    rfl

/-- Example for C40: a way inside of the square polygon is not part of the result, and
without bounding polygons an island gives the empty result. -/
theorem SynthesizeCoastlines2_way_dropped_witness :
    IsAreaAtLeastPartlyInArea innerWay.coast squarePolygon.coast = true ∧
    SynthesizeCoastlines2 FindPathIntersections IsAreaAtLeastPartlyInArea [squarePolygon]
      [innerWay] [] = [SynthesizeCoastlines2.candidate squarePolygon] ∧
    SynthesizeCoastlines FindPathIntersections IsAreaAtLeastPartlyInArea [innerIsland] []
      = [] ∧
    SynthesizeCoastlines2 FindPathIntersections IsAreaAtLeastPartlyInArea [squarePolygon]
        ([] ++ innerWay :: []) [] =
      SynthesizeCoastlines2 FindPathIntersections IsAreaAtLeastPartlyInArea [squarePolygon]
        ([] ++ []) [] :=
  ⟨by decide!, by decide!,
    (SynthesizeCoastlines2_way_dropped FindPathIntersections IsAreaAtLeastPartlyInArea
      [squarePolygon] [innerIsland] []).2.2.2,
    ((SynthesizeCoastlines2_way_dropped FindPathIntersections IsAreaAtLeastPartlyInArea
      [squarePolygon] [innerIsland] []).1 [] [] innerWay (by decide!) (by decide!)).2⟩

theorem take_drop_eq_map (src : List Point) (s e : Nat) (he : e ≤ src.length) :
    (src.take e).drop s =
      (List.range' s (e - s)).map (fun i => src.getD i ⟨0, ⟨0, 0⟩⟩) := by
  apply List.ext_getElem?
  intro k
  rw [List.getElem?_drop, List.getElem?_take, List.getElem?_map]
  by_cases hk : k < e - s
  · rw [List.getElem?_range' _ _ hk, if_pos (by omega)]
    simp only [Option.map_some', Nat.one_mul]
    rw [List.getD_eq_getElem?_getD]
    have hlt : s + k < src.length := by omega
    rw [List.getElem?_eq_getElem hlt]
    rfl
  · rw [if_neg (by omega), List.getElem?_eq_none (by simp; omega)]
    rfl

/-- C37: for a source `src` of `n > 0` points, with `s = start mod n` and `e = end mod n`,
`CutPath` returns `dst` followed by the points of `src` at the indices `s, ..., e-1` if
`s < e`; by the points at the indices `s, ..., n-1` and then at `0, ..., e-1` if `s > e`, or
if `s = e` and `startDistanceSquare > endDistanceSquare` (these are all `n` points); and by
nothing if `s = e` and `startDistanceSquare ≤ endDistanceSquare`. -/
theorem CutPath_slice (dst src : List Point) (start end_ : Nat)
    (startDistanceSquare endDistanceSquare : ℚ) (hsrc : src ≠ []) :
    (start % src.length < end_ % src.length →
      CutPath dst src start end_ startDistanceSquare endDistanceSquare =
        dst ++ (List.range' (start % src.length)
          (end_ % src.length - start % src.length)).map (fun i => src.getD i ⟨0, ⟨0, 0⟩⟩)) ∧
    (start % src.length > end_ % src.length ∨
      (start % src.length = end_ % src.length ∧ startDistanceSquare > endDistanceSquare) →
      CutPath dst src start end_ startDistanceSquare endDistanceSquare =
        dst ++ (List.range' (start % src.length)
            (src.length - start % src.length)).map (fun i => src.getD i ⟨0, ⟨0, 0⟩⟩) ++
          (List.range' 0 (end_ % src.length)).map (fun i => src.getD i ⟨0, ⟨0, 0⟩⟩)) ∧
    (start % src.length = end_ % src.length → startDistanceSquare > endDistanceSquare →
      (CutPath dst src start end_ startDistanceSquare endDistanceSquare).length =
        dst.length + src.length) ∧
    (start % src.length = end_ % src.length → startDistanceSquare ≤ endDistanceSquare →
      CutPath dst src start end_ startDistanceSquare endDistanceSquare = dst) := by
  have hn : 0 < src.length := List.length_pos.mpr hsrc
  have hs : start % src.length < src.length := Nat.mod_lt _ hn
  have he : end_ % src.length < src.length := Nat.mod_lt _ hn
  have hdrop : src.drop (start % src.length) =
      (List.range' (start % src.length) (src.length - start % src.length)).map
        (fun i => src.getD i ⟨0, ⟨0, 0⟩⟩) := by
    rw [← take_drop_eq_map src _ _ (le_refl _), List.take_length]
  have htake : src.take (end_ % src.length) =
      (List.range' 0 (end_ % src.length)).map (fun i => src.getD i ⟨0, ⟨0, 0⟩⟩) := by
    have h := take_drop_eq_map src 0 (end_ % src.length) (le_of_lt he)
    rw [List.drop_zero, Nat.sub_zero] at h
    exact h
  have hwrap : start % src.length > end_ % src.length ∨
      (start % src.length = end_ % src.length ∧ startDistanceSquare > endDistanceSquare) →
      CutPath dst src start end_ startDistanceSquare endDistanceSquare =
        dst ++ (List.range' (start % src.length)
            (src.length - start % src.length)).map (fun i => src.getD i ⟨0, ⟨0, 0⟩⟩) ++
          (List.range' 0 (end_ % src.length)).map (fun i => src.getD i ⟨0, ⟨0, 0⟩⟩) := by
    intro h
    unfold CutPath
    simp only []
    rw [if_pos h, hdrop, htake]
  refine ⟨fun h => ?_, hwrap, fun h1 h2 => ?_, fun h1 h2 => ?_⟩
  · unfold CutPath
    simp only []
    rw [if_neg (by
      rintro (h' | ⟨h', _⟩)
      · omega
      · omega), take_drop_eq_map src _ _ (le_of_lt he)]
  · rw [hwrap (Or.inr ⟨h1, h2⟩)]
    simp only [List.length_append, List.length_map, List.length_range']
    omega
  · unfold CutPath
    simp only []
    rw [if_neg (by
      rintro (h' | ⟨_, h'⟩)
      · omega
      · exact absurd h' (not_lt.mpr h2)), take_drop_eq_map src _ _ (le_of_lt he), h1,
      Nat.sub_self]
    simp

/-- Example for C37: the cut of five points from the index `8 mod 5 = 3` around the end to
the index `6 mod 5 = 1`, and the cut from the index `1` to the index `3`. -/
theorem CutPath_slice_witness :
    CutPath [⟨9, ⟨5, 5⟩⟩] fivePoints 8 6 0 0 =
      [⟨9, ⟨5, 5⟩⟩, ⟨3, ⟨1, 0⟩⟩, ⟨4, ⟨2, 0⟩⟩, ⟨0, ⟨0, 0⟩⟩] ∧
    CutPath [⟨9, ⟨5, 5⟩⟩] fivePoints 1 3 0 0 =
      [⟨9, ⟨5, 5⟩⟩] ++ (List.range' (1 % fivePoints.length)
        (3 % fivePoints.length - 1 % fivePoints.length)).map
          (fun i => fivePoints.getD i ⟨0, ⟨0, 0⟩⟩) :=
  ⟨by decide!,
    (CutPath_slice [⟨9, ⟨5, 5⟩⟩] fivePoints 1 3 0 0 (by decide)).1 (by decide)⟩

/-- C36: for two intersections with a `borderIndex` in `0..3`, `WalkBorderCW` returns, and
its tile is the given tile with more coordinates at its end.  If the two intersections lie on
the same border and `IsLeftOnSameBorder` holds, the point of the target is not before the
point of the source in the clockwise direction of the border, only the transformed point of
the target is added, with `coast=false`.  Otherwise the corners `borderCoords[k]` for `k`
from `(source.borderIndex+1) mod 4` around to `target.borderIndex` are added,
`(target.borderIndex + 3 - source.borderIndex) mod 4 + 1` corners, which are `4` if the two
lie on the same border, and then the transformed point of the target. -/
theorem WalkBorderCW_corners (groundTile : GroundTile) (stateMap : StateMap)
    (cellMinLat cellMinLon : ℚ) (incoming outgoing : Intersection)
    (borderCoords : List GroundTile.Coord)
    (hi : incoming.borderIndex < 4) (ho : outgoing.borderIndex < 4) :
    (outgoing.borderIndex = incoming.borderIndex →
      IsLeftOnSameBorder incoming.borderIndex incoming.point outgoing.point = true →
      WalkBorderCW groundTile stateMap cellMinLat cellMinLon incoming outgoing borderCoords =
        some { groundTile with
          coords := groundTile.coords ++
            [Transform outgoing.point stateMap cellMinLat cellMinLon false] }) ∧
    (outgoing.borderIndex ≠ incoming.borderIndex ∨
      IsLeftOnSameBorder incoming.borderIndex incoming.point outgoing.point = false →
      WalkBorderCW groundTile stateMap cellMinLat cellMinLon incoming outgoing borderCoords =
        some { groundTile with
          coords := groundTile.coords ++
            (List.range ((outgoing.borderIndex + 3 - incoming.borderIndex) % 4 + 1)).map
              (fun i => borderCoords.getD ((incoming.borderIndex + 1 + i) % 4) ⟨0, 0, false⟩) ++
            [Transform outgoing.point stateMap cellMinLat cellMinLon false] }) ∧
    (outgoing.borderIndex = incoming.borderIndex →
      (outgoing.borderIndex + 3 - incoming.borderIndex) % 4 + 1 = 4) ∧
    (IsLeftOnSameBorder incoming.borderIndex incoming.point outgoing.point = true ↔
      (incoming.borderIndex = 0 ∧ incoming.point.lon ≤ outgoing.point.lon) ∨
      (incoming.borderIndex = 1 ∧ outgoing.point.lat ≤ incoming.point.lat) ∨
      (incoming.borderIndex = 2 ∧ outgoing.point.lon ≤ incoming.point.lon) ∨
      (incoming.borderIndex = 3 ∧ incoming.point.lat ≤ outgoing.point.lat)) := by
  refine ⟨fun h1 h2 => ?_, fun h => ?_, fun h => by rw [h]; omega, ?_⟩
  · unfold WalkBorderCW
    simp only []
    rw [if_neg (by
      rintro (h' | h')
      · exact h' h1
      · rw [h2] at h'; simp at h')]
    rfl
  · unfold WalkBorderCW
    simp only []
    rw [if_pos h]
    obtain ⟨ic, ip, ipt, ids, idr, ib⟩ := incoming
    obtain ⟨oc, op, opt, ods, odr, ob⟩ := outgoing
    simp only at hi ho ⊢
    interval_cases ib <;> interval_cases ob <;>
      simp [WalkBorderCW.loop, GroundTile.push, List.range_succ]
  · obtain ⟨ic, ip, ipt, ids, idr, ib⟩ := incoming
    simp only at hi ⊢
    interval_cases ib <;> simp [IsLeftOnSameBorder]

/-- Example for C36: from the top border to the bottom border the walk adds the corners `1`
and `2` and the point of the target. -/
theorem WalkBorderCW_corners_witness :
    WalkBorderCW { type := GroundTile.TileType.land, coords := [] } smallMap 0 0
      { coastline := 0, prevWayPointIndex := 0, point := ⟨1, 1/2⟩, distanceSquare := 0,
        direction := Direction.out, borderIndex := 0 }
      { coastline := 0, prevWayPointIndex := 0, point := ⟨0, 1/2⟩, distanceSquare := 0,
        direction := Direction.in_, borderIndex := 2 }
      (CellBoundaries.make smallMap ⟨0, 0⟩).borderCoords =
      some { type := GroundTile.TileType.land,
             coords := [⟨32767, 32767, false⟩, ⟨32767, 0, false⟩, ⟨16384, 0, false⟩] } ∧
    WalkBorderCW { type := GroundTile.TileType.land, coords := [] } smallMap 0 0
      { coastline := 0, prevWayPointIndex := 0, point := ⟨1, 1/2⟩, distanceSquare := 0,
        direction := Direction.out, borderIndex := 0 }
      { coastline := 0, prevWayPointIndex := 0, point := ⟨0, 1/2⟩, distanceSquare := 0,
        direction := Direction.in_, borderIndex := 2 }
      (CellBoundaries.make smallMap ⟨0, 0⟩).borderCoords =
      some { type := GroundTile.TileType.land,
             coords := [] ++ (List.range ((2 + 3 - 0) % 4 + 1)).map
               (fun i => (CellBoundaries.make smallMap ⟨0, 0⟩).borderCoords.getD
                 ((0 + 1 + i) % 4) ⟨0, 0, false⟩) ++
               [Transform ⟨0, 1/2⟩ smallMap 0 0 false] } :=
  ⟨by decide!,
    (WalkBorderCW_corners { type := GroundTile.TileType.land, coords := [] } smallMap 0 0
      { coastline := 0, prevWayPointIndex := 0, point := ⟨1, 1/2⟩, distanceSquare := 0,
        direction := Direction.out, borderIndex := 0 }
      { coastline := 0, prevWayPointIndex := 0, point := ⟨0, 1/2⟩, distanceSquare := 0,
        direction := Direction.in_, borderIndex := 2 }
      (CellBoundaries.make smallMap ⟨0, 0⟩).borderCoords (by decide) (by decide)).2.1
      (Or.inl (by decide))⟩

/-- C35: a result of `FindSiblingIntersection` is an intersection of `intersectionsCW` with
the coastline of the given intersection and the direction of the search.  For an area the
result is null exactly when `intersectionsCW` holds no intersection of this coastline with
this direction.  For a way the result is null exactly when no such intersection has a
`prevWayPointIndex` that is not below the one of the given intersection, if its direction is
`in`, or not above it, if its direction is another one. -/
theorem FindSiblingIntersection_null (intersection : Intersection)
    (intersectionsCW : List IntersectionRef) (isArea : Bool) :
    (∀ r, FindSiblingIntersection intersection intersectionsCW isArea = some r →
      r ∈ intersectionsCW ∧ r.obj.coastline = intersection.coastline ∧
      r.obj.direction =
        (if intersection.direction = Direction.in_ then Direction.out else Direction.in_)) ∧
    (isArea = true →
      (FindSiblingIntersection intersection intersectionsCW isArea = none ↔
        ∀ c ∈ intersectionsCW, ¬ (c.obj.coastline = intersection.coastline ∧
          c.obj.direction =
            (if intersection.direction = Direction.in_ then Direction.out
             else Direction.in_)))) ∧
    (isArea = false → intersection.direction = Direction.in_ →
      (FindSiblingIntersection intersection intersectionsCW isArea = none ↔
        ∀ c ∈ intersectionsCW, c.obj.coastline = intersection.coastline →
          c.obj.direction = Direction.out →
          ¬ intersection.prevWayPointIndex ≤ c.obj.prevWayPointIndex)) ∧
    (isArea = false → intersection.direction ≠ Direction.in_ →
      (FindSiblingIntersection intersection intersectionsCW isArea = none ↔
        ∀ c ∈ intersectionsCW, c.obj.coastline = intersection.coastline →
          c.obj.direction = Direction.in_ →
          ¬ c.obj.prevWayPointIndex ≤ intersection.prevWayPointIndex)) := by
  have hmem : ∀ c, c ∈ FindSiblingIntersection.candidates intersection intersectionsCW ↔
      c ∈ intersectionsCW ∧ intersection.coastline = c.obj.coastline ∧
      c.obj.direction =
        (if intersection.direction = Direction.in_ then Direction.out else Direction.in_) := by
    intro c
    unfold FindSiblingIntersection.candidates
    simp only [List.mem_filter, decide_eq_true_eq]
  have hnil : FindSiblingIntersection.candidates intersection intersectionsCW = [] ↔
      ∀ c ∈ intersectionsCW, ¬ (c.obj.coastline = intersection.coastline ∧
        c.obj.direction =
          (if intersection.direction = Direction.in_ then Direction.out
           else Direction.in_)) := by
    rw [List.eq_nil_iff_forall_not_mem]
    constructor
    · intro h c hc hcd
      exact h c ((hmem c).mpr ⟨hc, hcd.1.symm, hcd.2⟩)
    · intro h c hc
      obtain ⟨h1, h2, h3⟩ := (hmem c).mp hc
      exact h c h1 ⟨h2.symm, h3⟩
  refine ⟨fun r hr => ?_, fun ha => ?_, fun ha hd => ?_, fun ha hd => ?_⟩
  · by_cases hd : intersection.direction = Direction.in_
    · obtain ⟨l1, l2, hl, _⟩ :=
        (FindSiblingIntersection_in intersection intersectionsCW isArea hd).2 r hr
      obtain ⟨h1, h2, h3⟩ := (hmem r).mp (by rw [hl]; simp)
      exact ⟨h1, h2.symm, h3⟩
    · obtain ⟨l1, l2, hl, _⟩ :=
        (FindSiblingIntersection_out intersection intersectionsCW isArea hd).2 r hr
      obtain ⟨h1, h2, h3⟩ := (hmem r).mp (by rw [hl]; simp)
      exact ⟨h1, h2.symm, h3⟩
  · rw [← hnil]
    by_cases hd : intersection.direction = Direction.in_
    · rw [(FindSiblingIntersection_in intersection intersectionsCW isArea hd).1]
      constructor
      · rintro ⟨_, h | h⟩
        · rw [ha] at h; simp at h
        · exact h
      · intro h
        exact ⟨fun c hc => by rw [h] at hc; simp at hc, Or.inr h⟩
    · rw [(FindSiblingIntersection_out intersection intersectionsCW isArea hd).1]
      constructor
      · rintro ⟨_, h | h⟩
        · rw [ha] at h; simp at h
        · exact h
      · intro h
        exact ⟨fun c hc => by rw [h] at hc; simp at hc, Or.inr h⟩
  · rw [(FindSiblingIntersection_in intersection intersectionsCW isArea hd).1]
    constructor
    · rintro ⟨h, _⟩ c hc hco hdir hle
      have := h c ((hmem c).mpr ⟨hc, hco.symm, by rw [if_pos hd]; exact hdir⟩)
      omega
    · intro h
      refine ⟨fun c hc => ?_, Or.inl ha⟩
      obtain ⟨h1, h2, h3⟩ := (hmem c).mp hc
      rw [if_pos hd] at h3
      have := h c h1 h2.symm h3
      omega
  · rw [(FindSiblingIntersection_out intersection intersectionsCW isArea hd).1]
    constructor
    · rintro ⟨h, _⟩ c hc hco hdir hle
      have := h c ((hmem c).mpr ⟨hc, hco.symm, by rw [if_neg hd]; exact hdir⟩)
      omega
    · intro h
      refine ⟨fun c hc => ?_, Or.inl ha⟩
      obtain ⟨h1, h2, h3⟩ := (hmem c).mp hc
      rw [if_neg hd] at h3
      have := h c h1 h2.symm h3
      omega

/-- Example for C35: in the cell of the ring the sibling of the `out` intersection is found
for the area by the second pass, and it is not found for a way. -/
theorem FindSiblingIntersection_null_witness :
    FindSiblingIntersection ringIn.obj [ringOut, ringIn] true = some ringOut ∧
    FindSiblingIntersection ringIn.obj [ringOut, ringIn] false = none ∧
    (FindSiblingIntersection ringIn.obj [ringOut, ringIn] false = none ↔
      ∀ c ∈ [ringOut, ringIn], c.obj.coastline = ringIn.obj.coastline →
        c.obj.direction = Direction.out →
        ¬ ringIn.obj.prevWayPointIndex ≤ c.obj.prevWayPointIndex) :=
  ⟨by decide!, by decide!,
    (FindSiblingIntersection_null ringIn.obj [ringOut, ringIn] false).2.2.1 rfl (by decide)⟩

/-! ### The reach of `FillWater` -/

theorem manhattan_adjacent (a b u v : Nat) (h : Adjacent a b u v) : manhattan a b u v = 1 := by
  unfold Adjacent at h
  unfold manhattan
  omega

theorem manhattan_triangle (a b c d u v : Nat) :
    manhattan a b u v ≤ manhattan a b c d + manhattan c d u v := by
  unfold manhattan
  omega

theorem FillWater_reach (isA : List GeoCoord → List Point → Bool) (polys : List Coast)
    (n : Nat) :
    ∀ level : Level, level.stateMap.Valid →
      ∀ u v, u < level.stateMap.cellXCount → v < level.stateMap.cellYCount →
        level.stateMap.GetState u v = State.unknown →
        (FillWater isA level n polys).stateMap.GetState u v = State.water →
        ∃ a b, a < level.stateMap.cellXCount ∧ b < level.stateMap.cellYCount ∧
          level.stateMap.GetState a b = State.water ∧ manhattan a b u v ≤ n := by
  induction n with
  | zero =>
    intro level _ u v _ _ h1 h2
    rw [FillWater, h1] at h2
    exact absurd h2 (by decide)
  | succ n ih =>
    intro level hvalid u v hu hv h1 h2
    rw [FillWater] at h2
    have hround := FillWaterRound_fills isA polys level
    by_cases hr : (FillWaterRound isA polys level).stateMap.GetState u v = State.unknown
    · obtain ⟨a, b, ha, hb, hw, hd⟩ := ih _ (hround.valid_of hvalid) u v
        (by rw [hround.cellXCount]; exact hu) (by rw [hround.cellYCount]; exact hv) hr h2
      rw [hround.cellXCount] at ha
      rw [hround.cellYCount] at hb
      by_cases hl : level.stateMap.GetState a b = State.water
      · exact ⟨a, b, ha, hb, hl, by omega⟩
      · obtain ⟨a', b', ha', hb', hadj, hw', _⟩ := FillWaterRound_source isA polys level hvalid
          a b ha hb (by rw [hw]; exact fun h => hl h.symm)
        refine ⟨a', b', ha', hb', hw', ?_⟩
        have h3 := manhattan_triangle a' b' a b u v
        have h4 := manhattan_adjacent a' b' a b hadj
        omega
    · obtain ⟨a', b', ha', hb', hadj, hw', _⟩ := FillWaterRound_source isA polys level hvalid
        u v hu hv (by rw [h1]; exact hr)
      refine ⟨a', b', ha', hb', hw', ?_⟩
      have h4 := manhattan_adjacent a' b' u v hadj
      omega

/-- C33: on a valid map, every in-range cell that is `unknown` before `FillWater` with
`tileCount = n` and `water` after it has Manhattan distance at most `n` from an in-range cell
that was `water` before the call; a cell that one round changes is a 4-neighbour of a cell
that was `water` at the start of the round; with `n = 0` the level is unchanged. -/
theorem FillWater_distance (isAreaAtLeastPartlyInArea : List GeoCoord → List Point → Bool)
    (boundingPolygons : List Coast) (n : Nat) (level : Level) (hvalid : level.stateMap.Valid) :
    (∀ u v, u < level.stateMap.cellXCount → v < level.stateMap.cellYCount →
      level.stateMap.GetState u v = State.unknown →
      (FillWater isAreaAtLeastPartlyInArea level n boundingPolygons).stateMap.GetState u v
        = State.water →
      ∃ a b, a < level.stateMap.cellXCount ∧ b < level.stateMap.cellYCount ∧
        level.stateMap.GetState a b = State.water ∧ manhattan a b u v ≤ n) ∧
    (∀ u v, u < level.stateMap.cellXCount → v < level.stateMap.cellYCount →
      (FillWaterRound isAreaAtLeastPartlyInArea boundingPolygons level).stateMap.GetState u v
        ≠ level.stateMap.GetState u v →
      ∃ a b, a < level.stateMap.cellXCount ∧ b < level.stateMap.cellYCount ∧
        level.stateMap.GetState a b = State.water ∧ Adjacent a b u v) ∧
    FillWater isAreaAtLeastPartlyInArea level 0 boundingPolygons = level := by
  refine ⟨FillWater_reach isAreaAtLeastPartlyInArea boundingPolygons n level hvalid,
    fun u v hu hv hne => ?_, rfl⟩
  obtain ⟨a, b, ha, hb, hadj, hw, _⟩ := FillWaterRound_source isAreaAtLeastPartlyInArea
    boundingPolygons level hvalid u v hu hv hne
  exact ⟨a, b, ha, hb, hw, hadj⟩

/-- Example for C33: in the row `water, unknown, coast` one round fills the cell `(1,0)`,
which has the distance `1` from the water cell `(0,0)`. -/
theorem FillWater_distance_witness :
    waterGapLevel.stateMap.Valid ∧
    waterGapLevel.stateMap.GetState 1 0 = State.unknown ∧
    (FillWater cornerInHull waterGapLevel 1 [westPolygon]).stateMap.GetState 1 0
      = State.water ∧
    waterGapLevel.stateMap.GetState 0 0 = State.water ∧ manhattan 0 0 1 0 = 1 ∧
    ∃ a b, a < waterGapLevel.stateMap.cellXCount ∧ b < waterGapLevel.stateMap.cellYCount ∧
      waterGapLevel.stateMap.GetState a b = State.water ∧ manhattan a b 1 0 ≤ 1 :=
  ⟨by decide!, by decide!, by decide!, by decide!, by decide,
    (FillWater_distance cornerInHull [westPolygon] 1 waterGapLevel (by decide!)).1 1 0
      (by decide!) (by decide!) (by decide!) (by decide!)⟩

/-! ### The fixed point of `FillLand` -/

theorem FillLandLine_cont (get : StateMap → Nat → State) (set : StateMap → Nat → StateMap)
    (count : Nat) (fuel : Nat) :
    ∀ (m : StateMap) (x start endPos state : Nat),
      (FillLandLine get set count fuel m true x start endPos state).2 = true := by
  induction fuel with
  | zero =>
    intro m x start endPos state
    rw [FillLandLine]
  | succ fuel ih =>
    intro m x start endPos state
    match state with
    | 0 =>
      rw [FillLandLine]
      split
      · split
        · exact ih _ _ _ _ _
        · exact ih _ _ _ _ _
      · rfl
    | 1 =>
      rw [FillLandLine]
      split
      · split
        · exact ih _ _ _ _ _
        · exact ih _ _ _ _ _
      · rfl
    | (k + 2) =>
      have hk0 : k + 2 = 0 → False := by omega
      have hk1 : k + 2 = 1 → False := by omega
      rw [FillLandLine.eq_4 _ _ _ _ _ _ _ _ _ _ hk0 hk1]
      split
      · split
        · exact ih _ _ _ _ _
        · split
          · split
            · exact ih _ _ _ _ _
            · exact ih _ _ _ _ _
          · exact ih _ _ _ _ _
      · rfl

theorem FillLandLine_unchanged (get : StateMap → Nat → State)
    (set : StateMap → Nat → StateMap) (count : Nat) (fuel : Nat) :
    ∀ (m : StateMap) (cont : Bool) (x start endPos state : Nat),
      (FillLandLine get set count fuel m cont x start endPos state).2 = false →
      (FillLandLine get set count fuel m cont x start endPos state).1 = m ∧ cont = false := by
  induction fuel with
  | zero =>
    intro m cont x start endPos state h
    rw [FillLandLine] at h ⊢
    exact ⟨rfl, h⟩
  | succ fuel ih =>
    intro m cont x start endPos state
    match state with
    | 0 =>
      rw [FillLandLine]
      split
      · split
        · exact ih _ _ _ _ _ _
        · exact ih _ _ _ _ _ _
      · exact fun h => ⟨rfl, h⟩
    | 1 =>
      rw [FillLandLine]
      split
      · split
        · exact ih _ _ _ _ _ _
        · exact ih _ _ _ _ _ _
      · exact fun h => ⟨rfl, h⟩
    | (k + 2) =>
      have hk0 : k + 2 = 0 → False := by omega
      have hk1 : k + 2 = 1 → False := by omega
      rw [FillLandLine.eq_4 _ _ _ _ _ _ _ _ _ _ hk0 hk1]
      split
      · split
        · exact ih _ _ _ _ _ _
        · split
          · split
            · intro h
              rw [FillLandLine_cont] at h
              exact absurd h (by decide)
            · exact ih _ _ _ _ _ _
          · exact ih _ _ _ _ _ _
      · exact fun h => ⟨rfl, h⟩

/-- A scan that ends with `cont = false` has seen no pattern: from the state `0` at `x` there
is none that starts at `x` or later, from the state `1` none that starts at the land cell
`x-1` or later, from the state `2` none that starts at the land cell before `start` or
later. -/
theorem FillLandLine_no_gap (get : StateMap → Nat → State) (set : StateMap → Nat → StateMap)
    (count : Nat) (fuel : Nat) :
    (∀ (m : StateMap) (cont : Bool) (x start endPos : Nat),
      2 * (count - x) ≤ fuel →
      (FillLandLine get set count fuel m cont x start endPos 0).2 = false →
      ∀ i, x ≤ i → ¬ GapAt (get m) count i) ∧
    (∀ (m : StateMap) (cont : Bool) (x start endPos : Nat),
      2 * (count - x) + 1 ≤ fuel → 1 ≤ x → get m (x - 1) = State.land →
      (FillLandLine get set count fuel m cont x start endPos 1).2 = false →
      ∀ i, x - 1 ≤ i → ¬ GapAt (get m) count i) ∧
    (∀ (m : StateMap) (cont : Bool) (x start endPos : Nat),
      2 * (count - x) + 1 ≤ fuel → 1 ≤ start → get m (start - 1) = State.land →
      start ≤ endPos → endPos + 1 = x →
      (∀ j, start ≤ j → j ≤ endPos → get m j = State.unknown) →
      (FillLandLine get set count fuel m cont x start endPos 2).2 = false →
      ∀ i, start - 1 ≤ i → ¬ GapAt (get m) count i) := by
  induction fuel with
  | zero =>
    refine ⟨fun m cont x start endPos hf _ i hi hg => ?_, fun _ _ _ _ _ hf => ?_,
      fun _ _ _ _ _ hf => ?_⟩
    · obtain ⟨_, k, h1, h2, _⟩ := hg
      omega
    · omega
    · omega
  | succ fuel ih =>
    obtain ⟨ih0, ih1, ih2⟩ := ih
    refine ⟨fun m cont x start endPos hf => ?_, fun m cont x start endPos hf hx hl => ?_,
      fun m cont x start endPos hf hs hl hse hex hu => ?_⟩
    · rw [FillLandLine]
      by_cases hxc : x < count
      · rw [if_pos hxc]
        by_cases hland : get m x = State.land
        · rw [if_pos hland]
          intro h i hi
          exact ih1 m cont (x + 1) start endPos (by omega) (by omega) hland h i
            (by omega)
        · rw [if_neg hland]
          intro h i hi hg
          by_cases hix : i = x
          · subst hix
            exact hland hg.1
          · exact ih0 m cont (x + 1) start endPos (by omega) h i (by omega) hg
      · rw [if_neg hxc]
        intro _ i hi hg
        obtain ⟨_, k, h1, h2, _⟩ := hg
        omega
    · rw [FillLandLine]
      by_cases hxc : x < count
      · rw [if_pos hxc]
        by_cases hun : get m x = State.unknown
        · rw [if_pos hun]
          intro h i hi
          exact ih2 m cont (x + 1) x x (by omega) hx hl (le_refl _) rfl
            (fun j h1 h2 => by
              have : j = x := by omega
              rw [this]
              exact hun) h i hi
        · rw [if_neg hun]
          intro h i hi hg
          by_cases hix : i = x - 1
          · obtain ⟨_, k, h1, h2, h3, _⟩ := hg
            exact hun (h3 x (by omega) (by omega))
          · exact ih0 m cont x start endPos (by omega) h i (by omega) hg
      · rw [if_neg hxc]
        intro _ i hi hg
        obtain ⟨_, k, h1, h2, _⟩ := hg
        omega
    · rw [FillLandLine.eq_4 _ _ _ _ _ _ _ _ _ _ (by decide) (by decide)]
      by_cases hxc : x < count
      · rw [if_pos hxc]
        by_cases hun : get m x = State.unknown
        · rw [if_pos hun]
          intro h i hi
          exact ih2 m cont (x + 1) start x (by omega) hs hl (by omega) rfl
            (fun j h1 h2 => by
              by_cases hj : j = x
              · rw [hj]
                exact hun
              · exact hu j h1 (by omega)) h i hi
        · rw [if_neg hun]
          by_cases hcl : get m x = State.coast ∨ get m x = State.land
          · rw [if_pos hcl, if_pos ⟨by omega, by omega, hse⟩]
            intro h
            rw [FillLandLine_cont] at h
            exact absurd h (by decide)
          · rw [if_neg hcl]
            intro h i hi hg
            by_cases hix : x ≤ i
            · exact ih0 m cont x start endPos (by omega) h i hix hg
            · by_cases his : start ≤ i
              · have := hu i his (by omega)
                rw [hg.1] at this
                exact absurd this (by decide)
              · obtain ⟨_, k, h1, h2, h3, h4⟩ := hg
                by_cases hkx : k = x
                · rw [hkx] at h4
                  exact hcl h4
                · by_cases hkl : k < x
                  · have := hu k (by omega) (by omega)
                    rw [this] at h4
                    rcases h4 with h4 | h4 <;> exact absurd h4 (by decide)
                  · exact hun (h3 x (by omega) (by omega))
      · rw [if_neg hxc]
        intro _ i hi hg
        by_cases his : start ≤ i
        · by_cases hie : i ≤ endPos
          · have := hu i his hie
            rw [hg.1] at this
            exact absurd this (by decide)
          · obtain ⟨_, k, h1, h2, _⟩ := hg
            omega
        · obtain ⟨_, k, h1, h2, h3, h4⟩ := hg
          have := hu k (by omega) (by omega)
          rw [this] at h4
          rcases h4 with h4 | h4 <;> exact absurd h4 (by decide)

theorem FillLandRow_false (acc : StateMap × Bool) (y : Nat)
    (h : (FillLandRow acc y).2 = false) :
    FillLandRow acc y = acc ∧
      ¬ LandGap (fun x => acc.1.GetState x y) acc.1.cellXCount := by
  unfold FillLandRow at h ⊢
  obtain ⟨h1, h2⟩ := FillLandLine_unchanged _ _ _ _ _ _ _ _ _ _ h
  refine ⟨Prod.ext h1 (h.trans h2.symm), ?_⟩
  rintro ⟨i, hg⟩
  exact (FillLandLine_no_gap (fun m x => m.GetState x y)
    (fun m i => m.SetState i y State.land) acc.1.cellXCount (2 * acc.1.cellXCount)).1
    acc.1 acc.2 0 0 0 (by omega) h i (Nat.zero_le _) hg

theorem FillLandColumn_false (acc : StateMap × Bool) (x : Nat)
    (h : (FillLandColumn acc x).2 = false) :
    FillLandColumn acc x = acc ∧
      ¬ LandGap (fun y => acc.1.GetState x y) acc.1.cellYCount := by
  unfold FillLandColumn at h ⊢
  obtain ⟨h1, h2⟩ := FillLandLine_unchanged _ _ _ _ _ _ _ _ _ _ h
  refine ⟨Prod.ext h1 (h.trans h2.symm), ?_⟩
  rintro ⟨i, hg⟩
  exact (FillLandLine_no_gap (fun m y => m.GetState x y)
    (fun m i => m.SetState x i State.land) acc.1.cellYCount (2 * acc.1.cellYCount)).1
    acc.1 acc.2 0 0 0 (by omega) h i (Nat.zero_le _) hg

theorem foldl_false (f : StateMap × Bool → Nat → StateMap × Bool) (Q : StateMap → Nat → Prop)
    (hf : ∀ acc a, (f acc a).2 = false → f acc a = acc ∧ Q acc.1 a) :
    ∀ (l : List Nat) (acc : StateMap × Bool), (l.foldl f acc).2 = false →
      l.foldl f acc = acc ∧ ∀ a ∈ l, Q acc.1 a := by
  intro l
  induction l with
  | nil => intro acc _; exact ⟨rfl, fun a ha => absurd ha (List.not_mem_nil a)⟩
  | cons a l ih =>
    intro acc h
    rw [List.foldl_cons] at h ⊢
    obtain ⟨h1, h2⟩ := ih (f acc a) h
    obtain ⟨h3, h4⟩ := hf acc a (by rw [← h1]; exact h)
    refine ⟨h1.trans h3, fun b hb => ?_⟩
    rcases List.mem_cons.mp hb with hb | hb
    · rw [hb]; exact h4
    · rw [h3] at h2; exact h2 b hb

theorem FillLandPass_fixed_no_gap (m : StateMap) (h : FillLandPass m = (m, false)) :
    (∀ y, y < m.cellYCount → ¬ LandGap (fun x => m.GetState x y) m.cellXCount) ∧
    (∀ x, x < m.cellXCount → ¬ LandGap (fun y => m.GetState x y) m.cellYCount) := by
  unfold FillLandPass at h
  simp only [] at h
  have hc := foldl_false FillLandColumn
    (fun m x => ¬ LandGap (fun y => m.GetState x y) m.cellYCount) FillLandColumn_false _ _
    (by rw [h])
  rw [hc.1] at h
  have hr := foldl_false FillLandRow
    (fun m y => ¬ LandGap (fun x => m.GetState x y) m.cellXCount) FillLandRow_false _ _
    (by rw [h])
  have hc2 := hc.2
  rw [h] at hc2
  exact ⟨fun y hy => hr.2 y (List.mem_range.mpr hy), fun x hx => hc2 x (List.mem_range.mpr hx)⟩

theorem FillLandLoop_passes (n : Nat) :
    ∀ m : StateMap, m.InBounds → unknownCount m < n →
      ∃ passes m', passes ≤ unknownCount m ∧ FillLandLoop (passes + 1) m = some m' ∧
        FillLandLoop passes m = none := by
  induction n with
  | zero => intro m _ h; omega
  | succ n ih =>
    intro m hb hn
    have hinv := FillLandPass_inv m hb
    by_cases hcont : (FillLandPass m).2 = true
    · have hlt := unknownCount_lt hinv.1 (hinv.2.1 hcont)
      obtain ⟨p, m', h1, h2, h3⟩ := ih (FillLandPass m).1 (hinv.1.inBounds_of hb) (by omega)
      refine ⟨p + 1, m', by omega, ?_, ?_⟩
      · rw [FillLandLoop]
        simp only [hcont, if_true]
        exact h2
      · rw [FillLandLoop]
        simp only [hcont, if_true]
        exact h3
    · rw [Bool.not_eq_true] at hcont
      refine ⟨0, (FillLandPass m).1, Nat.zero_le _, ?_, rfl⟩
      rw [FillLandLoop]
      simp [hcont]

/-! ### Claims on the fixed point and on the passes of `FillLand` -/

/-- C31: on every StateMap whose in-range cells lie inside of the byte vector, `FillLand` ends
with a map in which no row, read with `x` upwards, and no column, read with `y` upwards,
holds a `land` cell that is followed by one or more `unknown` cells and then by a `coast` or
`land` cell. -/
theorem FillLand_no_gap (m : StateMap) (hb : m.InBounds) :
    ∃ m', FillLand m = some m' ∧
      (∀ y, y < m'.cellYCount → ¬ LandGap (fun x => m'.GetState x y) m'.cellXCount) ∧
      (∀ x, x < m'.cellXCount → ¬ LandGap (fun y => m'.GetState x y) m'.cellYCount) := by
  obtain ⟨m', h1, _, h3⟩ := FillLand_spec m hb
  exact ⟨m', h1, FillLandPass_fixed_no_gap m' h3⟩

/-- Example for C31: the row `land, unknown, coast` holds the pattern, and the result of
`FillLand` on it does not. -/
theorem FillLand_no_gap_witness :
    landGapMap.InBounds ∧
    LandGap (fun x => landGapMap.GetState x 0) landGapMap.cellXCount ∧
    ∃ m', FillLand landGapMap = some m' ∧
      (∀ y, y < m'.cellYCount → ¬ LandGap (fun x => m'.GetState x y) m'.cellXCount) ∧
      (∀ x, x < m'.cellXCount → ¬ LandGap (fun y => m'.GetState x y) m'.cellYCount) :=
  ⟨Valid.to_inBounds landGapMap (by decide!),
    ⟨0, by decide!, 2, by decide, by decide!,
      fun j h1 h2 => by
        have hj : j = 1 := by omega
        rw [hj]
        decide!,
      Or.inl (by decide!)⟩,
    FillLand_no_gap landGapMap (Valid.to_inBounds landGapMap (by decide!))⟩

/-- C32: on every StateMap whose in-range cells lie inside of the byte vector, a pass of the
outer loop of `FillLand` only turns `unknown` cells into `land`, so that a cell that is
`unknown` after the pass was `unknown` before it; a pass that ends with `cont = true` has
turned an in-range `unknown` cell into `land` and has lowered the number of `unknown` cells;
and `FillLand` ends within a number of passes that is at most the number of `unknown` cells
plus one: with a smaller bound the loop has not ended, with every larger bound the result is
the same. -/
theorem FillLand_passes (m : StateMap) (hb : m.InBounds) :
    Fills (fun s => s = State.land) m (FillLandPass m).1 ∧
    (∀ x y, (FillLandPass m).1.GetState x y = State.unknown →
      m.GetState x y = State.unknown) ∧
    ((FillLandPass m).2 = true →
      Changed m (FillLandPass m).1 ∧ unknownCount (FillLandPass m).1 < unknownCount m) ∧
    ∃ passes m', passes ≤ unknownCount m + 1 ∧
      FillLandLoop passes m = some m' ∧
      (∀ k, k < passes → FillLandLoop k m = none) ∧
      (∀ k, passes ≤ k → FillLandLoop k m = some m') ∧
      FillLand m = some m' := by
  have hinv := FillLandPass_inv m hb
  refine ⟨hinv.1, fun x y h => hinv.1.unknown_of x y h,
    fun hc => ⟨hinv.2.1 hc, unknownCount_lt hinv.1 (hinv.2.1 hc)⟩, ?_⟩
  obtain ⟨p, m', h1, h2, h3⟩ := FillLandLoop_passes (unknownCount m + 1) m hb (by omega)
  refine ⟨p + 1, m', by omega, h2, fun k hk => ?_,
    fun k hk => FillLandLoop_mono_le _ k hk m m' h2,
    FillLandLoop_mono_le _ _ (by omega) m m' h2⟩
  cases hr : FillLandLoop k m with
  | none => rfl
  | some r =>
    have := FillLandLoop_mono_le k p (by omega) m r hr
    rw [h3] at this
    exact absurd this (by simp)

/-- Example for C32: on the row `land, unknown, coast`, with one `unknown` cell, the first
pass ends with `cont = true` and the loop ends after two passes. -/
theorem FillLand_passes_witness :
    landGapMap.InBounds ∧ unknownCount landGapMap = 1 ∧
    (FillLandPass landGapMap).2 = true ∧
    FillLandLoop 1 landGapMap = none ∧
    FillLandLoop 2 landGapMap = some (landGapMap.SetState 1 0 State.land) ∧
    ∃ passes m', passes ≤ unknownCount landGapMap + 1 ∧
      FillLandLoop passes landGapMap = some m' ∧
      (∀ k, k < passes → FillLandLoop k landGapMap = none) ∧
      (∀ k, passes ≤ k → FillLandLoop k landGapMap = some m') ∧
      FillLand landGapMap = some m' :=
  ⟨Valid.to_inBounds landGapMap (by decide!), by decide!, by decide!, by decide!, by decide!,
    (FillLand_passes landGapMap (Valid.to_inBounds landGapMap (by decide!))).2.2.2⟩

/-! ### Fills over a complete border in `CalculateCoastEnvironment` -/

theorem CalculateCoastEnvironmentCoord_detect (tile : GroundTile) (ts : State) (env : CoastEnv)
    (c k : Nat) (hk : k < 4) :
    (CalculateCoastEnvironment.borderLine k (tile.coords.getD c ⟨0, 0, false⟩)
        (tile.coords.getD (c + 1) ⟨0, 0, false⟩) ∧ env.state k = State.unknown →
      (CalculateCoastEnvironmentCoord tile ts env c).state k = ts) ∧
    (¬ (CalculateCoastEnvironment.borderLine k (tile.coords.getD c ⟨0, 0, false⟩)
        (tile.coords.getD (c + 1) ⟨0, 0, false⟩) ∧ env.state k = State.unknown) →
      (CalculateCoastEnvironmentCoord tile ts env c).state k = env.state k) := by
  unfold CalculateCoastEnvironmentCoord
  lift_lets
  extract_lets cur next cellMax env1 env2 env3 env4 env5
  have h1 : env1.state0 = env.state0 ∧ env1.state1 = env.state1 ∧ env1.state2 = env.state2 ∧
      env1.state3 = env.state3 := by
    simp only [env1]
    split_ifs <;> exact ⟨rfl, rfl, rfl, rfl⟩
  have h2 : env2.state0 = (if (cur.x = 0 ∧ cur.y = cellMax ∧ next.x = cellMax ∧
        next.y = cellMax) ∧ env1.state0 = State.unknown then ts else env1.state0) ∧
      env2.state1 = env1.state1 ∧ env2.state2 = env1.state2 ∧ env2.state3 = env1.state3 := by
    simp only [env2]
    split_ifs <;> simp_all
  have h3 : env3.state0 = env2.state0 ∧
      env3.state1 = (if (cur.x = cellMax ∧ cur.y = cellMax ∧ next.x = cellMax ∧
        next.y = 0) ∧ env2.state1 = State.unknown then ts else env2.state1) ∧
      env3.state2 = env2.state2 ∧ env3.state3 = env2.state3 := by
    simp only [env3]
    split_ifs <;> simp_all
  have h4 : env4.state0 = env3.state0 ∧ env4.state1 = env3.state1 ∧
      env4.state2 = (if (cur.x = cellMax ∧ cur.y = 0 ∧ next.x = 0 ∧
        next.y = 0) ∧ env3.state2 = State.unknown then ts else env3.state2) ∧
      env4.state3 = env3.state3 := by
    simp only [env4]
    split_ifs <;> simp_all
  have h5 : env5.state0 = env4.state0 ∧ env5.state1 = env4.state1 ∧
      env5.state2 = env4.state2 ∧
      env5.state3 = (if (cur.x = 0 ∧ cur.y = 0 ∧ next.x = 0 ∧
        next.y = cellMax) ∧ env4.state3 = State.unknown then ts else env4.state3) := by
    simp only [env5]
    split_ifs <;> simp_all
  interval_cases k
  · show (_ → env5.state0 = _) ∧ (_ → env5.state0 = _)
    rw [h5.1, h4.1, h3.1, h2.1, h1.1]
    exact ⟨fun h => if_pos h, fun h => if_neg h⟩
  · show (_ → env5.state1 = _) ∧ (_ → env5.state1 = _)
    rw [h5.2.1, h4.2.1, h3.2.1, h2.2.1, h1.2.1]
    exact ⟨fun h => if_pos h, fun h => if_neg h⟩
  · show (_ → env5.state2 = _) ∧ (_ → env5.state2 = _)
    rw [h5.2.2.1, h4.2.2.1, h3.2.2.1, h2.2.2.1, h1.2.2.1]
    exact ⟨fun h => if_pos h, fun h => if_neg h⟩
  · show (_ → env5.state3 = _) ∧ (_ → env5.state3 = _)
    rw [h5.2.2.2, h4.2.2.2, h3.2.2.2, h2.2.2.2, h1.2.2.2]
    exact ⟨fun h => if_pos h, fun h => if_neg h⟩

theorem CalculateCoastEnvironmentCoord_range (tile : GroundTile) (ts : State) (env : CoastEnv)
    (k : Nat) (hk : k < 4) (n : Nat) :
    (env.state k ≠ State.unknown →
      ((List.range n).foldl (CalculateCoastEnvironmentCoord tile ts) env).state k
        = env.state k) ∧
    (env.state k = State.unknown →
      (∃ c, c < n ∧ CalculateCoastEnvironment.borderLine k (tile.coords.getD c ⟨0, 0, false⟩)
        (tile.coords.getD (c + 1) ⟨0, 0, false⟩)) →
      ((List.range n).foldl (CalculateCoastEnvironmentCoord tile ts) env).state k = ts) ∧
    (env.state k = State.unknown →
      (∀ c, c < n → ¬ CalculateCoastEnvironment.borderLine k
        (tile.coords.getD c ⟨0, 0, false⟩) (tile.coords.getD (c + 1) ⟨0, 0, false⟩)) →
      ((List.range n).foldl (CalculateCoastEnvironmentCoord tile ts) env).state k
        = State.unknown) := by
  induction n with
  | zero =>
    refine ⟨fun _ => rfl, fun _ h => ?_, fun h _ => h⟩
    obtain ⟨c, hc, _⟩ := h
    omega
  | succ n ih =>
    obtain ⟨ih1, ih2, ih3⟩ := ih
    rw [List.range_succ, List.foldl_append, List.foldl_cons, List.foldl_nil]
    have hd := CalculateCoastEnvironmentCoord_detect tile ts
      ((List.range n).foldl (CalculateCoastEnvironmentCoord tile ts) env) n k hk
    refine ⟨fun hne => ?_, fun hu hex => ?_, fun hu hall => ?_⟩
    · rw [hd.2 (fun h => hne (by rw [← ih1 hne]; exact h.2)), ih1 hne]
    · by_cases hdet : CalculateCoastEnvironment.borderLine k
          (tile.coords.getD n ⟨0, 0, false⟩) (tile.coords.getD (n + 1) ⟨0, 0, false⟩) ∧
          ((List.range n).foldl (CalculateCoastEnvironmentCoord tile ts) env).state k
            = State.unknown
      · exact hd.1 hdet
      · rw [hd.2 hdet]
        by_cases hbefore : ∃ c, c < n ∧ CalculateCoastEnvironment.borderLine k
            (tile.coords.getD c ⟨0, 0, false⟩) (tile.coords.getD (c + 1) ⟨0, 0, false⟩)
        · exact ih2 hu hbefore
        · exfalso
          obtain ⟨c, hc, hb⟩ := hex
          have hcn : c = n := by
            by_contra hne
            exact hbefore ⟨c, by omega, hb⟩
          rw [hcn] at hb
          exact hdet ⟨hb, ih3 hu (fun c' hc' hb' => hbefore ⟨c', hc', hb'⟩)⟩
    · rw [hd.2 (fun h => hall n (by omega) h.1)]
      exact ih3 hu (fun c hc => hall c (by omega))

theorem CalculateCoastEnvironmentTile_detect (env : CoastEnv) (tile : GroundTile) (k : Nat)
    (hk : k < 4) (hlen : 1 ≤ tile.coords.length ∧ tile.coords.length < U64) :
    (env.state k ≠ State.unknown →
      (CalculateCoastEnvironmentTile env tile).state k = env.state k) ∧
    (env.state k = State.unknown → CalculateCoastEnvironment.fullBorder k tile →
      (CalculateCoastEnvironmentTile env tile).state k = tileStateOf tile.type) ∧
    (env.state k = State.unknown → ¬ CalculateCoastEnvironment.fullBorder k tile →
      (CalculateCoastEnvironmentTile env tile).state k = State.unknown) := by
  have hn : (tile.coords.length + U64 - 1) % U64 = tile.coords.length - 1 := by
    have h1 : tile.coords.length + U64 - 1 = tile.coords.length - 1 + U64 := by omega
    rw [h1, Nat.add_mod_right, Nat.mod_eq_of_lt (by omega)]
  obtain ⟨h1, h2, h3⟩ := CalculateCoastEnvironmentCoord_range tile (tileStateOf tile.type) env
    k hk ((tile.coords.length + U64 - 1) % U64)
  unfold CalculateCoastEnvironmentTile
  refine ⟨h1, fun hu hf => h2 hu ?_, fun hu hf => h3 hu ?_⟩
  · obtain ⟨c, hc, hb⟩ := hf
    exact ⟨c, by rw [hn]; omega, hb⟩
  · intro c hc hb
    rw [hn] at hc
    exact hf ⟨c, by omega, hb⟩

theorem CalculateCoastEnvironment_tiles_keep (k : Nat) (hk : k < 4) (tiles : List GroundTile)
    (hlen : ∀ t ∈ tiles, 1 ≤ t.coords.length ∧ t.coords.length < U64) :
    ∀ env : CoastEnv, env.state k ≠ State.unknown →
      (tiles.foldl CalculateCoastEnvironmentTile env).state k = env.state k := by
  induction tiles with
  | nil => intro env _; rfl
  | cons t tiles ih =>
    intro env hne
    rw [List.foldl_cons]
    have ht := (CalculateCoastEnvironmentTile_detect env t k hk
      (hlen t (List.mem_cons_self _ _))).1 hne
    rw [ih (fun t' ht' => hlen t' (List.mem_cons_of_mem _ ht')) _ (by rw [ht]; exact hne), ht]

theorem CalculateCoastEnvironment_tiles_skip (k : Nat) (hk : k < 4) (tiles : List GroundTile)
    (hlen : ∀ t ∈ tiles, 1 ≤ t.coords.length ∧ t.coords.length < U64)
    (hskip : ∀ t ∈ tiles, ¬ ((t.type = GroundTile.TileType.land ∨
      t.type = GroundTile.TileType.water) ∧ CalculateCoastEnvironment.fullBorder k t)) :
    ∀ env : CoastEnv, env.state k = State.unknown →
      (tiles.foldl CalculateCoastEnvironmentTile env).state k = State.unknown := by
  induction tiles with
  | nil => intro env h; exact h
  | cons t tiles ih =>
    intro env hu
    rw [List.foldl_cons]
    apply ih (fun t' ht' => hlen t' (List.mem_cons_of_mem _ ht'))
      (fun t' ht' => hskip t' (List.mem_cons_of_mem _ ht'))
    obtain ⟨_, h2, h3⟩ := CalculateCoastEnvironmentTile_detect env t k hk
      (hlen t (List.mem_cons_self _ _))
    by_cases hf : CalculateCoastEnvironment.fullBorder k t
    · rw [h2 hu hf]
      have hty := hskip t (List.mem_cons_self _ _)
      cases htype : t.type with
      | unknown => rfl
      | coast => rfl
      | land => exact absurd ⟨Or.inl htype, hf⟩ hty
      | water => exact absurd ⟨Or.inr htype, hf⟩ hty
    · exact h3 hu hf

theorem CalculateCoastEnvironment_tiles_first (k : Nat) (hk : k < 4)
    (l1 l2 : List GroundTile) (t : GroundTile)
    (hlen : ∀ t' ∈ l1 ++ t :: l2, 1 ≤ t'.coords.length ∧ t'.coords.length < U64)
    (htype : t.type = GroundTile.TileType.land ∨ t.type = GroundTile.TileType.water)
    (hfull : CalculateCoastEnvironment.fullBorder k t)
    (hfirst : ∀ t' ∈ l1, ¬ ((t'.type = GroundTile.TileType.land ∨
      t'.type = GroundTile.TileType.water) ∧ CalculateCoastEnvironment.fullBorder k t'))
    (env : CoastEnv) :
    ((l1 ++ t :: l2).foldl CalculateCoastEnvironmentTile env).state k ≠ State.unknown ∧
    (env.state k = State.unknown →
      ((l1 ++ t :: l2).foldl CalculateCoastEnvironmentTile env).state k
        = tileStateOf t.type) := by
  have hts : tileStateOf t.type ≠ State.unknown := by
    rcases htype with h | h <;> rw [h] <;> decide
  by_cases hu : env.state k = State.unknown
  · have h1 := CalculateCoastEnvironment_tiles_skip k hk l1
      (fun t' ht' => hlen t' (List.mem_append_left _ ht')) hfirst env hu
    have h2 := (CalculateCoastEnvironmentTile_detect
      (l1.foldl CalculateCoastEnvironmentTile env) t k hk
      (hlen t (List.mem_append_right _ (List.mem_cons_self _ _)))).2.1 h1 hfull
    have h3 := CalculateCoastEnvironment_tiles_keep k hk l2
      (fun t' ht' => hlen t' (List.mem_append_right _ (List.mem_cons_of_mem _ ht')))
      (CalculateCoastEnvironmentTile (l1.foldl CalculateCoastEnvironmentTile env) t)
      (by rw [h2]; exact hts)
    rw [List.foldl_append, List.foldl_cons, h3, h2]
    exact ⟨hts, fun _ => rfl⟩
  · rw [CalculateCoastEnvironment_tiles_keep k hk _ hlen env hu]
    exact ⟨hu, fun h => absurd h hu⟩

theorem CalculateCoastEnvironmentCell_eq (stateMap : StateMap) (coord : Pixel)
    (tiles : List GroundTile) :
    CalculateCoastEnvironmentCell stateMap coord tiles =
      CalculateCoastEnvironment.assume (coord.x > 0)
        (CalculateCoastEnvironment.assume (coord.y > 0)
          (CalculateCoastEnvironment.assume (coord.x < subOne32 stateMap.cellXCount)
            (CalculateCoastEnvironment.assume (coord.y < subOne32 stateMap.cellYCount)
              stateMap coord.x (coord.y + 1)
              ((tiles.foldl CalculateCoastEnvironmentTile
                (CalculateCoastEnvironment.preset stateMap coord)).state 0))
            (coord.x + 1) coord.y
            ((tiles.foldl CalculateCoastEnvironmentTile
              (CalculateCoastEnvironment.preset stateMap coord)).state 1))
          coord.x (coord.y - 1)
          ((tiles.foldl CalculateCoastEnvironmentTile
            (CalculateCoastEnvironment.preset stateMap coord)).state 2))
        (coord.x - 1) coord.y
        ((tiles.foldl CalculateCoastEnvironmentTile
          (CalculateCoastEnvironment.preset stateMap coord)).state 3) := rfl

theorem assume_same (g : Prop) [Decidable g] (m : StateMap) (x y : Nat) (s : State) :
    (∀ u v, (CalculateCoastEnvironment.assume g m x y s).cellId u v = m.cellId u v) ∧
    (CalculateCoastEnvironment.assume g m x y s).area.length = m.area.length := by
  unfold CalculateCoastEnvironment.assume
  split_ifs
  · exact ⟨fun u v => rfl, SetState_length m x y s⟩
  · exact ⟨fun u v => rfl, rfl⟩
  · exact ⟨fun u v => rfl, rfl⟩

theorem GetState_congr_cellId (m : StateMap) (x y u v : Nat)
    (h : m.cellId x y = m.cellId u v) : m.GetState x y = m.GetState u v := by
  rw [GetState_eq, GetState_eq, h]

theorem assume_keep (g : Prop) [Decidable g] (m : StateMap) (x y : Nat) (s : State)
    (u v : Nat) (h : m.GetState u v ≠ State.unknown) :
    (CalculateCoastEnvironment.assume g m x y s).GetState u v = m.GetState u v := by
  unfold CalculateCoastEnvironment.assume
  split_ifs with h1 h2
  · rw [GetState_SetState]
    by_cases hc : m.cellId x y = m.cellId u v ∧ m.cellId x y / 4 < m.area.length
    · exfalso
      apply h
      rw [← GetState_congr_cellId m x y u v hc.1]
      exact h1.2
    · rw [if_neg hc]
  · rfl
  · rfl

theorem assume_other (g : Prop) [Decidable g] (m : StateMap) (x y : Nat) (s : State)
    (u v : Nat) (h : g → m.cellId x y ≠ m.cellId u v) :
    (CalculateCoastEnvironment.assume g m x y s).GetState u v = m.GetState u v := by
  unfold CalculateCoastEnvironment.assume
  split_ifs with h1 h2
  · rw [GetState_SetState, if_neg (fun hc => h h1.1 hc.1)]
  · rfl
  · rfl

theorem assume_hit (g : Prop) [Decidable g] (m : StateMap) (x y : Nat) (s : State)
    (hg : g) (hu : m.GetState x y = State.unknown) (hs : s ≠ State.unknown)
    (hin : m.cellId x y / 4 < m.area.length) :
    (CalculateCoastEnvironment.assume g m x y s).GetState x y = s := by
  unfold CalculateCoastEnvironment.assume
  rw [if_pos ⟨hg, hu⟩, if_pos hs, GetState_SetState, if_pos ⟨rfl, hin⟩]

theorem subOne32_iff (n y : Nat) (hpos : 0 < n) (hn : n < U32) :
    y < subOne32 n ↔ y + 1 < n := by
  unfold subOne32
  have h1 : n + U32 - 1 = n - 1 + U32 := by omega
  rw [h1, Nat.add_mod_right, Nat.mod_eq_of_lt (by omega)]
  omega

theorem CalculateCoastEnvironmentCell_side (m : StateMap) (coord : Pixel)
    (tiles : List GroundTile) (k : Nat) (hk : k < 4) (hvalid : m.Valid)
    (hx : coord.x < m.cellXCount) (hy : coord.y < m.cellYCount)
    (hin : CalculateCoastEnvironment.inside k m coord)
    (hs : (tiles.foldl CalculateCoastEnvironmentTile
      (CalculateCoastEnvironment.preset m coord)).state k ≠ State.unknown)
    (hu : m.GetState (CalculateCoastEnvironment.neighbour k coord).x
      (CalculateCoastEnvironment.neighbour k coord).y = State.unknown) :
    (CalculateCoastEnvironmentCell m coord tiles).GetState
        (CalculateCoastEnvironment.neighbour k coord).x
        (CalculateCoastEnvironment.neighbour k coord).y =
      (tiles.foldl CalculateCoastEnvironmentTile
        (CalculateCoastEnvironment.preset m coord)).state k := by
  rw [CalculateCoastEnvironmentCell_eq]
  generalize tiles.foldl CalculateCoastEnvironmentTile
    (CalculateCoastEnvironment.preset m coord) = env at hs ⊢
  obtain ⟨hcx, hcy⟩ := Valid.count_lt m hvalid coord.x coord.y hx hy
  have hfit := hvalid.1
  have g0iff := subOne32_iff m.cellYCount coord.y (by omega) hcy
  have g1iff := subOne32_iff m.cellXCount coord.x (by omega) hcx
  have s1 := assume_same (coord.y < subOne32 m.cellYCount) m coord.x (coord.y + 1)
    (env.state 0)
  generalize hM1 : CalculateCoastEnvironment.assume (coord.y < subOne32 m.cellYCount) m
    coord.x (coord.y + 1) (env.state 0) = M1 at s1 ⊢
  have s2 := assume_same (coord.x < subOne32 m.cellXCount) M1 (coord.x + 1) coord.y
    (env.state 1)
  generalize hM2 : CalculateCoastEnvironment.assume (coord.x < subOne32 m.cellXCount) M1
    (coord.x + 1) coord.y (env.state 1) = M2 at s2 ⊢
  have s3 := assume_same (coord.y > 0) M2 coord.x (coord.y - 1) (env.state 2)
  generalize hM3 : CalculateCoastEnvironment.assume (coord.y > 0) M2 coord.x (coord.y - 1)
    (env.state 2) = M3 at s3 ⊢
  have b1 : ∀ u v, u < m.cellXCount → v < m.cellYCount → M1.cellId u v / 4 < M1.area.length :=
    fun u v hu' hv' => by rw [s1.1, s1.2]; exact Valid.index_lt m hvalid u v hu' hv'
  have b2 : ∀ u v, u < m.cellXCount → v < m.cellYCount → M2.cellId u v / 4 < M2.area.length :=
    fun u v hu' hv' => by rw [s2.1, s2.2]; exact b1 u v hu' hv'
  have b3 : ∀ u v, u < m.cellXCount → v < m.cellYCount → M3.cellId u v / 4 < M3.area.length :=
    fun u v hu' hv' => by rw [s3.1, s3.2]; exact b2 u v hu' hv'
  interval_cases k
  · simp only [CalculateCoastEnvironment.neighbour, CalculateCoastEnvironment.inside] at hin hu ⊢
    have h1 : M1.GetState coord.x (coord.y + 1) = env.state 0 := by
      rw [← hM1]
      exact assume_hit _ _ _ _ _ (g0iff.mpr hin) hu hs (Valid.index_lt m hvalid _ _ hx hin)
    have h2 : M2.GetState coord.x (coord.y + 1) = env.state 0 := by
      rw [← hM2, assume_keep _ _ _ _ _ _ _ (by rw [h1]; exact hs), h1]
    have h3 : M3.GetState coord.x (coord.y + 1) = env.state 0 := by
      rw [← hM3, assume_keep _ _ _ _ _ _ _ (by rw [h2]; exact hs), h2]
    rw [assume_keep _ _ _ _ _ _ _ (by rw [h3]; exact hs), h3]
  · simp only [CalculateCoastEnvironment.neighbour, CalculateCoastEnvironment.inside] at hin hu ⊢
    have h1 : M1.GetState (coord.x + 1) coord.y = State.unknown := by
      rw [← hM1, assume_other _ _ _ _ _ _ _ (fun hg heq => by
        have := cellId_inj m hfit _ _ _ _ hx (g0iff.mp hg) hin hy heq
        omega), hu]
    have h2 : M2.GetState (coord.x + 1) coord.y = env.state 1 := by
      rw [← hM2]
      exact assume_hit _ _ _ _ _ (g1iff.mpr hin) h1 hs (b1 _ _ hin hy)
    have h3 : M3.GetState (coord.x + 1) coord.y = env.state 1 := by
      rw [← hM3, assume_keep _ _ _ _ _ _ _ (by rw [h2]; exact hs), h2]
    rw [assume_keep _ _ _ _ _ _ _ (by rw [h3]; exact hs), h3]
  · simp only [CalculateCoastEnvironment.neighbour, CalculateCoastEnvironment.inside] at hin hu ⊢
    have h1 : M1.GetState coord.x (coord.y - 1) = State.unknown := by
      rw [← hM1, assume_other _ _ _ _ _ _ _ (fun hg heq => by
        have := cellId_inj m hfit _ _ _ _ hx (g0iff.mp hg) hx (by omega) heq
        omega), hu]
    have h2 : M2.GetState coord.x (coord.y - 1) = State.unknown := by
      rw [← hM2, assume_other _ _ _ _ _ _ _ (fun hg heq => by
        rw [s1.1, s1.1] at heq
        have := cellId_inj m hfit _ _ _ _ (g1iff.mp hg) hy hx (by omega) heq
        omega), h1]
    have h3 : M3.GetState coord.x (coord.y - 1) = env.state 2 := by
      rw [← hM3]
      exact assume_hit _ _ _ _ _ hin h2 hs (b2 _ _ hx (by omega))
    rw [assume_keep _ _ _ _ _ _ _ (by rw [h3]; exact hs), h3]
  · simp only [CalculateCoastEnvironment.neighbour, CalculateCoastEnvironment.inside] at hin hu ⊢
    have h1 : M1.GetState (coord.x - 1) coord.y = State.unknown := by
      rw [← hM1, assume_other _ _ _ _ _ _ _ (fun hg heq => by
        have := cellId_inj m hfit _ _ _ _ hx (g0iff.mp hg) (by omega) hy heq
        omega), hu]
    have h2 : M2.GetState (coord.x - 1) coord.y = State.unknown := by
      rw [← hM2, assume_other _ _ _ _ _ _ _ (fun hg heq => by
        rw [s1.1, s1.1] at heq
        have := cellId_inj m hfit _ _ _ _ (g1iff.mp hg) hy (by omega) hy heq
        omega), h1]
    have h3 : M3.GetState (coord.x - 1) coord.y = State.unknown := by
      rw [← hM3, assume_other _ _ _ _ _ _ _ (fun hg heq => by
        rw [s2.1, s1.1, s2.1, s1.1] at heq
        have := cellId_inj m hfit _ _ _ _ hx (by omega) (by omega) hy heq
        omega), h2]
    exact assume_hit _ _ _ _ _ hin h3 hs (b3 _ _ (by omega) hy)

theorem preset_state0 (m : StateMap) (coord : Pixel) (h : coord.y < subOne32 m.cellYCount) :
    (CalculateCoastEnvironment.preset m coord).state0 =
      m.GetState coord.x (coord.y + 1) := by
  unfold CalculateCoastEnvironment.preset
  dsimp only
  simp only [h, if_true]

theorem preset_state1 (m : StateMap) (coord : Pixel) (h : coord.x < subOne32 m.cellXCount) :
    (CalculateCoastEnvironment.preset m coord).state1 =
      m.GetState (coord.x + 1) coord.y := by
  unfold CalculateCoastEnvironment.preset
  dsimp only
  simp only [h, if_true]

theorem preset_state2 (m : StateMap) (coord : Pixel) (h : coord.y > 0) :
    (CalculateCoastEnvironment.preset m coord).state2 =
      m.GetState coord.x (coord.y - 1) := by
  unfold CalculateCoastEnvironment.preset
  dsimp only
  simp only [h, if_true]

theorem preset_state3 (m : StateMap) (coord : Pixel) (h : coord.x > 0) :
    (CalculateCoastEnvironment.preset m coord).state3 =
      m.GetState (coord.x - 1) coord.y := by
  unfold CalculateCoastEnvironment.preset
  dsimp only
  simp only [h, if_true]

theorem CoastEnv.state_lit (env : CoastEnv) :
    env.state 0 = env.state0 ∧ env.state 1 = env.state1 ∧ env.state 2 = env.state2 ∧
      env.state 3 = env.state3 :=
  ⟨rfl, rfl, rfl, rfl⟩

theorem CalculateCoastEnvironment_preset_state (m : StateMap) (coord : Pixel) (k : Nat)
    (hk : k < 4) (hvalid : m.Valid) (hx : coord.x < m.cellXCount)
    (hy : coord.y < m.cellYCount) (hin : CalculateCoastEnvironment.inside k m coord) :
    (CalculateCoastEnvironment.preset m coord).state k =
      m.GetState (CalculateCoastEnvironment.neighbour k coord).x
        (CalculateCoastEnvironment.neighbour k coord).y := by
  obtain ⟨hcx, hcy⟩ := Valid.count_lt m hvalid coord.x coord.y hx hy
  have g0iff := subOne32_iff m.cellYCount coord.y (by omega) hcy
  have g1iff := subOne32_iff m.cellXCount coord.x (by omega) hcx
  interval_cases k
  · simp only [CalculateCoastEnvironment.neighbour, CalculateCoastEnvironment.inside] at hin ⊢
    rw [(CoastEnv.state_lit _).1]
    exact preset_state0 m coord (g0iff.mpr hin)
  · simp only [CalculateCoastEnvironment.neighbour, CalculateCoastEnvironment.inside] at hin ⊢
    rw [(CoastEnv.state_lit _).2.1]
    exact preset_state1 m coord (g1iff.mpr hin)
  · simp only [CalculateCoastEnvironment.neighbour, CalculateCoastEnvironment.inside] at hin ⊢
    rw [(CoastEnv.state_lit _).2.2.1]
    exact preset_state2 m coord hin
  · simp only [CalculateCoastEnvironment.neighbour, CalculateCoastEnvironment.inside] at hin ⊢
    rw [(CoastEnv.state_lit _).2.2.2]
    exact preset_state3 m coord hin

/-! ### Claim on the fills over a complete border -/

/-- C34: on a valid StateMap, for an entry of the tile map for an in-range cell `coord` all
of whose tiles have at least one coordinate, and for each side `k` (top, right, bottom, left)
on which the neighbour of the cell is inside of the map: if `t` is the first tile in the list
of the cell with type `land` or `water` that has two consecutive coordinates running along
the whole border `k`, then after `CalculateCoastEnvironment` the neighbour is not `unknown`;
if it was `unknown` when the entry was processed it has the state of the type of `t`, and
otherwise it has kept its state. -/
theorem CalculateCoastEnvironment_full_border (stateMap : StateMap)
    (pre post : List (Pixel × List GroundTile)) (coord : Pixel) (l1 l2 : List GroundTile)
    (t : GroundTile) (k : Nat) (hk : k < 4) (hvalid : stateMap.Valid)
    (hx : coord.x < stateMap.cellXCount) (hy : coord.y < stateMap.cellYCount)
    (hin : CalculateCoastEnvironment.inside k stateMap coord)
    (hlen : ∀ t' ∈ l1 ++ t :: l2, 1 ≤ t'.coords.length ∧ t'.coords.length < U64)
    (htype : t.type = GroundTile.TileType.land ∨ t.type = GroundTile.TileType.water)
    (hfull : CalculateCoastEnvironment.fullBorder k t)
    (hfirst : ∀ t' ∈ l1, ¬ ((t'.type = GroundTile.TileType.land ∨
      t'.type = GroundTile.TileType.water) ∧ CalculateCoastEnvironment.fullBorder k t')) :
    (CalculateCoastEnvironment stateMap (pre ++ (coord, l1 ++ t :: l2) :: post)).GetState
        (CalculateCoastEnvironment.neighbour k coord).x
        (CalculateCoastEnvironment.neighbour k coord).y ≠ State.unknown ∧
    ((CalculateCoastEnvironment stateMap pre).GetState
        (CalculateCoastEnvironment.neighbour k coord).x
        (CalculateCoastEnvironment.neighbour k coord).y = State.unknown →
      (CalculateCoastEnvironment stateMap (pre ++ (coord, l1 ++ t :: l2) :: post)).GetState
        (CalculateCoastEnvironment.neighbour k coord).x
        (CalculateCoastEnvironment.neighbour k coord).y = tileStateOf t.type) ∧
    ((CalculateCoastEnvironment stateMap pre).GetState
        (CalculateCoastEnvironment.neighbour k coord).x
        (CalculateCoastEnvironment.neighbour k coord).y ≠ State.unknown →
      (CalculateCoastEnvironment stateMap (pre ++ (coord, l1 ++ t :: l2) :: post)).GetState
        (CalculateCoastEnvironment.neighbour k coord).x
        (CalculateCoastEnvironment.neighbour k coord).y =
      (CalculateCoastEnvironment stateMap pre).GetState
        (CalculateCoastEnvironment.neighbour k coord).x
        (CalculateCoastEnvironment.neighbour k coord).y) := by
  have hfb := CalculateCoastEnvironment_fills stateMap pre
  have hsplit : CalculateCoastEnvironment stateMap (pre ++ (coord, l1 ++ t :: l2) :: post) =
      CalculateCoastEnvironment (CalculateCoastEnvironmentCell
        (CalculateCoastEnvironment stateMap pre) coord (l1 ++ t :: l2)) post := by
    unfold CalculateCoastEnvironment
    rw [List.foldl_append, List.foldl_cons]
  rw [hsplit]
  generalize CalculateCoastEnvironment stateMap pre = before at hfb ⊢
  have hvb : before.Valid := hfb.valid_of hvalid
  have hxb : coord.x < before.cellXCount := by rw [hfb.cellXCount]; exact hx
  have hyb : coord.y < before.cellYCount := by rw [hfb.cellYCount]; exact hy
  have hinb : CalculateCoastEnvironment.inside k before coord := by
    unfold CalculateCoastEnvironment.inside at hin ⊢
    rw [hfb.cellXCount, hfb.cellYCount]
    exact hin
  have hcell := CalculateCoastEnvironmentCell_fills before before coord (l1 ++ t :: l2)
    (Fills.fills_refl _ _)
  have hfa := CalculateCoastEnvironment_fills
    (CalculateCoastEnvironmentCell before coord (l1 ++ t :: l2)) post
  have henv := CalculateCoastEnvironment_tiles_first k hk l1 l2 t hlen htype hfull hfirst
    (CalculateCoastEnvironment.preset before coord)
  have hpre := CalculateCoastEnvironment_preset_state before coord k hk hvb hxb hyb hinb
  have hts : tileStateOf t.type ≠ State.unknown := by
    rcases htype with h | h <;> rw [h] <;> decide
  have hunknown : before.GetState (CalculateCoastEnvironment.neighbour k coord).x
        (CalculateCoastEnvironment.neighbour k coord).y = State.unknown →
      (CalculateCoastEnvironment (CalculateCoastEnvironmentCell before coord
        (l1 ++ t :: l2)) post).GetState (CalculateCoastEnvironment.neighbour k coord).x
        (CalculateCoastEnvironment.neighbour k coord).y = tileStateOf t.type := by
    intro hu
    have hside := CalculateCoastEnvironmentCell_side before coord (l1 ++ t :: l2) k hk hvb hxb
      hyb hinb henv.1 hu
    rw [henv.2 (by rw [hpre]; exact hu)] at hside
    rw [hfa.keeps _ _ (by rw [hside]; exact hts), hside]
  have hkeep : before.GetState (CalculateCoastEnvironment.neighbour k coord).x
        (CalculateCoastEnvironment.neighbour k coord).y ≠ State.unknown →
      (CalculateCoastEnvironment (CalculateCoastEnvironmentCell before coord
        (l1 ++ t :: l2)) post).GetState (CalculateCoastEnvironment.neighbour k coord).x
        (CalculateCoastEnvironment.neighbour k coord).y =
      before.GetState (CalculateCoastEnvironment.neighbour k coord).x
        (CalculateCoastEnvironment.neighbour k coord).y :=
    fun hne => (hcell.fills_trans hfa).keeps _ _ hne
  refine ⟨?_, hunknown, hkeep⟩
  by_cases hu : before.GetState (CalculateCoastEnvironment.neighbour k coord).x
      (CalculateCoastEnvironment.neighbour k coord).y = State.unknown
  · rw [hunknown hu]
    exact hts
  · rw [hkeep hu]
    exact hu

/-- Example for C34: the land tile of the coast cell `(1,0)` runs along the whole top border,
and the `unknown` cell `(1,1)` above it becomes `land`. -/
theorem CalculateCoastEnvironment_full_border_witness :
    coastCellMap.Valid ∧ coastCellMap.GetState 1 1 = State.unknown ∧
    (CalculateCoastEnvironment coastCellMap coastCellTiles).GetState 1 1 = State.land ∧
    ((CalculateCoastEnvironment coastCellMap []).GetState
        (CalculateCoastEnvironment.neighbour 0 ⟨1, 0⟩).x
        (CalculateCoastEnvironment.neighbour 0 ⟨1, 0⟩).y = State.unknown →
      (CalculateCoastEnvironment coastCellMap
        ([] ++ (⟨1, 0⟩, [] ++ (⟨GroundTile.TileType.land,
          [⟨0, 32767, false⟩, ⟨32767, 32767, false⟩, ⟨32767, 0, false⟩, ⟨0, 0, false⟩]⟩ :
            GroundTile) :: []) :: [])).GetState
        (CalculateCoastEnvironment.neighbour 0 ⟨1, 0⟩).x
        (CalculateCoastEnvironment.neighbour 0 ⟨1, 0⟩).y =
      tileStateOf GroundTile.TileType.land) :=
  ⟨by decide!, by decide!, by decide!,
    (CalculateCoastEnvironment_full_border coastCellMap [] [] ⟨1, 0⟩ [] []
      ⟨GroundTile.TileType.land,
        [⟨0, 32767, false⟩, ⟨32767, 32767, false⟩, ⟨32767, 0, false⟩, ⟨0, 0, false⟩]⟩ 0
      (by decide) (by decide!) (by decide!) (by decide!)
      (by show 0 + 1 < coastCellMap.cellYCount; decide!)
      (by simp [U64]) (Or.inl rfl)
      ⟨0, by decide, rfl, rfl, rfl, rfl⟩
      (fun _ h => absurd h (List.not_mem_nil _))).2.1⟩

/-! ### The choice of `WalkFromTripoint` -/

theorem WalkFromTripoint_candidate_eq (pathStart : Intersection) (data : Data)
    (intersectionsCW : List IntersectionRef) (tripoint previousPoint : GeoCoord)
    (walkType : CoastState) (s : WalkFromTripoint.Search) (pathIndex : Nat) :
    WalkFromTripoint.candidate pathStart data intersectionsCW tripoint previousPoint walkType s
        pathIndex =
      if WalkFromTripoint.eligible pathStart data tripoint walkType pathIndex then
        (if s.outgoing.isNone ∨
            WalkFromTripoint.angle data tripoint previousPoint pathIndex < s.outgoingAngle
         then WalkFromTripoint.chosen data intersectionsCW tripoint previousPoint pathIndex
         else s)
      else s := by
  unfold WalkFromTripoint.candidate
  simp only []
  by_cases h1 : pathStart.coastline = pathIndex
  · rw [if_pos h1, if_neg (fun he => he.1 h1)]
  rw [if_neg h1]
  by_cases h2 : (data.coastlines.getD pathIndex CoastlineData.none).points.length < 2
  · rw [if_pos h2, if_neg (fun he => by have := he.2.1; omega)]
  rw [if_neg h2]
  by_cases h3 : ¬ (tripoint =
        (data.coastlines.getD pathIndex CoastlineData.none).points.getD 0 ⟨0, 0⟩) ∧
      ¬ (tripoint = (data.coastlines.getD pathIndex CoastlineData.none).points.getD
        ((data.coastlines.getD pathIndex CoastlineData.none).points.length - 1) ⟨0, 0⟩)
  · rw [if_pos h3, if_neg (fun he => by
      rcases he.2.2.1 with h | h
      · exact h3.1 h
      · exact h3.2 h)]
  rw [if_neg h3]
  by_cases h0 : tripoint =
      (data.coastlines.getD pathIndex CoastlineData.none).points.getD 0 ⟨0, 0⟩
  · by_cases h4 : walkType = (data.coastlines.getD pathIndex CoastlineData.none).right
    · have he : WalkFromTripoint.eligible pathStart data tripoint walkType pathIndex :=
        ⟨h1, by omega, Or.inl h0, fun _ => h4, fun h => absurd h0 h⟩
      rw [if_pos he]
      simp only [h0, if_true, WalkFromTripoint.chosen, WalkFromTripoint.angle,
        WalkFromTripoint.direction, WalkFromTripoint.outgoingOf,
        WalkFromTripoint.outgoingEndOf]
      simp [h4]
    · have hc : ((if tripoint = (data.coastlines.getD pathIndex CoastlineData.none).points.getD
            0 ⟨0, 0⟩ then Direction.out else Direction.in_) = Direction.out ∧
          walkType ≠ (data.coastlines.getD pathIndex CoastlineData.none).right) ∨
          ((if tripoint = (data.coastlines.getD pathIndex CoastlineData.none).points.getD
            0 ⟨0, 0⟩ then Direction.out else Direction.in_) = Direction.in_ ∧
          walkType ≠ (data.coastlines.getD pathIndex CoastlineData.none).left) :=
        Or.inl ⟨if_pos h0, h4⟩
      rw [if_pos hc, if_neg (fun he => h4 (he.2.2.2.1 h0))]
  · by_cases h4 : walkType = (data.coastlines.getD pathIndex CoastlineData.none).left
    · have he : WalkFromTripoint.eligible pathStart data tripoint walkType pathIndex :=
        ⟨h1, by omega, by tauto, fun h => absurd h h0, fun _ => h4⟩
      rw [if_pos he]
      simp only [h0, if_false, WalkFromTripoint.chosen, WalkFromTripoint.angle,
        WalkFromTripoint.direction, WalkFromTripoint.outgoingOf,
        WalkFromTripoint.outgoingEndOf]
      simp [h4]
    · have hc : ((if tripoint = (data.coastlines.getD pathIndex CoastlineData.none).points.getD
            0 ⟨0, 0⟩ then Direction.out else Direction.in_) = Direction.out ∧
          walkType ≠ (data.coastlines.getD pathIndex CoastlineData.none).right) ∨
          ((if tripoint = (data.coastlines.getD pathIndex CoastlineData.none).points.getD
            0 ⟨0, 0⟩ then Direction.out else Direction.in_) = Direction.in_ ∧
          walkType ≠ (data.coastlines.getD pathIndex CoastlineData.none).left) :=
        Or.inr ⟨if_neg h0, h4⟩
      rw [if_pos hc, if_neg (fun he => h4 (he.2.2.2.2 h0))]

theorem WalkFromTripoint_fold_none (pathStart : Intersection) (data : Data)
    (intersectionsCW : List IntersectionRef) (tripoint previousPoint : GeoCoord)
    (walkType : CoastState) (l : List Nat)
    (h : ∀ q ∈ l, ¬ WalkFromTripoint.eligible pathStart data tripoint walkType q) :
    ∀ s, l.foldl (WalkFromTripoint.candidate pathStart data intersectionsCW tripoint
      previousPoint walkType) s = s := by
  induction l with
  | nil => intro s; rfl
  | cons q l ih =>
    intro s
    rw [List.foldl_cons, WalkFromTripoint_candidate_eq, if_neg (h q (List.mem_cons_self _ _))]
    exact ih (fun q' hq' => h q' (List.mem_cons_of_mem _ hq')) s

theorem WalkFromTripoint_fold_keep (pathStart : Intersection) (data : Data)
    (intersectionsCW : List IntersectionRef) (tripoint previousPoint : GeoCoord)
    (walkType : CoastState) (l : List Nat) (s : WalkFromTripoint.Search)
    (hs : s.outgoing.isNone = false)
    (h : ∀ q ∈ l, WalkFromTripoint.eligible pathStart data tripoint walkType q →
      s.outgoingAngle ≤ WalkFromTripoint.angle data tripoint previousPoint q) :
    l.foldl (WalkFromTripoint.candidate pathStart data intersectionsCW tripoint
      previousPoint walkType) s = s := by
  induction l with
  | nil => rfl
  | cons q l ih =>
    have hq : WalkFromTripoint.candidate pathStart data intersectionsCW tripoint previousPoint
        walkType s q = s := by
      rw [WalkFromTripoint_candidate_eq]
      by_cases he : WalkFromTripoint.eligible pathStart data tripoint walkType q
      · rw [if_pos he, if_neg]
        rintro (h' | h')
        · rw [hs] at h'
          exact absurd h' (by decide)
        · exact absurd h' (not_lt.mpr (h q (List.mem_cons_self _ _) he))
      · rw [if_neg he]
    rw [List.foldl_cons, hq]
    exact ih (fun q' hq' => h q' (List.mem_cons_of_mem _ hq'))

theorem WalkFromTripoint_fold_before (pathStart : Intersection) (data : Data)
    (intersectionsCW : List IntersectionRef) (tripoint previousPoint : GeoCoord)
    (walkType : CoastState) (a : ℚ) (l : List Nat)
    (h : ∀ q ∈ l, WalkFromTripoint.eligible pathStart data tripoint walkType q →
      a < WalkFromTripoint.angle data tripoint previousPoint q) :
    ∀ s : WalkFromTripoint.Search, s.outgoing.isNone = true ∨ a < s.outgoingAngle →
      (l.foldl (WalkFromTripoint.candidate pathStart data intersectionsCW tripoint
        previousPoint walkType) s).outgoing.isNone = true ∨
      a < (l.foldl (WalkFromTripoint.candidate pathStart data intersectionsCW tripoint
        previousPoint walkType) s).outgoingAngle := by
  induction l with
  | nil => intro s hs; exact hs
  | cons q l ih =>
    intro s hs
    rw [List.foldl_cons]
    apply ih (fun q' hq' => h q' (List.mem_cons_of_mem _ hq'))
    rw [WalkFromTripoint_candidate_eq]
    by_cases he : WalkFromTripoint.eligible pathStart data tripoint walkType q
    · rw [if_pos he]
      by_cases hc : s.outgoing.isNone = true ∨
          WalkFromTripoint.angle data tripoint previousPoint q < s.outgoingAngle
      · rw [if_pos hc]
        exact Or.inr (h q (List.mem_cons_self _ _) he)
      · rw [if_neg hc]
        exact hs
    · rw [if_neg he]
      exact hs

theorem WalkFromTripoint_fold_pick (pathStart : Intersection) (data : Data)
    (intersectionsCW : List IntersectionRef) (tripoint previousPoint : GeoCoord)
    (walkType : CoastState) (l1 l2 : List Nat) (p : Nat)
    (hp : WalkFromTripoint.eligible pathStart data tripoint walkType p)
    (h1 : ∀ q ∈ l1, WalkFromTripoint.eligible pathStart data tripoint walkType q →
      WalkFromTripoint.angle data tripoint previousPoint p <
        WalkFromTripoint.angle data tripoint previousPoint q)
    (h2 : ∀ q ∈ l2, WalkFromTripoint.eligible pathStart data tripoint walkType q →
      WalkFromTripoint.angle data tripoint previousPoint p ≤
        WalkFromTripoint.angle data tripoint previousPoint q)
    (s : WalkFromTripoint.Search) (hs : s.outgoing.isNone = true) :
    (l1 ++ p :: l2).foldl (WalkFromTripoint.candidate pathStart data intersectionsCW tripoint
      previousPoint walkType) s =
      WalkFromTripoint.chosen data intersectionsCW tripoint previousPoint p := by
  have hb := WalkFromTripoint_fold_before pathStart data intersectionsCW tripoint previousPoint
    walkType (WalkFromTripoint.angle data tripoint previousPoint p) l1 h1 s (Or.inl hs)
  rw [List.foldl_append, List.foldl_cons, WalkFromTripoint_candidate_eq _ _ _ _ _ _ _ p,
    if_pos hp, if_pos hb]
  exact WalkFromTripoint_fold_keep pathStart data intersectionsCW tripoint previousPoint
    walkType l2 _ rfl h2

theorem WalkFromTripoint_eq (groundTile : GroundTile) (stateMap : StateMap)
    (cellBoundaries : CellBoundaries) (pathStart : Intersection)
    (pathEnd : Option IntersectionRef) (data : Data) (intersectionsCW : List IntersectionRef)
    (containingPaths : List Nat)
    (hlen : 2 ≤ (data.coastlines.getD pathStart.coastline CoastlineData.none).points.length) :
    WalkFromTripoint groundTile stateMap cellBoundaries pathStart pathEnd data intersectionsCW
        containingPaths =
      WalkFromTripoint.finish groundTile stateMap cellBoundaries pathEnd
        ((WalkFromTripoint.candidates intersectionsCW containingPaths).foldl
          (WalkFromTripoint.candidate pathStart data intersectionsCW
            (WalkFromTripoint.tripoint pathStart data)
            (WalkFromTripoint.previousPoint pathStart data)
            (WalkFromTripoint.walkType pathStart data))
          { outgoing := none, outgoingEnd := Intersection.zero,
            pathCellIntersection := none, outgoingAngle := 0,
            outgoingCoastline := CoastlineData.none, intersectCell := false }) := by
  unfold WalkFromTripoint
  simp only []
  rw [if_neg (by omega)]
  rfl

theorem WalkFromTripoint_finish_chosen (groundTile : GroundTile) (stateMap : StateMap)
    (cellBoundaries : CellBoundaries) (pathEnd : Option IntersectionRef) (data : Data)
    (intersectionsCW : List IntersectionRef) (tripoint previousPoint : GeoCoord) (p : Nat) :
    WalkFromTripoint.finish groundTile stateMap cellBoundaries pathEnd
        (WalkFromTripoint.chosen data intersectionsCW tripoint previousPoint p) =
      if (WalkFromTripoint.outgoingOf data tripoint p).direction =
          (WalkFromTripoint.outgoingEndOf data intersectionsCW tripoint p).direction then
        some none
      else
        (WalkPath groundTile stateMap cellBoundaries
          (WalkFromTripoint.outgoingOf data tripoint p)
          (WalkFromTripoint.outgoingEndOf data intersectionsCW tripoint p)
          (data.coastlines.getD p CoastlineData.none)).map (fun g =>
            some (g, WalkFromTripoint.outgoingOf data tripoint p,
              if (WalkFromTripoint.pathCell intersectionsCW p
                  (WalkFromTripoint.direction data tripoint p)).isSome = true then
                WalkFromTripoint.pathCell intersectionsCW p
                  (WalkFromTripoint.direction data tripoint p)
              else pathEnd)) := by
  unfold WalkFromTripoint.finish WalkFromTripoint.chosen
  simp only []
  by_cases hd : (WalkFromTripoint.outgoingOf data tripoint p).direction =
      (WalkFromTripoint.outgoingEndOf data intersectionsCW tripoint p).direction
  · rw [if_pos hd, if_pos hd]
  · rw [if_neg hd, if_neg hd]
    cases WalkPath groundTile stateMap cellBoundaries
      (WalkFromTripoint.outgoingOf data tripoint p)
      (WalkFromTripoint.outgoingEndOf data intersectionsCW tripoint p)
      (data.coastlines.getD p CoastlineData.none) <;> rfl

theorem WalkFromTripoint_directions (data : Data) (intersectionsCW : List IntersectionRef)
    (tripoint : GeoCoord) (p : Nat) :
    (WalkFromTripoint.pathCell intersectionsCW p
        (WalkFromTripoint.direction data tripoint p) = none →
      (WalkFromTripoint.outgoingOf data tripoint p).direction ≠
        (WalkFromTripoint.outgoingEndOf data intersectionsCW tripoint p).direction) ∧
    (∀ c, WalkFromTripoint.pathCell intersectionsCW p
        (WalkFromTripoint.direction data tripoint p) = some c →
      (WalkFromTripoint.outgoingEndOf data intersectionsCW tripoint p) = c.obj ∧
      c ∈ intersectionsCW ∧ c.obj.coastline = p) := by
  constructor
  · intro h
    unfold WalkFromTripoint.outgoingOf WalkFromTripoint.outgoingEndOf
    rw [h]
    simp only []
    by_cases hd : WalkFromTripoint.direction data tripoint p = Direction.in_
    · rw [if_pos hd, hd]
      decide
    · rw [if_neg hd]
      exact fun h' => hd h'.symm
  · intro c h
    refine ⟨?_, WalkFromTripoint_pathCell_mem _ _ _ _ h⟩
    unfold WalkFromTripoint.outgoingEndOf
    rw [h]

theorem WalkFromTripoint_finish_isSome (groundTile : GroundTile) (stateMap : StateMap)
    (cellBoundaries : CellBoundaries) (intersectionsCW : List IntersectionRef)
    (pathEnd : Option IntersectionRef) (s : WalkFromTripoint.Search)
    (hs : WalkFromTripoint.Search.Inv intersectionsCW s) :
    (WalkFromTripoint.finish groundTile stateMap cellBoundaries pathEnd s).isSome = true := by
  unfold WalkFromTripoint.finish
  cases ho : s.outgoing with
  | none => rfl
  | some outgoing =>
    simp only []
    by_cases hd : outgoing.direction = s.outgoingEnd.direction
    · rw [if_pos hd]
      rfl
    · rw [if_neg hd]
      obtain ⟨he, hlen⟩ := hs.1 (by rw [ho]; rfl)
      have hw := WalkPath_isSome groundTile stateMap cellBoundaries outgoing s.outgoingEnd
        s.outgoingCoastline he hlen
      cases hwp : WalkPath groundTile stateMap cellBoundaries outgoing s.outgoingEnd
          s.outgoingCoastline with
      | none => rw [hwp] at hw; simp at hw
      | some g1 => rfl

theorem WalkFromTripoint_isSome (groundTile : GroundTile) (stateMap : StateMap)
    (cellBoundaries : CellBoundaries) (pathStart : Intersection)
    (pathEnd : Option IntersectionRef) (data : Data) (intersectionsCW : List IntersectionRef)
    (containingPaths : List Nat)
    (hwf : HandleCoastlineCell.WellFormed intersectionsCW data) :
    (WalkFromTripoint groundTile stateMap cellBoundaries pathStart pathEnd data intersectionsCW
      containingPaths).isSome = true := by
  unfold WalkFromTripoint
  simp only []
  by_cases h2 : (data.coastlines.getD pathStart.coastline CoastlineData.none).points.length < 2
  · rw [if_pos h2]
    rfl
  · rw [if_neg h2]
    apply WalkFromTripoint_finish_isSome _ _ _ intersectionsCW
    apply WalkFromTripoint_foldl_inv _ _ _ _ _ _ hwf
    exact ⟨fun h => by simp at h, fun h => by simp at h⟩

/-! ### Claim on the choice of `WalkFromTripoint` -/

/-- Counterexample to C38 as stated: the second coastline of `tripointData` is eligible, it
starts at the tripoint `(1,1)` of the first one and has the walk type `water` on its right,
and it is the only candidate; its intersection with the cell has the direction `in`, which
is the direction of `outgoing`, and `WalkFromTripoint`, called with a tile that holds
coordinates, returns `false`. -/
theorem WalkFromTripoint_choice_counterexample :
    forkTile.coords ≠ [] ∧
    WalkFromTripoint.candidates [tripointEntry] [] = [1] ∧
    WalkFromTripoint.eligible tripointStart tripointData
      (WalkFromTripoint.tripoint tripointStart tripointData)
      (WalkFromTripoint.walkType tripointStart tripointData) 1 ∧
    WalkFromTripoint forkTile smallMap (CellBoundaries.make smallMap ⟨0, 0⟩) tripointStart none
      tripointData [tripointEntry] [] = some none := by
  decide!

/-- C38 (amended): for a tile that holds a coordinate, an incoming coastline and candidates
that are coastlines of `data`, and well formed data of the cell, `WalkFromTripoint` returns.
It returns `false` if the incoming coastline has fewer than two points or if no candidate is
eligible.  Else it takes the eligible candidate `p` with the smallest value of `angle`, the
first one in the order of the candidates if several have it.  It then returns `false` if the
intersection of the coastline `p` with the cell that it has found has the direction of
`outgoing`, which needs such an intersection; otherwise it walks the coastline `p` from
`outgoing` to `outgoingEnd`, and gives `outgoing` as the new `pathStart` and the intersection
with the cell, if there is one, as the new `pathEnd`. -/
theorem WalkFromTripoint_choice (groundTile : GroundTile) (stateMap : StateMap)
    (cellBoundaries : CellBoundaries) (pathStart : Intersection)
    (pathEnd : Option IntersectionRef) (data : Data) (intersectionsCW : List IntersectionRef)
    (containingPaths : List Nat)
    (_hcoords : groundTile.coords ≠ [])
    (_hstart : pathStart.coastline < data.coastlines.length)
    (_hcandidates : ∀ q ∈ WalkFromTripoint.candidates intersectionsCW containingPaths,
      q < data.coastlines.length)
    (hwf : HandleCoastlineCell.WellFormed intersectionsCW data) :
    (WalkFromTripoint groundTile stateMap cellBoundaries pathStart pathEnd data
      intersectionsCW containingPaths).isSome = true ∧
    ((data.coastlines.getD pathStart.coastline CoastlineData.none).points.length < 2 →
      WalkFromTripoint groundTile stateMap cellBoundaries pathStart pathEnd data
        intersectionsCW containingPaths = some none) ∧
    (2 ≤ (data.coastlines.getD pathStart.coastline CoastlineData.none).points.length →
      (∀ q ∈ WalkFromTripoint.candidates intersectionsCW containingPaths,
        ¬ WalkFromTripoint.eligible pathStart data (WalkFromTripoint.tripoint pathStart data)
          (WalkFromTripoint.walkType pathStart data) q) →
      WalkFromTripoint groundTile stateMap cellBoundaries pathStart pathEnd data
        intersectionsCW containingPaths = some none) ∧
    (2 ≤ (data.coastlines.getD pathStart.coastline CoastlineData.none).points.length →
      ∀ (l1 l2 : List Nat) (p : Nat),
      WalkFromTripoint.candidates intersectionsCW containingPaths = l1 ++ p :: l2 →
      WalkFromTripoint.eligible pathStart data (WalkFromTripoint.tripoint pathStart data)
        (WalkFromTripoint.walkType pathStart data) p →
      (∀ q ∈ l1, WalkFromTripoint.eligible pathStart data
          (WalkFromTripoint.tripoint pathStart data)
          (WalkFromTripoint.walkType pathStart data) q →
        WalkFromTripoint.angle data (WalkFromTripoint.tripoint pathStart data)
            (WalkFromTripoint.previousPoint pathStart data) p <
          WalkFromTripoint.angle data (WalkFromTripoint.tripoint pathStart data)
            (WalkFromTripoint.previousPoint pathStart data) q) →
      (∀ q ∈ l2, WalkFromTripoint.eligible pathStart data
          (WalkFromTripoint.tripoint pathStart data)
          (WalkFromTripoint.walkType pathStart data) q →
        WalkFromTripoint.angle data (WalkFromTripoint.tripoint pathStart data)
            (WalkFromTripoint.previousPoint pathStart data) p ≤
          WalkFromTripoint.angle data (WalkFromTripoint.tripoint pathStart data)
            (WalkFromTripoint.previousPoint pathStart data) q) →
      WalkFromTripoint groundTile stateMap cellBoundaries pathStart pathEnd data
          intersectionsCW containingPaths =
        if (WalkFromTripoint.outgoingOf data (WalkFromTripoint.tripoint pathStart data)
              p).direction =
            (WalkFromTripoint.outgoingEndOf data intersectionsCW
              (WalkFromTripoint.tripoint pathStart data) p).direction then
          some none
        else
          (WalkPath groundTile stateMap cellBoundaries
            (WalkFromTripoint.outgoingOf data (WalkFromTripoint.tripoint pathStart data) p)
            (WalkFromTripoint.outgoingEndOf data intersectionsCW
              (WalkFromTripoint.tripoint pathStart data) p)
            (data.coastlines.getD p CoastlineData.none)).map (fun g =>
              some (g,
                WalkFromTripoint.outgoingOf data (WalkFromTripoint.tripoint pathStart data) p,
                if (WalkFromTripoint.pathCell intersectionsCW p
                    (WalkFromTripoint.direction data
                      (WalkFromTripoint.tripoint pathStart data) p)).isSome = true then
                  WalkFromTripoint.pathCell intersectionsCW p
                    (WalkFromTripoint.direction data
                      (WalkFromTripoint.tripoint pathStart data) p)
                else pathEnd))) ∧
    (∀ p, WalkFromTripoint.pathCell intersectionsCW p
        (WalkFromTripoint.direction data (WalkFromTripoint.tripoint pathStart data) p) = none →
      (WalkFromTripoint.outgoingOf data (WalkFromTripoint.tripoint pathStart data)
          p).direction ≠
        (WalkFromTripoint.outgoingEndOf data intersectionsCW
          (WalkFromTripoint.tripoint pathStart data) p).direction) := by
  refine ⟨WalkFromTripoint_isSome _ _ _ _ _ _ _ _ hwf, fun h => ?_, fun hlen hnone => ?_,
    fun hlen l1 l2 p hc hp h1 h2 => ?_,
    fun p => (WalkFromTripoint_directions data intersectionsCW _ p).1⟩
  · unfold WalkFromTripoint
    simp only []
    rw [if_pos h]
  · rw [WalkFromTripoint_eq _ _ _ _ _ _ _ _ hlen, WalkFromTripoint_fold_none _ _ _ _ _ _ _ hnone]
    rfl
  · rw [WalkFromTripoint_eq _ _ _ _ _ _ _ _ hlen, hc,
      WalkFromTripoint_fold_pick pathStart data intersectionsCW _ _ _ l1 l2 p hp h1 h2
        { outgoing := none, outgoingEnd := Intersection.zero,
          pathCellIntersection := none, outgoingAngle := 0,
          outgoingCoastline := CoastlineData.none, intersectCell := false } rfl,
      WalkFromTripoint_finish_chosen]

/-- Witness of C38 (amended): in `forkData` the walk has come over the first coastline to the
tripoint `(1/2,1/2)`, and the candidates are the coastlines `0, 1, 4, 2, 3` in this order.
The coastline `0` is the incoming one and the coastline `4` has land on its right, so both
are not eligible, although the coastline `4` has the smallest value of `angle`, `-11/32`.
The coastline `1` has the value `1/4`, the coastlines `2` and `3` have the value `-1/4`:
`WalkFromTripoint` takes the coastline `2`, the first of the two, walks to its end and gives
an intersection on it as the new `pathStart`. -/
theorem WalkFromTripoint_choice_witness :
    WalkFromTripoint.candidates [forkEntry] [1, 4, 2, 3] = [0, 1, 4] ++ 2 :: [3] ∧
    (List.map (WalkFromTripoint.angle forkData
        (WalkFromTripoint.tripoint forkEntry.obj forkData)
        (WalkFromTripoint.previousPoint forkEntry.obj forkData)) [1, 4, 2, 3] =
      [1 / 4, -11 / 32, -1 / 4, -1 / 4]) ∧
    ¬ WalkFromTripoint.eligible forkEntry.obj forkData
      (WalkFromTripoint.tripoint forkEntry.obj forkData)
      (WalkFromTripoint.walkType forkEntry.obj forkData) 4 ∧
    WalkFromTripoint forkTile smallMap (CellBoundaries.make smallMap ⟨0, 0⟩) forkEntry.obj
        none forkData [forkEntry] [1, 4, 2, 3] =
      some (some (
        { type := GroundTile.TileType.water,
          coords := [⟨10922, 0, false⟩, ⟨16384, 16384, true⟩, ⟨24575, 8192, true⟩,
            ⟨24575, 8192, false⟩] },
        { coastline := 2, prevWayPointIndex := 0, point := ⟨1 / 2, 1 / 2⟩,
          distanceSquare := 0, direction := Direction.in_, borderIndex := 0 },
        none)) ∧
    WalkFromTripoint forkTile smallMap (CellBoundaries.make smallMap ⟨0, 0⟩) forkEntry.obj
        none forkData [forkEntry] [1, 4, 2, 3] =
      if (WalkFromTripoint.outgoingOf forkData
            (WalkFromTripoint.tripoint forkEntry.obj forkData) 2).direction =
          (WalkFromTripoint.outgoingEndOf forkData [forkEntry]
            (WalkFromTripoint.tripoint forkEntry.obj forkData) 2).direction then
        some none
      else
        (WalkPath forkTile smallMap (CellBoundaries.make smallMap ⟨0, 0⟩)
          (WalkFromTripoint.outgoingOf forkData
            (WalkFromTripoint.tripoint forkEntry.obj forkData) 2)
          (WalkFromTripoint.outgoingEndOf forkData [forkEntry]
            (WalkFromTripoint.tripoint forkEntry.obj forkData) 2)
          (forkData.coastlines.getD 2 CoastlineData.none)).map (fun g =>
            some (g,
              WalkFromTripoint.outgoingOf forkData
                (WalkFromTripoint.tripoint forkEntry.obj forkData) 2,
              if (WalkFromTripoint.pathCell [forkEntry] 2
                  (WalkFromTripoint.direction forkData
                    (WalkFromTripoint.tripoint forkEntry.obj forkData) 2)).isSome
                  = true then
                WalkFromTripoint.pathCell [forkEntry] 2
                  (WalkFromTripoint.direction forkData
                    (WalkFromTripoint.tripoint forkEntry.obj forkData) 2)
              else none)) :=
  ⟨by decide, by decide!, by decide!, by decide!,
    (WalkFromTripoint_choice forkTile smallMap (CellBoundaries.make smallMap ⟨0, 0⟩)
      forkEntry.obj none forkData [forkEntry] [1, 4, 2, 3] (by decide) (by decide)
      (by decide) ⟨by decide, by decide⟩).2.2.2.1
      (by decide) [0, 1, 4] [3] 2 rfl (by decide!) (by decide!) (by decide!)⟩

/-! ### WriteTiles: the offsets of the cells -/

theorem WriteTiles_tileWords_length (tile : GroundTile) :
    (WriteTiles.tileWords tile).length = 2 * tile.coords.length := by
  unfold WriteTiles.tileWords
  induction tile.coords with
  | nil => rfl
  | cons c cs ih =>
    rw [List.flatMap_cons, List.length_append, ih]
    simp only [WriteTiles.coordWords, List.length_cons, List.length_nil]
    omega

theorem WriteTiles_tileSize_exact (encodedBytes : Nat → Nat) (dataSize : Nat)
    (tile : GroundTile)
    (h : dataSize + (1 + encodedBytes tile.coords.length + 4 * tile.coords.length) < U64) :
    WriteTiles.tileSize encodedBytes dataSize tile =
      dataSize + (1 + encodedBytes tile.coords.length + 4 * tile.coords.length) := by
  unfold WriteTiles.tileSize
  simp only []
  rw [Nat.mod_eq_of_lt (by omega : dataSize + 1 < U64),
    Nat.mod_eq_of_lt (by omega : dataSize + 1 + encodedBytes tile.coords.length < U64),
    Nat.mod_eq_of_lt (by omega : tile.coords.length * 2 < U64),
    Nat.mod_eq_of_lt (by omega : tile.coords.length * 2 * 2 < U64),
    Nat.mod_eq_of_lt (by omega)]
  omega

theorem WriteTiles_tiles_exact (encodedBytes : Nat → Nat) (tiles : List GroundTile) :
    ∀ dataSize : Nat,
      dataSize + (tiles.map (fun tile =>
        1 + encodedBytes tile.coords.length + 4 * tile.coords.length)).sum < U64 →
      tiles.foldl (WriteTiles.tileSize encodedBytes) dataSize =
        dataSize + (tiles.map (fun tile =>
          1 + encodedBytes tile.coords.length + 4 * tile.coords.length)).sum := by
  induction tiles with
  | nil => intro dataSize _; rfl
  | cons t tiles ih =>
    intro dataSize h
    rw [List.map_cons, List.sum_cons] at h ⊢
    rw [List.foldl_cons, WriteTiles_tileSize_exact encodedBytes dataSize t (by omega),
      ih _ (by omega)]
    omega

theorem WriteTiles_entries_exact (encodedBytes : Nat → Nat)
    (l : List (Pixel × List GroundTile)) :
    ∀ dataSize : Nat,
      dataSize + (l.map (fun coord => encodedBytes coord.2.length +
        (coord.2.map (fun tile =>
          1 + encodedBytes tile.coords.length + 4 * tile.coords.length)).sum)).sum < U64 →
      l.foldl (WriteTiles.entrySize encodedBytes) dataSize =
        dataSize + (l.map (fun coord => encodedBytes coord.2.length +
          (coord.2.map (fun tile =>
            1 + encodedBytes tile.coords.length + 4 * tile.coords.length)).sum)).sum := by
  induction l with
  | nil => intro dataSize _; rfl
  | cons e l ih =>
    intro dataSize h
    rw [List.map_cons, List.sum_cons] at h ⊢
    have he : WriteTiles.entrySize encodedBytes dataSize e =
        dataSize + (encodedBytes e.2.length + (e.2.map (fun tile =>
          1 + encodedBytes tile.coords.length + 4 * tile.coords.length)).sum) := by
      unfold WriteTiles.entrySize
      rw [Nat.mod_eq_of_lt (by omega), WriteTiles_tiles_exact encodedBytes e.2 _ (by omega)]
      omega
    rw [List.foldl_cons, he, ih _ (by omega)]
    omega

theorem WriteTiles_dataSize_exact (encodedBytes : Nat → Nat)
    (cellGroundTileMap : List (Pixel × List GroundTile))
    (h : WriteTiles.exactSize encodedBytes cellGroundTileMap < U64) :
    WriteTiles.dataSize encodedBytes cellGroundTileMap =
      WriteTiles.exactSize encodedBytes cellGroundTileMap := by
  unfold WriteTiles.exactSize at h ⊢
  unfold WriteTiles.dataSize
  exact WriteTiles_entries_exact encodedBytes cellGroundTileMap 4 h

theorem foldl_add_sum {α : Type} (f : α → Nat) (l : List α) :
    ∀ n : Nat, l.foldl (fun n a => n + f a) n = n + (l.map f).sum := by
  induction l with
  | nil => intro n; rfl
  | cons a l ih =>
    intro n
    rw [List.foldl_cons, ih, List.map_cons, List.sum_cons]
    omega

theorem WriteTiles_entryBytes_bounds (encodedBytes : Nat → Nat)
    (hpos : ∀ n, 1 ≤ encodedBytes n)
    (hmono : ∀ a b, a ≤ b → encodedBytes a ≤ encodedBytes b)
    (coord : Pixel × List GroundTile) :
    1 ≤ WriteTiles.entryBytes encodedBytes coord ∧
    WriteTiles.entryBytes encodedBytes coord ≤
      encodedBytes coord.2.length + (coord.2.map (fun tile =>
        1 + encodedBytes tile.coords.length + 4 * tile.coords.length)).sum := by
  unfold WriteTiles.entryBytes
  rw [foldl_add_sum]
  have h1 := hpos (coord.2.length % U32)
  have h2 := hmono (coord.2.length % U32) coord.2.length (Nat.mod_le _ _)
  have h3 : (coord.2.map (WriteTiles.tileBytes encodedBytes)).sum ≤
      (coord.2.map (fun tile =>
        1 + encodedBytes tile.coords.length + 4 * tile.coords.length)).sum := by
    apply List.sum_le_sum
    intro t _
    unfold WriteTiles.tileBytes
    rw [WriteTiles_tileWords_length]
    have := hmono (t.coords.length % U32) t.coords.length (Nat.mod_le _ _)
    omega
  omega

theorem WriteTiles_fold_slotList (encodedBytes : Nat → Nat) (level : Level)
    (dataOffset : Nat) (l : List (Pixel × List GroundTile)) :
    ∀ (off : Nat) (acc : List (Nat × Nat)),
      (l.foldl (WriteTiles.writeEntry encodedBytes level dataOffset)
        (dataOffset + off, acc)).2 =
      acc ++ WriteTiles.slotList encodedBytes level off l := by
  induction l with
  | nil => intro off acc; simp [WriteTiles.slotList]
  | cons e l ih =>
    intro off acc
    rw [List.foldl_cons]
    have hstep : WriteTiles.writeEntry encodedBytes level dataOffset (dataOffset + off, acc) e =
        (dataOffset + (off + WriteTiles.entryBytes encodedBytes e),
          acc ++ [(WriteTiles.slotPos level e, off)]) := by
      unfold WriteTiles.writeEntry
      simp only [Nat.add_sub_cancel_left, Nat.add_assoc]
    rw [hstep, ih, WriteTiles.slotList, List.append_assoc]
    rfl

theorem WriteTiles_slotList_bounds (encodedBytes : Nat → Nat)
    (hpos : ∀ n, 1 ≤ encodedBytes n)
    (hmono : ∀ a b, a ≤ b → encodedBytes a ≤ encodedBytes b) (level : Level)
    (l : List (Pixel × List GroundTile)) :
    ∀ off : Nat,
      (∀ p ∈ WriteTiles.slotList encodedBytes level off l,
        off ≤ p.2 ∧ p.2 < off + (l.map (WriteTiles.entryBytes encodedBytes)).sum) ∧
      List.Pairwise (fun a b => a < b)
        ((WriteTiles.slotList encodedBytes level off l).map Prod.snd) := by
  induction l with
  | nil =>
    intro off
    exact ⟨fun p hp => absurd hp (List.not_mem_nil _), List.Pairwise.nil⟩
  | cons e l ih =>
    intro off
    obtain ⟨h1, h2⟩ := ih (off + WriteTiles.entryBytes encodedBytes e)
    have he := (WriteTiles_entryBytes_bounds encodedBytes hpos hmono e).1
    rw [WriteTiles.slotList, List.map_cons, List.sum_cons]
    refine ⟨fun p hp => ?_, ?_⟩
    · rcases List.mem_cons.mp hp with hp | hp
      · rw [hp]
        simp only []
        omega
      · have := h1 p hp
        omega
    · rw [List.map_cons, List.pairwise_cons]
      refine ⟨fun b hb => ?_, h2⟩
      obtain ⟨p, hp, hpb⟩ := List.mem_map.mp hb
      have := (h1 p hp).1
      rw [← hpb]
      simp only []
      omega

theorem WriteTiles_slotList_length (encodedBytes : Nat → Nat) (level : Level)
    (l : List (Pixel × List GroundTile)) :
    ∀ off : Nat, (WriteTiles.slotList encodedBytes level off l).length = l.length := by
  induction l with
  | nil => intro off; rfl
  | cons a l ih =>
    intro off
    rw [WriteTiles.slotList, List.length_cons, List.length_cons, ih]

theorem WriteTiles_slotList_get (encodedBytes : Nat → Nat) (level : Level)
    (pre post : List (Pixel × List GroundTile)) (e : Pixel × List GroundTile) :
    ∀ off : Nat,
      (WriteTiles.slotList encodedBytes level off (pre ++ e :: post))[pre.length]? =
        some (WriteTiles.slotPos level e,
          off + (pre.map (WriteTiles.entryBytes encodedBytes)).sum) := by
  induction pre with
  | nil =>
    intro off
    simp [WriteTiles.slotList]
  | cons a pre ih =>
    intro off
    rw [List.cons_append, WriteTiles.slotList, List.length_cons, List.getElem?_cons_succ,
      ih (off + WriteTiles.entryBytes encodedBytes a), List.map_cons, List.sum_cons,
      Nat.add_assoc]

theorem varintBytes_bounds :
    (∀ n, 1 ≤ varintBytes n) ∧ (∀ a b, a ≤ b → varintBytes a ≤ varintBytes b) := by
  refine ⟨fun n => by unfold varintBytes; omega, fun a b hab => ?_⟩
  unfold varintBytes
  have h := (List.monotone_filter_right (List.range 8)
    (fun k hk => by
      simp only [decide_eq_true_eq] at hk ⊢
      omega : ∀ k, decide (128 ^ (k + 1) ≤ a) = true → decide (128 ^ (k + 1) ≤ b) = true)
    ).length_le
  omega

/-- The offsets that `WriteTiles` stores, for a number encoding that needs at least one byte
and not fewer bytes for a larger number, and for tiles whose size `dataSize` is counted
without overflow: there is one offset for every entry of the tile map, in the order of the
entries; the offset of an entry is four plus the number of bytes written for the entries
before it, it is at least `4` and below `dataSize`, and the offsets are strictly increasing.
The offset is stored at the position `indexDataOffset + (cellId * dataOffsetBytes) mod 2^32`
with `cellId = (y*xCount+x) mod 2^32`, which is the position of slot `y*xCount+x` of the
bitmap if the product `(y*xCount+x) * dataOffsetBytes` is below `2^32`. -/
theorem WriteTiles_offsets_spec (encodedBytes bytesNeeded : Nat → Nat)
    (pre post : List (Pixel × List GroundTile)) (e : Pixel × List GroundTile) (level : Level)
    (pos : Nat) (hpos : ∀ n, 1 ≤ encodedBytes n)
    (hmono : ∀ a b, a ≤ b → encodedBytes a ≤ encodedBytes b)
    (hfit : WriteTiles.exactSize encodedBytes (pre ++ e :: post) < U64) :
    (WriteTiles.offsets encodedBytes bytesNeeded (pre ++ e :: post) level pos).length =
      (pre ++ e :: post).length ∧
    (WriteTiles.offsets encodedBytes bytesNeeded (pre ++ e :: post) level pos)[pre.length]? =
      some (WriteTiles.slotPos
          (WriteTiles.indexLevel encodedBytes bytesNeeded (pre ++ e :: post) level pos) e,
        4 + (pre.map (WriteTiles.entryBytes encodedBytes)).sum) ∧
    (∀ p ∈ WriteTiles.offsets encodedBytes bytesNeeded (pre ++ e :: post) level pos,
      4 ≤ p.2 ∧ p.2 < WriteTiles.dataSize encodedBytes (pre ++ e :: post)) ∧
    List.Pairwise (fun a b => a < b)
      ((WriteTiles.offsets encodedBytes bytesNeeded (pre ++ e :: post) level pos).map
        Prod.snd) ∧
    ((e.1.y * level.stateMap.cellXCount + e.1.x) *
        (bytesNeeded (WriteTiles.dataSize encodedBytes (pre ++ e :: post)) % 256) < U32 →
      WriteTiles.slotPos
          (WriteTiles.indexLevel encodedBytes bytesNeeded (pre ++ e :: post) level pos) e =
        pos + (e.1.y * level.stateMap.cellXCount + e.1.x) *
          (bytesNeeded (WriteTiles.dataSize encodedBytes (pre ++ e :: post)) % 256)) := by
  have hoff : WriteTiles.offsets encodedBytes bytesNeeded (pre ++ e :: post) level pos =
      WriteTiles.slotList encodedBytes
        (WriteTiles.indexLevel encodedBytes bytesNeeded (pre ++ e :: post) level pos) 4
        (pre ++ e :: post) := by
    unfold WriteTiles.offsets
    simp only []
    rw [WriteTiles_fold_slotList, List.nil_append]
  have hb := WriteTiles_slotList_bounds encodedBytes hpos hmono
    (WriteTiles.indexLevel encodedBytes bytesNeeded (pre ++ e :: post) level pos)
    (pre ++ e :: post) 4
  have hsum : 4 + ((pre ++ e :: post).map (WriteTiles.entryBytes encodedBytes)).sum ≤
      WriteTiles.dataSize encodedBytes (pre ++ e :: post) := by
    rw [WriteTiles_dataSize_exact encodedBytes _ hfit]
    unfold WriteTiles.exactSize
    have hle : ((pre ++ e :: post).map (WriteTiles.entryBytes encodedBytes)).sum ≤
        ((pre ++ e :: post).map (fun coord => encodedBytes coord.2.length +
          (coord.2.map (fun tile =>
            1 + encodedBytes tile.coords.length + 4 * tile.coords.length)).sum)).sum :=
      List.sum_le_sum
        (fun c _ => (WriteTiles_entryBytes_bounds encodedBytes hpos hmono c).2)
    omega
  rw [hoff]
  refine ⟨WriteTiles_slotList_length _ _ _ _, WriteTiles_slotList_get _ _ _ _ _ _, ?_, hb.2, ?_⟩
  · intro p hp
    have := hb.1 p hp
    omega
  · intro hlt
    unfold WriteTiles.slotPos WriteTiles.indexLevel
    simp only []
    by_cases hz : bytesNeeded (WriteTiles.dataSize encodedBytes (pre ++ e :: post)) % 256 = 0
    · rw [hz, Nat.mul_zero, Nat.mul_zero, Nat.zero_mod]
    · have hle : e.1.y * level.stateMap.cellXCount + e.1.x ≤
          (e.1.y * level.stateMap.cellXCount + e.1.x) *
            (bytesNeeded (WriteTiles.dataSize encodedBytes (pre ++ e :: post)) % 256) :=
        Nat.le_mul_of_pos_right _ (Nat.pos_of_ne_zero hz)
      rw [Nat.mod_eq_of_lt (lt_of_le_of_lt hle hlt), Nat.mod_eq_of_lt hlt]

/-- Example for the offsets: the two cells of `twoCellTiles` get the offsets `4` and `19`,
stored at the slots `1` and `5` of the `3 × 2` map with one byte for every slot. -/
theorem WriteTiles_offsets_spec_example :
    WriteTiles.dataSize varintBytes twoCellTiles = 32 ∧
    WriteTiles.offsets varintBytes byteCount twoCellTiles smallLevel 100 =
      [(101, 4), (105, 19)] ∧
    ∀ p ∈ WriteTiles.offsets varintBytes byteCount ([] ++ (twoCellTiles.getD 0 (⟨0, 0⟩, [])) ::
        [twoCellTiles.getD 1 (⟨0, 0⟩, [])]) smallLevel 100,
      4 ≤ p.2 ∧ p.2 < WriteTiles.dataSize varintBytes
        ([] ++ (twoCellTiles.getD 0 (⟨0, 0⟩, [])) :: [twoCellTiles.getD 1 (⟨0, 0⟩, [])]) :=
  ⟨by decide!, by decide!,
    (WriteTiles_offsets_spec varintBytes byteCount [] [twoCellTiles.getD 1 (⟨0, 0⟩, [])]
      (twoCellTiles.getD 0 (⟨0, 0⟩, [])) smallLevel 100 varintBytes_bounds.1
      varintBytes_bounds.2 (by decide!)).2.2.1⟩

/-! ### Claim on the offsets of `WriteTiles` -/

/-- C39 (the code at the failing input): the map `southMap` of zoom level 16 has
`65536 × 49152` cells, fewer than `2^32`, and the tile map has tiles for its cell `(0,32768)`,
whose cell id is `2^31`.  `WriteTiles` counts `dataSize = 263`, takes two bytes for every
slot of the bitmap, and stores the offset `4` of the cell at the position `100` of the file,
where the bitmap starts: this is the slot `0` of the cell `(0,0)`, while the slot
`32768 * 65536 + 0` of the cell starts at the position `100 + 2^32`. -/
theorem WriteTiles_offset_slot :
    southMap.cellXCount = 65536 ∧ southMap.cellYCount = 49152 ∧
    southMap.cellXCount * southMap.cellYCount < U32 ∧
    WriteTiles.dataSize varintBytes southTiles = 263 ∧
    (WriteTiles.indexLevel varintBytes byteCount southTiles southLevel 100).dataOffsetBytes
      = 2 ∧
    (WriteTiles.indexLevel varintBytes byteCount southTiles southLevel 100).indexDataOffset
      = 100 ∧
    WriteTiles.offsets varintBytes byteCount southTiles southLevel 100 = [(100, 4)] ∧
    100 + (0 * southMap.cellXCount + 0) * 2 = 100 ∧
    100 + (32768 * southMap.cellXCount + 0) * 2 = 4294967396 := by
  decide!

end WaterIndexProcessor
